import Mathlib

/-! Mesh optimizer of the scene-processing gem, with the ordered sequencer, the editor-only
entities of the UI system, the project builder controller and the project settings window.

Shallow embedding of `MeshOptimizerComponent.cpp` (`OptimizeMesh`, `ExtractSkinningInfo`,
`OptimizeMeshes`, `AddFace`) together with the properties its specification states; the
namespaces `ScriptCanvas`, `LyShine`, `ProjectManager` and `ProjectSettingsTool` embed
`OrderedSequencer.cpp`, `LyShineSystemComponent.cpp`, `ProjectBuilderController.cpp` and
`ProjectSettingsToolWindow.cpp`. The definitions of all namespaces come first, the properties
follow.

Conventions of the embedding:

* attribute values (`Vector2`, `Vector3`, `Vector4`, `Color`) are only copied and compared by the
  optimizer, never computed with; their components are kept as integers;
* skin weights are rationals, so that renormalisation is exact;
* interfaces of the scene API (`IMeshData`, `IMeshVertexUVData`, ...) are records of their
  accessors;
* C++ loops over an index range are folds over `List.range`, loops over a pair view are a
  recursion over both lists that stops at the shorter one.
-/

namespace MeshOptimizer

/-! ## Attribute values -/

/-- Two-component attribute value (UV). -/
structure Vector2 where
  x : Int
  y : Int
deriving DecidableEq, Repr, Inhabited

/-- Three-component attribute value (position, normal, bitangent). -/
structure Vector3 where
  x : Int
  y : Int
  z : Int
deriving DecidableEq, Repr, Inhabited

/-- Four-component attribute value (tangent). -/
structure Vector4 where
  x : Int
  y : Int
  z : Int
  w : Int
deriving DecidableEq, Repr, Inhabited

/-- Vertex colour. -/
structure Color where
  red : Int
  green : Int
  blue : Int
  alpha : Int
deriving DecidableEq, Repr, Inhabited

/-! ## Scene API interfaces read by the optimizer -/

/-- Face of a mesh, `IMeshData::Face`: the three vertex indices `vertexIndex[0..2]`. -/
structure Face where
  v0 : Nat
  v1 : Nat
  v2 : Nat
deriving DecidableEq, Repr, Inhabited

/-- The array `vertexIndex` of a face, in order. -/
def Face.vertexIndex (f : Face) : List Nat := [f.v0, f.v1, f.v2]

/-- The accessors of `IMeshData` (and of `IBlendShapeData`, which offers the same ones apart from
the face material) that `OptimizeMesh` and `ExtractSkinningInfo` call. Control-point and
used-point indices are C++ `int`s; a negative used-point index means "no used point". -/
structure IMeshData where
  GetUsedControlPointCount : Nat
  GetFaceCount : Nat
  GetFaceInfo : Nat → Face
  GetFaceMaterialId : Nat → Nat
  GetControlPointIndex : Nat → Int
  GetUsedPointIndexForControlPoint : Int → Int
  GetPosition : Nat → Vector3
  GetNormal : Nat → Vector3

/-- Accessor of `IMeshVertexUVData` used by the optimizer. -/
structure IMeshVertexUVData where
  GetUV : Nat → Vector2

/-- Accessor of `IMeshVertexTangentData` used by the optimizer. -/
structure IMeshVertexTangentData where
  GetTangent : Nat → Vector4

/-- Accessor of `IMeshVertexBitangentData` used by the optimizer. -/
structure IMeshVertexBitangentData where
  GetBitangent : Nat → Vector3

/-- Accessor of `IMeshVertexColorData` used by the optimizer. -/
structure IMeshVertexColorData where
  GetColor : Nat → Color

/-- Which overload of the templated `OptimizeMesh` is instantiated: `MeshDataType = IMeshData`
produces a `MeshData`, `MeshDataType = IBlendShapeData` a `BlendShapeData` (`ResultingType`). -/
inductive MeshKind where
  | mesh
  | blendShape
deriving DecidableEq, Repr

/-! ## Mesh builder: what the output loop reads -/

/-- `MeshBuilderVertexLookup`: an original vertex and the number of one of its duplicates. -/
structure MeshBuilderVertexLookup where
  mOrgVtx : Nat
  mDuplicateNr : Nat
deriving DecidableEq, Repr, Inhabited

/-- The accessors of `MeshBuilderSubMesh` read by `OptimizeMesh`. -/
structure MeshBuilderSubMesh where
  GetNumVertices : Nat
  GetVertex : Nat → MeshBuilderVertexLookup
  GetNumPolygons : Nat
  GetIndex : Nat → Nat
  GetMaterialIndex : Nat

/-- The accessor of a `MeshBuilderVertexAttributeLayerT<T>` read by the output loop:
`GetVertexValue(orgVtx, duplicateNr)`. -/
structure MeshBuilderVertexAttributeLayerT (α : Type) where
  GetVertexValue : Nat → Nat → α

/-- The layers `OptimizeMesh` registers with the builder, in registration order. -/
structure BuilderLayers where
  orgVtxLayer : MeshBuilderVertexAttributeLayerT Int
  posLayer : MeshBuilderVertexAttributeLayerT Vector3
  normalsLayer : MeshBuilderVertexAttributeLayerT Vector3
  uvLayers : List (MeshBuilderVertexAttributeLayerT Vector2)
  tangentLayers : List (MeshBuilderVertexAttributeLayerT Vector4)
  bitangentLayers : List (MeshBuilderVertexAttributeLayerT Vector3)
  vertexColorLayers : List (MeshBuilderVertexAttributeLayerT Color)

/-! ## Result containers -/

/-- Modelled from the spec: the result container `MeshData` / `BlendShapeData` of the scene data
library, which is not among the sources. It holds the compacted vertex buffers, the face buffer
(with one material id per face for a mesh) and the back-reference map from a vertex index to a
control-point index. -/
structure MeshData where
  positions : List Vector3
  normals : List Vector3
  vertexIndexToControlPointIndexMap : Nat → Option Int
  faceList : List Face
  faceMaterialIds : List Nat

/-- A freshly made result container (`make_unique<...>()`). -/
def MeshData.empty : MeshData :=
  { positions := [], normals := [], vertexIndexToControlPointIndexMap := fun _ => none,
    faceList := [], faceMaterialIds := [] }

/-- Result of `AddPosition`. -/
def MeshData.AddPosition (m : MeshData) (p : Vector3) : MeshData :=
  { m with positions := m.positions ++ [p] }

/-- Result of `AddNormal`. -/
def MeshData.AddNormal (m : MeshData) (n : Vector3) : MeshData :=
  { m with normals := m.normals ++ [n] }

/-- Value of `GetVertexCount()`: the number of positions. -/
def MeshData.GetVertexCount (m : MeshData) : Nat := m.positions.length

/-- Result of `SetVertexIndexToControlPointIndexMap(meshVertexIndex, controlPointIndex)`. -/
def MeshData.SetVertexIndexToControlPointIndexMap (m : MeshData) (meshVertexIndex : Nat)
    (controlPointIndex : Int) : MeshData :=
  { m with vertexIndexToControlPointIndexMap :=
      fun v => if v = meshVertexIndex then some controlPointIndex
               else m.vertexIndexToControlPointIndexMap v }

/-- Value of `GetFaceCount()`. -/
def MeshData.GetFaceCount (m : MeshData) : Nat := m.faceList.length

/-- Value of `GetFaceInfo(index)`. -/
def MeshData.GetFaceInfo (m : MeshData) (index : Nat) : Face := m.faceList.getD index default

/-- The two overloads of `MeshOptimizerComponent::AddFace`: a mesh records the face with its
material id, a blend shape records the face only. -/
def AddFace (kind : MeshKind) (m : MeshData) (index1 index2 index3 faceMaterialId : Nat) :
    MeshData :=
  match kind with
  | MeshKind.mesh =>
      { m with faceList := m.faceList ++ [⟨index1, index2, index3⟩],
               faceMaterialIds := m.faceMaterialIds ++ [faceMaterialId] }
  | MeshKind.blendShape =>
      { m with faceList := m.faceList ++ [⟨index1, index2, index3⟩] }

/-- The result nodes of `OptimizeMesh` other than the skin weights: the optimized mesh and, per
attribute kind, one node per layer holding the appended values. -/
structure OptimizedNodes where
  optimizedMesh : MeshData
  optimizedUVs : List (List Vector2)
  optimizedTangents : List (List Vector4)
  optimizedBitangents : List (List Vector3)
  optimizedVertexColors : List (List Color)

/-! ## `OptimizeMesh`: building the result from the sub-meshes (lines 485-552) -/

/-- `makeSceneGraphNodesForMeshBuilderLayers`: one new, empty node per layer. -/
def makeSceneGraphNodesForMeshBuilderLayers {α β : Type} (meshBuilderLayers : List α) :
    List (List β) :=
  List.replicate meshBuilderLayers.length []

/-- One pass of a loop `for (auto [layer, node] : MakePairView(layers, nodes))` appending to every
node the value its layer stores for the vertex. -/
def appendLayerValues {α : Type} :
    List (MeshBuilderVertexAttributeLayerT α) → List (List α) → MeshBuilderVertexLookup →
      List (List α)
  | layer :: layers, node :: nodes, vertexLookup =>
      (node ++ [layer.GetVertexValue vertexLookup.mOrgVtx vertexLookup.mDuplicateNr]) ::
        appendLayerValues layers nodes vertexLookup
  | [], nodes, _ => nodes
  | _ :: _, [], _ => []

/-- Body of the loop over the vertices of a sub-mesh (lines 513-536). -/
def emitVertex (layers : BuilderLayers) (r : OptimizedNodes)
    (vertexLookup : MeshBuilderVertexLookup) : OptimizedNodes :=
  let m1 := r.optimizedMesh.AddPosition
    (layers.posLayer.GetVertexValue vertexLookup.mOrgVtx vertexLookup.mDuplicateNr)
  let m2 := m1.AddNormal
    (layers.normalsLayer.GetVertexValue vertexLookup.mOrgVtx vertexLookup.mDuplicateNr)
  let m3 := m2.SetVertexIndexToControlPointIndexMap (m2.GetVertexCount - 1)
    (layers.orgVtxLayer.GetVertexValue vertexLookup.mOrgVtx vertexLookup.mDuplicateNr)
  { optimizedMesh := m3
    optimizedUVs := appendLayerValues layers.uvLayers r.optimizedUVs vertexLookup
    optimizedTangents := appendLayerValues layers.tangentLayers r.optimizedTangents vertexLookup
    optimizedBitangents :=
      appendLayerValues layers.bitangentLayers r.optimizedBitangents vertexLookup
    optimizedVertexColors :=
      appendLayerValues layers.vertexColorLayers r.optimizedVertexColors vertexLookup }

/-- The loop over the vertices of one sub-mesh (lines 511-537). -/
def emitVertices (layers : BuilderLayers) (subMesh : MeshBuilderSubMesh) (r : OptimizedNodes) :
    OptimizedNodes :=
  (List.range subMesh.GetNumVertices).foldl
    (fun r vertexIndex => emitVertex layers r (subMesh.GetVertex vertexIndex)) r

/-- Body of the loop over the polygons of a sub-mesh (lines 541-549): the face is added with its
indices moved by `indexOffset`, then the indices of the face just added are inserted into the set
`usedIndexes` (kept as a duplicate-free list). -/
def emitFace (kind : MeshKind) (subMesh : MeshBuilderSubMesh) (indexOffset : Nat)
    (st : MeshData × List Nat) (polygonIndex : Nat) : MeshData × List Nat :=
  let m := AddFace kind st.1
    (indexOffset + subMesh.GetIndex (polygonIndex * 3 + 0))
    (indexOffset + subMesh.GetIndex (polygonIndex * 3 + 1))
    (indexOffset + subMesh.GetIndex (polygonIndex * 3 + 2))
    subMesh.GetMaterialIndex
  let faceInfo := m.GetFaceInfo (m.GetFaceCount - 1)
  (m, faceInfo.vertexIndex.foldl (fun used i => used.insert i) st.2)

/-- The loop over the polygons of one sub-mesh (lines 538-550), started with an empty
`usedIndexes`. -/
def emitFaces (kind : MeshKind) (subMesh : MeshBuilderSubMesh) (indexOffset : Nat)
    (m : MeshData) : MeshData × List Nat :=
  (List.range subMesh.GetNumPolygons).foldl (emitFace kind subMesh indexOffset) (m, [])

/-- Body of the loop over the sub-meshes (lines 510-551); the state is the result nodes and
`indexOffset`, which grows by `usedIndexes.size()`. Index arithmetic is done in `Nat`: the casts
`aznumeric_caster` are checked casts, so the counts are taken to fit the 32-bit index type. -/
def emitSubMesh (kind : MeshKind) (layers : BuilderLayers) (st : OptimizedNodes × Nat)
    (subMesh : MeshBuilderSubMesh) : OptimizedNodes × Nat :=
  let r := emitVertices layers subMesh st.1
  let fr := emitFaces kind subMesh st.2 r.optimizedMesh
  ({ r with optimizedMesh := fr.1 }, st.2 + fr.2.length)

/-- The result nodes before the loop over the sub-meshes (lines 485-491): an empty mesh and one
empty node per layer. `CloneAttributesFrom` copies descriptive attributes only and adds no vertex
data. -/
def initialNodes (layers : BuilderLayers) : OptimizedNodes :=
  { optimizedMesh := MeshData.empty
    optimizedUVs := makeSceneGraphNodesForMeshBuilderLayers layers.uvLayers
    optimizedTangents := makeSceneGraphNodesForMeshBuilderLayers layers.tangentLayers
    optimizedBitangents := makeSceneGraphNodesForMeshBuilderLayers layers.bitangentLayers
    optimizedVertexColors := makeSceneGraphNodesForMeshBuilderLayers layers.vertexColorLayers }

/-- Lines 485-552 of `OptimizeMesh`: the result nodes built from the sub-meshes of the builder,
`indexOffset` starting at 0. -/
def emitSubMeshes (kind : MeshKind) (layers : BuilderLayers)
    (subMeshes : List MeshBuilderSubMesh) : OptimizedNodes × Nat :=
  subMeshes.foldl (emitSubMesh kind layers) (initialNodes layers, 0)

/-- Sum of `GetNumVertices()` over a list of sub-meshes. -/
def totalVertices (subMeshes : List MeshBuilderSubMesh) : Nat :=
  (subMeshes.map (fun s => s.GetNumVertices)).sum

/-- Sum of `GetNumPolygons()` over a list of sub-meshes. -/
def totalPolygons (subMeshes : List MeshBuilderSubMesh) : Nat :=
  (subMeshes.map (fun s => s.GetNumPolygons)).sum

/-! ## Skin weights -/

/-- `ISkinWeightData::Link`: a bone id and a weight. -/
structure Link where
  boneId : Int
  weight : ℚ
deriving DecidableEq, Repr, Inhabited

/-- The accessors of `ISkinWeightData` read by the optimizer. -/
structure ISkinWeightData where
  GetVertexCount : Nat
  GetLinkCount : Nat → Nat
  GetLink : Nat → Nat → Link
  GetBoneName : Int → String

/-- The accessors of `ISkinRule` read by the optimizer. -/
structure ISkinRule where
  GetMaxWeightsPerVertex : Nat
  GetWeightThreshold : ℚ

/-- `MeshBuilderSkinningInfo::Influence`: a node number and a weight. -/
structure Influence where
  mNodeNr : Nat
  mWeight : ℚ
deriving DecidableEq, Repr, Inhabited

/-- Modelled from the spec: the skinning compactor `MeshBuilderSkinningInfo`
(`MeshBuilderSkinningInfo.h` is not among the sources): a list of influences for each original
vertex (used point). -/
structure MeshBuilderSkinningInfo where
  GetNumOrgVertices : Nat
  influences : Nat → List Influence

/-- Modelled from the spec: a new `MeshBuilderSkinningInfo` for a number of original vertices,
without influences. -/
def MeshBuilderSkinningInfo.create (numOrgVertices : Nat) : MeshBuilderSkinningInfo :=
  { GetNumOrgVertices := numOrgVertices, influences := fun _ => [] }

/-- Modelled from the spec: `AddInfluence(orgVtx, influence)` of `MeshBuilderSkinningInfo` adds
the influence at the end of the list of the vertex. -/
def MeshBuilderSkinningInfo.AddInfluence (info : MeshBuilderSkinningInfo) (orgVtx : Nat)
    (influence : Influence) : MeshBuilderSkinningInfo :=
  { info with influences := fun v =>
      if v = orgVtx then info.influences v ++ [influence] else info.influences v }

/-- Value of `GetNumInfluences(orgVtx)`. -/
def MeshBuilderSkinningInfo.GetNumInfluences (info : MeshBuilderSkinningInfo) (orgVtx : Nat) :
    Nat :=
  (info.influences orgVtx).length

/-- Value of `GetInfluence(orgVtx, index)`. -/
def MeshBuilderSkinningInfo.GetInfluence (info : MeshBuilderSkinningInfo) (orgVtx index : Nat) :
    Influence :=
  (info.influences orgVtx).getD index default

/-- Position of the last influence of smallest weight, so that among equal weights the one seen
first is kept longest. -/
def smallestInfluenceIndex : List Influence → Nat
  | [] => 0
  | [_] => 0
  | a :: b :: rest =>
      let i := smallestInfluenceIndex (b :: rest)
      if ((b :: rest).getD i default).mWeight ≤ a.mWeight then i + 1 else 0

/-- Modelled from the spec: step (2) of the skinning compactor, "if the remaining count exceeds
the maximum, keep the `max` highest-weight links (ties: first seen wins)": the smallest link is
removed until at most `maxWeights` are left. -/
def keepHighestWeights (maxWeights : Nat) (influences : List Influence) : List Influence :=
  (List.range (influences.length - maxWeights)).foldl
    (fun l _ => l.eraseIdx (smallestInfluenceIndex l)) influences

/-- Modelled from the spec: step (3) of the skinning compactor, "renormalize kept weights to sum to
1.0". An empty list stays empty. -/
def renormalizeWeights (influences : List Influence) : List Influence :=
  let totalWeight := (influences.map (fun i => i.mWeight)).sum
  influences.map (fun i => { i with mWeight := i.mWeight / totalWeight })

/-- Modelled from the spec: the skinning compactor for one vertex (section 4.2): (1) drop the
links with weight below the threshold, (2) keep the `maxWeightsPerVertex` heaviest, (3)
renormalize. -/
def optimizeInfluences (maxWeightsPerVertex : Nat) (weightThreshold : ℚ)
    (influences : List Influence) : List Influence :=
  renormalizeWeights (keepHighestWeights maxWeightsPerVertex
    (influences.filter (fun i => decide (¬ i.mWeight < weightThreshold))))

/-- Modelled from the spec: `Optimize(maxWeightsPerVertex, weightThreshold)` of
`MeshBuilderSkinningInfo` compacts the influences of every vertex. -/
def MeshBuilderSkinningInfo.Optimize (info : MeshBuilderSkinningInfo) (maxWeightsPerVertex : Nat)
    (weightThreshold : ℚ) : MeshBuilderSkinningInfo :=
  { info with influences := fun v =>
      optimizeInfluences maxWeightsPerVertex weightThreshold (info.influences v) }

/-- The loop over the links of one control point (lines 141-145). The cast of the bone id to the
node number is a checked cast of a non-negative id. -/
def addLinks (skinData : ISkinWeightData) (controlPointIndex : Nat) (usedPointIndex : Int)
    (linkCount : Nat) (skinningInfo : MeshBuilderSkinningInfo) : MeshBuilderSkinningInfo :=
  (List.range linkCount).foldl
    (fun info linkIndex =>
      let link := skinData.GetLink controlPointIndex linkIndex
      info.AddInfluence usedPointIndex.toNat ⟨link.boneId.toNat, link.weight⟩)
    skinningInfo

/-- Body of the loop over the control points of one skin-weight source (lines 133-145). -/
def addControlPoint (meshData : IMeshData) (skinData : ISkinWeightData)
    (skinningInfo : MeshBuilderSkinningInfo) (controlPointIndex : Nat) :
    MeshBuilderSkinningInfo :=
  let usedPointIndex :=
    meshData.GetUsedPointIndexForControlPoint (meshData.GetControlPointIndex controlPointIndex)
  let linkCount := skinData.GetLinkCount controlPointIndex
  if usedPointIndex < 0 ∨ linkCount = 0 then skinningInfo
  else addLinks skinData controlPointIndex usedPointIndex linkCount skinningInfo

/-- Body of the loop over the skin-weight sources (lines 129-147). -/
def addSkinData (meshData : IMeshData) (skinningInfo : MeshBuilderSkinningInfo)
    (skinData : ISkinWeightData) : MeshBuilderSkinningInfo :=
  (List.range skinData.GetVertexCount).foldl (addControlPoint meshData skinData) skinningInfo

/-- Lines 125-147 of `ExtractSkinningInfo`: a skinning info for the used control points of the
mesh (their count cast to 32 bits), filled with the influences of all skin-weight sources. -/
def gatherInfluences (meshData : IMeshData) (skinWeights : List ISkinWeightData) :
    MeshBuilderSkinningInfo :=
  let usedControlPointCount := meshData.GetUsedControlPointCount
  skinWeights.foldl (addSkinData meshData)
    (MeshBuilderSkinningInfo.create (usedControlPointCount % 2 ^ 32))

/-- `ExtractSkinningInfo` (lines 113-155): nothing for an empty list of sources, otherwise the
influences of all sources gathered per used point and then optimized. -/
def ExtractSkinningInfo (meshData : IMeshData) (skinWeights : List ISkinWeightData)
    (maxWeightsPerVertex : Nat) (weightThreshold : ℚ) : Option MeshBuilderSkinningInfo :=
  if skinWeights.isEmpty then none
  else some ((gatherInfluences meshData skinWeights).Optimize maxWeightsPerVertex weightThreshold)

/-- Modelled from the spec: the result container `SkinWeightData` of the scene data library, not
among the sources: the links of every vertex, and the bone names, whose position is the bone id
("bone ids resolved from bone names"). -/
structure SkinWeightData where
  links : List (List Link)
  boneNames : List String
deriving DecidableEq, Repr

/-- A freshly made `SkinWeightData`. -/
def SkinWeightData.empty : SkinWeightData := { links := [], boneNames := [] }

/-- Modelled from the spec: `ResizeContainerSpace(size)` of `SkinWeightData` makes room for `size`
vertices; new vertices have no links. -/
def SkinWeightData.ResizeContainerSpace (d : SkinWeightData) (size : Nat) : SkinWeightData :=
  { d with links := d.links.take size ++ List.replicate (size - d.links.length) [] }

/-- Modelled from the spec: `GetBoneId(boneName)` of `SkinWeightData` gives the id of a bone
name, registering the name under the next free id when it is new. -/
def SkinWeightData.GetBoneId (d : SkinWeightData) (boneName : String) : Int × SkinWeightData :=
  if boneName ∈ d.boneNames then (d.boneNames.indexOf boneName, d)
  else (d.boneNames.length, { d with boneNames := d.boneNames ++ [boneName] })

/-- Modelled from the spec: `AppendLink(vertexIndex, link)` of `SkinWeightData` adds a link at the
end of the links of the vertex. -/
def SkinWeightData.AppendLink (d : SkinWeightData) (vertexIndex : Nat) (link : Link) :
    SkinWeightData :=
  { d with links := d.links.modify (fun l => l ++ [link]) vertexIndex }

/-- Value of `GetVertexCount()` of the skin weights. -/
def SkinWeightData.GetVertexCount (d : SkinWeightData) : Nat := d.links.length

/-- Body of the loop over the influences of a vertex (lines 567-569); the bone name is asked of
the first skin-weight source. -/
def appendInfluence (skinWeights : List ISkinWeightData) (skinningInfo : MeshBuilderSkinningInfo)
    (vertex : Nat) (d : SkinWeightData) (influencingBone : Nat) : SkinWeightData :=
  let influence := skinningInfo.GetInfluence vertex influencingBone
  let first := skinWeights.getD 0 ⟨0, fun _ => 0, fun _ _ => default, fun _ => ""⟩
  let r := d.GetBoneId (first.GetBoneName (Int.ofNat influence.mNodeNr))
  r.2.AppendLink vertex ⟨r.1, influence.mWeight⟩

/-- Body of the loop over the vertices of the skinning info (lines 564-570). -/
def appendVertexLinks (skinWeights : List ISkinWeightData)
    (skinningInfo : MeshBuilderSkinningInfo) (d : SkinWeightData) (vertex : Nat) :
    SkinWeightData :=
  (List.range (skinningInfo.GetNumInfluences vertex)).foldl
    (appendInfluence skinWeights skinningInfo vertex) d

/-- Lines 554-572 of `OptimizeMesh`: no skin weights when the builder has no skinning info,
otherwise one entry per original vertex of the skinning info, filled with its influences. -/
def makeSkinWeights (skinWeights : List ISkinWeightData)
    (skinningInfo : Option MeshBuilderSkinningInfo) : Option SkinWeightData :=
  match skinningInfo with
  | none => none
  | some info =>
      let skinnedVertexCount := info.GetNumOrgVertices
      some ((List.range skinnedVertexCount).foldl (appendVertexLinks skinWeights info)
        (SkinWeightData.empty.ResizeContainerSpace skinnedVertexCount))

/-! ## The mesh builder -/

/-- Modelled from the spec: the vertex attribute tuple of one polygon corner (section 3): the
values set on the layers registered by `OptimizeMesh` (original vertex, position, normal and one
value per UV, tangent, bitangent and colour layer) before `AddPolygonVertex`. The value of the
original-vertex layer is the C++ `int` written to it (its 32-bit pattern). -/
structure VertexAttributes where
  orgVtx : Int
  position : Vector3
  normal : Vector3
  uvs : List Vector2
  tangents : List Vector4
  bitangents : List Vector3
  colors : List Color
deriving DecidableEq, Repr, Inhabited

/-- Modelled from the spec: one sub-mesh while the builder runs: its material, the vertex lookups
of its polygon corners in order, and the local vertex buffer made by
`GenerateSubMeshVertexOrders`. -/
structure SubMeshData where
  materialIndex : Nat
  indices : List MeshBuilderVertexLookup
  vertexOrder : List MeshBuilderVertexLookup
deriving DecidableEq, Repr

/-- Modelled from the spec: the state of `MeshBuilder` (`MeshBuilder.h` and the attribute layers
are not among the sources; sections 4.1, 4.3 and 4.4 describe them). `duplicates orgVtx` holds,
for every duplicate slot of an original vertex, the attribute tuple stored in the layers;
`polygonMaterial` and `polygonVertices` are the polygon being accumulated. -/
structure MeshBuilder where
  optimizeDuplicates : Bool
  duplicates : Nat → List VertexAttributes
  polygonMaterial : Nat
  polygonVertices : List MeshBuilderVertexLookup
  subMeshes : List SubMeshData
  skinningInfo : Option MeshBuilderSkinningInfo

/-- Modelled from the spec: a new builder; every layer is empty. The caps on vertices and indices
per sub-mesh that `OptimizeMesh` passes are the largest `size_t`, so no cap is ever exceeded and
they are left out. -/
def MeshBuilder.create (optimizeDuplicates : Bool) : MeshBuilder :=
  { optimizeDuplicates := optimizeDuplicates, duplicates := fun _ => [], polygonMaterial := 0,
    polygonVertices := [], subMeshes := [], skinningInfo := none }

/-- Result of `SetSkinningInfo`. -/
def MeshBuilder.SetSkinningInfo (b : MeshBuilder) (info : Option MeshBuilderSkinningInfo) :
    MeshBuilder :=
  { b with skinningInfo := info }

/-- Value of `GetSkinningInfo()`. -/
def MeshBuilder.GetSkinningInfo (b : MeshBuilder) : Option MeshBuilderSkinningInfo :=
  b.skinningInfo

/-- Modelled from the spec: `BeginPolygon(materialId)` starts accumulating a face. -/
def MeshBuilder.BeginPolygon (b : MeshBuilder) (materialId : Nat) : MeshBuilder :=
  { b with polygonMaterial := materialId, polygonVertices := [] }

/-- Modelled from the spec: the duplicate number a corner resolves to (section 4.3). With
duplicate optimization the first slot of the original vertex whose tuple equals the corner's
tuple is reused; otherwise, and when no slot is equal, the number is the count of slots the
original vertex has so far (a new slot). -/
def resolveDuplicate (optimizeDuplicates : Bool) (slots : List VertexAttributes)
    (current : VertexAttributes) : Nat :=
  if optimizeDuplicates then slots.indexOf current else slots.length

/-- Modelled from the spec: `AddPolygonVertex(orgVtx)` with the current values of the layers
(section 4.3): the corner is resolved to a duplicate slot of the original vertex, a new slot
stores the current values, and the lookup is added to the open polygon. -/
def MeshBuilder.AddPolygonVertex (b : MeshBuilder) (orgVtx : Nat) (current : VertexAttributes) :
    MeshBuilder :=
  let slots := b.duplicates orgVtx
  let duplicateNr := resolveDuplicate b.optimizeDuplicates slots current
  { b with
    duplicates :=
      if duplicateNr < slots.length then b.duplicates
      else fun v => if v = orgVtx then slots ++ [current] else b.duplicates v
    polygonVertices := b.polygonVertices ++ [⟨orgVtx, duplicateNr⟩] }

/-- Modelled from the spec: the sub-mesh partitioner (section 4.4): a polygon joins the sub-mesh
of its material ("a maximal group of faces sharing one material"), a new sub-mesh being opened
after the existing ones when the material has none yet. -/
def addPolygonToSubMeshes :
    List SubMeshData → Nat → List MeshBuilderVertexLookup → List SubMeshData
  | [], materialId, vertices =>
      [{ materialIndex := materialId, indices := vertices, vertexOrder := [] }]
  | s :: rest, materialId, vertices =>
      if s.materialIndex = materialId then { s with indices := s.indices ++ vertices } :: rest
      else s :: addPolygonToSubMeshes rest materialId vertices

/-- Modelled from the spec: `EndPolygon()` hands the accumulated face to the partitioner. -/
def MeshBuilder.EndPolygon (b : MeshBuilder) : MeshBuilder :=
  { b with
    subMeshes := addPolygonToSubMeshes b.subMeshes b.polygonMaterial b.polygonVertices
    polygonVertices := [] }

/-- Modelled from the spec: the local vertex buffer of a sub-mesh, "preserving first-seen order
within the submesh": the distinct lookups of its corners in order of first appearance. -/
def firstSeenOrder (indices : List MeshBuilderVertexLookup) : List MeshBuilderVertexLookup :=
  indices.foldl (fun order l => if l ∈ order then order else order ++ [l]) []

/-- Modelled from the spec: `GenerateSubMeshVertexOrders()` assigns each compacted vertex a
position within the local vertex buffer of its sub-mesh. -/
def MeshBuilder.GenerateSubMeshVertexOrders (b : MeshBuilder) : MeshBuilder :=
  { b with subMeshes := b.subMeshes.map (fun s => { s with vertexOrder := firstSeenOrder s.indices }) }

/-- Modelled from the spec: the accessors of a sub-mesh of the builder. Polygons are triangles;
the local index of a corner is the position of its lookup in the local vertex buffer. -/
def SubMeshData.toSubMesh (s : SubMeshData) : MeshBuilderSubMesh :=
  { GetNumVertices := s.vertexOrder.length
    GetVertex := fun i => s.vertexOrder.getD i default
    GetNumPolygons := s.indices.length / 3
    GetIndex := fun i => s.vertexOrder.indexOf (s.indices.getD i default)
    GetMaterialIndex := s.materialIndex }

/-- The sub-meshes of the builder, `GetSubMesh(0)` .. `GetSubMesh(GetNumSubMeshes() - 1)`. -/
def MeshBuilder.GetSubMeshes (b : MeshBuilder) : List MeshBuilderSubMesh :=
  b.subMeshes.map SubMeshData.toSubMesh

/-- Modelled from the spec: the tuple stored for a duplicate slot (`GetVertexValue` of the layers,
section 4.1); the default tuple outside the stored range. -/
def MeshBuilder.storedAttributes (b : MeshBuilder) (orgVtx duplicateNr : Nat) :
    VertexAttributes :=
  (b.duplicates orgVtx).getD duplicateNr default

/-- Modelled from the spec: the layers of the builder as `OptimizeMesh` registers them: the
original-vertex, position and normal layers, then one layer per UV, tangent, bitangent and colour
input, each reading its component of the stored tuples. -/
def MeshBuilder.layers (b : MeshBuilder) (uvCount tangentCount bitangentCount colorCount : Nat) :
    BuilderLayers :=
  { orgVtxLayer := ⟨fun o d => (b.storedAttributes o d).orgVtx⟩
    posLayer := ⟨fun o d => (b.storedAttributes o d).position⟩
    normalsLayer := ⟨fun o d => (b.storedAttributes o d).normal⟩
    uvLayers := (List.range uvCount).map
      (fun i => ⟨fun o d => (b.storedAttributes o d).uvs.getD i default⟩)
    tangentLayers := (List.range tangentCount).map
      (fun i => ⟨fun o d => (b.storedAttributes o d).tangents.getD i default⟩)
    bitangentLayers := (List.range bitangentCount).map
      (fun i => ⟨fun o d => (b.storedAttributes o d).bitangents.getD i default⟩)
    vertexColorLayers := (List.range colorCount).map
      (fun i => ⟨fun o d => (b.storedAttributes o d).colors.getD i default⟩) }

/-! ## `OptimizeMesh` -/

/-- The accessors of `IMeshGroup` read by the optimizer: the skin rule of the rule container (if
any), the selection list of the group and the selection lists of its LOD rule (if any), each
a list of node paths. -/
structure IMeshGroup where
  skinRule : Option ISkinRule
  GetSceneNodeSelectionList : List String
  lodRule : Option (List (List String))

/-- The original vertex number of a corner (line 443), a C++ `int`. -/
def orgVertexNumber (meshData : IMeshData) (vertexIndex : Nat) : Int :=
  meshData.GetUsedPointIndexForControlPoint (meshData.GetControlPointIndex vertexIndex)

/-- The values `OptimizeMesh` sets on the layers for one corner (lines 443-466): layer `i` of an
attribute kind receives the value of input `i` of that kind. -/
def cornerAttributes (meshData : IMeshData) (uvs : List IMeshVertexUVData)
    (tangents : List IMeshVertexTangentData) (bitangents : List IMeshVertexBitangentData)
    (vertexColors : List IMeshVertexColorData) (vertexIndex : Nat) : VertexAttributes :=
  { orgVtx := orgVertexNumber meshData vertexIndex
    position := meshData.GetPosition vertexIndex
    normal := meshData.GetNormal vertexIndex
    uvs := uvs.map (fun uvData => uvData.GetUV vertexIndex)
    tangents := tangents.map (fun tangentData => tangentData.GetTangent vertexIndex)
    bitangents := bitangents.map (fun bitangentData => bitangentData.GetBitangent vertexIndex)
    colors := vertexColors.map (fun vertexColorData => vertexColorData.GetColor vertexIndex) }

/-- The original vertex a corner is filed under in the builder: passing the `int` original
vertex number to `AddPolygonVertex(size_t)` converts it modulo 2^64. -/
def cornerKey (meshData : IMeshData) (vertexIndex : Nat) : Nat :=
  ((orgVertexNumber meshData vertexIndex) % 2 ^ 64).toNat

/-- Body of the loop over the corners of a face (lines 443-469): the layers receive the values
of the corner, then the corner is added under its original vertex number. -/
def addCorner (meshData : IMeshData) (uvs : List IMeshVertexUVData)
    (tangents : List IMeshVertexTangentData) (bitangents : List IMeshVertexBitangentData)
    (vertexColors : List IMeshVertexColorData) (b : MeshBuilder) (vertexIndex : Nat) :
    MeshBuilder :=
  b.AddPolygonVertex (cornerKey meshData vertexIndex)
    (cornerAttributes meshData uvs tangents bitangents vertexColors vertexIndex)

/-- Body of the loop over the faces (lines 440-472): the polygon is begun with the material the
base mesh gives the face, its three corners are added, and it is ended. -/
def addFacePolygon (meshData baseMesh : IMeshData) (uvs : List IMeshVertexUVData)
    (tangents : List IMeshVertexTangentData) (bitangents : List IMeshVertexBitangentData)
    (vertexColors : List IMeshVertexColorData) (b : MeshBuilder) (faceIndex : Nat) :
    MeshBuilder :=
  ((meshData.GetFaceInfo faceIndex).vertexIndex.foldl
    (addCorner meshData uvs tangents bitangents vertexColors)
    (b.BeginPolygon (baseMesh.GetFaceMaterialId faceIndex))).EndPolygon

/-- The skinning parameters (lines 431-433): those of the skin rule of the mesh group, or 4 and
0.001 without a skin rule. -/
def skinningParameters (meshGroup : IMeshGroup) : Nat × ℚ :=
  match meshGroup.skinRule with
  | some skinRule => (skinRule.GetMaxWeightsPerVertex, skinRule.GetWeightThreshold)
  | none => (4, 1 / 1000)

/-- Lines 390-474 of `OptimizeMesh`: the builder is made with `optimizeDuplicates = !hasBlendShapes`,
receives the skinning info, then all faces, and generates the vertex orders. -/
def buildMesh (meshData baseMesh : IMeshData) (uvs : List IMeshVertexUVData)
    (tangents : List IMeshVertexTangentData) (bitangents : List IMeshVertexBitangentData)
    (vertexColors : List IMeshVertexColorData) (skinWeights : List ISkinWeightData)
    (meshGroup : IMeshGroup) (hasBlendShapes : Bool) : MeshBuilder :=
  let meshBuilder := MeshBuilder.create (!hasBlendShapes)
  let p := skinningParameters meshGroup
  let meshBuilder := meshBuilder.SetSkinningInfo (ExtractSkinningInfo meshData skinWeights p.1 p.2)
  let faceCount := meshData.GetFaceCount
  let meshBuilder := (List.range faceCount).foldl
    (addFacePolygon meshData baseMesh uvs tangents bitangents vertexColors) meshBuilder
  meshBuilder.GenerateSubMeshVertexOrders

/-- The tuple `OptimizeMesh` returns: the optimized mesh with its attribute nodes, and the
optional skin weights. -/
structure OptimizeMeshResult where
  nodes : OptimizedNodes
  optimizedSkinWeights : Option SkinWeightData

/-- `MeshOptimizerComponent::OptimizeMesh` (lines 371-582). -/
def OptimizeMesh (kind : MeshKind) (meshData baseMesh : IMeshData)
    (uvs : List IMeshVertexUVData) (tangents : List IMeshVertexTangentData)
    (bitangents : List IMeshVertexBitangentData) (vertexColors : List IMeshVertexColorData)
    (skinWeights : List ISkinWeightData) (meshGroup : IMeshGroup) (hasBlendShapes : Bool) :
    OptimizeMeshResult :=
  let meshBuilder :=
    buildMesh meshData baseMesh uvs tangents bitangents vertexColors skinWeights meshGroup
      hasBlendShapes
  let layers :=
    meshBuilder.layers uvs.length tangents.length bitangents.length vertexColors.length
  { nodes := (emitSubMeshes kind layers meshBuilder.GetSubMeshes).1
    optimizedSkinWeights := makeSkinWeights skinWeights meshBuilder.GetSkinningInfo }

/-! ## The scene graph and `OptimizeMeshes` -/

/-- The interface a graph object is seen through by the type filters of the pass
(`MakeDerivedFilterView<T>`, `azdynamic_cast`, `RttiIsTypeOf`); `other` stands for every type
that is none of the seven the pass optimizes. -/
inductive ObjectType where
  | IMeshData
  | IBlendShapeData
  | IMeshVertexUVData
  | IMeshVertexTangentData
  | IMeshVertexBitangentData
  | IMeshVertexColorData
  | ISkinWeightData
  | other
deriving DecidableEq, Repr

/-- Content of a node of the scene graph. Data that reaches the pass is given by the accessors of
its interface; the data the pass makes is kept as made. -/
inductive GraphObject where
  | meshData (mesh : IMeshData)
  | blendShapeData (blendShape : IMeshData)
  | uvData (uv : IMeshVertexUVData)
  | tangentData (tangent : IMeshVertexTangentData)
  | bitangentData (bitangent : IMeshVertexBitangentData)
  | colorData (color : IMeshVertexColorData)
  | skinWeightData (skin : ISkinWeightData)
  | other (typeId : Nat)
  | optimizedMesh (mesh : MeshData)
  | optimizedBlendShape (blendShape : MeshData)
  | optimizedUV (uv : List Vector2)
  | optimizedTangent (tangent : List Vector4)
  | optimizedBitangent (bitangent : List Vector3)
  | optimizedColor (color : List Color)
  | optimizedSkin (skin : SkinWeightData)

/-- The interface of a graph object: `MeshData` is an `IMeshData`, `BlendShapeData` an
`IBlendShapeData`, and so on. -/
def GraphObject.type : GraphObject → ObjectType
  | .meshData _ => .IMeshData
  | .blendShapeData _ => .IBlendShapeData
  | .uvData _ => .IMeshVertexUVData
  | .tangentData _ => .IMeshVertexTangentData
  | .bitangentData _ => .IMeshVertexBitangentData
  | .colorData _ => .IMeshVertexColorData
  | .skinWeightData _ => .ISkinWeightData
  | .other _ => .other
  | .optimizedMesh _ => .IMeshData
  | .optimizedBlendShape _ => .IBlendShapeData
  | .optimizedUV _ => .IMeshVertexUVData
  | .optimizedTangent _ => .IMeshVertexTangentData
  | .optimizedBitangent _ => .IMeshVertexBitangentData
  | .optimizedColor _ => .IMeshVertexColorData
  | .optimizedSkin _ => .ISkinWeightData

/-- Modelled from the spec: the accessors of `IMeshData` on a result container `MeshData`
(scene data library, not among the sources): the buffers are read by index, the control point of
a vertex is its entry in the back-reference map, and the used points are the control points of
the vertices in order of first appearance. -/
def MeshData.asIMeshData (m : MeshData) : IMeshData :=
  let controlPoint : Nat → Int := fun v => (m.vertexIndexToControlPointIndexMap v).getD (-1)
  let usedPoints : List Int :=
    ((List.range m.positions.length).map controlPoint).foldl
      (fun used c => if c ∈ used then used else used ++ [c]) []
  { GetUsedControlPointCount := usedPoints.length
    GetFaceCount := m.faceList.length
    GetFaceInfo := fun i => m.faceList.getD i default
    GetFaceMaterialId := fun i => m.faceMaterialIds.getD i 0
    GetControlPointIndex := controlPoint
    GetUsedPointIndexForControlPoint := fun c =>
      if c ∈ usedPoints then Int.ofNat (usedPoints.indexOf c) else -1
    GetPosition := fun v => m.positions.getD v default
    GetNormal := fun v => m.normals.getD v default }

/-- Modelled from the spec: the accessors of `ISkinWeightData` on a result container
`SkinWeightData` (scene data library, not among the sources). -/
def SkinWeightData.asISkinWeightData (d : SkinWeightData) : ISkinWeightData :=
  { GetVertexCount := d.links.length
    GetLinkCount := fun v => (d.links.getD v []).length
    GetLink := fun v i => (d.links.getD v []).getD i default
    GetBoneName := fun id => d.boneNames.getD id.toNat "" }

/-- The object seen as `IMeshData`, if it is one. -/
def GraphObject.asIMeshData : GraphObject → Option IMeshData
  | .meshData mesh => some mesh
  | .optimizedMesh mesh => some mesh.asIMeshData
  | _ => none

/-- The object seen as `IBlendShapeData`, if it is one. -/
def GraphObject.asIBlendShapeData : GraphObject → Option IMeshData
  | .blendShapeData blendShape => some blendShape
  | .optimizedBlendShape blendShape => some blendShape.asIMeshData
  | _ => none

/-- The object seen as `IMeshVertexUVData`, if it is one. -/
def GraphObject.asIMeshVertexUVData : GraphObject → Option IMeshVertexUVData
  | .uvData uv => some uv
  | .optimizedUV uv => some ⟨fun i => uv.getD i default⟩
  | _ => none

/-- The object seen as `IMeshVertexTangentData`, if it is one. -/
def GraphObject.asIMeshVertexTangentData : GraphObject → Option IMeshVertexTangentData
  | .tangentData tangent => some tangent
  | .optimizedTangent tangent => some ⟨fun i => tangent.getD i default⟩
  | _ => none

/-- The object seen as `IMeshVertexBitangentData`, if it is one. -/
def GraphObject.asIMeshVertexBitangentData : GraphObject → Option IMeshVertexBitangentData
  | .bitangentData bitangent => some bitangent
  | .optimizedBitangent bitangent => some ⟨fun i => bitangent.getD i default⟩
  | _ => none

/-- The object seen as `IMeshVertexColorData`, if it is one. -/
def GraphObject.asIMeshVertexColorData : GraphObject → Option IMeshVertexColorData
  | .colorData color => some color
  | .optimizedColor color => some ⟨fun i => color.getD i default⟩
  | _ => none

/-- The object seen as `ISkinWeightData`, if it is one. -/
def GraphObject.asISkinWeightData : GraphObject → Option ISkinWeightData
  | .skinWeightData skin => some skin
  | .optimizedSkin skin => some skin.asISkinWeightData
  | _ => none

/-- A node of the scene graph: its name (`GetNodeName(i).GetName()`), its path
(`GetNodeName(i).GetPath()`), its parent (none for a root), its content and its end-point
mark. -/
structure GraphNode where
  name : String
  path : String
  parent : Option Nat
  content : GraphObject
  isEndPoint : Bool

/-- Modelled from the spec: the scene graph of the scene API (not among the sources): the nodes
in storage order. A node index is a position in the storage; an invalid `NodeIndex` is `none`.
The children of a node are taken in storage order. -/
structure SceneGraph where
  nodes : List GraphNode

/-- Value of `GetNodeParent(nodeIndex)`. -/
def SceneGraph.GetNodeParent (graph : SceneGraph) (nodeIndex : Nat) : Option Nat :=
  (graph.nodes[nodeIndex]?).bind (fun n => n.parent)

/-- Value of `GetNodeName(nodeIndex).GetName()`. -/
def SceneGraph.GetName (graph : SceneGraph) (nodeIndex : Nat) : String :=
  ((graph.nodes[nodeIndex]?).map (fun n => n.name)).getD ""

/-- Value of `GetNodeName(nodeIndex).GetPath()`. -/
def SceneGraph.GetPath (graph : SceneGraph) (nodeIndex : Nat) : String :=
  ((graph.nodes[nodeIndex]?).map (fun n => n.path)).getD ""

/-- Value of `IsNodeEndPoint(nodeIndex)`. -/
def SceneGraph.IsNodeEndPoint (graph : SceneGraph) (nodeIndex : Nat) : Bool :=
  ((graph.nodes[nodeIndex]?).map (fun n => n.isEndPoint)).getD false

/-- Value of `Find(path)`: the first node with that path, if any (`IsValid()` is `isSome`). -/
def SceneGraph.Find (graph : SceneGraph) (path : String) : Option Nat :=
  graph.nodes.findIdx? (fun n => n.path = path)

/-- Modelled from the spec: `AddChild(parent, name, content)` stores a new node after the existing
ones, as the last child of the parent, its path being the path of the parent, a dot and the
name; with an invalid parent nothing is added and the index returned is invalid. -/
def SceneGraph.AddChild (graph : SceneGraph) (parent : Option Nat) (name : String)
    (content : GraphObject) : SceneGraph × Option Nat :=
  match parent with
  | none => (graph, none)
  | some p =>
      if p < graph.nodes.length then
        let parentPath := graph.GetPath p
        let path := if parentPath = "" then name else parentPath ++ "." ++ name
        ({ nodes := graph.nodes ++
            [{ name := name, path := path, parent := some p, content := content,
               isEndPoint := false }] },
          some graph.nodes.length)
      else (graph, none)

/-- Result of `MakeEndPoint(nodeIndex)`; nothing changes for an invalid index. -/
def SceneGraph.MakeEndPoint (graph : SceneGraph) (nodeIndex : Option Nat) : SceneGraph :=
  match nodeIndex with
  | none => graph
  | some i => { nodes := graph.nodes.modify (fun n => { n with isEndPoint := true }) i }

/-- The node indexes of `MakeSceneGraphChildView(graph, nodeIndex, ...)`: the children of the
node. -/
def SceneGraph.childNodes (graph : SceneGraph) (nodeIndex : Nat) : List Nat :=
  (List.range graph.nodes.length).filter
    (fun i => decide (graph.GetNodeParent i = some nodeIndex))

/-- Type of the content of a node (`other` for a missing node). -/
def SceneGraph.typeOf (graph : SceneGraph) (nodeIndex : Nat) : ObjectType :=
  ((graph.nodes[nodeIndex]?).map (fun n => n.content.type)).getD ObjectType.other

/-- The node indexes of `MakeDerivedFilterView<T>(childNodes(nodeIndex))`: the children whose
content is of type `T`. -/
def SceneGraph.childNodesOfType (graph : SceneGraph) (nodeIndex : Nat) (t : ObjectType) :
    List Nat :=
  (graph.childNodes nodeIndex).filter (fun i => decide (graph.typeOf i = t))

/-- The contents of the children that `cast` accepts, in order: the vector made from a derived
filter view. -/
def SceneGraph.childData {α : Type} (graph : SceneGraph) (nodeIndex : Nat)
    (cast : GraphObject → Option α) : List α :=
  (graph.childNodes nodeIndex).filterMap
    (fun i => (graph.nodes[i]?).bind (fun n => cast n.content))

/-- `MeshOptimizerComponent::HasAnyBlendShapeChild` (lines 179-184): the view of the children
that are blend shapes is not empty. -/
def HasAnyBlendShapeChild (graph : SceneGraph) (nodeIndex : Nat) : Bool :=
  !(graph.childNodesOfType nodeIndex ObjectType.IBlendShapeData).isEmpty

/-- An entry of the manifest: a mesh group or any other manifest object. -/
inductive ManifestObject where
  | meshGroup (group : IMeshGroup)
  | other

/-- The scene of the event context: its graph and the value storage of its manifest. -/
structure Scene where
  graph : SceneGraph
  manifest : List ManifestObject

/-- `MakeDerivedFilterView<IMeshGroup>` of the manifest: its mesh groups, in order. -/
def Scene.meshGroups (scene : Scene) : List IMeshGroup :=
  scene.manifest.filterMap (fun o => match o with
    | .meshGroup g => some g
    | .other => none)

/-- `ProcessingResult` of the scene API events. -/
inductive ProcessingResult where
  | Ignored
  | Success
  | Failure
deriving DecidableEq, Repr

/-- The suffix `SceneAPI::Utilities::OptimizedMeshSuffix` (a constant of the scene API, declared
outside the sources). -/
def OptimizedMeshSuffix : String := "_optimized"

/-- The list of meshes (lines 192-208): every node whose content is an `IMeshData`, with its
node index, in storage order. -/
def collectMeshes (graph : SceneGraph) : List (IMeshData × Nat) :=
  (List.range graph.nodes.length).filterMap
    (fun i => ((graph.nodes[i]?).bind (fun n => n.content.asIMeshData)).map (fun m => (m, i)))

/-- `addSelectionListToMap` (lines 216-222): every selected node of the list is added to the
entry of the mesh group, the entry being made by the first `operator[]`. The mesh group is keyed
by its position among the mesh groups (its address in the source). -/
def addSelectionListToMap (selectedNodes : List (Nat × List String)) (meshGroup : Nat)
    (selectionList : List String) : List (Nat × List String) :=
  selectionList.foldl
    (fun m node =>
      if (m.lookup meshGroup).isSome then
        m.map (fun e => if e.1 = meshGroup then (e.1, e.2 ++ [node]) else e)
      else m ++ [(meshGroup, [node])])
    selectedNodes

/-- Body of the loop over the mesh groups that fills the map of selected nodes (lines 226-234);
`entry` is a mesh group with its position. -/
def addMeshGroupSelection (selectedNodes : List (Nat × List String))
    (entry : Nat × IMeshGroup) : List (Nat × List String) :=
  let selectedNodes :=
    addSelectionListToMap selectedNodes entry.1 entry.2.GetSceneNodeSelectionList
  match entry.2.lodRule with
  | none => selectedNodes
  | some lods =>
      lods.foldl (fun m selectionList => addSelectionListToMap m entry.1 selectionList)
        selectedNodes

/-- The map of selected nodes (lines 212-237): for every mesh group the nodes of its selection
list, then those of the selection list of every LOD of its LOD rule. -/
def buildSelectedNodes (meshGroups : List IMeshGroup) : List (Nat × List String) :=
  meshGroups.enum.foldl addMeshGroupSelection []

/-- One call of `OptimizeMesh` made by the pass: the output kind, the mesh node of the iteration,
the blend-shape node for a blend-shape call, the position of the mesh group, the two mesh
arguments and the flag. -/
structure OptimizeMeshCall where
  kind : MeshKind
  nodeIndex : Nat
  blendShapeNodeIndex : Option Nat
  meshGroupIndex : Nat
  meshData : IMeshData
  baseMesh : IMeshData
  hasBlendShapes : Bool

/-- State of the pass while it runs: the graph and the calls of `OptimizeMesh` made so far. -/
structure PassState where
  graph : SceneGraph
  calls : List OptimizeMeshCall

/-- `addOptimizedNodes` (lines 292-305): for every pair of an original node and an optimized node,
the optimized node becomes a child of the optimized mesh under the name of the original node, and
is an end point when the original is. -/
def addOptimizedNodes (optimizedMeshNodeIndex : Option Nat) :
    SceneGraph → List Nat → List GraphObject → SceneGraph
  | graph, originalNodeIndex :: originalNodeIndexes, optimizedNode :: optimizedNodes =>
      let optimizedName := graph.GetName originalNodeIndex
      let r := graph.AddChild optimizedMeshNodeIndex optimizedName optimizedNode
      let graph :=
        if r.1.IsNodeEndPoint originalNodeIndex then r.1.MakeEndPoint r.2 else r.1
      addOptimizedNodes optimizedMeshNodeIndex graph originalNodeIndexes optimizedNodes
  | graph, [], _ => graph
  | graph, _ :: _, [] => graph

/-- Body of the loop over the blend shapes of a mesh (lines 319-327): the blend shape is optimized
against the base mesh with the flag of the mesh, and added under the optimized mesh with the name
and the end-point mark of the original. -/
def optimizeBlendShape (mesh : IMeshData) (nodeIndex meshGroupIndex : Nat)
    (meshGroup : IMeshGroup) (hasBlendShapes : Bool) (optimizedMeshNodeIndex : Option Nat)
    (st : PassState) (blendShapeNodeIndex : Nat) : PassState :=
  match (st.graph.nodes[blendShapeNodeIndex]?).bind (fun n => n.content.asIBlendShapeData) with
  | none => st
  | some blendShapeNode =>
      let r := OptimizeMesh MeshKind.blendShape blendShapeNode mesh [] [] [] [] [] meshGroup
        hasBlendShapes
      let optimizedName := st.graph.GetName blendShapeNodeIndex
      let a := st.graph.AddChild optimizedMeshNodeIndex optimizedName
        (GraphObject.optimizedBlendShape r.nodes.optimizedMesh)
      let graph :=
        if a.1.IsNodeEndPoint blendShapeNodeIndex then a.1.MakeEndPoint a.2 else a.1
      { graph := graph
        calls := st.calls ++
          [{ kind := MeshKind.blendShape, nodeIndex := nodeIndex,
             blendShapeNodeIndex := some blendShapeNodeIndex, meshGroupIndex := meshGroupIndex,
             meshData := blendShapeNode, baseMesh := mesh, hasBlendShapes := hasBlendShapes }] }

/-- Body of the loop over all children of a mesh (lines 339-352): a child that is of none of the
seven optimized types is added under the optimized mesh with the same content, its name and its
end-point mark. -/
def copyOtherChild (optimizedMeshNodeIndex : Option Nat) (graph : SceneGraph)
    (childNodeIndex : Nat) : SceneGraph :=
  match graph.nodes[childNodeIndex]? with
  | none => graph
  | some childNode =>
      if childNode.content.type = ObjectType.other then
        let optimizedName := graph.GetName childNodeIndex
        let a := graph.AddChild optimizedMeshNodeIndex optimizedName childNode.content
        if a.1.IsNodeEndPoint childNodeIndex then a.1.MakeEndPoint a.2 else a.1
      else graph

/-- The attribute inputs of a mesh (lines 256-266): the vectors made from the views of its
children. -/
structure MeshStreams where
  uvDatas : List IMeshVertexUVData
  tangentDatas : List IMeshVertexTangentData
  bitangentDatas : List IMeshVertexBitangentData
  skinWeightDatas : List ISkinWeightData
  colorDatas : List IMeshVertexColorData

/-- The part of the loop body over the mesh groups after the two skips (lines 286-352). -/
def optimizeSelectedMesh (mesh : IMeshData) (nodeIndex : Nat) (streams : MeshStreams)
    (meshGroupIndex : Nat) (meshGroup : IMeshGroup) (name : String) (st : PassState) :
    PassState :=
  let graph := st.graph
  let hasBlendShapes := HasAnyBlendShapeChild graph nodeIndex
  let r := OptimizeMesh MeshKind.mesh mesh mesh streams.uvDatas streams.tangentDatas
    streams.bitangentDatas streams.colorDatas streams.skinWeightDatas meshGroup hasBlendShapes
  let calls := st.calls ++
    [{ kind := MeshKind.mesh, nodeIndex := nodeIndex, blendShapeNodeIndex := none,
       meshGroupIndex := meshGroupIndex, meshData := mesh, baseMesh := mesh,
       hasBlendShapes := hasBlendShapes }]
  let a := graph.AddChild (graph.GetNodeParent nodeIndex) name
    (GraphObject.optimizedMesh r.nodes.optimizedMesh)
  let graph := a.1
  let optimizedMeshNodeIndex := a.2
  let graph := addOptimizedNodes optimizedMeshNodeIndex graph
    (graph.childNodesOfType nodeIndex ObjectType.IMeshVertexUVData)
    (r.nodes.optimizedUVs.map GraphObject.optimizedUV)
  let graph := addOptimizedNodes optimizedMeshNodeIndex graph
    (graph.childNodesOfType nodeIndex ObjectType.IMeshVertexTangentData)
    (r.nodes.optimizedTangents.map GraphObject.optimizedTangent)
  let graph := addOptimizedNodes optimizedMeshNodeIndex graph
    (graph.childNodesOfType nodeIndex ObjectType.IMeshVertexBitangentData)
    (r.nodes.optimizedBitangents.map GraphObject.optimizedBitangent)
  let graph := addOptimizedNodes optimizedMeshNodeIndex graph
    (graph.childNodesOfType nodeIndex ObjectType.IMeshVertexColorData)
    (r.nodes.optimizedVertexColors.map GraphObject.optimizedColor)
  let graph :=
    match r.optimizedSkinWeights with
    | some optimizedSkinWeights =>
        let s := graph.AddChild optimizedMeshNodeIndex "skinWeights"
          (GraphObject.optimizedSkin optimizedSkinWeights)
        s.1.MakeEndPoint s.2
    | none => graph
  let st := (graph.childNodesOfType nodeIndex ObjectType.IBlendShapeData).foldl
    (optimizeBlendShape mesh nodeIndex meshGroupIndex meshGroup hasBlendShapes
      optimizedMeshNodeIndex)
    { graph := graph, calls := calls }
  { st with
    graph := (st.graph.childNodes nodeIndex).foldl (copyOtherChild optimizedMeshNodeIndex)
      st.graph }

/-- Body of the loop over the mesh groups (lines 270-353); `entry` is a mesh group with its
position. The lookup `selectedNodes.at` of a mesh group without entry has no defined result: the
pass has none then. -/
def optimizeForMeshGroup (selectedNodes : List (Nat × List String)) (mesh : IMeshData)
    (nodeIndex : Nat) (streams : MeshStreams) (nodePath : String) (st : Option PassState)
    (entry : Nat × IMeshGroup) : Option PassState :=
  match st with
  | none => none
  | some st =>
      match selectedNodes.lookup entry.1 with
      | none => none
      | some selected =>
          if nodePath ∉ selected then some st
          else
            let name := (st.graph.GetName nodeIndex).append OptimizedMeshSuffix
            if (st.graph.Find name).isSome then some st
            else some (optimizeSelectedMesh mesh nodeIndex streams entry.1 entry.2 name st)

/-- Body of the loop over the meshes (lines 252-354). -/
def optimizeMeshNode (selectedNodes : List (Nat × List String)) (meshGroups : List IMeshGroup)
    (st : Option PassState) (entry : IMeshData × Nat) : Option PassState :=
  match st with
  | none => none
  | some st0 =>
      let graph := st0.graph
      let nodeIndex := entry.2
      let streams : MeshStreams :=
        { uvDatas := graph.childData nodeIndex GraphObject.asIMeshVertexUVData
          tangentDatas := graph.childData nodeIndex GraphObject.asIMeshVertexTangentData
          bitangentDatas := graph.childData nodeIndex GraphObject.asIMeshVertexBitangentData
          skinWeightDatas := graph.childData nodeIndex GraphObject.asISkinWeightData
          colorDatas := graph.childData nodeIndex GraphObject.asIMeshVertexColorData }
      let nodePath := graph.GetPath nodeIndex
      meshGroups.enum.foldl
        (optimizeForMeshGroup selectedNodes entry.1 nodeIndex streams nodePath) (some st0)

/-- What a completed pass leaves: the graph, the result returned and the calls of `OptimizeMesh`
it made. -/
structure PassResult where
  graph : SceneGraph
  result : ProcessingResult
  calls : List OptimizeMeshCall

/-- `MeshOptimizerComponent::OptimizeMeshes` (lines 186-357); `none` when a lookup in the map of
selected nodes fails. -/
def OptimizeMeshes (scene : Scene) : Option PassResult :=
  let graph := scene.graph
  let meshes := collectMeshes graph
  let meshGroups := scene.meshGroups
  let selectedNodes := buildSelectedNodes meshGroups
  match meshes.foldl (optimizeMeshNode selectedNodes meshGroups)
      (some { graph := graph, calls := [] }) with
  | none => none
  | some st =>
      some { graph := st.graph, result := ProcessingResult.Success, calls := st.calls }

/-! ## Vocabulary of the statements -/

/-- The vertex lookups of a sub-mesh in local order. -/
def subMeshLookups (subMesh : MeshBuilderSubMesh) : List MeshBuilderVertexLookup :=
  (List.range subMesh.GetNumVertices).map subMesh.GetVertex

/-- The value a layer stores for a vertex lookup. -/
def layerValue {α : Type} (layer : MeshBuilderVertexAttributeLayerT α)
    (l : MeshBuilderVertexLookup) : α :=
  layer.GetVertexValue l.mOrgVtx l.mDuplicateNr

/-- The face emitted for polygon `polygonIndex` of a sub-mesh under an index offset. -/
def offsetFace (subMesh : MeshBuilderSubMesh) (indexOffset polygonIndex : Nat) : Face :=
  ⟨indexOffset + subMesh.GetIndex (polygonIndex * 3 + 0),
   indexOffset + subMesh.GetIndex (polygonIndex * 3 + 1),
   indexOffset + subMesh.GetIndex (polygonIndex * 3 + 2)⟩

/-- Every local index of the sub-mesh is smaller than its vertex count. -/
def SubMeshIndicesInRange (subMesh : MeshBuilderSubMesh) : Prop :=
  ∀ i, i < subMesh.GetNumPolygons * 3 → subMesh.GetIndex i < subMesh.GetNumVertices

/-- Every vertex of the sub-mesh is used by a corner of one of its polygons. -/
def SubMeshVerticesUsed (subMesh : MeshBuilderSubMesh) : Prop :=
  ∀ v, v < subMesh.GetNumVertices → ∃ i, i < subMesh.GetNumPolygons * 3 ∧ subMesh.GetIndex i = v

/-- The local indices a sub-mesh uses in its polygons are in range, and every vertex of the
sub-mesh is used by one of its polygons. This is what the mesh builder guarantees for the
sub-meshes it produces: the compacted vertices the faces of a sub-mesh refer to are numbered
contiguously from 0 in the local vertex buffer of the sub-mesh. -/
def SubMeshIndicesExact (subMesh : MeshBuilderSubMesh) : Prop :=
  SubMeshIndicesInRange subMesh ∧ SubMeshVerticesUsed subMesh

/-- All vertex lookups of a list of sub-meshes: sub-meshes in index order, the vertices of each in
local order. -/
def allLookups (subMeshes : List MeshBuilderSubMesh) : List MeshBuilderVertexLookup :=
  subMeshes.flatMap subMeshLookups

/-- The faces of a list of sub-meshes when the faces of each sub-mesh are moved by the number of
vertices of the sub-meshes before it, starting from `indexOffset`. -/
def facesFrom : Nat → List MeshBuilderSubMesh → List Face
  | _, [] => []
  | indexOffset, s :: rest =>
      (List.range s.GetNumPolygons).map (offsetFace s indexOffset) ++
        facesFrom (indexOffset + s.GetNumVertices) rest

/-- The output buffers hold, at index `j`, the values the layers store for the vertex lookup `l`:
the position, the normal, and the entry of the node of every UV, tangent, bitangent and colour
layer. -/
def AlignedAt (layers : BuilderLayers) (out : OptimizedNodes) (j : Nat)
    (l : MeshBuilderVertexLookup) : Prop :=
  out.optimizedMesh.positions[j]? = some (layerValue layers.posLayer l) ∧
  out.optimizedMesh.normals[j]? = some (layerValue layers.normalsLayer l) ∧
  (∀ (i : Nat) (layer : MeshBuilderVertexAttributeLayerT Vector2),
    layers.uvLayers[i]? = some layer →
    ∃ node : List Vector2, out.optimizedUVs[i]? = some node ∧
      node[j]? = some (layerValue layer l)) ∧
  (∀ (i : Nat) (layer : MeshBuilderVertexAttributeLayerT Vector4),
    layers.tangentLayers[i]? = some layer →
    ∃ node : List Vector4, out.optimizedTangents[i]? = some node ∧
      node[j]? = some (layerValue layer l)) ∧
  (∀ (i : Nat) (layer : MeshBuilderVertexAttributeLayerT Vector3),
    layers.bitangentLayers[i]? = some layer →
    ∃ node : List Vector3, out.optimizedBitangents[i]? = some node ∧
      node[j]? = some (layerValue layer l)) ∧
  (∀ (i : Nat) (layer : MeshBuilderVertexAttributeLayerT Color),
    layers.vertexColorLayers[i]? = some layer →
    ∃ node : List Color, out.optimizedVertexColors[i]? = some node ∧
      node[j]? = some (layerValue layer l))

/-! ## Small inputs used to instantiate the statements -/

/-- Two sub-meshes as a builder produces them for two triangles of different materials that
share an edge: three vertices and one polygon each. -/
def exampleSubMeshes : List MeshBuilderSubMesh :=
  [ { GetNumVertices := 3, GetVertex := fun i => ⟨i, 0⟩, GetNumPolygons := 1,
      GetIndex := fun i => i, GetMaterialIndex := 0 },
    { GetNumVertices := 3, GetVertex := fun i => ⟨[0, 2, 3].getD i 0, 0⟩, GetNumPolygons := 1,
      GetIndex := fun i => i, GetMaterialIndex := 1 } ]

/-- Layers whose stored values are read off the original vertex number, with one UV layer and no
tangent, bitangent or colour layer. -/
def exampleLayers : BuilderLayers :=
  { orgVtxLayer := ⟨fun o _ => o⟩
    posLayer := ⟨fun o _ => ⟨o, 0, 0⟩⟩
    normalsLayer := ⟨fun _ _ => ⟨0, 0, 1⟩⟩
    uvLayers := [⟨fun o d => ⟨o, d⟩⟩]
    tangentLayers := []
    bitangentLayers := []
    vertexColorLayers := [] }

/-- The index is a corner of a face of the mesh: `vertexIndex` occurs in `GetFaceInfo(f)` for a
face `f` below the face count. -/
def IsCorner (meshData : IMeshData) (vertexIndex : Nat) : Prop :=
  ∃ f, f < meshData.GetFaceCount ∧ vertexIndex ∈ (meshData.GetFaceInfo f).vertexIndex

/-- Every duplicate slot of the builder stores the attribute tuple of a corner of the mesh, filed
under the original vertex of that corner, and every lookup held by the open polygon or by a
sub-mesh names a stored slot. -/
def SlotsFromCorners (meshData : IMeshData) (uvs : List IMeshVertexUVData)
    (tangents : List IMeshVertexTangentData) (bitangents : List IMeshVertexBitangentData)
    (vertexColors : List IMeshVertexColorData) (b : MeshBuilder) : Prop :=
  (∀ (org d : Nat) (a : VertexAttributes), (b.duplicates org)[d]? = some a →
    ∃ vi, IsCorner meshData vi ∧ cornerKey meshData vi = org ∧
      a = cornerAttributes meshData uvs tangents bitangents vertexColors vi) ∧
  (∀ l ∈ b.polygonVertices, l.mDuplicateNr < (b.duplicates l.mOrgVtx).length) ∧
  (∀ s ∈ b.subMeshes, ∀ l ∈ s.indices, l.mDuplicateNr < (b.duplicates l.mOrgVtx).length)

/-- Output vertex `j` carries the attribute tuple `a`: its position and normal, its original
vertex number in the back-reference map, and value `i` of every attribute kind in node `i` of
that kind. -/
def CarriesAttributes (out : OptimizedNodes) (j : Nat) (a : VertexAttributes) : Prop :=
  out.optimizedMesh.positions[j]? = some a.position ∧
  out.optimizedMesh.normals[j]? = some a.normal ∧
  out.optimizedMesh.vertexIndexToControlPointIndexMap j = some a.orgVtx ∧
  (∀ (i : Nat) (v : Vector2), a.uvs[i]? = some v →
    ∃ node : List Vector2, out.optimizedUVs[i]? = some node ∧ node[j]? = some v) ∧
  (∀ (i : Nat) (v : Vector4), a.tangents[i]? = some v →
    ∃ node : List Vector4, out.optimizedTangents[i]? = some node ∧ node[j]? = some v) ∧
  (∀ (i : Nat) (v : Vector3), a.bitangents[i]? = some v →
    ∃ node : List Vector3, out.optimizedBitangents[i]? = some node ∧ node[j]? = some v) ∧
  (∀ (i : Nat) (v : Color), a.colors[i]? = some v →
    ∃ node : List Color, out.optimizedVertexColors[i]? = some node ∧ node[j]? = some v)

/-- A quad of two triangles with a hard edge, in one material. The mesh has six vertices over the
control points 10, 11, 12, 13 (the control points 0 .. 9 belong to other meshes), which are its
used points 0 .. 3; the corners of the first triangle have the normal (0, 0, 1), those of the
second (0, 1, 0). -/
def exampleMesh : IMeshData :=
  { GetUsedControlPointCount := 4
    GetFaceCount := 2
    GetFaceInfo := fun f => if f = 0 then ⟨0, 1, 2⟩ else ⟨3, 4, 5⟩
    GetFaceMaterialId := fun _ => 0
    GetControlPointIndex := fun v => 10 + Int.ofNat ([0, 1, 2, 0, 2, 3].getD v 0)
    GetUsedPointIndexForControlPoint := fun c => c - 10
    GetPosition := fun v => ⟨Int.ofNat ([0, 1, 2, 0, 2, 3].getD v 0), 0, 0⟩
    GetNormal := fun v => if v < 3 then ⟨0, 0, 1⟩ else ⟨0, 1, 0⟩ }

/-- A mesh group without skin rule and without LOD rule that selects nothing. -/
def exampleMeshGroup : IMeshGroup := ⟨none, [], none⟩

/-- Skin weights that bind every vertex to bone 0 with weight 1. -/
def exampleSkin : ISkinWeightData :=
  { GetVertexCount := 6
    GetLinkCount := fun _ => 1
    GetLink := fun _ _ => ⟨0, 1⟩
    GetBoneName := fun _ => "root" }

/-- The weights of the links of every vertex of a skin-weight object. -/
def SkinWeightData.linkWeights (d : SkinWeightData) : List (List ℚ) :=
  d.links.map (fun l => l.map (fun link => link.weight))

/-- The weights of the influences of an original vertex in the skinning info. -/
def MeshBuilderSkinningInfo.weights (info : MeshBuilderSkinningInfo) (orgVtx : Nat) : List ℚ :=
  (info.influences orgVtx).map (fun i => i.mWeight)

/-- The skin-weight object `OptimizeMesh` returns for the example mesh with the example skin
weights: one entry for each of the four original vertices. -/
def exampleSkinWeights : SkinWeightData :=
  { links := [[⟨0, 1 / 2⟩, ⟨0, 1 / 2⟩], [⟨0, 1⟩], [⟨0, 1 / 2⟩, ⟨0, 1 / 2⟩], [⟨0, 1⟩]]
    boneNames := ["root"] }

/-- A scene with a root, the example mesh as node `Root.Cube` with a UV child, a blend-shape child
and a material child, and one mesh group that selects the mesh. -/
def exampleScene : Scene :=
  { graph :=
      { nodes :=
          [ { name := "Root", path := "Root", parent := none, content := GraphObject.other 0,
              isEndPoint := false },
            { name := "Cube", path := "Root.Cube", parent := some 0,
              content := GraphObject.meshData exampleMesh, isEndPoint := false },
            { name := "UV0", path := "Root.Cube.UV0", parent := some 1,
              content := GraphObject.uvData ⟨fun v => ⟨v, 0⟩⟩, isEndPoint := true },
            { name := "Smile", path := "Root.Cube.Smile", parent := some 1,
              content := GraphObject.blendShapeData exampleMesh, isEndPoint := true },
            { name := "Material", path := "Root.Cube.Material", parent := some 1,
              content := GraphObject.other 1, isEndPoint := true } ] }
    manifest :=
      [ ManifestObject.other,
        ManifestObject.meshGroup
          { skinRule := none, GetSceneNodeSelectionList := ["Root.Cube"], lodRule := none } ] }

/-- The graph `g` extends the graph `g0` the pass started from: the nodes of `g0` are unchanged,
and a node added later as a child of a node of `g0` is a mesh (`IMeshData`). -/
def ExtendsGraph (g0 g : SceneGraph) : Prop :=
  g0.nodes.length ≤ g.nodes.length ∧
  (∀ i, i < g0.nodes.length → g.nodes[i]? = g0.nodes[i]?) ∧
  (∀ (i : Nat) (n : GraphNode), g0.nodes.length ≤ i → g.nodes[i]? = some n →
    ∀ p, n.parent = some p → p < g0.nodes.length → n.content.type = ObjectType.IMeshData)

/-- A node index that is invalid or names a node added after the graph `g0`. -/
def IsNewNode (g0 : SceneGraph) (nodeIndex : Option Nat) : Prop :=
  ∀ k, nodeIndex = some k → g0.nodes.length ≤ k

/-- Every call made so far is for a mesh node of the graph `g0` the pass started from, with the
flag that `HasAnyBlendShapeChild` gives for this node in `g0`. -/
def CallsUseNodeFlag (g0 : SceneGraph) (calls : List OptimizeMeshCall) : Prop :=
  ∀ c ∈ calls, c.nodeIndex < g0.nodes.length ∧
    c.hasBlendShapes = HasAnyBlendShapeChild g0 c.nodeIndex

/-- The invariant of the pass over a state that may be missing. -/
def PassInvariant (g0 : SceneGraph) (st : Option PassState) : Prop :=
  ∀ s, st = some s → ExtendsGraph g0 s.graph ∧ CallsUseNodeFlag g0 s.calls

/-- The flag of the call `c` follows the blend shapes of its mesh node: it is true exactly when
the mesh node has a child in the graph that is a blend shape, and every call among `calls` for the
same mesh node (the base mesh and each of its blend shapes) carries the same flag. -/
def FlagFollowsBlendShapes (graph : SceneGraph) (calls : List OptimizeMeshCall)
    (c : OptimizeMeshCall) : Prop :=
  (c.hasBlendShapes = true ↔
    ∃ child, child < graph.nodes.length ∧ graph.GetNodeParent child = some c.nodeIndex ∧
      graph.typeOf child = ObjectType.IBlendShapeData) ∧
  (∀ c2 ∈ calls, c2.nodeIndex = c.nodeIndex → c2.hasBlendShapes = c.hasBlendShapes)

/-- A mesh group whose skin rule allows no weight per vertex. -/
def exampleMeshGroupNoWeights : IMeshGroup :=
  { skinRule := some ⟨0, 1 / 1000⟩, GetSceneNodeSelectionList := [], lodRule := none }

/-- The vertex index of corner `j` (0, 1 or 2) of face `f` of the mesh. -/
def cornerVertex (meshData : IMeshData) (f j : Nat) : Nat :=
  (meshData.GetFaceInfo f).vertexIndex.getD j 0

/-- What the builder holds for the faces `0 .. n-1` once they were added: every face has its
polygon in the sub-mesh of its material, the lookup of each corner is filed under the original
vertex of the corner and names a slot that stores the tuple of the corner; with duplicate
optimization no original vertex has two slots with equal tuples; and no two sub-meshes have the
same material. -/
def FacesPlaced (meshData baseMesh : IMeshData) (uvs : List IMeshVertexUVData)
    (tangents : List IMeshVertexTangentData) (bitangents : List IMeshVertexBitangentData)
    (vertexColors : List IMeshVertexColorData) (n : Nat) (b : MeshBuilder) : Prop :=
  (∀ f, f < n → ∃ (k : Nat) (s : SubMeshData) (p : Nat),
    b.subMeshes[k]? = some s ∧ s.materialIndex = baseMesh.GetFaceMaterialId f ∧
    p * 3 + 3 ≤ s.indices.length ∧
    ∀ j, j < 3 → ∃ l : MeshBuilderVertexLookup, s.indices[p * 3 + j]? = some l ∧
      l.mOrgVtx = cornerKey meshData (cornerVertex meshData f j) ∧
      (b.duplicates l.mOrgVtx)[l.mDuplicateNr]? =
        some (cornerAttributes meshData uvs tangents bitangents vertexColors
          (cornerVertex meshData f j))) ∧
  (b.optimizeDuplicates = true → ∀ org, (b.duplicates org).Nodup) ∧
  (∀ (k1 k2 : Nat) (s1 s2 : SubMeshData), b.subMeshes[k1]? = some s1 →
    b.subMeshes[k2]? = some s2 → s1.materialIndex = s2.materialIndex → k1 = k2) ∧
  (∀ s ∈ b.subMeshes, s.indices.length % 3 = 0)

/-- Output face `q` reproduces face `f` of the mesh: it has the material the base mesh gives
`f`, and its corner `j` is an output vertex that carries the attribute tuple of corner `j` of
`f`. -/
def ReproducesFace (out : OptimizedNodes) (meshData baseMesh : IMeshData)
    (uvs : List IMeshVertexUVData) (tangents : List IMeshVertexTangentData)
    (bitangents : List IMeshVertexBitangentData) (vertexColors : List IMeshVertexColorData)
    (f q : Nat) : Prop :=
  ∃ F : Face, out.optimizedMesh.faceList[q]? = some F ∧
    out.optimizedMesh.faceMaterialIds[q]? = some (baseMesh.GetFaceMaterialId f) ∧
    ∀ j, j < 3 → CarriesAttributes out (F.vertexIndex.getD j 0)
      (cornerAttributes meshData uvs tangents bitangents vertexColors (cornerVertex meshData f j))

/-- The output vertex at corner `j` of output face `q`. -/
def outputCorner (out : OptimizedNodes) (q j : Nat) : Nat :=
  (out.optimizedMesh.faceList.getD q default).vertexIndex.getD j 0

/-- The quad of two triangles again, now smooth (one normal everywhere) and with a material of
its own for each triangle: corner 0 of face 0 and corner 0 of face 1 are the same original vertex
with the same attribute tuple. -/
def exampleTwoMaterialMesh : IMeshData :=
  { GetUsedControlPointCount := 4
    GetFaceCount := 2
    GetFaceInfo := fun f => if f = 0 then ⟨0, 1, 2⟩ else ⟨3, 4, 5⟩
    GetFaceMaterialId := fun f => f
    GetControlPointIndex := fun v => 10 + Int.ofNat ([0, 1, 2, 0, 2, 3].getD v 0)
    GetUsedPointIndexForControlPoint := fun c => c - 10
    GetPosition := fun v => ⟨Int.ofNat ([0, 1, 2, 0, 2, 3].getD v 0), 0, 0⟩
    GetNormal := fun _ => ⟨0, 0, 1⟩ }

/-! ## Vocabulary of the statements on skinning -/

/-- The used-point index the gathering loop computes for a control point index (line 133). -/
def usedPointIndex (meshData : IMeshData) (controlPointIndex : Nat) : Int :=
  meshData.GetUsedPointIndexForControlPoint (meshData.GetControlPointIndex controlPointIndex)

/-- The influences one control point of a skin-weight source contributes, in the words of the
specification: none when the control point maps to no used point (negative used-point index),
otherwise one influence (used-point index, bone id, weight) per link, in link order. -/
def controlPointInfluences (meshData : IMeshData) (skinData : ISkinWeightData)
    (controlPointIndex : Nat) : List (Nat × Influence) :=
  if usedPointIndex meshData controlPointIndex < 0 then []
  else (List.range (skinData.GetLinkCount controlPointIndex)).map (fun linkIndex =>
    ((usedPointIndex meshData controlPointIndex).toNat,
      ⟨(skinData.GetLink controlPointIndex linkIndex).boneId.toNat,
        (skinData.GetLink controlPointIndex linkIndex).weight⟩))

/-- All influences in the order source, control point, link. -/
def influencesInOrder (meshData : IMeshData) (skinWeights : List ISkinWeightData) :
    List (Nat × Influence) :=
  skinWeights.flatMap (fun skinData =>
    (List.range skinData.GetVertexCount).flatMap (controlPointInfluences meshData skinData))

/-- Adding a list of influences to a skinning info, one `AddInfluence` each, in order. -/
def addInfluences (info : MeshBuilderSkinningInfo) (influences : List (Nat × Influence)) :
    MeshBuilderSkinningInfo :=
  influences.foldl (fun info c => info.AddInfluence c.1 c.2) info

/-- The link counts of the control points of a source that map to a used point. -/
def usedLinkCounts (meshData : IMeshData) (skinData : ISkinWeightData) : List Nat :=
  ((List.range skinData.GetVertexCount).filter
    (fun controlPointIndex => decide (0 ≤ usedPointIndex meshData controlPointIndex))).map
    skinData.GetLinkCount

/-- The bone name a skin-weight object has for a bone id: the entry of its bone names at that
position, nothing for a negative id or an id beyond the names. -/
def SkinWeightData.boneNameOf (d : SkinWeightData) (boneId : Int) : Option String :=
  if boneId < 0 then none else d.boneNames[boneId.toNat]?

/-- The bone names the links of every vertex resolve to in the skin-weight object itself. -/
def SkinWeightData.linkBoneNames (d : SkinWeightData) : List (List (Option String)) :=
  d.links.map (fun l => l.map (fun link => d.boneNameOf link.boneId))

/-- A skin-weight source for vertex 0 only, whose bone 0 is called `hip`. -/
def exampleSkinHip : ISkinWeightData :=
  { GetVertexCount := 1
    GetLinkCount := fun _ => 1
    GetLink := fun _ _ => ⟨0, 1⟩
    GetBoneName := fun _ => "hip" }

/-- A skin-weight source with links for vertex 1 only, whose bone 0 is called `arm`. -/
def exampleSkinArm : ISkinWeightData :=
  { GetVertexCount := 2
    GetLinkCount := fun controlPointIndex => if controlPointIndex = 1 then 1 else 0
    GetLink := fun _ _ => ⟨0, 1⟩
    GetBoneName := fun _ => "arm" }

/-! ## Vocabulary and inputs of the statements on the pass -/

/-- The assertion of line 444 (`AZ_Assert(orgVertexNumber >= 0, ...)`) taken over the whole mesh:
every corner of every face has a non-negative original vertex number. -/
def vertexNumbersAsserted (meshData : IMeshData) : Bool :=
  (List.range meshData.GetFaceCount).all (fun faceIndex =>
    (meshData.GetFaceInfo faceIndex).vertexIndex.all (fun vertexIndex =>
      decide (0 ≤ orgVertexNumber meshData vertexIndex)))

/-- The example mesh with control point 13 mapped to no used point: the last corner of the second
face has the original vertex number -1. -/
def exampleBrokenMesh : IMeshData :=
  { exampleMesh with
    GetUsedPointIndexForControlPoint := fun c => if c = 13 then -1 else c - 10 }

/-- A scene with the default root and one mesh `Cube` below it, selected by `meshGroups` mesh
groups. -/
def exampleRootScene (mesh : IMeshData) (meshGroups : Nat) : Scene :=
  { graph :=
      { nodes :=
          [ { name := "", path := "", parent := none, content := GraphObject.other 0,
              isEndPoint := false },
            { name := "Cube", path := "Cube", parent := some 0,
              content := GraphObject.meshData mesh, isEndPoint := false } ] }
    manifest := List.replicate meshGroups
      (ManifestObject.meshGroup
        { skinRule := none, GetSceneNodeSelectionList := ["Cube"], lodRule := none }) }

/-- The state of the pass over `exampleRootScene exampleMesh 2` when the mesh was optimized for
the first mesh group. -/
def exampleStateAfterFirstGroup : PassState :=
  optimizeSelectedMesh exampleMesh 1 ⟨[], [], [], [], []⟩ 0 ⟨none, ["Cube"], none⟩
    "Cube_optimized" ⟨(exampleRootScene exampleMesh 2).graph, []⟩

/-! ## Vocabulary of the statement on determinism -/

/-- Two meshes give `OptimizeMesh` the same values wherever it reads them: the counts, the faces
below the face count, the original vertex number, position and normal of every corner of a face,
and the used-point index of every control point index the gathering of the skin weights asks
for. -/
def SameMeshValues (skinWeights : List ISkinWeightData) (m1 m2 : IMeshData) : Prop :=
  m1.GetUsedControlPointCount = m2.GetUsedControlPointCount ∧
  m1.GetFaceCount = m2.GetFaceCount ∧
  (∀ f, f < m1.GetFaceCount → m1.GetFaceInfo f = m2.GetFaceInfo f) ∧
  (∀ v, IsCorner m1 v → orgVertexNumber m1 v = orgVertexNumber m2 v ∧
    m1.GetPosition v = m2.GetPosition v ∧ m1.GetNormal v = m2.GetNormal v) ∧
  (∀ skinData ∈ skinWeights, ∀ controlPointIndex, controlPointIndex < skinData.GetVertexCount →
    usedPointIndex m1 controlPointIndex = usedPointIndex m2 controlPointIndex)

/-- Two lists of attribute inputs of one kind have the same length and give, input by input, the
same value at every corner of the mesh. -/
def SameChannelValues {α β : Type} (meshData : IMeshData) (get : α → Nat → β)
    (channels1 channels2 : List α) : Prop :=
  List.Forall₂ (fun a b => ∀ v, IsCorner meshData v → get a v = get b v) channels1 channels2

/-- The example mesh with other positions and other control points outside its six vertices. -/
def exampleMeshPadded : IMeshData :=
  { exampleMesh with
    GetPosition := fun v => if v < 6 then exampleMesh.GetPosition v else ⟨7, 7, 7⟩
    GetControlPointIndex := fun v => if v < 6 then exampleMesh.GetControlPointIndex v else 99 }

/-! ## The calls `OptimizeMesh` makes on the builder (lines 436-474) -/

/-- A layer `OptimizeMesh` registers with the builder (lines 395-429): the original-vertex,
position and normal layers, and the layers of each attribute kind by position. -/
inductive LayerId where
  | orgVtx
  | position
  | normal
  | uv (i : Nat)
  | tangent (i : Nat)
  | bitangent (i : Nat)
  | color (i : Nat)
deriving DecidableEq, Repr

/-- A value given to `SetCurrentVertexValue`. -/
inductive LayerValue where
  | number (n : Int)
  | vector2 (v : Vector2)
  | vector3 (v : Vector3)
  | vector4 (v : Vector4)
  | color (c : Color)
deriving DecidableEq, Repr

/-- A call on the mesh builder or on one of its layers. -/
inductive BuilderCall where
  | BeginPolygon (materialId : Nat)
  | SetCurrentVertexValue (layer : LayerId) (value : LayerValue)
  | AddPolygonVertex (orgVtx : Nat)
  | EndPolygon
  | GenerateSubMeshVertexOrders
deriving DecidableEq, Repr

/-- `makeLayersForData` (lines 399-425): one layer per input of the view, in order. -/
def makeLayersForData {α : Type} (layerOf : Nat → LayerId) (dataView : List α) : List LayerId :=
  (List.range dataView.length).map layerOf

/-- A loop `for ([data, layer] : MakePairView(datas, layers))` that sets the current value of
every layer from its input (lines 451-466); the calls are added to those made so far. -/
def setCurrentValues {α : Type} (value : α → LayerValue) :
    List BuilderCall → List α → List LayerId → List BuilderCall
  | calls, data :: datas, layer :: layers =>
      setCurrentValues value (calls ++ [BuilderCall.SetCurrentVertexValue layer (value data)])
        datas layers
  | calls, [], _ => calls
  | calls, _ :: _, [] => calls

/-- The calls of the body of the loop over the corners of a face (lines 443-469). -/
def recordCorner (meshData : IMeshData) (uvs : List IMeshVertexUVData)
    (tangents : List IMeshVertexTangentData) (bitangents : List IMeshVertexBitangentData)
    (vertexColors : List IMeshVertexColorData) (calls : List BuilderCall) (vertexIndex : Nat) :
    List BuilderCall :=
  let calls := calls ++ [BuilderCall.SetCurrentVertexValue LayerId.orgVtx
    (LayerValue.number (orgVertexNumber meshData vertexIndex))]
  let calls := calls ++ [BuilderCall.SetCurrentVertexValue LayerId.position
    (LayerValue.vector3 (meshData.GetPosition vertexIndex))]
  let calls := calls ++ [BuilderCall.SetCurrentVertexValue LayerId.normal
    (LayerValue.vector3 (meshData.GetNormal vertexIndex))]
  let calls := setCurrentValues (fun uvData => LayerValue.vector2 (uvData.GetUV vertexIndex))
    calls uvs (makeLayersForData LayerId.uv uvs)
  let calls := setCurrentValues
    (fun tangentData => LayerValue.vector4 (tangentData.GetTangent vertexIndex))
    calls tangents (makeLayersForData LayerId.tangent tangents)
  let calls := setCurrentValues
    (fun bitangentData => LayerValue.vector3 (bitangentData.GetBitangent vertexIndex))
    calls bitangents (makeLayersForData LayerId.bitangent bitangents)
  let calls := setCurrentValues
    (fun vertexColorData => LayerValue.color (vertexColorData.GetColor vertexIndex))
    calls vertexColors (makeLayersForData LayerId.color vertexColors)
  calls ++ [BuilderCall.AddPolygonVertex (cornerKey meshData vertexIndex)]

/-- The calls of the body of the loop over the faces (lines 440-472). -/
def recordFace (meshData baseMesh : IMeshData) (uvs : List IMeshVertexUVData)
    (tangents : List IMeshVertexTangentData) (bitangents : List IMeshVertexBitangentData)
    (vertexColors : List IMeshVertexColorData) (calls : List BuilderCall) (faceIndex : Nat) :
    List BuilderCall :=
  let calls := calls ++ [BuilderCall.BeginPolygon (baseMesh.GetFaceMaterialId faceIndex)]
  let calls := (meshData.GetFaceInfo faceIndex).vertexIndex.foldl
    (recordCorner meshData uvs tangents bitangents vertexColors) calls
  calls ++ [BuilderCall.EndPolygon]

/-- The polygon calls of `OptimizeMesh` (lines 436-474), in the order they are made: the loop over
the faces, then `GenerateSubMeshVertexOrders`. -/
def builderCalls (meshData baseMesh : IMeshData) (uvs : List IMeshVertexUVData)
    (tangents : List IMeshVertexTangentData) (bitangents : List IMeshVertexBitangentData)
    (vertexColors : List IMeshVertexColorData) : List BuilderCall :=
  let faceCount := meshData.GetFaceCount
  let calls := (List.range faceCount).foldl
    (recordFace meshData baseMesh uvs tangents bitangents vertexColors) []
  calls ++ [BuilderCall.GenerateSubMeshVertexOrders]

/-- The layers registered with the builder, in registration order (lines 395-429). -/
def registeredLayers (uvCount tangentCount bitangentCount colorCount : Nat) : List LayerId :=
  [LayerId.orgVtx, LayerId.position, LayerId.normal] ++
    (List.range uvCount).map LayerId.uv ++ (List.range tangentCount).map LayerId.tangent ++
    (List.range bitangentCount).map LayerId.bitangent ++
    (List.range colorCount).map LayerId.color

/-- The value a layer receives for a corner of the mesh. -/
def cornerValue (meshData : IMeshData) (uvs : List IMeshVertexUVData)
    (tangents : List IMeshVertexTangentData) (bitangents : List IMeshVertexBitangentData)
    (vertexColors : List IMeshVertexColorData) (vertexIndex : Nat) : LayerId → LayerValue
  | LayerId.orgVtx => LayerValue.number (orgVertexNumber meshData vertexIndex)
  | LayerId.position => LayerValue.vector3 (meshData.GetPosition vertexIndex)
  | LayerId.normal => LayerValue.vector3 (meshData.GetNormal vertexIndex)
  | LayerId.uv i =>
      match uvs[i]? with
      | some uvData => LayerValue.vector2 (uvData.GetUV vertexIndex)
      | none => LayerValue.number 0
  | LayerId.tangent i =>
      match tangents[i]? with
      | some tangentData => LayerValue.vector4 (tangentData.GetTangent vertexIndex)
      | none => LayerValue.number 0
  | LayerId.bitangent i =>
      match bitangents[i]? with
      | some bitangentData => LayerValue.vector3 (bitangentData.GetBitangent vertexIndex)
      | none => LayerValue.number 0
  | LayerId.color i =>
      match vertexColors[i]? with
      | some vertexColorData => LayerValue.color (vertexColorData.GetColor vertexIndex)
      | none => LayerValue.number 0

/-- The calls for one corner, in the words of the specification: one `SetCurrentVertexValue` for
every registered layer, then `AddPolygonVertex`. -/
def cornerGroup (meshData : IMeshData) (uvs : List IMeshVertexUVData)
    (tangents : List IMeshVertexTangentData) (bitangents : List IMeshVertexBitangentData)
    (vertexColors : List IMeshVertexColorData) (vertexIndex : Nat) : List BuilderCall :=
  (registeredLayers uvs.length tangents.length bitangents.length vertexColors.length).map
    (fun layer => BuilderCall.SetCurrentVertexValue layer
      (cornerValue meshData uvs tangents bitangents vertexColors vertexIndex layer)) ++
  [BuilderCall.AddPolygonVertex (cornerKey meshData vertexIndex)]

/-- The calls for one face, in the words of the specification: one `BeginPolygon`, the calls of
its three corners, one `EndPolygon`. -/
def polygonGroup (meshData baseMesh : IMeshData) (uvs : List IMeshVertexUVData)
    (tangents : List IMeshVertexTangentData) (bitangents : List IMeshVertexBitangentData)
    (vertexColors : List IMeshVertexColorData) (faceIndex : Nat) : List BuilderCall :=
  [BuilderCall.BeginPolygon (baseMesh.GetFaceMaterialId faceIndex)] ++
    cornerGroup meshData uvs tangents bitangents vertexColors (cornerVertex meshData faceIndex 0) ++
    cornerGroup meshData uvs tangents bitangents vertexColors (cornerVertex meshData faceIndex 1) ++
    cornerGroup meshData uvs tangents bitangents vertexColors (cornerVertex meshData faceIndex 2) ++
    [BuilderCall.EndPolygon]

/-- What the protocol of the builder keeps track of: whether a polygon is open, the corners added
to it, the layers set since the last corner, the polygons ended, and whether the vertex orders
were generated. -/
structure ProtocolState where
  polygonOpen : Bool
  corners : Nat
  valuesSet : List LayerId
  polygons : Nat
  generated : Bool
deriving DecidableEq, Repr

/-- No call made yet. -/
def ProtocolState.initial : ProtocolState :=
  { polygonOpen := false, corners := 0, valuesSet := [], polygons := 0, generated := false }

/-- One call under the protocol: a polygon is begun only when none is open, values are set and
corners added only inside a polygon, a corner is added only when every registered layer was set
exactly once since the last corner, a polygon is ended only with three corners and no value
pending, and the vertex orders are generated once, with no polygon open. -/
def ProtocolState.step (registered : List LayerId) (s : ProtocolState) :
    BuilderCall → Option ProtocolState
  | BuilderCall.BeginPolygon _ =>
      if s.polygonOpen = false ∧ s.generated = false then
        some { s with polygonOpen := true, corners := 0, valuesSet := [] }
      else none
  | BuilderCall.SetCurrentVertexValue layer _ =>
      if s.polygonOpen = true ∧ layer ∈ registered then
        some { s with valuesSet := s.valuesSet ++ [layer] }
      else none
  | BuilderCall.AddPolygonVertex _ =>
      if s.polygonOpen = true ∧ (∀ layer ∈ registered, s.valuesSet.count layer = 1) then
        some { s with corners := s.corners + 1, valuesSet := [] }
      else none
  | BuilderCall.EndPolygon =>
      if s.polygonOpen = true ∧ s.corners = 3 ∧ s.valuesSet = [] then
        some { s with polygonOpen := false, corners := 0, polygons := s.polygons + 1 }
      else none
  | BuilderCall.GenerateSubMeshVertexOrders =>
      if s.polygonOpen = false ∧ s.generated = false then some { s with generated := true }
      else none

/-- A sequence of calls under the protocol; `none` when a call is out of order. -/
def ProtocolState.run (registered : List LayerId) :
    ProtocolState → List BuilderCall → Option ProtocolState
  | s, [] => some s
  | s, call :: calls =>
      match s.step registered call with
      | none => none
      | some s' => ProtocolState.run registered s' calls

/-- The attribute tuple held by the current values of the layers, read layer by layer. -/
def currentAttributes (uvCount tangentCount bitangentCount colorCount : Nat)
    (current : LayerId → LayerValue) : VertexAttributes :=
  { orgVtx := match current LayerId.orgVtx with
      | LayerValue.number n => n
      | _ => 0
    position := match current LayerId.position with
      | LayerValue.vector3 v => v
      | _ => default
    normal := match current LayerId.normal with
      | LayerValue.vector3 v => v
      | _ => default
    uvs := (List.range uvCount).map (fun i => match current (LayerId.uv i) with
      | LayerValue.vector2 v => v
      | _ => default)
    tangents := (List.range tangentCount).map (fun i => match current (LayerId.tangent i) with
      | LayerValue.vector4 v => v
      | _ => default)
    bitangents := (List.range bitangentCount).map
      (fun i => match current (LayerId.bitangent i) with
        | LayerValue.vector3 v => v
        | _ => default)
    colors := (List.range colorCount).map (fun i => match current (LayerId.color i) with
      | LayerValue.color c => c
      | _ => default) }

/-- One recorded call carried out on the builder and the current values of its layers. -/
def replayCall (uvCount tangentCount bitangentCount colorCount : Nat)
    (st : MeshBuilder × (LayerId → LayerValue)) :
    BuilderCall → MeshBuilder × (LayerId → LayerValue)
  | BuilderCall.BeginPolygon materialId => (st.1.BeginPolygon materialId, st.2)
  | BuilderCall.SetCurrentVertexValue layer value =>
      (st.1, fun l => if l = layer then value else st.2 l)
  | BuilderCall.AddPolygonVertex orgVtx =>
      (st.1.AddPolygonVertex orgVtx
        (currentAttributes uvCount tangentCount bitangentCount colorCount st.2), st.2)
  | BuilderCall.EndPolygon => (st.1.EndPolygon, st.2)
  | BuilderCall.GenerateSubMeshVertexOrders => (st.1.GenerateSubMeshVertexOrders, st.2)

/-! ## Vocabulary of the statement on blend-shape nodes -/

/-- The names and end-point marks of the blend-shape children of a node, in order. -/
def blendShapeChildren (graph : SceneGraph) (nodeIndex : Nat) : List (String × Bool) :=
  (graph.childNodesOfType nodeIndex ObjectType.IBlendShapeData).map
    (fun i => (graph.GetName i, graph.IsNodeEndPoint i))

/-- Every parent index of the graph names a node of the graph. -/
def SceneGraph.ParentsInRange (graph : SceneGraph) : Prop :=
  ∀ (i : Nat) (node : GraphNode), graph.nodes[i]? = some node →
    ∀ p, node.parent = some p → p < graph.nodes.length

/-- Node `m` of the graph `g` is an optimized mesh made by the pass for the mesh node `nodeIndex`
of the graph `g0` the pass started from: it was added by the pass, as a mesh, next to the mesh
node (under the same parent), with the name of the mesh node followed by the suffix. -/
def IsOptimizedMeshOf (g0 g : SceneGraph) (nodeIndex m : Nat) : Prop :=
  g0.nodes.length ≤ m ∧ m < g.nodes.length ∧
  g.GetName m = (g0.GetName nodeIndex).append OptimizedMeshSuffix ∧
  g.GetNodeParent m = g0.GetNodeParent nodeIndex ∧
  g.typeOf m = ObjectType.IMeshData

/-- The mesh node `nodeIndex` has an optimized mesh in `g` whose blend-shape children mirror the
blend-shape children of the mesh node: as many, in the same order, each with the name and the
end-point mark of its original. -/
def BlendShapesMirrored (g0 g : SceneGraph) (nodeIndex : Nat) : Prop :=
  ∃ m, IsOptimizedMeshOf g0 g nodeIndex m ∧
    blendShapeChildren g m = blendShapeChildren g0 nodeIndex

/-- The node is a child of `m` that is a blend shape. -/
def GraphNode.isBlendShapeChildOf (node : GraphNode) (m : Nat) : Bool :=
  decide (node.content.type = ObjectType.IBlendShapeData) && decide (node.parent = some m)

/-- What the pass maintains besides `PassInvariant`: the parents of the graph stay in range, and
every optimization of a mesh node that has a parent has left an optimized mesh whose blend
shapes mirror the blend-shape children of the mesh node. -/
def MirrorInvariant (g0 : SceneGraph) (st : Option PassState) : Prop :=
  ∀ s, st = some s → s.graph.ParentsInRange ∧
    ∀ c ∈ s.calls, c.kind = MeshKind.mesh → (g0.GetNodeParent c.nodeIndex).isSome = true →
      BlendShapesMirrored g0 s.graph c.nodeIndex

/-! ## Vocabulary of the statement on blend shapes -/

/-- The (material id, original vertex number) pairs a sequence of builder calls gives to the
builder: every `AddPolygonVertex` gives its original vertex number under the material of the
polygon begun last (`materialId` before the first polygon). -/
def submittedPairs : Nat → List BuilderCall → List (Nat × Nat)
  | _, [] => []
  | _, BuilderCall.BeginPolygon materialId :: calls => submittedPairs materialId calls
  | materialId, BuilderCall.AddPolygonVertex orgVtx :: calls =>
      (materialId, orgVtx) :: submittedPairs materialId calls
  | materialId, BuilderCall.SetCurrentVertexValue _ _ :: calls => submittedPairs materialId calls
  | materialId, BuilderCall.EndPolygon :: calls => submittedPairs materialId calls
  | materialId, BuilderCall.GenerateSubMeshVertexOrders :: calls =>
      submittedPairs materialId calls

/-- The calls of one corner when no attribute channel is given, as in the call of line 320. -/
def blendShapeCornerCalls (meshData : IMeshData) (vertexIndex : Nat) : List BuilderCall :=
  [BuilderCall.SetCurrentVertexValue LayerId.orgVtx
      (LayerValue.number (orgVertexNumber meshData vertexIndex)),
    BuilderCall.SetCurrentVertexValue LayerId.position
      (LayerValue.vector3 (meshData.GetPosition vertexIndex)),
    BuilderCall.SetCurrentVertexValue LayerId.normal
      (LayerValue.vector3 (meshData.GetNormal vertexIndex)),
    BuilderCall.AddPolygonVertex (cornerKey meshData vertexIndex)]

/-- The pairs of the three corners of a face: the material of the face in the base mesh with the
original vertex number of each corner in the mesh that is optimized. -/
def facePairs (meshData baseMesh : IMeshData) (faceIndex : Nat) : List (Nat × Nat) :=
  [(baseMesh.GetFaceMaterialId faceIndex, cornerKey meshData (cornerVertex meshData faceIndex 0)),
    (baseMesh.GetFaceMaterialId faceIndex, cornerKey meshData (cornerVertex meshData faceIndex 1)),
    (baseMesh.GetFaceMaterialId faceIndex, cornerKey meshData (cornerVertex meshData faceIndex 2))]

/-- A blend shape of the example mesh: the same faces and the same control points, other
positions and normals, and a face material of its own that `OptimizeMesh` never reads. -/
def exampleBlendShape : IMeshData :=
  { exampleMesh with
    GetFaceMaterialId := fun _ => 7
    GetPosition := fun v => ⟨Int.ofNat ([0, 1, 2, 0, 2, 3].getD v 0), 5, 0⟩
    GetNormal := fun _ => ⟨1, 0, 0⟩ }

/-- A blend shape with the faces of the example mesh whose corners are numbered the other way
round: corner `v` has the control point `13 - c` where the example mesh has `10 + c`. -/
def exampleBlendShapeRenumbered : IMeshData :=
  { exampleMesh with
    GetControlPointIndex := fun v => 13 - Int.ofNat ([0, 1, 2, 0, 2, 3].getD v 0) }

/-- A mesh group that selects no node: its selection list is empty and so is the selection list
of each of the two LODs of its LOD rule. -/
def exampleMeshGroupEmpty : IMeshGroup := ⟨none, [], some [[], []]⟩

/-- The scene with the mesh `Cube` under the root and the mesh group that selects no node. -/
def exampleSceneEmptyGroup : Scene :=
  { graph := (exampleRootScene exampleMesh 0).graph
    manifest := [ManifestObject.meshGroup exampleMeshGroupEmpty] }

end MeshOptimizer

namespace ScriptCanvas

/-! ## The ordered sequencer node (`OrderedSequencer.cpp`)

The node class `Node` and its slots are declared outside the sources; of them the embedding
keeps what the functions of the ordered sequencer use: a node has a list of slots, a slot has an
id, a name and a descriptor, and the lookups return the first slot that matches. -/

/-- `SlotId`, the identifier of a slot. -/
abbrev SlotId := Nat

/-- `ConnectionType` of a slot. -/
inductive ConnectionType where
  | Unknown
  | Input
  | Output
deriving DecidableEq, Repr

/-- `SlotTypeDescriptor` of a slot. -/
inductive SlotTypeDescriptor where
  | Unknown
  | Execution
  | Data
deriving DecidableEq, Repr

/-- `SlotDescriptor`: the connection type and the type of a slot. -/
structure SlotDescriptor where
  m_connectionType : ConnectionType
  m_slotType : SlotTypeDescriptor
deriving DecidableEq, Repr

/-- `SlotDescriptors::ExecutionOut()`. -/
def SlotDescriptors.ExecutionOut : SlotDescriptor :=
  ⟨ConnectionType.Output, SlotTypeDescriptor.Execution⟩

/-- `SlotDescriptors::ExecutionIn()`. -/
def SlotDescriptors.ExecutionIn : SlotDescriptor :=
  ⟨ConnectionType.Input, SlotTypeDescriptor.Execution⟩

/-- `SlotDescriptors::DataIn()`. -/
def SlotDescriptors.DataIn : SlotDescriptor :=
  ⟨ConnectionType.Input, SlotTypeDescriptor.Data⟩

/-- `SlotDescriptors::DataOut()`. -/
def SlotDescriptors.DataOut : SlotDescriptor :=
  ⟨ConnectionType.Output, SlotTypeDescriptor.Data⟩

/-- `CombinedSlotType`. -/
inductive CombinedSlotType where
  | None
  | ExecutionIn
  | ExecutionOut
  | DataIn
  | DataOut
deriving DecidableEq, Repr

/-- A slot of a node: its id, its name and its descriptor. -/
structure Slot where
  m_id : SlotId
  m_name : String
  m_descriptor : SlotDescriptor
deriving DecidableEq, Repr

/-- `Slot::IsExecution`. -/
def Slot.IsExecution (slot : Slot) : Bool :=
  decide (slot.m_descriptor.m_slotType = SlotTypeDescriptor.Execution)

/-- `Slot::IsOutput`. -/
def Slot.IsOutput (slot : Slot) : Bool :=
  decide (slot.m_descriptor.m_connectionType = ConnectionType.Output)

/-- `Slot::GetType`: the combined type of the descriptor of the slot. -/
def Slot.GetType (slot : Slot) : CombinedSlotType :=
  match slot.m_descriptor.m_slotType, slot.m_descriptor.m_connectionType with
  | SlotTypeDescriptor.Execution, ConnectionType.Input => CombinedSlotType.ExecutionIn
  | SlotTypeDescriptor.Execution, ConnectionType.Output => CombinedSlotType.ExecutionOut
  | SlotTypeDescriptor.Data, ConnectionType.Input => CombinedSlotType.DataIn
  | SlotTypeDescriptor.Data, ConnectionType.Output => CombinedSlotType.DataOut
  | _, _ => CombinedSlotType.None

/-- `Slot::Rename`. -/
def Slot.Rename (slot : Slot) (name : String) : Slot := { slot with m_name := name }

/-- The ordered sequencer: the slots of its `Node` base, in order, and its number of outputs, a
C++ `int`. -/
structure OrderedSequencer where
  m_slots : List Slot
  m_numOutputs : Int
deriving DecidableEq, Repr

/-- The constructor (lines 18-22): no output counted yet; the slots are those of the node. -/
def OrderedSequencer.create (slots : List Slot) : OrderedSequencer :=
  { m_slots := slots, m_numOutputs := 0 }

/-- `Node::GetSlot`: the slot with the id, if the node has one. -/
def OrderedSequencer.GetSlot (node : OrderedSequencer) (slotId : SlotId) : Option Slot :=
  node.m_slots.find? (fun slot => decide (slot.m_id = slotId))

/-- `Node::GetSlotId`: the id of the slot with the name; `none` stands for the invalid id, which
names no slot. -/
def OrderedSequencer.GetSlotId (node : OrderedSequencer) (slotName : String) : Option SlotId :=
  (node.m_slots.find? (fun slot => decide (slot.m_name = slotName))).map Slot.m_id

/-- `Node::GetAllSlotsByDescriptor`: the slots with the descriptor, in order. -/
def OrderedSequencer.GetAllSlotsByDescriptor (node : OrderedSequencer)
    (descriptor : SlotDescriptor) : List Slot :=
  node.m_slots.filter (fun slot => decide (slot.m_descriptor = descriptor))

/-- `Node::GetSlotsByType`: the slots of the combined type, in order. -/
def OrderedSequencer.GetSlotsByType (node : OrderedSequencer) (slotType : CombinedSlotType) :
    List Slot :=
  node.m_slots.filter (fun slot => decide (slot.GetType = slotType))

/-- `static_cast<int>` of a size: the value modulo 2^32, read as a signed 32-bit number. -/
def castToInt (size : Nat) : Int := ((size : Int) + 2 ^ 31) % 2 ^ 32 - 2 ^ 31

/-- `OrderedSequencer::GenerateOutputName` (lines 105-109): the format `"Out %i"`. -/
def OrderedSequencer.GenerateOutputName (counter : Int) : String := "Out " ++ toString counter

/-- The effect of `slot->Rename(name)` on the node, `slot` being what `GetSlot(slotId)` points
to: the first slot with the id carries the new name. -/
def renameSlot : List Slot → SlotId → String → List Slot
  | [], _, _ => []
  | slot :: slots, slotId, name =>
      if slot.m_id = slotId then slot.Rename name :: slots
      else slot :: renameSlot slots slotId name

/-- Body of the loop of `GetSlotsInExecutionThreadByTypeImpl` (lines 37-40). -/
def addOrderedOutputSlot (node : OrderedSequencer) (orderedOutputSlots : List Slot) (i : Nat) :
    List Slot :=
  match (node.GetSlotId (OrderedSequencer.GenerateOutputName (Int.ofNat i))).bind
      node.GetSlot with
  | some slot => orderedOutputSlots ++ [slot]
  | none => orderedOutputSlots

/-- `OrderedSequencer::GetSlotsInExecutionThreadByTypeImpl` (lines 29-48); neither the slot nor
the execution child slot is read. -/
def OrderedSequencer.GetSlotsInExecutionThreadByTypeImpl (node : OrderedSequencer)
    (_executionSlot : Slot) (targetSlotType : CombinedSlotType)
    (_executionChildSlot : Option Slot) : Except String (List Slot) :=
  if targetSlotType = CombinedSlotType.ExecutionOut then
    let orderedOutputSlots :=
      (List.range node.m_numOutputs.toNat).foldl (addOrderedOutputSlot node) []
    Except.ok orderedOutputSlots
  else Except.ok (node.GetSlotsByType targetSlotType)

/-- `OrderedSequencer::OnInit` (lines 50-53). -/
def OrderedSequencer.OnInit (node : OrderedSequencer) : OrderedSequencer :=
  { node with
    m_numOutputs := castToInt (node.GetAllSlotsByDescriptor SlotDescriptors.ExecutionOut).length }

/-- `OrderedSequencer::CanDeleteSlot` (lines 75-86). -/
def OrderedSequencer.CanDeleteSlot (node : OrderedSequencer) (slotId : SlotId) : Bool :=
  match node.GetSlot slotId with
  | some slot =>
      if slot.IsExecution && slot.IsOutput then decide (node.m_numOutputs > 1) else false
  | none => false

/-- Body of the loop of `FixupStateNames` (lines 118-123): `outputSlots` holds the slots found
before the loop. -/
def fixupStateName (outputSlots : List Slot) (node : OrderedSequencer) (i : Nat) :
    OrderedSequencer :=
  match outputSlots[i]? with
  | none => node
  | some outputSlot =>
      match node.GetSlot outputSlot.m_id with
      | some slot =>
          { node with
            m_slots := renameSlot node.m_slots slot.m_id
              (OrderedSequencer.GenerateOutputName (Int.ofNat i)) }
      | none => node

/-- `OrderedSequencer::FixupStateNames` (lines 111-125). -/
def OrderedSequencer.FixupStateNames (node : OrderedSequencer) : OrderedSequencer :=
  let outputSlots := node.GetAllSlotsByDescriptor SlotDescriptors.ExecutionOut
  let node := { node with m_numOutputs := castToInt outputSlots.length }
  (List.range outputSlots.length).foldl (fixupStateName outputSlots) node

/-- `OrderedSequencer::OnConfigured` (lines 55-58). -/
def OrderedSequencer.OnConfigured (node : OrderedSequencer) : OrderedSequencer :=
  node.FixupStateNames

/-- `OrderedSequencer::OnSlotRemoved` (lines 100-103); the id of the removed slot is not read. -/
def OrderedSequencer.OnSlotRemoved (node : OrderedSequencer) (_slotId : SlotId) :
    OrderedSequencer :=
  node.FixupStateNames

/-- The removal of a slot by the node base class: the slot with the id leaves the node, then the
node is told by `OnSlotRemoved`. -/
def OrderedSequencer.removeSlot (node : OrderedSequencer) (slotId : SlotId) : OrderedSequencer :=
  OrderedSequencer.OnSlotRemoved
    { node with m_slots := node.m_slots.filter (fun slot => decide (slot.m_id ≠ slotId)) } slotId

/-! ### Vocabulary of the statements on the ordered sequencer -/

/-- The slot ids of the node are pairwise different. -/
def OrderedSequencer.SlotIdsDistinct (node : OrderedSequencer) : Prop :=
  (node.m_slots.map Slot.m_id).Nodup

/-- The execution-out slots of the node, in order. -/
def OrderedSequencer.outputSlots (node : OrderedSequencer) : List Slot :=
  node.GetAllSlotsByDescriptor SlotDescriptors.ExecutionOut

/-- The execution-out slots are named `Out 0`, `Out 1`, ... in order. -/
def OrderedSequencer.OutputsNamedInOrder (node : OrderedSequencer) : Prop :=
  node.outputSlots.map Slot.m_name =
    (List.range node.outputSlots.length).map
      (fun i => OrderedSequencer.GenerateOutputName (Int.ofNat i))

/-- No slot other than an execution-out slot carries the name of one of the outputs. -/
def OrderedSequencer.OutputNamesReserved (node : OrderedSequencer) : Prop :=
  ∀ slot ∈ node.m_slots, slot.m_descriptor ≠ SlotDescriptors.ExecutionOut →
    ∀ i, i < node.outputSlots.length →
      slot.m_name ≠ OrderedSequencer.GenerateOutputName (Int.ofNat i)

/-- A sequencer with the input slot `In` and three outputs. -/
def exampleSequencer : OrderedSequencer :=
  { m_slots :=
      [⟨100, "In", SlotDescriptors.ExecutionIn⟩, ⟨7, "Out 0", SlotDescriptors.ExecutionOut⟩,
        ⟨3, "Out 1", SlotDescriptors.ExecutionOut⟩, ⟨9, "Out 2", SlotDescriptors.ExecutionOut⟩]
    m_numOutputs := 3 }

/-- A sequencer whose second output was removed: the outputs `Out 0` and `Out 2` remain and the
count is still 3. -/
def exampleSequencerGap : OrderedSequencer :=
  { m_slots :=
      [⟨100, "In", SlotDescriptors.ExecutionIn⟩, ⟨7, "Out 0", SlotDescriptors.ExecutionOut⟩,
        ⟨9, "Out 2", SlotDescriptors.ExecutionOut⟩]
    m_numOutputs := 3 }

end ScriptCanvas

namespace LyShine

/-! ## Editor-only entities of the UI system component (`LyShineSystemComponent.cpp`)

Entities and the `UiElementComponent` are declared outside the sources; the embedding keeps what
the two functions read: an entity has an id and may have a `UiElementComponent`, which lists its
child elements; for every child the component gives the entity id (`GetChildEntityId`) and the
entity itself (`GetChildElement`). An `AZ::Entity*` is the place of the entity in the list of all
entities. -/

/-- `AZ::EntityId`. -/
abbrev EntityId := Nat

/-- `AZ::Entity*`: the place of the entity among the entities. -/
abbrev EntityPtr := Nat

/-- One child of a `UiElementComponent`: what `GetChildEntityId` and `GetChildElement` give for
its index. -/
structure ChildElement where
  entityId : EntityId
  element : EntityPtr
deriving DecidableEq, Repr

/-- `UiElementComponent`: the child elements, in order. -/
structure UiElementComponent where
  m_children : List ChildElement
deriving DecidableEq, Repr

/-- `UiElementComponent::GetNumChildElements`. -/
def UiElementComponent.GetNumChildElements (c : UiElementComponent) : Nat := c.m_children.length

/-- `UiElementComponent::GetChildElement`; `none` outside the range of the children. -/
def UiElementComponent.GetChildElement (c : UiElementComponent) (index : Nat) :
    Option EntityPtr :=
  (c.m_children[index]?).map ChildElement.element

/-- `UiElementComponent::GetChildEntityId`; `none` outside the range of the children. -/
def UiElementComponent.GetChildEntityId (c : UiElementComponent) (index : Nat) :
    Option EntityId :=
  (c.m_children[index]?).map ChildElement.entityId

/-- `UiElementComponent::RemoveChild(AZ::EntityId)`: the first child with the id leaves the
list. -/
def UiElementComponent.RemoveChild (c : UiElementComponent) (child : EntityId) :
    UiElementComponent :=
  { m_children := c.m_children.eraseP (fun e => decide (e.entityId = child)) }

/-- `AZ::Entity`: its id and the result of `FindComponent<UiElementComponent>()`. -/
structure Entity where
  m_id : EntityId
  uiElement : Option UiElementComponent
deriving DecidableEq, Repr

/-- `LyShineSystemComponent::HasUiElementComponent` (lines 294-297). -/
def HasUiElementComponent (entity : Entity) : Bool := entity.uiElement.isSome

/-- The loop of lines 316-319: the child elements are pushed on the vector in order. -/
def pushChildElements (elementComponent : UiElementComponent)
    (childEntities : List EntityPtr) : List EntityPtr :=
  (List.range elementComponent.GetNumChildElements).foldl
    (fun childEntities i =>
      match elementComponent.GetChildElement i with
      | some child => childEntities ++ [child]
      | none => childEntities)
    childEntities

/-- The loop of `AddEditorOnlyEntity` (lines 306-321), run for at most `fuel` rounds: the last
entity of the vector is taken off, its id is inserted, its child elements are pushed. The result
is `none` when the rounds do not suffice or when a pointer names no entity. -/
def addEditorOnlyLoop (entities : List Entity) :
    Nat → List EntityPtr → Finset EntityId → Option (Finset EntityId)
  | 0, childEntities, editorOnlyEntities =>
      if childEntities = [] then some editorOnlyEntities else none
  | fuel + 1, childEntities, editorOnlyEntities =>
      match childEntities.getLast? with
      | none => some editorOnlyEntities
      | some parentEntity =>
          let childEntities := childEntities.dropLast
          match entities[parentEntity]? with
          | none => none
          | some parent =>
              let editorOnlyEntities := insert parent.m_id editorOnlyEntities
              match parent.uiElement with
              | some elementComponent =>
                  addEditorOnlyLoop entities fuel
                    (pushChildElements elementComponent childEntities) editorOnlyEntities
              | none => addEditorOnlyLoop entities fuel childEntities editorOnlyEntities

/-- `LyShineSystemComponent::AddEditorOnlyEntity` (lines 300-322), with the rounds its loop may
take. -/
def AddEditorOnlyEntity (entities : List Entity) (fuel : Nat) (editorOnlyEntity : EntityPtr)
    (editorOnlyEntities : Finset EntityId) : Option (Finset EntityId) :=
  addEditorOnlyLoop entities fuel [editorOnlyEntity] editorOnlyEntities

/-! ### Vocabulary of the statement on `AddEditorOnlyEntity` -/

/-- Entity `q` is a child element of entity `p`. -/
def IsChildElement (entities : List Entity) (p q : EntityPtr) : Prop :=
  ∃ parent elementComponent, entities[p]? = some parent ∧
    parent.uiElement = some elementComponent ∧
    q ∈ elementComponent.m_children.map ChildElement.element

/-- Entity `q` is `p` or a descendant of `p`: it is reached from `p` through child elements. -/
def IsSelfOrDescendant (entities : List Entity) (p q : EntityPtr) : Prop :=
  Relation.ReflTransGen (IsChildElement entities) p q

/-- Every child element is an entity of the list. -/
def ChildrenValid (entities : List Entity) : Prop :=
  ∀ p q, IsChildElement entities p q → q < entities.length

/-- The hierarchy has no cycle: no entity is reached from itself through one or more child
elements. -/
def Acyclic (entities : List Entity) : Prop :=
  ∀ p, ¬ Relation.TransGen (IsChildElement entities) p p

/-- The ids of `p` and of its descendants. -/
def IsIdOfSelfOrDescendant (entities : List Entity) (p : EntityPtr) (x : EntityId) : Prop :=
  ∃ q entity, IsSelfOrDescendant entities p q ∧ entities[q]? = some entity ∧ entity.m_id = x

/-- What the loop does with an entity on top of the vector: after some rounds the entity and
what it brought are gone from the vector and the ids of the entity and its descendants are in
the set. -/
def ProcessesEntity (entities : List Entity) (p : EntityPtr) : Prop :=
  ∀ (stack : List EntityPtr) (editorOnlyEntities : Finset EntityId),
    ∃ (n : Nat) (result : Finset EntityId),
      (∀ k, addEditorOnlyLoop entities (n + k) (stack ++ [p]) editorOnlyEntities =
        addEditorOnlyLoop entities k stack result) ∧
      ∀ x, x ∈ result ↔ x ∈ editorOnlyEntities ∨ IsIdOfSelfOrDescendant entities p x

/-- A hierarchy: entity 0 (id 10) has the children 1 (id 11) and 2 (id 12), entity 1 has the
child 3 (id 13), entity 4 (id 14) stands alone without a `UiElementComponent`. -/
def exampleEntities : List Entity :=
  [⟨10, some ⟨[⟨11, 1⟩, ⟨12, 2⟩]⟩⟩, ⟨11, some ⟨[⟨13, 3⟩]⟩⟩, ⟨12, some ⟨[]⟩⟩, ⟨13, none⟩,
    ⟨14, none⟩]

/-- Every child element of every entity is an entity of the list that comes later in the list. -/
def childrenComeLater (entities : List Entity) : Bool :=
  (List.range entities.length).all (fun p =>
    match entities[p]? with
    | some parent =>
        match parent.uiElement with
        | some elementComponent =>
            elementComponent.m_children.all
              (fun child => decide (p < child.element) && decide (child.element < entities.length))
        | none => true
    | none => true)

/-! ### `HandleEditorOnlyEntities` -/

/-- A call of `RemoveChild`: the place of the export entity in the list and the child id. -/
structure RemoveChildCall where
  exportParentEntity : Nat
  exportChildEntity : EntityId
deriving DecidableEq, Repr

/-- Body of the loop of lines 342-346: the id of the child is added to the entry of the
parent, which `operator[]` makes when it is missing. -/
def mapChildToParent (exportParentId : EntityId) (exportParentComponent : UiElementComponent)
    (parentToChildren : EntityId → List EntityId) (exportChildIndex : Nat) :
    EntityId → List EntityId :=
  match exportParentComponent.GetChildEntityId exportChildIndex with
  | some childExportEntity =>
      fun key =>
        if key = exportParentId then parentToChildren key ++ [childExportEntity]
        else parentToChildren key
  | none => parentToChildren

/-- Body of the first loop of `HandleEditorOnlyEntities` (lines 332-346); the map gives the
empty vector for a key without entry. -/
def mapChildrenToParent (parentToChildren : EntityId → List EntityId)
    (exportParentEntity : Entity) : EntityId → List EntityId :=
  let exportParentId := exportParentEntity.m_id
  match exportParentEntity.uiElement with
  | none => parentToChildren
  | some exportParentComponent =>
      let numChildElements := exportParentComponent.GetNumChildElements
      (List.range numChildElements).foldl
        (mapChildToParent exportParentId exportParentComponent) parentToChildren

/-- Body of the inner loop of lines 354-359 for the export entity at `position`: for a child
that is editor-only the component of the entity is looked up and told to remove the child;
`none` when the entity has no component to call. -/
def removeEditorOnlyChild (editorOnlyEntityIds : Finset EntityId) (position : Nat)
    (st : Option (Entity × List RemoveChildCall)) (exportChildEntity : EntityId) :
    Option (Entity × List RemoveChildCall) :=
  match st with
  | none => none
  | some (exportParentEntity, calls) =>
      let childIsEditorOnly := decide (exportChildEntity ∈ editorOnlyEntityIds)
      if childIsEditorOnly then
        match exportParentEntity.uiElement with
        | none => none
        | some exportParentComponent =>
            some ({ exportParentEntity with
                    uiElement := some (exportParentComponent.RemoveChild exportChildEntity) },
                  calls ++ [⟨position, exportChildEntity⟩])
      else some (exportParentEntity, calls)

/-- The second loop of `HandleEditorOnlyEntities` (lines 350-361) over the export entities from
`position` on: each entity is changed by its own round only. -/
def removeEditorOnlyChildren (parentToChildren : EntityId → List EntityId)
    (editorOnlyEntityIds : Finset EntityId) :
    Nat → List Entity → List RemoveChildCall → Option (List Entity × List RemoveChildCall)
  | _, [], calls => some ([], calls)
  | position, exportParentEntity :: exportSliceEntities, calls =>
      match (parentToChildren exportParentEntity.m_id).foldl
          (removeEditorOnlyChild editorOnlyEntityIds position)
          (some (exportParentEntity, calls)) with
      | none => none
      | some (exportParentEntity, calls) =>
          match removeEditorOnlyChildren parentToChildren editorOnlyEntityIds (position + 1)
              exportSliceEntities calls with
          | none => none
          | some (exportSliceEntities, calls) =>
              some (exportParentEntity :: exportSliceEntities, calls)

/-- `LyShineSystemComponent::HandleEditorOnlyEntities` (lines 325-362): the export entities as
the function leaves them and the calls of `RemoveChild` it made, in order; `none` when
`RemoveChild` is called through a null component. The entities of the list are different
objects. -/
def HandleEditorOnlyEntities (exportSliceEntities : List Entity)
    (editorOnlyEntityIds : Finset EntityId) : Option (List Entity × List RemoveChildCall) :=
  let parentToChildren := exportSliceEntities.foldl mapChildrenToParent (fun _ => [])
  removeEditorOnlyChildren parentToChildren editorOnlyEntityIds 0 exportSliceEntities []

/-! ### Vocabulary of the statement on `HandleEditorOnlyEntities` -/

/-- The entity without its editor-only children: the other children stay, in order. -/
def Entity.withoutEditorOnly (entity : Entity) (editorOnlyEntityIds : Finset EntityId) :
    Entity :=
  { entity with
    uiElement := entity.uiElement.map (fun c =>
      { m_children := c.m_children.filter
          (fun child => decide (child.entityId ∉ editorOnlyEntityIds)) }) }

/-- The child ids of the entity, in order; none without a `UiElementComponent`. -/
def Entity.childIds (entity : Entity) : List EntityId :=
  match entity.uiElement with
  | some c => c.m_children.map ChildElement.entityId
  | none => []

/-- The calls of `RemoveChild` the claim names: for every export entity in order, one call for
each of its child ids that is editor-only. -/
def expectedRemoveChildCalls (editorOnlyEntityIds : Finset EntityId) :
    Nat → List Entity → List RemoveChildCall
  | _, [] => []
  | position, entity :: entities =>
      (entity.childIds.filter (fun child => decide (child ∈ editorOnlyEntityIds))).map
          (fun child => RemoveChildCall.mk position child) ++
        expectedRemoveChildCalls editorOnlyEntityIds (position + 1) entities

/-- Export entities: a parent with three children, a leaf, an entity without component. -/
def exampleExportEntities : List Entity :=
  [⟨10, some ⟨[⟨11, 1⟩, ⟨20, 5⟩, ⟨12, 2⟩]⟩⟩, ⟨11, some ⟨[⟨21, 6⟩]⟩⟩, ⟨12, none⟩]

end LyShine

namespace ProjectManager

/-! ## The project builder controller (`ProjectBuilderController.cpp`)

Qt and the classes of the project manager that the controller uses are declared outside the
sources. The embedding keeps the project info of the controller and records, in order, what
`HandleResults` shows, opens and emits; the translation `tr`, the log file path of the worker
and the button the user presses in the message box are inputs. -/

/-- `QUrl`, by its text; `QUrl()` is the empty url. -/
structure QUrl where
  url : String
deriving DecidableEq, Repr

/-- `QUrl()`. -/
def QUrl.empty : QUrl := ⟨""⟩

/-- The buttons of `QMessageBox` the controller offers. -/
inductive StandardButton where
  | Yes
  | No
  | Ok
deriving DecidableEq, Repr

/-- `ProjectInfo`: of its members `HandleResults` writes `m_buildFailed` and `m_logUrl`; the
name and the path stand for the members it does not touch. -/
structure ProjectInfo where
  m_projectName : String
  m_path : String
  m_buildFailed : Bool
  m_logUrl : QUrl
deriving DecidableEq, Repr

/-- What `HandleResults` does that can be seen from outside, in order. -/
inductive Effect where
  | critical (title text : String) (buttons : List StandardButton)
  | openUrl (url : QUrl)
  | NotifyBuildProject (projectInfo : ProjectInfo)
  | Done (success : Bool)
deriving DecidableEq, Repr

/-- The members of the controller that `HandleResults` reads or writes. -/
structure ProjectBuilderController where
  m_projectInfo : ProjectInfo
  m_lastProgress : Int
deriving DecidableEq, Repr

/-- `QString::contains`: the text occurs in the string. -/
def contains (s text : String) : Bool := decide (text.data <:+: s.data)

/-- `ProjectBuilderController::GetProjectInfo` (lines 63-66). -/
def ProjectBuilderController.GetProjectInfo (c : ProjectBuilderController) : ProjectInfo :=
  c.m_projectInfo

/-- `ProjectBuilderController::HandleResults` (lines 78-114): the controller afterwards and the
effects in order. `tr` is the translation of the interface, `logFilePath` is
`m_worker->GetLogFilePath()` and `openLog` the button pressed in the message box that asks
whether to view the log. -/
def ProjectBuilderController.HandleResults (c : ProjectBuilderController)
    (tr : String → String) (logFilePath : String) (openLog : StandardButton)
    (result : String) : ProjectBuilderController × List Effect :=
  if result ≠ "" then
    if contains result (tr "log") then
      let effects := [Effect.critical (tr "Project Failed to Build!")
        (result ++ tr "\n\nWould you like to view log?") [StandardButton.No, StandardButton.Yes]]
      let effects :=
        if openLog = StandardButton.Yes then
          effects ++ [Effect.openUrl ⟨"file:///" ++ logFilePath⟩]
        else effects
      let c := { c with m_projectInfo := { c.m_projectInfo with m_buildFailed := true } }
      let c := { c with
        m_projectInfo := { c.m_projectInfo with m_logUrl := ⟨"file:///" ++ logFilePath⟩ } }
      let effects := effects ++ [Effect.NotifyBuildProject c.m_projectInfo]
      (c, effects ++ [Effect.Done false])
    else
      let effects := [Effect.critical (tr "Project Failed to Build!") result
        [StandardButton.Ok]]
      let c := { c with m_projectInfo := { c.m_projectInfo with m_buildFailed := true } }
      let c := { c with m_projectInfo := { c.m_projectInfo with m_logUrl := QUrl.empty } }
      let effects := effects ++ [Effect.NotifyBuildProject c.m_projectInfo]
      (c, effects ++ [Effect.Done false])
  else (c, [Effect.Done true])

/-! ### Vocabulary of the statement on `HandleResults` -/

/-- The effect is an emission of `Done`. -/
def Effect.isDone : Effect → Bool
  | Effect.Done _ => true
  | _ => false

/-- The effect is an emission of `NotifyBuildProject`. -/
def Effect.isNotifyBuildProject : Effect → Bool
  | Effect.NotifyBuildProject _ => true
  | _ => false

end ProjectManager

namespace ProjectSettingsTool

/-! ## The project settings tool window (`ProjectSettingsToolWindow.cpp`)

Qt, the serializers, the settings container and the validation handler are declared outside the
sources. The embedding keeps the members of the window that `closeEvent` and
`SaveSettingsFromUi` read or write, takes the answers of the collaborators and of the user as
inputs, and records the calls made on the collaborators in order. -/

/-- `PlatformId`; `NumPlatformIds` is 3 and `Platforms[plat]` is the platform with the id
`plat`. -/
inductive PlatformId where
  | Base
  | Android
  | Ios
deriving DecidableEq, Repr

/-- The platform ids in the order of the loops `for (plat = 0; plat < NumPlatformIds; ++plat)`. -/
def platformIds : List PlatformId := [PlatformId.Base, PlatformId.Android, PlatformId.Ios]

/-- The buttons of `QMessageBox` the window offers. -/
inductive StandardButton where
  | Yes
  | No
  | Ok
  | Abort
deriving DecidableEq, Repr

/-- `QPushButton`, of which only `isEnabled` and `setEnabled` are used. -/
structure QPushButton where
  enabled : Bool
deriving DecidableEq, Repr

/-- `QCloseEvent`: its accept flag. -/
structure QCloseEvent where
  m_accept : Bool
deriving DecidableEq, Repr

/-- `QEvent::setAccepted`. -/
def QCloseEvent.setAccepted (event : QCloseEvent) (accepted : Bool) : QCloseEvent :=
  { event with m_accept := accepted }

/-- `QWidget::closeEvent`, the handler of the base class: it accepts the event. -/
def QWidget.closeEvent (event : QCloseEvent) : QCloseEvent := event.setAccepted true

/-- The members of the window the two functions use: the project root, the invalid-state flag,
and the save and reload buttons of `m_ui`, which are null before the UI is set up. -/
structure ProjectSettingsToolWindow where
  m_projectRoot : String
  m_invalidState : Bool
  saveButton : Option QPushButton
  reloadButton : Option QPushButton
deriving DecidableEq, Repr

/-- The answers of the collaborators and of the user: whether a file exists, whether the UI of
the serializer of a platform equals its settings, whether all properties are valid, whether the
settings container takes a platform to be a plist platform, the button pressed in the
unsaved-changes question, and the button pressed in the box of each error of the settings
container that is still unseen. -/
structure Environment where
  fileExists : String → Bool
  uiEqualToSettings : PlatformId → Bool
  allValid : Bool
  isPlistPlatform : PlatformId → Bool
  answer : StandardButton
  errorAnswers : List StandardButton

/-- `ProjectSettingsToolWindow::GetPlatformResource` (lines 657-682): the first of the three
search paths under the project root at which a file exists; the empty string otherwise. -/
def ProjectSettingsToolWindow.GetPlatformResource (w : ProjectSettingsToolWindow)
    (env : Environment) (platformId : PlatformId) : String :=
  if platformId = PlatformId.Ios then
    let searchPaths := ["Resources/Platform/iOS/Info.plist",
      "Gem/Resources/Platform/iOS/Info.plist", "Gem/Resources/IOSLauncher/Info.plist"]
    match searchPaths.find? (fun relPath => env.fileExists (w.m_projectRoot ++ "/" ++ relPath)) with
    | some relPath => w.m_projectRoot ++ "/" ++ relPath
    | none => ""
  else ""

/-- `ProjectSettingsToolWindow::PlatformEnabled` (lines 645-655). -/
def ProjectSettingsToolWindow.PlatformEnabled (w : ProjectSettingsToolWindow)
    (env : Environment) (platformId : PlatformId) : Bool :=
  if platformId = PlatformId.Ios then
    let plistPath := w.GetPlatformResource env platformId
    !plistPath.isEmpty
  else true

/-- `ProjectSettingsToolWindow::UiEqualToPlatformSettings` (lines 522-525). -/
def ProjectSettingsToolWindow.UiEqualToPlatformSettings (_w : ProjectSettingsToolWindow)
    (env : Environment) (plat : PlatformId) : Bool :=
  env.uiEqualToSettings plat

/-- `ProjectSettingsToolWindow::UiEqualToSettings` (lines 506-520): false at the first enabled
platform whose UI differs from its settings. -/
def ProjectSettingsToolWindow.UiEqualToSettings (w : ProjectSettingsToolWindow)
    (env : Environment) : Bool :=
  platformIds.all (fun plat =>
    if w.PlatformEnabled env plat then w.UiEqualToPlatformSettings env plat else true)

/-- `ProjectSettingsToolWindow::ValidateAllProperties` (lines 527-530). -/
def ProjectSettingsToolWindow.ValidateAllProperties (_w : ProjectSettingsToolWindow)
    (env : Environment) : Bool :=
  env.allValid

/-- A message box shown by the window. -/
inductive Dialog where
  | question (title text : String)
  | information (title text : String)
  | critical (title text : String)
deriving DecidableEq, Repr

/-- `ProjectSettingsToolWindow::closeEvent` (lines 177-235): the event afterwards and the message
boxes shown. -/
def ProjectSettingsToolWindow.closeEvent (w : ProjectSettingsToolWindow) (env : Environment)
    (event : QCloseEvent) : QCloseEvent × List Dialog :=
  if !w.m_invalidState then
    match w.saveButton with
    | some saveButton =>
        if saveButton.enabled then
          if !w.UiEqualToSettings env then
            let result := env.answer
            let dialogs := [Dialog.question "Warning"
              "There are currently unsaved changes. Are you sure you want to cancel?"]
            if StandardButton.Yes = result then (QWidget.closeEvent event, dialogs)
            else (event.setAccepted false, dialogs)
          else (QWidget.closeEvent event, [])
        else
          (event.setAccepted false,
            [Dialog.information "Info" "Cannot close until settings have been reconfigured."])
    | none => (QWidget.closeEvent event, [])
  else (QWidget.closeEvent event, [])

/-- `ProjectSettingsToolWindow::ForceClose` (lines 237-242): the window is marked invalid; the
close itself is left to the event loop. -/
def ProjectSettingsToolWindow.ForceClose (w : ProjectSettingsToolWindow) :
    ProjectSettingsToolWindow :=
  { w with m_invalidState := true }

/-- `ProjectSettingsToolWindow::ShowAllErrorsThenExitIfInvalid` (lines 268-278) with
`IfErrorShowThenExit` (lines 244-266): every unseen error is shown, `Abort` forces the close,
and the loop ends at the first error after which the window is invalid. -/
def ProjectSettingsToolWindow.ShowAllErrorsThenExitIfInvalid :
    ProjectSettingsToolWindow → List StandardButton → ProjectSettingsToolWindow
  | w, [] => w
  | w, result :: errorAnswers =>
      let w := if result = StandardButton.Abort then w.ForceClose else w
      if w.m_invalidState then w
      else ProjectSettingsToolWindow.ShowAllErrorsThenExitIfInvalid w errorAnswers

/-- A call `SaveSettingsFromUi` makes on a button, the validation handler, a serializer, the
settings container or the user interface. -/
inductive Call where
  | saveButtonSetEnabled (enabled : Bool)
  | reloadButtonSetEnabled (enabled : Bool)
  | ValidateAllProperties (result : Bool)
  | SaveToSettings (plat : PlatformId)
  | SavePlistData (plat : PlatformId)
  | SaveProjectJsonData
  | ShowAllErrorsThenExitIfInvalid
  | reconfigureLogSetText (text : String)
  | information (title text : String)
  | critical (title text : String)
deriving DecidableEq, Repr

/-- The array `needToSavePlat` after the loop of lines 538-549. -/
def ProjectSettingsToolWindow.needToSavePlat (w : ProjectSettingsToolWindow)
    (env : Environment) (plat : PlatformId) : Bool :=
  if w.PlatformEnabled env plat then !w.UiEqualToPlatformSettings env plat else false

/-- Body of the loop of lines 563-579: the state is the calls made so far and
`projectJsonChanged`. -/
def ProjectSettingsToolWindow.savePlatform (w : ProjectSettingsToolWindow) (env : Environment)
    (st : List Call × Bool) (plat : PlatformId) : List Call × Bool :=
  if w.needToSavePlat env plat then
    let calls := st.1 ++ [Call.SaveToSettings plat]
    if env.isPlistPlatform plat then (calls ++ [Call.SavePlistData plat], st.2)
    else (calls, true)
  else st

/-- `ProjectSettingsToolWindow::SaveSettingsFromUi` (lines 532-603): the window afterwards and
the calls made, in order; `none` when a button that is null is used. -/
def ProjectSettingsToolWindow.SaveSettingsFromUi (w : ProjectSettingsToolWindow)
    (env : Environment) : Option (ProjectSettingsToolWindow × List Call) :=
  let anySaves := platformIds.any (fun plat => w.needToSavePlat env plat)
  if anySaves then
    match w.saveButton with
    | none => none
    | some saveButton =>
        if saveButton.enabled then
          match w.reloadButton with
          | none => none
          | some _ =>
              let calls := [Call.saveButtonSetEnabled false, Call.reloadButtonSetEnabled false]
              let w := { w with saveButton := some ⟨false⟩, reloadButton := some ⟨false⟩ }
              let valid := w.ValidateAllProperties env
              let calls := calls ++ [Call.ValidateAllProperties valid]
              if valid then
                let st := platformIds.foldl (w.savePlatform env) (calls, false)
                let calls := st.1
                let projectJsonChanged := st.2
                let calls := if projectJsonChanged then calls ++ [Call.SaveProjectJsonData]
                  else calls
                let w := w.ShowAllErrorsThenExitIfInvalid env.errorAnswers
                let calls := calls ++ [Call.ShowAllErrorsThenExitIfInvalid,
                  Call.reconfigureLogSetText "",
                  Call.information "Project Settings Saved"
                    "The project may need to be manually reconfigured for the new settings to be applied.",
                  Call.reloadButtonSetEnabled true, Call.saveButtonSetEnabled true]
                some ({ w with reloadButton := some ⟨true⟩, saveButton := some ⟨true⟩ }, calls)
              else
                let calls := calls ++ [
                  Call.critical "Failed To Save" "Failed to save due to invalid settings.",
                  Call.reloadButtonSetEnabled true, Call.saveButtonSetEnabled true]
                some ({ w with reloadButton := some ⟨true⟩, saveButton := some ⟨true⟩ }, calls)
        else some (w, [])
  else some (w, [])

/-! ### Vocabulary of the statements on the project settings tool window -/

/-- The call saves settings: `SaveToSettings` of a serializer, or the plist or project.json save
of the settings container. -/
def Call.isSave : Call → Bool
  | Call.SaveToSettings _ => true
  | Call.SavePlistData _ => true
  | Call.SaveProjectJsonData => true
  | _ => false

/-- An environment in which no plist file exists, the UI of the base platform differs from its
settings, all properties are valid, iOS is the plist platform and the user answers No. -/
def exampleEnvironment : Environment :=
  { fileExists := fun _ => false
    uiEqualToSettings := fun plat => decide (plat ≠ PlatformId.Base)
    allValid := true
    isPlistPlatform := fun plat => decide (plat = PlatformId.Ios)
    answer := StandardButton.No
    errorAnswers := [] }

/-- A window in the invalid state whose buttons exist and are enabled or not as given. -/
def exampleInvalidWindow (enabled : Bool) : ProjectSettingsToolWindow :=
  { m_projectRoot := "/projects/demo", m_invalidState := true,
    saveButton := some ⟨enabled⟩, reloadButton := some ⟨enabled⟩ }

/-- A window in the valid state whose buttons exist and are enabled. -/
def exampleWindow : ProjectSettingsToolWindow :=
  { m_projectRoot := "/projects/demo", m_invalidState := false,
    saveButton := some ⟨true⟩, reloadButton := some ⟨true⟩ }

/-- The calls of the loop of lines 563-579 over the platforms: for every platform that needs to
be saved `SaveToSettings`, followed by `SavePlistData` for a plist platform. -/
def ProjectSettingsToolWindow.saveCalls (w : ProjectSettingsToolWindow) (env : Environment)
    (plats : List PlatformId) : List Call :=
  plats.flatMap (fun plat =>
    if w.needToSavePlat env plat then
      Call.SaveToSettings plat ::
        (if env.isPlistPlatform plat then [Call.SavePlistData plat] else [])
    else [])

/-- Some platform that needs to be saved is not a plist platform. -/
def ProjectSettingsToolWindow.projectJsonNeeded (w : ProjectSettingsToolWindow)
    (env : Environment) (plats : List PlatformId) : Bool :=
  plats.any (fun plat => w.needToSavePlat env plat && !env.isPlistPlatform plat)

/-- The calls of a run of `SaveSettingsFromUi` that saves: the buttons are disabled, validation
passes, the platforms are saved, project.json is saved when needed, the errors are shown, the
log is cleared, the user is told, and the buttons are enabled again. -/
def ProjectSettingsToolWindow.savingCalls (w : ProjectSettingsToolWindow) (env : Environment) :
    List Call :=
  [Call.saveButtonSetEnabled false, Call.reloadButtonSetEnabled false,
      Call.ValidateAllProperties true] ++ w.saveCalls env platformIds ++
    (if w.projectJsonNeeded env platformIds then [Call.SaveProjectJsonData] else []) ++
    [Call.ShowAllErrorsThenExitIfInvalid, Call.reconfigureLogSetText "",
      Call.information "Project Settings Saved"
        "The project may need to be manually reconfigured for the new settings to be applied.",
      Call.reloadButtonSetEnabled true, Call.saveButtonSetEnabled true]

end ProjectSettingsTool

namespace MeshOptimizer

/-! ## Properties -/

/-! ### The output loop in closed form -/

theorem emitVertices_eq (layers : BuilderLayers) (subMesh : MeshBuilderSubMesh)
    (r : OptimizedNodes) :
    emitVertices layers subMesh r = (subMeshLookups subMesh).foldl (emitVertex layers) r := by
  unfold emitVertices subMeshLookups
  rw [List.foldl_map]

theorem appendLayerValues_length {α : Type} (layers : List (MeshBuilderVertexAttributeLayerT α))
    (nodes : List (List α)) (l : MeshBuilderVertexLookup) (h : nodes.length = layers.length) :
    (appendLayerValues layers nodes l).length = layers.length := by
  induction layers generalizing nodes with
  | nil => cases nodes <;> simp_all [appendLayerValues]
  | cons layer layers ih =>
    cases nodes with
    | nil => simp at h
    | cons node nodes =>
      simp only [appendLayerValues, List.length_cons]
      rw [ih nodes (by simpa using h)]

theorem appendLayerValues_getElem? {α : Type}
    (layers : List (MeshBuilderVertexAttributeLayerT α)) (nodes : List (List α))
    (l : MeshBuilderVertexLookup) (h : nodes.length = layers.length) (i : Nat)
    (layer : MeshBuilderVertexAttributeLayerT α) (node : List α)
    (hl : layers[i]? = some layer) (hn : nodes[i]? = some node) :
    (appendLayerValues layers nodes l)[i]? = some (node ++ [layerValue layer l]) := by
  induction layers generalizing nodes i with
  | nil => simp at hl
  | cons layer0 layers ih =>
    cases nodes with
    | nil => simp at hn
    | cons node0 nodes =>
      cases i with
      | zero =>
        simp only [List.getElem?_cons_zero, Option.some.injEq] at hl hn
        subst hl hn
        simp [appendLayerValues, layerValue]
      | succ i =>
        simp only [List.getElem?_cons_succ] at hl hn
        simp only [appendLayerValues, List.getElem?_cons_succ]
        exact ih nodes (by simpa using h) i hl hn

/-- Folding `appendLayerValues` over a list of lookups appends, to node `i`, the values layer `i`
stores for these lookups, in order. -/
theorem foldl_appendLayerValues_getElem? {α : Type}
    (layers : List (MeshBuilderVertexAttributeLayerT α)) (ls : List MeshBuilderVertexLookup)
    (nodes : List (List α)) (h : nodes.length = layers.length) (i : Nat)
    (layer : MeshBuilderVertexAttributeLayerT α) (node : List α)
    (hl : layers[i]? = some layer) (hn : nodes[i]? = some node) :
    (ls.foldl (appendLayerValues layers) nodes)[i]? = some (node ++ ls.map (layerValue layer)) := by
  induction ls generalizing nodes node with
  | nil => simpa using hn
  | cons l ls ih =>
    simp only [List.foldl_cons, List.map_cons]
    rw [ih (appendLayerValues layers nodes l) (appendLayerValues_length layers nodes l h)
      (node ++ [layerValue layer l]) (appendLayerValues_getElem? layers nodes l h i layer node hl hn)]
    simp

theorem foldl_appendLayerValues_length {α : Type}
    (layers : List (MeshBuilderVertexAttributeLayerT α)) (ls : List MeshBuilderVertexLookup)
    (nodes : List (List α)) (h : nodes.length = layers.length) :
    (ls.foldl (appendLayerValues layers) nodes).length = layers.length := by
  induction ls generalizing nodes with
  | nil => simpa using h
  | cons l ls ih =>
    simp only [List.foldl_cons]
    exact ih _ (appendLayerValues_length layers nodes l h)

/-! ### The vertex loop -/

theorem foldl_emitVertex_positions (layers : BuilderLayers) (ls : List MeshBuilderVertexLookup)
    (r : OptimizedNodes) :
    (ls.foldl (emitVertex layers) r).optimizedMesh.positions =
      r.optimizedMesh.positions ++ ls.map (layerValue layers.posLayer) := by
  induction ls generalizing r with
  | nil => simp
  | cons l ls ih =>
    simp only [List.foldl_cons, List.map_cons]
    rw [ih]
    simp [emitVertex, MeshData.AddPosition, MeshData.AddNormal,
      MeshData.SetVertexIndexToControlPointIndexMap, layerValue]

theorem foldl_emitVertex_normals (layers : BuilderLayers) (ls : List MeshBuilderVertexLookup)
    (r : OptimizedNodes) :
    (ls.foldl (emitVertex layers) r).optimizedMesh.normals =
      r.optimizedMesh.normals ++ ls.map (layerValue layers.normalsLayer) := by
  induction ls generalizing r with
  | nil => simp
  | cons l ls ih =>
    simp only [List.foldl_cons, List.map_cons]
    rw [ih]
    simp [emitVertex, MeshData.AddPosition, MeshData.AddNormal,
      MeshData.SetVertexIndexToControlPointIndexMap, layerValue]

theorem foldl_emitVertex_faceList (layers : BuilderLayers) (ls : List MeshBuilderVertexLookup)
    (r : OptimizedNodes) :
    (ls.foldl (emitVertex layers) r).optimizedMesh.faceList = r.optimizedMesh.faceList := by
  induction ls generalizing r with
  | nil => simp
  | cons l ls ih =>
    simp only [List.foldl_cons]
    rw [ih]
    simp [emitVertex, MeshData.AddPosition, MeshData.AddNormal,
      MeshData.SetVertexIndexToControlPointIndexMap]

theorem foldl_emitVertex_faceMaterialIds (layers : BuilderLayers)
    (ls : List MeshBuilderVertexLookup) (r : OptimizedNodes) :
    (ls.foldl (emitVertex layers) r).optimizedMesh.faceMaterialIds =
      r.optimizedMesh.faceMaterialIds := by
  induction ls generalizing r with
  | nil => simp
  | cons l ls ih =>
    simp only [List.foldl_cons]
    rw [ih]
    simp [emitVertex, MeshData.AddPosition, MeshData.AddNormal,
      MeshData.SetVertexIndexToControlPointIndexMap]

theorem foldl_emitVertex_uvs (layers : BuilderLayers) (ls : List MeshBuilderVertexLookup)
    (r : OptimizedNodes) :
    (ls.foldl (emitVertex layers) r).optimizedUVs =
      ls.foldl (appendLayerValues layers.uvLayers) r.optimizedUVs := by
  induction ls generalizing r with
  | nil => simp
  | cons l ls ih => simp only [List.foldl_cons]; rw [ih]; rfl

theorem foldl_emitVertex_tangents (layers : BuilderLayers) (ls : List MeshBuilderVertexLookup)
    (r : OptimizedNodes) :
    (ls.foldl (emitVertex layers) r).optimizedTangents =
      ls.foldl (appendLayerValues layers.tangentLayers) r.optimizedTangents := by
  induction ls generalizing r with
  | nil => simp
  | cons l ls ih => simp only [List.foldl_cons]; rw [ih]; rfl

theorem foldl_emitVertex_bitangents (layers : BuilderLayers) (ls : List MeshBuilderVertexLookup)
    (r : OptimizedNodes) :
    (ls.foldl (emitVertex layers) r).optimizedBitangents =
      ls.foldl (appendLayerValues layers.bitangentLayers) r.optimizedBitangents := by
  induction ls generalizing r with
  | nil => simp
  | cons l ls ih => simp only [List.foldl_cons]; rw [ih]; rfl

theorem foldl_emitVertex_colors (layers : BuilderLayers) (ls : List MeshBuilderVertexLookup)
    (r : OptimizedNodes) :
    (ls.foldl (emitVertex layers) r).optimizedVertexColors =
      ls.foldl (appendLayerValues layers.vertexColorLayers) r.optimizedVertexColors := by
  induction ls generalizing r with
  | nil => simp
  | cons l ls ih => simp only [List.foldl_cons]; rw [ih]; rfl

/-- The back-reference map after the vertex loop: the vertices added by the loop map to the value
the original-vertex layer stores for their lookup, earlier entries are kept. -/
theorem foldl_emitVertex_map (layers : BuilderLayers) (ls : List MeshBuilderVertexLookup)
    (r : OptimizedNodes) (j : Nat) :
    (ls.foldl (emitVertex layers) r).optimizedMesh.vertexIndexToControlPointIndexMap j =
      if r.optimizedMesh.positions.length ≤ j ∧
          j < r.optimizedMesh.positions.length + ls.length then
        (ls[j - r.optimizedMesh.positions.length]?).map (layerValue layers.orgVtxLayer)
      else r.optimizedMesh.vertexIndexToControlPointIndexMap j := by
  induction ls generalizing r with
  | nil =>
    have h : ¬ (r.optimizedMesh.positions.length ≤ j ∧ j < r.optimizedMesh.positions.length + 0) := by
      omega
    simp only [List.foldl_nil, List.length_nil]
    rw [if_neg h]
  | cons l ls ih =>
    simp only [List.foldl_cons]
    rw [ih]
    have hp : (emitVertex layers r l).optimizedMesh.positions.length =
        r.optimizedMesh.positions.length + 1 := by
      simp [emitVertex, MeshData.AddPosition, MeshData.AddNormal,
        MeshData.SetVertexIndexToControlPointIndexMap]
    have hm : (emitVertex layers r l).optimizedMesh.vertexIndexToControlPointIndexMap j =
        if j = r.optimizedMesh.positions.length then some (layerValue layers.orgVtxLayer l)
        else r.optimizedMesh.vertexIndexToControlPointIndexMap j := by
      simp [emitVertex, MeshData.AddPosition, MeshData.AddNormal,
        MeshData.SetVertexIndexToControlPointIndexMap, MeshData.GetVertexCount, layerValue]
    rw [hp, hm]
    simp only [List.length_cons]
    by_cases h1 : j = r.optimizedMesh.positions.length
    · subst h1
      simp
    · by_cases h2 : r.optimizedMesh.positions.length + 1 ≤ j ∧
          j < r.optimizedMesh.positions.length + 1 + ls.length
      · have h3 : r.optimizedMesh.positions.length ≤ j ∧
            j < r.optimizedMesh.positions.length + (ls.length + 1) := by omega
        rw [if_pos h2, if_pos h3]
        have h4 : j - r.optimizedMesh.positions.length =
            (j - (r.optimizedMesh.positions.length + 1)) + 1 := by omega
        rw [h4, List.getElem?_cons_succ]
      · have h3 : ¬ (r.optimizedMesh.positions.length ≤ j ∧
            j < r.optimizedMesh.positions.length + (ls.length + 1)) := by omega
        rw [if_neg h2, if_neg h3, if_neg h1]

/-! ### The polygon loop -/

theorem AddFace_GetFaceInfo_last (kind : MeshKind) (m : MeshData) (a b c mat : Nat) :
    (AddFace kind m a b c mat).GetFaceInfo ((AddFace kind m a b c mat).GetFaceCount - 1) =
      ⟨a, b, c⟩ := by
  cases kind <;>
    simp [AddFace, MeshData.GetFaceInfo, MeshData.GetFaceCount, List.getD_eq_getElem?_getD]

theorem emitFace_fst (kind : MeshKind) (s : MeshBuilderSubMesh) (off : Nat)
    (st : MeshData × List Nat) (p : Nat) :
    (emitFace kind s off st p).1 =
      AddFace kind st.1 (off + s.GetIndex (p * 3 + 0)) (off + s.GetIndex (p * 3 + 1))
        (off + s.GetIndex (p * 3 + 2)) s.GetMaterialIndex := rfl

theorem emitFace_snd (kind : MeshKind) (s : MeshBuilderSubMesh) (off : Nat)
    (st : MeshData × List Nat) (p : Nat) :
    (emitFace kind s off st p).2 =
      (offsetFace s off p).vertexIndex.foldl (fun used i => used.insert i) st.2 := by
  unfold emitFace
  simp only [AddFace_GetFaceInfo_last]
  rfl

theorem AddFace_faceList (kind : MeshKind) (m : MeshData) (a b c mat : Nat) :
    (AddFace kind m a b c mat).faceList = m.faceList ++ [⟨a, b, c⟩] := by
  cases kind <;> rfl

theorem AddFace_positions (kind : MeshKind) (m : MeshData) (a b c mat : Nat) :
    (AddFace kind m a b c mat).positions = m.positions := by
  cases kind <;> rfl

theorem AddFace_normals (kind : MeshKind) (m : MeshData) (a b c mat : Nat) :
    (AddFace kind m a b c mat).normals = m.normals := by
  cases kind <;> rfl

theorem AddFace_map (kind : MeshKind) (m : MeshData) (a b c mat : Nat) :
    (AddFace kind m a b c mat).vertexIndexToControlPointIndexMap =
      m.vertexIndexToControlPointIndexMap := by
  cases kind <;> rfl

theorem foldl_emitFace_faceList (kind : MeshKind) (s : MeshBuilderSubMesh) (off : Nat)
    (ps : List Nat) (st : MeshData × List Nat) :
    (ps.foldl (emitFace kind s off) st).1.faceList =
      st.1.faceList ++ ps.map (offsetFace s off) := by
  induction ps generalizing st with
  | nil => simp
  | cons p ps ih =>
    simp only [List.foldl_cons, List.map_cons]
    rw [ih, emitFace_fst, AddFace_faceList]
    simp [offsetFace]

theorem foldl_emitFace_positions (kind : MeshKind) (s : MeshBuilderSubMesh) (off : Nat)
    (ps : List Nat) (st : MeshData × List Nat) :
    (ps.foldl (emitFace kind s off) st).1.positions = st.1.positions := by
  induction ps generalizing st with
  | nil => simp
  | cons p ps ih =>
    simp only [List.foldl_cons]
    rw [ih, emitFace_fst, AddFace_positions]

theorem foldl_emitFace_normals (kind : MeshKind) (s : MeshBuilderSubMesh) (off : Nat)
    (ps : List Nat) (st : MeshData × List Nat) :
    (ps.foldl (emitFace kind s off) st).1.normals = st.1.normals := by
  induction ps generalizing st with
  | nil => simp
  | cons p ps ih =>
    simp only [List.foldl_cons]
    rw [ih, emitFace_fst, AddFace_normals]

theorem foldl_emitFace_map (kind : MeshKind) (s : MeshBuilderSubMesh) (off : Nat)
    (ps : List Nat) (st : MeshData × List Nat) :
    (ps.foldl (emitFace kind s off) st).1.vertexIndexToControlPointIndexMap =
      st.1.vertexIndexToControlPointIndexMap := by
  induction ps generalizing st with
  | nil => simp
  | cons p ps ih =>
    simp only [List.foldl_cons]
    rw [ih, emitFace_fst, AddFace_map]

/-- The set `usedIndexes` after the polygon loop: duplicate-free, and holding exactly the
indices of the faces emitted by the loop (besides what it held before). -/
theorem foldl_emitFace_used (kind : MeshKind) (s : MeshBuilderSubMesh) (off : Nat)
    (ps : List Nat) (st : MeshData × List Nat) (hnd : st.2.Nodup) :
    (ps.foldl (emitFace kind s off) st).2.Nodup ∧
    ∀ x, x ∈ (ps.foldl (emitFace kind s off) st).2 ↔
      x ∈ st.2 ∨ ∃ p ∈ ps, x ∈ (offsetFace s off p).vertexIndex := by
  induction ps generalizing st with
  | nil => simp [hnd]
  | cons p ps ih =>
    simp only [List.foldl_cons]
    have hnd2 : (emitFace kind s off st p).2.Nodup := by
      rw [emitFace_snd]
      simp only [Face.vertexIndex, List.foldl_cons, List.foldl_nil]
      exact ((hnd.insert).insert).insert
    have hmem : ∀ x, x ∈ (emitFace kind s off st p).2 ↔
        x ∈ st.2 ∨ x ∈ (offsetFace s off p).vertexIndex := by
      intro x
      rw [emitFace_snd]
      simp only [Face.vertexIndex, List.foldl_cons, List.foldl_nil, List.mem_insert_iff,
        List.mem_cons, List.mem_singleton, List.not_mem_nil, or_false]
      tauto
    obtain ⟨h1, h2⟩ := ih (emitFace kind s off st p) hnd2
    refine ⟨h1, fun x => ?_⟩
    rw [h2 x, hmem x]
    simp only [List.mem_cons, exists_eq_or_imp]
    tauto

/-- Membership in `usedIndexes` after the polygon loop of a sub-mesh, by corner number. -/
theorem emitFaces_used_mem (kind : MeshKind) (s : MeshBuilderSubMesh) (off : Nat) (m : MeshData)
    (x : Nat) :
    x ∈ (emitFaces kind s off m).2 ↔
      ∃ i, i < s.GetNumPolygons * 3 ∧ x = off + s.GetIndex i := by
  unfold emitFaces
  rw [(foldl_emitFace_used kind s off _ (m, []) List.nodup_nil).2 x]
  simp only [List.not_mem_nil, false_or, List.mem_range, offsetFace, Face.vertexIndex,
    List.mem_cons, List.mem_singleton, or_false]
  constructor
  · rintro ⟨p, hp, h | h | h⟩
    · exact ⟨p * 3 + 0, by omega, h⟩
    · exact ⟨p * 3 + 1, by omega, h⟩
    · exact ⟨p * 3 + 2, by omega, h⟩
  · rintro ⟨i, hi, h⟩
    refine ⟨i / 3, by omega, ?_⟩
    have h3 : i % 3 = 0 ∨ i % 3 = 1 ∨ i % 3 = 2 := by omega
    rcases h3 with h3 | h3 | h3
    · left
      have : i / 3 * 3 + 0 = i := by omega
      rw [this]; exact h
    · right; left
      have : i / 3 * 3 + 1 = i := by omega
      rw [this]; exact h
    · right; right
      have : i / 3 * 3 + 2 = i := by omega
      rw [this]; exact h

/-- When the polygons of a sub-mesh use exactly its vertices, `usedIndexes.size()` is the
sub-mesh's vertex count. -/
theorem emitFaces_used_length (kind : MeshKind) (s : MeshBuilderSubMesh) (off : Nat)
    (m : MeshData) (h : SubMeshIndicesExact s) :
    (emitFaces kind s off m).2.length = s.GetNumVertices := by
  have hnd : (emitFaces kind s off m).2.Nodup :=
    (foldl_emitFace_used kind s off _ (m, []) List.nodup_nil).1
  have hset : (emitFaces kind s off m).2.toFinset = Finset.Ico off (off + s.GetNumVertices) := by
    ext x
    rw [List.mem_toFinset, emitFaces_used_mem, Finset.mem_Ico]
    constructor
    · rintro ⟨i, hi, rfl⟩
      have := h.1 i hi
      omega
    · rintro ⟨h1, h2⟩
      obtain ⟨i, hi, hv⟩ := h.2 (x - off) (by omega)
      exact ⟨i, hi, by omega⟩
  rw [← List.toFinset_card_of_nodup hnd, hset]
  simp

/-- When the local indices of a sub-mesh are in range, `usedIndexes.size()` is at most the
sub-mesh's vertex count. -/
theorem emitFaces_used_length_le (kind : MeshKind) (s : MeshBuilderSubMesh) (off : Nat)
    (m : MeshData) (h : SubMeshIndicesInRange s) :
    (emitFaces kind s off m).2.length ≤ s.GetNumVertices := by
  have hnd : (emitFaces kind s off m).2.Nodup :=
    (foldl_emitFace_used kind s off _ (m, []) List.nodup_nil).1
  have hsub : (emitFaces kind s off m).2.toFinset ⊆ Finset.Ico off (off + s.GetNumVertices) := by
    intro x
    rw [List.mem_toFinset, emitFaces_used_mem, Finset.mem_Ico]
    rintro ⟨i, hi, rfl⟩
    have := h i hi
    omega
  rw [← List.toFinset_card_of_nodup hnd]
  calc (emitFaces kind s off m).2.toFinset.card
      ≤ (Finset.Ico off (off + s.GetNumVertices)).card := Finset.card_le_card hsub
    _ = s.GetNumVertices := by simp

/-! ### The sub-mesh loop -/

theorem emitSubMesh_positions (kind : MeshKind) (layers : BuilderLayers)
    (st : OptimizedNodes × Nat) (s : MeshBuilderSubMesh) :
    (emitSubMesh kind layers st s).1.optimizedMesh.positions =
      st.1.optimizedMesh.positions ++ (subMeshLookups s).map (layerValue layers.posLayer) := by
  simp only [emitSubMesh, emitFaces, foldl_emitFace_positions, emitVertices_eq,
    foldl_emitVertex_positions]

theorem emitSubMesh_normals (kind : MeshKind) (layers : BuilderLayers)
    (st : OptimizedNodes × Nat) (s : MeshBuilderSubMesh) :
    (emitSubMesh kind layers st s).1.optimizedMesh.normals =
      st.1.optimizedMesh.normals ++ (subMeshLookups s).map (layerValue layers.normalsLayer) := by
  simp only [emitSubMesh, emitFaces, foldl_emitFace_normals, emitVertices_eq,
    foldl_emitVertex_normals]

theorem emitSubMesh_faceList (kind : MeshKind) (layers : BuilderLayers)
    (st : OptimizedNodes × Nat) (s : MeshBuilderSubMesh) :
    (emitSubMesh kind layers st s).1.optimizedMesh.faceList =
      st.1.optimizedMesh.faceList ++ (List.range s.GetNumPolygons).map (offsetFace s st.2) := by
  simp only [emitSubMesh, emitFaces, foldl_emitFace_faceList, emitVertices_eq,
    foldl_emitVertex_faceList]

theorem emitSubMesh_map (kind : MeshKind) (layers : BuilderLayers)
    (st : OptimizedNodes × Nat) (s : MeshBuilderSubMesh) (j : Nat) :
    (emitSubMesh kind layers st s).1.optimizedMesh.vertexIndexToControlPointIndexMap j =
      if st.1.optimizedMesh.positions.length ≤ j ∧
          j < st.1.optimizedMesh.positions.length + s.GetNumVertices then
        ((subMeshLookups s)[j - st.1.optimizedMesh.positions.length]?).map
          (layerValue layers.orgVtxLayer)
      else st.1.optimizedMesh.vertexIndexToControlPointIndexMap j := by
  simp only [emitSubMesh, emitFaces, foldl_emitFace_map, emitVertices_eq]
  rw [foldl_emitVertex_map]
  simp [subMeshLookups]

theorem emitSubMesh_uvs (kind : MeshKind) (layers : BuilderLayers)
    (st : OptimizedNodes × Nat) (s : MeshBuilderSubMesh) :
    (emitSubMesh kind layers st s).1.optimizedUVs =
      (subMeshLookups s).foldl (appendLayerValues layers.uvLayers) st.1.optimizedUVs := by
  simp only [emitSubMesh, emitVertices_eq, foldl_emitVertex_uvs]

theorem emitSubMesh_tangents (kind : MeshKind) (layers : BuilderLayers)
    (st : OptimizedNodes × Nat) (s : MeshBuilderSubMesh) :
    (emitSubMesh kind layers st s).1.optimizedTangents =
      (subMeshLookups s).foldl (appendLayerValues layers.tangentLayers)
        st.1.optimizedTangents := by
  simp only [emitSubMesh, emitVertices_eq, foldl_emitVertex_tangents]

theorem emitSubMesh_bitangents (kind : MeshKind) (layers : BuilderLayers)
    (st : OptimizedNodes × Nat) (s : MeshBuilderSubMesh) :
    (emitSubMesh kind layers st s).1.optimizedBitangents =
      (subMeshLookups s).foldl (appendLayerValues layers.bitangentLayers)
        st.1.optimizedBitangents := by
  simp only [emitSubMesh, emitVertices_eq, foldl_emitVertex_bitangents]

theorem emitSubMesh_colors (kind : MeshKind) (layers : BuilderLayers)
    (st : OptimizedNodes × Nat) (s : MeshBuilderSubMesh) :
    (emitSubMesh kind layers st s).1.optimizedVertexColors =
      (subMeshLookups s).foldl (appendLayerValues layers.vertexColorLayers)
        st.1.optimizedVertexColors := by
  simp only [emitSubMesh, emitVertices_eq, foldl_emitVertex_colors]

theorem emitSubMesh_offset (kind : MeshKind) (layers : BuilderLayers)
    (st : OptimizedNodes × Nat) (s : MeshBuilderSubMesh) :
    (emitSubMesh kind layers st s).2 =
      st.2 + (emitFaces kind s st.2 (emitVertices layers s st.1).optimizedMesh).2.length := rfl

theorem foldl_emitSubMesh_positions (kind : MeshKind) (layers : BuilderLayers)
    (subs : List MeshBuilderSubMesh) (st : OptimizedNodes × Nat) :
    (subs.foldl (emitSubMesh kind layers) st).1.optimizedMesh.positions =
      st.1.optimizedMesh.positions ++ (allLookups subs).map (layerValue layers.posLayer) := by
  induction subs generalizing st with
  | nil => simp [allLookups]
  | cons s subs ih =>
    simp only [List.foldl_cons]
    rw [ih, emitSubMesh_positions]
    simp [allLookups]

theorem foldl_emitSubMesh_normals (kind : MeshKind) (layers : BuilderLayers)
    (subs : List MeshBuilderSubMesh) (st : OptimizedNodes × Nat) :
    (subs.foldl (emitSubMesh kind layers) st).1.optimizedMesh.normals =
      st.1.optimizedMesh.normals ++ (allLookups subs).map (layerValue layers.normalsLayer) := by
  induction subs generalizing st with
  | nil => simp [allLookups]
  | cons s subs ih =>
    simp only [List.foldl_cons]
    rw [ih, emitSubMesh_normals]
    simp [allLookups]

theorem foldl_emitSubMesh_uvs (kind : MeshKind) (layers : BuilderLayers)
    (subs : List MeshBuilderSubMesh) (st : OptimizedNodes × Nat) :
    (subs.foldl (emitSubMesh kind layers) st).1.optimizedUVs =
      (allLookups subs).foldl (appendLayerValues layers.uvLayers) st.1.optimizedUVs := by
  induction subs generalizing st with
  | nil => simp [allLookups]
  | cons s subs ih =>
    simp only [List.foldl_cons]
    rw [ih, emitSubMesh_uvs]
    simp [allLookups, List.foldl_append]

theorem foldl_emitSubMesh_tangents (kind : MeshKind) (layers : BuilderLayers)
    (subs : List MeshBuilderSubMesh) (st : OptimizedNodes × Nat) :
    (subs.foldl (emitSubMesh kind layers) st).1.optimizedTangents =
      (allLookups subs).foldl (appendLayerValues layers.tangentLayers)
        st.1.optimizedTangents := by
  induction subs generalizing st with
  | nil => simp [allLookups]
  | cons s subs ih =>
    simp only [List.foldl_cons]
    rw [ih, emitSubMesh_tangents]
    simp [allLookups, List.foldl_append]

theorem foldl_emitSubMesh_bitangents (kind : MeshKind) (layers : BuilderLayers)
    (subs : List MeshBuilderSubMesh) (st : OptimizedNodes × Nat) :
    (subs.foldl (emitSubMesh kind layers) st).1.optimizedBitangents =
      (allLookups subs).foldl (appendLayerValues layers.bitangentLayers)
        st.1.optimizedBitangents := by
  induction subs generalizing st with
  | nil => simp [allLookups]
  | cons s subs ih =>
    simp only [List.foldl_cons]
    rw [ih, emitSubMesh_bitangents]
    simp [allLookups, List.foldl_append]

theorem foldl_emitSubMesh_colors (kind : MeshKind) (layers : BuilderLayers)
    (subs : List MeshBuilderSubMesh) (st : OptimizedNodes × Nat) :
    (subs.foldl (emitSubMesh kind layers) st).1.optimizedVertexColors =
      (allLookups subs).foldl (appendLayerValues layers.vertexColorLayers)
        st.1.optimizedVertexColors := by
  induction subs generalizing st with
  | nil => simp [allLookups]
  | cons s subs ih =>
    simp only [List.foldl_cons]
    rw [ih, emitSubMesh_colors]
    simp [allLookups, List.foldl_append]

theorem allLookups_length (subs : List MeshBuilderSubMesh) :
    (allLookups subs).length = totalVertices subs := by
  induction subs with
  | nil => simp [allLookups, totalVertices]
  | cons s subs ih =>
    simp only [allLookups, totalVertices, List.flatMap_cons, List.length_append, List.map_cons,
      List.sum_cons] at ih ⊢
    rw [ih]
    simp [subMeshLookups]

/-- Entry of the lookup list at the place of local vertex `v` of sub-mesh `k`. -/
theorem allLookups_getElem? (subs : List MeshBuilderSubMesh) (k : Nat) (s : MeshBuilderSubMesh)
    (hk : subs[k]? = some s) (v : Nat) (hv : v < s.GetNumVertices) :
    (allLookups subs)[totalVertices (subs.take k) + v]? = some (s.GetVertex v) := by
  induction subs generalizing k with
  | nil => simp at hk
  | cons s0 subs ih =>
    cases k with
    | zero =>
      simp only [List.getElem?_cons_zero, Option.some.injEq] at hk
      subst hk
      simp only [allLookups, List.flatMap_cons, List.take_zero, totalVertices, List.map_nil,
        List.sum_nil, Nat.zero_add]
      rw [List.getElem?_append_left (by simpa [subMeshLookups] using hv)]
      simp [subMeshLookups, hv, List.getElem?_range]
    | succ k =>
      simp only [List.getElem?_cons_succ] at hk
      have := ih k hk
      simp only [allLookups, List.flatMap_cons, List.take_succ_cons, totalVertices,
        List.map_cons, List.sum_cons] at this ⊢
      rw [List.getElem?_append_right (by simp [subMeshLookups]; omega)]
      have e : s0.GetNumVertices + (List.map (fun s => s.GetNumVertices) (List.take k subs)).sum
          + v - (subMeshLookups s0).length =
          (List.map (fun s => s.GetNumVertices) (List.take k subs)).sum + v := by
        simp [subMeshLookups]; omega
      rw [e]
      exact this

/-! ### The channel nodes -/

/-- Node `i` of a channel kind after the output loop holds the values layer `i` stores for the
lookups walked, in order. -/
theorem channel_getElem? {α : Type} (layers : List (MeshBuilderVertexAttributeLayerT α))
    (ls : List MeshBuilderVertexLookup) (i : Nat) (layer : MeshBuilderVertexAttributeLayerT α)
    (hl : layers[i]? = some layer) :
    (ls.foldl (appendLayerValues layers) (makeSceneGraphNodesForMeshBuilderLayers layers))[i]? =
      some (ls.map (layerValue layer)) := by
  have hi : i < layers.length := by
    rcases Nat.lt_or_ge i layers.length with h | h
    · exact h
    · rw [List.getElem?_eq_none h] at hl; cases hl
  have h0 : (makeSceneGraphNodesForMeshBuilderLayers layers : List (List α))[i]? = some [] := by
    simp [makeSceneGraphNodesForMeshBuilderLayers, List.getElem?_replicate, hi]
  have := foldl_appendLayerValues_getElem? layers ls
    (makeSceneGraphNodesForMeshBuilderLayers layers)
    (by simp [makeSceneGraphNodesForMeshBuilderLayers]) i layer [] hl h0
  simpa using this

theorem channel_length {α : Type} (layers : List (MeshBuilderVertexAttributeLayerT α))
    (ls : List MeshBuilderVertexLookup) :
    (ls.foldl (appendLayerValues layers)
      (makeSceneGraphNodesForMeshBuilderLayers layers)).length = layers.length :=
  foldl_appendLayerValues_length layers ls _ (by simp [makeSceneGraphNodesForMeshBuilderLayers])

/-- Every node of a channel kind holds one value per lookup walked. -/
theorem channel_mem_length {α : Type} (layers : List (MeshBuilderVertexAttributeLayerT α))
    (ls : List MeshBuilderVertexLookup) (ch : List α)
    (h : ch ∈ ls.foldl (appendLayerValues layers)
      (makeSceneGraphNodesForMeshBuilderLayers layers)) :
    ch.length = ls.length := by
  obtain ⟨i, hi, hget⟩ := List.getElem_of_mem h
  rw [channel_length] at hi
  have h1 := channel_getElem? layers ls i layers[i] (List.getElem?_eq_getElem hi)
  rw [List.getElem?_eq_getElem (by rw [channel_length]; exact hi)] at h1
  simp only [Option.some.injEq] at h1
  rw [← hget, h1]
  simp


/-! ### Faces and index offsets -/

theorem totalVertices_cons (s : MeshBuilderSubMesh) (subs : List MeshBuilderSubMesh) :
    totalVertices (s :: subs) = s.GetNumVertices + totalVertices subs := by
  simp [totalVertices]

theorem totalPolygons_cons (s : MeshBuilderSubMesh) (subs : List MeshBuilderSubMesh) :
    totalPolygons (s :: subs) = s.GetNumPolygons + totalPolygons subs := by
  simp [totalPolygons]

/-- The indices of an emitted face are the offset plus a local index of the sub-mesh. -/
theorem mem_offsetFace_vertexIndex (s : MeshBuilderSubMesh) (off p x : Nat)
    (hx : x ∈ (offsetFace s off p).vertexIndex) :
    ∃ i, p * 3 ≤ i ∧ i < p * 3 + 3 ∧ x = off + s.GetIndex i := by
  simp only [offsetFace, Face.vertexIndex, List.mem_cons, List.mem_singleton, List.not_mem_nil,
    or_false] at hx
  rcases hx with h | h | h
  · exact ⟨p * 3 + 0, by omega, by omega, h⟩
  · exact ⟨p * 3 + 1, by omega, by omega, h⟩
  · exact ⟨p * 3 + 2, by omega, by omega, h⟩

/-- With sub-meshes whose polygons use exactly their vertices, the sub-mesh loop emits the faces
of each sub-mesh moved by the vertex count of the sub-meshes before it, and `indexOffset` ends as
the total vertex count. -/
theorem foldl_emitSubMesh_faceList (kind : MeshKind) (layers : BuilderLayers)
    (subs : List MeshBuilderSubMesh) (st : OptimizedNodes × Nat)
    (h : ∀ s ∈ subs, SubMeshIndicesExact s) :
    (subs.foldl (emitSubMesh kind layers) st).1.optimizedMesh.faceList =
      st.1.optimizedMesh.faceList ++ facesFrom st.2 subs ∧
    (subs.foldl (emitSubMesh kind layers) st).2 = st.2 + totalVertices subs := by
  induction subs generalizing st with
  | nil => simp [facesFrom, totalVertices]
  | cons s subs ih =>
    simp only [List.foldl_cons]
    have hs : SubMeshIndicesExact s := h s (List.mem_cons_self _ _)
    have hoff : (emitSubMesh kind layers st s).2 = st.2 + s.GetNumVertices := by
      rw [emitSubMesh_offset, emitFaces_used_length kind s st.2 _ hs]
    obtain ⟨h1, h2⟩ := ih (emitSubMesh kind layers st s)
      (fun t ht => h t (List.mem_cons_of_mem _ ht))
    constructor
    · rw [h1, emitSubMesh_faceList, hoff]
      simp [facesFrom]
    · rw [h2, hoff, totalVertices_cons]
      omega

/-- The face of polygon `p` of sub-mesh `k` within `facesFrom`. -/
theorem facesFrom_getElem? (subs : List MeshBuilderSubMesh) (off k : Nat)
    (s : MeshBuilderSubMesh) (hk : subs[k]? = some s) (p : Nat) (hp : p < s.GetNumPolygons) :
    (facesFrom off subs)[totalPolygons (subs.take k) + p]? =
      some (offsetFace s (off + totalVertices (subs.take k)) p) := by
  induction subs generalizing k off with
  | nil => simp at hk
  | cons s0 subs ih =>
    cases k with
    | zero =>
      simp only [List.getElem?_cons_zero, Option.some.injEq] at hk
      subst hk
      simp only [facesFrom, List.take_zero, totalPolygons, totalVertices, List.map_nil,
        List.sum_nil, Nat.zero_add, Nat.add_zero]
      rw [List.getElem?_append_left (by simpa using hp)]
      simp [hp, List.getElem?_range]
    | succ k =>
      simp only [List.getElem?_cons_succ] at hk
      have := ih (off + s0.GetNumVertices) k hk
      simp only [facesFrom, List.take_succ_cons, totalPolygons_cons, totalVertices_cons]
      rw [List.getElem?_append_right (by simp; omega)]
      have e : s0.GetNumPolygons + totalPolygons (List.take k subs) + p -
          (List.map (offsetFace s0 off) (List.range s0.GetNumPolygons)).length =
          totalPolygons (List.take k subs) + p := by
        simp; omega
      rw [e, this]
      congr 2
      omega

theorem facesFrom_length (subs : List MeshBuilderSubMesh) (off : Nat) :
    (facesFrom off subs).length = totalPolygons subs := by
  induction subs generalizing off with
  | nil => simp [facesFrom, totalPolygons]
  | cons s subs ih =>
    simp only [facesFrom, List.length_append, List.length_map, List.length_range, ih,
      totalPolygons_cons]

/-- With local indices in range, every index of every face the sub-mesh loop adds is below the
start offset plus the total vertex count of the sub-meshes. -/
theorem foldl_emitSubMesh_index_lt (kind : MeshKind) (layers : BuilderLayers)
    (subs : List MeshBuilderSubMesh) (st : OptimizedNodes × Nat)
    (h : ∀ s ∈ subs, SubMeshIndicesInRange s) :
    (subs.foldl (emitSubMesh kind layers) st).2 ≤ st.2 + totalVertices subs ∧
    ∀ f ∈ (subs.foldl (emitSubMesh kind layers) st).1.optimizedMesh.faceList,
      f ∈ st.1.optimizedMesh.faceList ∨ ∀ x ∈ f.vertexIndex, x < st.2 + totalVertices subs := by
  induction subs generalizing st with
  | nil => exact ⟨by simp [totalVertices], fun f hf => Or.inl hf⟩
  | cons s subs ih =>
    simp only [List.foldl_cons]
    have hs : SubMeshIndicesInRange s := h s (List.mem_cons_self _ _)
    have hoff : (emitSubMesh kind layers st s).2 ≤ st.2 + s.GetNumVertices := by
      rw [emitSubMesh_offset]
      have := emitFaces_used_length_le kind s st.2 (emitVertices layers s st.1).optimizedMesh hs
      omega
    obtain ⟨h1, h2⟩ := ih (emitSubMesh kind layers st s)
      (fun t ht => h t (List.mem_cons_of_mem _ ht))
    rw [totalVertices_cons]
    constructor
    · omega
    · intro f hf
      rcases h2 f hf with h3 | h3
      · rw [emitSubMesh_faceList, List.mem_append] at h3
        rcases h3 with h3 | h3
        · exact Or.inl h3
        · right
          intro x hx
          obtain ⟨p, hp, rfl⟩ := List.mem_map.1 h3
          obtain ⟨i, hi1, hi2, rfl⟩ := mem_offsetFace_vertexIndex s st.2 p x hx
          have hp2 : p < s.GetNumPolygons := List.mem_range.1 hp
          have := hs i (by omega)
          omega
      · right
        intro x hx
        have := h3 x hx
        omega

/-- The example sub-meshes are as a builder produces them. -/
theorem exampleSubMeshes_exact : ∀ s ∈ exampleSubMeshes, SubMeshIndicesExact s := by
  intro s hs
  simp only [exampleSubMeshes, List.mem_cons, List.mem_singleton, List.not_mem_nil,
    or_false] at hs
  rcases hs with rfl | rfl
  · exact ⟨fun i hi => by simpa using hi, fun v hv => ⟨v, by simpa using hv, rfl⟩⟩
  · exact ⟨fun i hi => by simpa using hi, fun v hv => ⟨v, by simpa using hv, rfl⟩⟩

/-! ### The mesh builder: sub-meshes -/

theorem firstSeen_foldl (xs order : List MeshBuilderVertexLookup) (hnd : order.Nodup) :
    (xs.foldl (fun order l => if l ∈ order then order else order ++ [l]) order).Nodup ∧
    ∀ l, l ∈ xs.foldl (fun order l => if l ∈ order then order else order ++ [l]) order ↔
      l ∈ order ∨ l ∈ xs := by
  induction xs generalizing order with
  | nil => simp [hnd]
  | cons x xs ih =>
    simp only [List.foldl_cons]
    by_cases hx : x ∈ order
    · rw [if_pos hx]
      obtain ⟨h1, h2⟩ := ih order hnd
      refine ⟨h1, fun l => ?_⟩
      rw [h2 l, List.mem_cons]
      constructor
      · rintro (h | h)
        · exact Or.inl h
        · exact Or.inr (Or.inr h)
      · rintro (h | h | h)
        · exact Or.inl h
        · exact Or.inl (h ▸ hx)
        · exact Or.inr h
    · rw [if_neg hx]
      have hnd2 : (order ++ [x]).Nodup := by
        rw [List.nodup_append]
        exact ⟨hnd, List.nodup_singleton x, by
          intro a ha hb
          rw [List.mem_singleton] at hb
          exact hx (hb ▸ ha)⟩
      obtain ⟨h1, h2⟩ := ih (order ++ [x]) hnd2
      refine ⟨h1, fun l => ?_⟩
      rw [h2 l, List.mem_append, List.mem_singleton, List.mem_cons]
      tauto

theorem firstSeenOrder_nodup (xs : List MeshBuilderVertexLookup) : (firstSeenOrder xs).Nodup :=
  (firstSeen_foldl xs [] List.nodup_nil).1

theorem mem_firstSeenOrder (xs : List MeshBuilderVertexLookup) (l : MeshBuilderVertexLookup) :
    l ∈ firstSeenOrder xs ↔ l ∈ xs := by
  unfold firstSeenOrder
  rw [(firstSeen_foldl xs [] List.nodup_nil).2 l]
  simp

/-- A sub-mesh of the builder whose corners come in triangles and whose local buffer is the
first-seen order of its corners uses exactly the vertices of the buffer. -/
theorem toSubMesh_exact (s : SubMeshData) (h3 : s.indices.length % 3 = 0)
    (ho : s.vertexOrder = firstSeenOrder s.indices) : SubMeshIndicesExact s.toSubMesh := by
  constructor
  · intro i hi
    simp only [SubMeshData.toSubMesh] at hi ⊢
    have hi2 : i < s.indices.length := by omega
    rw [List.indexOf_lt_length, ho, mem_firstSeenOrder]
    rw [List.getD_eq_getElem?_getD, List.getElem?_eq_getElem hi2]
    exact List.getElem_mem _
  · intro v hv
    simp only [SubMeshData.toSubMesh] at hv ⊢
    have hmem : s.vertexOrder[v] ∈ s.indices := by
      rw [← mem_firstSeenOrder, ← ho]
      exact List.getElem_mem _
    obtain ⟨i, hi, hget⟩ := List.getElem_of_mem hmem
    refine ⟨i, by omega, ?_⟩
    rw [List.getD_eq_getElem?_getD, List.getElem?_eq_getElem hi]
    simp only [Option.getD_some]
    rw [hget]
    exact List.indexOf_getElem (ho ▸ firstSeenOrder_nodup s.indices) v hv

theorem addPolygonToSubMeshes_triangles (subs : List SubMeshData) (m : Nat)
    (vs : List MeshBuilderVertexLookup) (hvs : vs.length % 3 = 0)
    (h : ∀ s ∈ subs, s.indices.length % 3 = 0) :
    ∀ s ∈ addPolygonToSubMeshes subs m vs, s.indices.length % 3 = 0 := by
  induction subs with
  | nil =>
    intro s hs
    simp only [addPolygonToSubMeshes, List.mem_singleton] at hs
    subst hs
    exact hvs
  | cons s0 subs ih =>
    intro s hs
    simp only [addPolygonToSubMeshes] at hs
    split at hs
    · rcases List.mem_cons.1 hs with rfl | h1
      · have := h s0 (List.mem_cons_self _ _)
        simp only [List.length_append]
        omega
      · exact h s (List.mem_cons_of_mem _ h1)
    · rcases List.mem_cons.1 hs with rfl | h1
      · exact h _ (List.mem_cons_self _ _)
      · exact ih (fun t ht => h t (List.mem_cons_of_mem _ ht)) s h1

/-- Invariants of a fold of `addFacePolygon` carry from the start to the end. -/
theorem foldl_addFacePolygon_invariant (P : MeshBuilder → Prop) (meshData baseMesh : IMeshData)
    (uvs : List IMeshVertexUVData) (tangents : List IMeshVertexTangentData)
    (bitangents : List IMeshVertexBitangentData) (vertexColors : List IMeshVertexColorData)
    (faces : List Nat) (b : MeshBuilder) (h0 : P b)
    (hstep : ∀ b f, f ∈ faces → P b →
      P (addFacePolygon meshData baseMesh uvs tangents bitangents vertexColors b f)) :
    P (faces.foldl (addFacePolygon meshData baseMesh uvs tangents bitangents vertexColors) b) := by
  induction faces generalizing b with
  | nil => exact h0
  | cons f faces ih =>
    simp only [List.foldl_cons]
    exact ih _ (hstep b f (List.mem_cons_self _ _) h0)
      (fun b g hg hb => hstep b g (List.mem_cons_of_mem _ hg) hb)

theorem addFacePolygon_subMeshes (meshData baseMesh : IMeshData)
    (uvs : List IMeshVertexUVData) (tangents : List IMeshVertexTangentData)
    (bitangents : List IMeshVertexBitangentData) (vertexColors : List IMeshVertexColorData)
    (b : MeshBuilder) (f : Nat) :
    ∃ l0 l1 l2,
      (addFacePolygon meshData baseMesh uvs tangents bitangents vertexColors b f).subMeshes =
        addPolygonToSubMeshes b.subMeshes (baseMesh.GetFaceMaterialId f) [l0, l1, l2] :=
  ⟨_, _, _, rfl⟩

/-- Every sub-mesh the builder of `OptimizeMesh` ends with is made of triangles. -/
theorem buildMesh_triangles (meshData baseMesh : IMeshData) (uvs : List IMeshVertexUVData)
    (tangents : List IMeshVertexTangentData) (bitangents : List IMeshVertexBitangentData)
    (vertexColors : List IMeshVertexColorData) (faces : List Nat) (b : MeshBuilder)
    (h : ∀ s ∈ b.subMeshes, s.indices.length % 3 = 0) :
    ∀ s ∈ (faces.foldl
        (addFacePolygon meshData baseMesh uvs tangents bitangents vertexColors) b).subMeshes,
      s.indices.length % 3 = 0 := by
  apply foldl_addFacePolygon_invariant
    (fun b => ∀ s ∈ b.subMeshes, s.indices.length % 3 = 0)
  · exact h
  · intro b f _ hb
    obtain ⟨l0, l1, l2, he⟩ :=
      addFacePolygon_subMeshes meshData baseMesh uvs tangents bitangents vertexColors b f
    rw [he]
    exact addPolygonToSubMeshes_triangles _ _ _ (by simp) hb

/-- The sub-meshes the builder of `OptimizeMesh` produces use exactly the vertices of their local
buffers: local indices are in range and every vertex is used by a polygon. -/
theorem buildMesh_subMeshes_exact (meshData baseMesh : IMeshData)
    (uvs : List IMeshVertexUVData) (tangents : List IMeshVertexTangentData)
    (bitangents : List IMeshVertexBitangentData) (vertexColors : List IMeshVertexColorData)
    (skinWeights : List ISkinWeightData) (meshGroup : IMeshGroup) (hasBlendShapes : Bool) :
    ∀ s ∈ (buildMesh meshData baseMesh uvs tangents bitangents vertexColors skinWeights
      meshGroup hasBlendShapes).GetSubMeshes, SubMeshIndicesExact s := by
  intro s hs
  simp only [buildMesh, MeshBuilder.GetSubMeshes, MeshBuilder.GenerateSubMeshVertexOrders,
    List.map_map, List.mem_map, Function.comp] at hs
  obtain ⟨sd, hsd, rfl⟩ := hs
  apply toSubMesh_exact
  · exact buildMesh_triangles meshData baseMesh uvs tangents bitangents vertexColors _ _
      (by simp [MeshBuilder.create, MeshBuilder.SetSkinningInfo]) sd hsd
  · rfl

/-! ### The mesh builder: what the slots store -/

theorem resolveDuplicate_le (o : Bool) (slots : List VertexAttributes) (cur : VertexAttributes) :
    resolveDuplicate o slots cur ≤ slots.length := by
  unfold resolveDuplicate
  split
  · exact List.indexOf_le_length
  · exact Nat.le_refl _

theorem AddPolygonVertex_duplicates_length (b : MeshBuilder) (org : Nat)
    (cur : VertexAttributes) (o : Nat) :
    (b.duplicates o).length ≤ ((b.AddPolygonVertex org cur).duplicates o).length := by
  simp only [MeshBuilder.AddPolygonVertex]
  split
  · exact Nat.le_refl _
  · by_cases h : o = org
    · subst h; simp
    · simp [h]

theorem AddPolygonVertex_getElem? (b : MeshBuilder) (org : Nat) (cur : VertexAttributes)
    (o d : Nat) (a : VertexAttributes)
    (ha : ((b.AddPolygonVertex org cur).duplicates o)[d]? = some a) :
    (b.duplicates o)[d]? = some a ∨ (o = org ∧ a = cur) := by
  simp only [MeshBuilder.AddPolygonVertex] at ha
  split at ha
  · exact Or.inl ha
  · by_cases ho : o = org
    · subst ho
      simp only [if_true] at ha
      rw [List.getElem?_append] at ha
      split at ha
      · exact Or.inl ha
      · right
        refine ⟨rfl, ?_⟩
        rcases Nat.eq_zero_or_pos (d - (b.duplicates o).length) with hd | hd
        · rw [hd] at ha
          simpa using ha.symm
        · rw [List.getElem?_eq_none (by simp only [List.length_singleton]; omega)] at ha
          cases ha
    · simp only [ho, if_false] at ha
      exact Or.inl ha

theorem AddPolygonVertex_lookup_lt (b : MeshBuilder) (org : Nat) (cur : VertexAttributes) :
    resolveDuplicate b.optimizeDuplicates (b.duplicates org) cur <
      ((b.AddPolygonVertex org cur).duplicates org).length := by
  have hle := resolveDuplicate_le b.optimizeDuplicates (b.duplicates org) cur
  simp only [MeshBuilder.AddPolygonVertex]
  split
  · assumption
  · simp only [if_true, List.length_append, List.length_singleton]
    omega

theorem AddPolygonVertex_slotsFromCorners (meshData : IMeshData) (uvs : List IMeshVertexUVData)
    (tangents : List IMeshVertexTangentData) (bitangents : List IMeshVertexBitangentData)
    (vertexColors : List IMeshVertexColorData) (b : MeshBuilder) (vi : Nat)
    (hc : IsCorner meshData vi)
    (hb : SlotsFromCorners meshData uvs tangents bitangents vertexColors b) :
    SlotsFromCorners meshData uvs tangents bitangents vertexColors
      (addCorner meshData uvs tangents bitangents vertexColors b vi) := by
  obtain ⟨h1, h2, h3⟩ := hb
  have hmono := AddPolygonVertex_duplicates_length b (cornerKey meshData vi)
    (cornerAttributes meshData uvs tangents bitangents vertexColors vi)
  refine ⟨?_, ?_, ?_⟩
  · intro org d a ha
    rcases AddPolygonVertex_getElem? b _ _ org d a ha with h | ⟨h, h'⟩
    · exact h1 org d a h
    · exact ⟨vi, hc, h.symm, h'⟩
  · intro l hl
    have hl2 : l ∈ b.polygonVertices ∨ l = ⟨cornerKey meshData vi,
        resolveDuplicate b.optimizeDuplicates (b.duplicates (cornerKey meshData vi))
          (cornerAttributes meshData uvs tangents bitangents vertexColors vi)⟩ := by
      simpa [addCorner, MeshBuilder.AddPolygonVertex] using hl
    rcases hl2 with hl2 | hl2
    · exact Nat.lt_of_lt_of_le (h2 l hl2) (hmono l.mOrgVtx)
    · subst hl2
      exact AddPolygonVertex_lookup_lt b _ _
  · intro s hs l hl
    exact Nat.lt_of_lt_of_le (h3 s hs l hl) (hmono l.mOrgVtx)

theorem addPolygonToSubMeshes_mem_indices (subs : List SubMeshData) (m : Nat)
    (vs : List MeshBuilderVertexLookup) (s : SubMeshData)
    (hs : s ∈ addPolygonToSubMeshes subs m vs) (l : MeshBuilderVertexLookup)
    (hl : l ∈ s.indices) : (∃ t ∈ subs, l ∈ t.indices) ∨ l ∈ vs := by
  induction subs with
  | nil =>
    simp only [addPolygonToSubMeshes, List.mem_singleton] at hs
    subst hs
    exact Or.inr hl
  | cons s0 subs ih =>
    simp only [addPolygonToSubMeshes] at hs
    split at hs
    · rcases List.mem_cons.1 hs with rfl | h1
      · simp only [List.mem_append] at hl
        rcases hl with hl | hl
        · exact Or.inl ⟨s0, List.mem_cons_self _ _, hl⟩
        · exact Or.inr hl
      · exact Or.inl ⟨s, List.mem_cons_of_mem _ h1, hl⟩
    · rcases List.mem_cons.1 hs with rfl | h1
      · exact Or.inl ⟨s, List.mem_cons_self _ _, hl⟩
      · rcases ih h1 with ⟨t, ht, hlt⟩ | h2
        · exact Or.inl ⟨t, List.mem_cons_of_mem _ ht, hlt⟩
        · exact Or.inr h2

theorem addFacePolygon_slotsFromCorners (meshData baseMesh : IMeshData)
    (uvs : List IMeshVertexUVData) (tangents : List IMeshVertexTangentData)
    (bitangents : List IMeshVertexBitangentData) (vertexColors : List IMeshVertexColorData)
    (b : MeshBuilder) (f : Nat) (hf : f < meshData.GetFaceCount)
    (hb : SlotsFromCorners meshData uvs tangents bitangents vertexColors b) :
    SlotsFromCorners meshData uvs tangents bitangents vertexColors
      (addFacePolygon meshData baseMesh uvs tangents bitangents vertexColors b f) := by
  have h0 : SlotsFromCorners meshData uvs tangents bitangents vertexColors
      (b.BeginPolygon (baseMesh.GetFaceMaterialId f)) :=
    ⟨hb.1, by simp [MeshBuilder.BeginPolygon], hb.2.2⟩
  have hc : ∀ vi ∈ (meshData.GetFaceInfo f).vertexIndex, IsCorner meshData vi :=
    fun vi hvi => ⟨f, hf, hvi⟩
  simp only [Face.vertexIndex, List.mem_cons, List.mem_singleton, List.not_mem_nil,
    or_false] at hc
  have h1 := AddPolygonVertex_slotsFromCorners meshData uvs tangents bitangents vertexColors _
    _ (hc (meshData.GetFaceInfo f).v0 (Or.inl rfl)) h0
  have h2 := AddPolygonVertex_slotsFromCorners meshData uvs tangents bitangents vertexColors _
    _ (hc (meshData.GetFaceInfo f).v1 (Or.inr (Or.inl rfl))) h1
  have h3 := AddPolygonVertex_slotsFromCorners meshData uvs tangents bitangents vertexColors _
    _ (hc (meshData.GetFaceInfo f).v2 (Or.inr (Or.inr rfl))) h2
  simp only [addFacePolygon, Face.vertexIndex, List.foldl_cons, List.foldl_nil]
  refine ⟨h3.1, by simp [MeshBuilder.EndPolygon], ?_⟩
  intro s hs l hl
  simp only [MeshBuilder.EndPolygon] at hs
  rcases addPolygonToSubMeshes_mem_indices _ _ _ s hs l hl with ⟨t, ht, hlt⟩ | h4
  · exact h3.2.2 t ht l hlt
  · exact h3.2.1 l h4

/-- The builder of `OptimizeMesh` stores in every slot the attribute tuple of a corner of the
mesh, and every lookup of its sub-meshes names a stored slot. -/
theorem buildMesh_slotsFromCorners (meshData baseMesh : IMeshData)
    (uvs : List IMeshVertexUVData) (tangents : List IMeshVertexTangentData)
    (bitangents : List IMeshVertexBitangentData) (vertexColors : List IMeshVertexColorData)
    (skinWeights : List ISkinWeightData) (meshGroup : IMeshGroup) (hasBlendShapes : Bool) :
    SlotsFromCorners meshData uvs tangents bitangents vertexColors
      (buildMesh meshData baseMesh uvs tangents bitangents vertexColors skinWeights meshGroup
        hasBlendShapes) := by
  have h := foldl_addFacePolygon_invariant
    (SlotsFromCorners meshData uvs tangents bitangents vertexColors)
    meshData baseMesh uvs tangents bitangents vertexColors (List.range meshData.GetFaceCount)
    ((MeshBuilder.create (!hasBlendShapes)).SetSkinningInfo
      (ExtractSkinningInfo meshData skinWeights (skinningParameters meshGroup).1
        (skinningParameters meshGroup).2))
    ⟨by simp [MeshBuilder.create, MeshBuilder.SetSkinningInfo],
     by simp [MeshBuilder.create, MeshBuilder.SetSkinningInfo],
     by simp [MeshBuilder.create, MeshBuilder.SetSkinningInfo]⟩
    (fun b f hf hb => addFacePolygon_slotsFromCorners meshData baseMesh uvs tangents bitangents
      vertexColors b f (List.mem_range.1 hf) hb)
  obtain ⟨h1, h2, h3⟩ := h
  refine ⟨h1, h2, ?_⟩
  intro s hs l hl
  simp only [buildMesh, MeshBuilder.GenerateSubMeshVertexOrders, List.mem_map] at hs
  obtain ⟨t, ht, rfl⟩ := hs
  exact h3 t ht l hl

/-! ### The output of the sub-mesh loop in closed form -/

theorem foldl_emitSubMesh_map (kind : MeshKind) (layers : BuilderLayers)
    (subs : List MeshBuilderSubMesh) (st : OptimizedNodes × Nat) (j : Nat) :
    (subs.foldl (emitSubMesh kind layers) st).1.optimizedMesh.vertexIndexToControlPointIndexMap j =
      if st.1.optimizedMesh.positions.length ≤ j ∧
          j < st.1.optimizedMesh.positions.length + (allLookups subs).length then
        ((allLookups subs)[j - st.1.optimizedMesh.positions.length]?).map
          (layerValue layers.orgVtxLayer)
      else st.1.optimizedMesh.vertexIndexToControlPointIndexMap j := by
  induction subs generalizing st with
  | nil =>
    have h : ¬ (st.1.optimizedMesh.positions.length ≤ j ∧
        j < st.1.optimizedMesh.positions.length + 0) := by omega
    simp only [List.foldl_nil, allLookups, List.flatMap_nil, List.length_nil]
    rw [if_neg h]
  | cons s subs ih =>
    simp only [List.foldl_cons]
    rw [ih, emitSubMesh_map, emitSubMesh_positions]
    have hlen : (subMeshLookups s).length = s.GetNumVertices := by simp [subMeshLookups]
    have hcons : allLookups (s :: subs) = subMeshLookups s ++ allLookups subs := by
      simp [allLookups]
    rw [hcons]
    simp only [List.length_append, List.length_map, hlen]
    by_cases h1 : st.1.optimizedMesh.positions.length + s.GetNumVertices ≤ j ∧
        j < st.1.optimizedMesh.positions.length + s.GetNumVertices + (allLookups subs).length
    · have h2 : st.1.optimizedMesh.positions.length ≤ j ∧
          j < st.1.optimizedMesh.positions.length + (s.GetNumVertices + (allLookups subs).length) := by
        omega
      rw [if_pos h1, if_pos h2, List.getElem?_append_right (by rw [hlen]; omega), hlen]
      congr 2
      omega
    · rw [if_neg h1]
      by_cases h3 : st.1.optimizedMesh.positions.length ≤ j ∧
          j < st.1.optimizedMesh.positions.length + s.GetNumVertices
      · have h2 : st.1.optimizedMesh.positions.length ≤ j ∧
            j < st.1.optimizedMesh.positions.length +
              (s.GetNumVertices + (allLookups subs).length) := by omega
        rw [if_pos h3, if_pos h2, List.getElem?_append_left (by rw [hlen]; omega)]
      · have h2 : ¬ (st.1.optimizedMesh.positions.length ≤ j ∧
            j < st.1.optimizedMesh.positions.length +
              (s.GetNumVertices + (allLookups subs).length)) := by omega
        rw [if_neg h3, if_neg h2]

theorem emitSubMeshes_positions (kind : MeshKind) (layers : BuilderLayers)
    (subs : List MeshBuilderSubMesh) :
    (emitSubMeshes kind layers subs).1.optimizedMesh.positions =
      (allLookups subs).map (layerValue layers.posLayer) := by
  unfold emitSubMeshes
  rw [foldl_emitSubMesh_positions]
  simp [initialNodes, MeshData.empty]

theorem emitSubMeshes_normals (kind : MeshKind) (layers : BuilderLayers)
    (subs : List MeshBuilderSubMesh) :
    (emitSubMeshes kind layers subs).1.optimizedMesh.normals =
      (allLookups subs).map (layerValue layers.normalsLayer) := by
  unfold emitSubMeshes
  rw [foldl_emitSubMesh_normals]
  simp [initialNodes, MeshData.empty]

/-- The back-reference map of the output: vertex `j` maps to the value the original-vertex layer
stores for the lookup of vertex `j`. -/
theorem emitSubMeshes_map (kind : MeshKind) (layers : BuilderLayers)
    (subs : List MeshBuilderSubMesh) (j : Nat) :
    (emitSubMeshes kind layers subs).1.optimizedMesh.vertexIndexToControlPointIndexMap j =
      ((allLookups subs)[j]?).map (layerValue layers.orgVtxLayer) := by
  unfold emitSubMeshes
  rw [foldl_emitSubMesh_map]
  simp only [initialNodes, MeshData.empty, List.length_nil, Nat.zero_le, true_and, Nat.zero_add,
    Nat.sub_zero]
  split
  · rfl
  · rename_i h
    rw [List.getElem?_eq_none (by omega)]
    rfl

theorem emitSubMeshes_uvs (kind : MeshKind) (layers : BuilderLayers)
    (subs : List MeshBuilderSubMesh) (i : Nat) (layer : MeshBuilderVertexAttributeLayerT Vector2)
    (h : layers.uvLayers[i]? = some layer) :
    (emitSubMeshes kind layers subs).1.optimizedUVs[i]? =
      some ((allLookups subs).map (layerValue layer)) := by
  unfold emitSubMeshes
  rw [foldl_emitSubMesh_uvs]
  exact channel_getElem? _ _ i layer h

theorem emitSubMeshes_tangents (kind : MeshKind) (layers : BuilderLayers)
    (subs : List MeshBuilderSubMesh) (i : Nat) (layer : MeshBuilderVertexAttributeLayerT Vector4)
    (h : layers.tangentLayers[i]? = some layer) :
    (emitSubMeshes kind layers subs).1.optimizedTangents[i]? =
      some ((allLookups subs).map (layerValue layer)) := by
  unfold emitSubMeshes
  rw [foldl_emitSubMesh_tangents]
  exact channel_getElem? _ _ i layer h

theorem emitSubMeshes_bitangents (kind : MeshKind) (layers : BuilderLayers)
    (subs : List MeshBuilderSubMesh) (i : Nat) (layer : MeshBuilderVertexAttributeLayerT Vector3)
    (h : layers.bitangentLayers[i]? = some layer) :
    (emitSubMeshes kind layers subs).1.optimizedBitangents[i]? =
      some ((allLookups subs).map (layerValue layer)) := by
  unfold emitSubMeshes
  rw [foldl_emitSubMesh_bitangents]
  exact channel_getElem? _ _ i layer h

theorem emitSubMeshes_colors (kind : MeshKind) (layers : BuilderLayers)
    (subs : List MeshBuilderSubMesh) (i : Nat) (layer : MeshBuilderVertexAttributeLayerT Color)
    (h : layers.vertexColorLayers[i]? = some layer) :
    (emitSubMeshes kind layers subs).1.optimizedVertexColors[i]? =
      some ((allLookups subs).map (layerValue layer)) := by
  unfold emitSubMeshes
  rw [foldl_emitSubMesh_colors]
  exact channel_getElem? _ _ i layer h

theorem emitSubMeshes_channel_counts (kind : MeshKind) (layers : BuilderLayers)
    (subs : List MeshBuilderSubMesh) :
    (emitSubMeshes kind layers subs).1.optimizedUVs.length = layers.uvLayers.length ∧
    (emitSubMeshes kind layers subs).1.optimizedTangents.length = layers.tangentLayers.length ∧
    (emitSubMeshes kind layers subs).1.optimizedBitangents.length =
      layers.bitangentLayers.length ∧
    (emitSubMeshes kind layers subs).1.optimizedVertexColors.length =
      layers.vertexColorLayers.length := by
  unfold emitSubMeshes
  rw [foldl_emitSubMesh_uvs, foldl_emitSubMesh_tangents, foldl_emitSubMesh_bitangents,
    foldl_emitSubMesh_colors]
  exact ⟨channel_length _ _, channel_length _ _, channel_length _ _, channel_length _ _⟩

/-! ### Output vertices and the corners of the mesh -/

theorem subMeshLookups_toSubMesh (sd : SubMeshData) :
    subMeshLookups sd.toSubMesh = sd.vertexOrder := by
  apply List.ext_getElem?
  intro n
  simp only [subMeshLookups, SubMeshData.toSubMesh, List.getElem?_map]
  by_cases h : n < sd.vertexOrder.length
  · rw [List.getElem?_range h, List.getElem?_eq_getElem h]
    simp [List.getD_eq_getElem?_getD, List.getElem?_eq_getElem h]
  · rw [List.getElem?_eq_none (by simpa using h), List.getElem?_eq_none (by omega)]
    rfl

theorem allLookups_GetSubMeshes (b : MeshBuilder) :
    allLookups b.GetSubMeshes = b.subMeshes.flatMap (fun sd => sd.vertexOrder) := by
  simp only [allLookups, MeshBuilder.GetSubMeshes, List.flatMap_map, Function.comp,
    subMeshLookups_toSubMesh]

theorem buildMesh_vertexOrder (meshData baseMesh : IMeshData) (uvs : List IMeshVertexUVData)
    (tangents : List IMeshVertexTangentData) (bitangents : List IMeshVertexBitangentData)
    (vertexColors : List IMeshVertexColorData) (skinWeights : List ISkinWeightData)
    (meshGroup : IMeshGroup) (hasBlendShapes : Bool) :
    ∀ sd ∈ (buildMesh meshData baseMesh uvs tangents bitangents vertexColors skinWeights
      meshGroup hasBlendShapes).subMeshes, sd.vertexOrder = firstSeenOrder sd.indices := by
  intro sd hsd
  simp only [buildMesh, MeshBuilder.GenerateSubMeshVertexOrders, List.mem_map] at hsd
  obtain ⟨t, _, rfl⟩ := hsd
  rfl

/-- Every vertex lookup the output loop walks names a slot of the builder that stores the
attribute tuple of a corner of the mesh filed under the lookup's original vertex. -/
theorem buildMesh_lookup_from_corner (meshData baseMesh : IMeshData)
    (uvs : List IMeshVertexUVData) (tangents : List IMeshVertexTangentData)
    (bitangents : List IMeshVertexBitangentData) (vertexColors : List IMeshVertexColorData)
    (skinWeights : List ISkinWeightData) (meshGroup : IMeshGroup) (hasBlendShapes : Bool)
    (l : MeshBuilderVertexLookup)
    (hl : l ∈ allLookups (buildMesh meshData baseMesh uvs tangents bitangents vertexColors
      skinWeights meshGroup hasBlendShapes).GetSubMeshes) :
    ∃ vi, IsCorner meshData vi ∧ cornerKey meshData vi = l.mOrgVtx ∧
      (buildMesh meshData baseMesh uvs tangents bitangents vertexColors skinWeights meshGroup
        hasBlendShapes).storedAttributes l.mOrgVtx l.mDuplicateNr =
        cornerAttributes meshData uvs tangents bitangents vertexColors vi := by
  rw [allLookups_GetSubMeshes, List.mem_flatMap] at hl
  obtain ⟨sd, hsd, hmem⟩ := hl
  rw [buildMesh_vertexOrder _ _ _ _ _ _ _ _ _ sd hsd, mem_firstSeenOrder] at hmem
  obtain ⟨h1, _, h3⟩ := buildMesh_slotsFromCorners meshData baseMesh uvs tangents bitangents
    vertexColors skinWeights meshGroup hasBlendShapes
  have hlt := h3 sd hsd l hmem
  obtain ⟨vi, hc, hk, ha⟩ := h1 l.mOrgVtx l.mDuplicateNr _ (List.getElem?_eq_getElem hlt)
  refine ⟨vi, hc, hk, ?_⟩
  rw [← ha]
  simp [MeshBuilder.storedAttributes, List.getD_eq_getElem?_getD, List.getElem?_eq_getElem hlt]

theorem builder_layer_getElem? {α : Type} (n i : Nat) (f : Nat → MeshBuilderVertexAttributeLayerT α)
    (hi : i < n) : ((List.range n).map f)[i]? = some (f i) := by
  simp [List.getElem?_map, List.getElem?_range hi]

/-- An output vertex whose lookup names a slot that stores the tuple of a corner carries that
tuple. -/
theorem carries_of_lookup (kind : MeshKind) (meshData baseMesh : IMeshData)
    (uvs : List IMeshVertexUVData) (tangents : List IMeshVertexTangentData)
    (bitangents : List IMeshVertexBitangentData) (vertexColors : List IMeshVertexColorData)
    (skinWeights : List ISkinWeightData) (meshGroup : IMeshGroup) (hasBlendShapes : Bool)
    (x : Nat) (l : MeshBuilderVertexLookup) (vi : Nat)
    (hget : (allLookups (buildMesh meshData baseMesh uvs tangents bitangents vertexColors
      skinWeights meshGroup hasBlendShapes).GetSubMeshes)[x]? = some l)
    (hst : (buildMesh meshData baseMesh uvs tangents bitangents vertexColors skinWeights
      meshGroup hasBlendShapes).storedAttributes l.mOrgVtx l.mDuplicateNr =
      cornerAttributes meshData uvs tangents bitangents vertexColors vi) :
    CarriesAttributes (OptimizeMesh kind meshData baseMesh uvs tangents bitangents vertexColors
      skinWeights meshGroup hasBlendShapes).nodes x
      (cornerAttributes meshData uvs tangents bitangents vertexColors vi) := by
  simp only [CarriesAttributes, OptimizeMesh]
  refine ⟨?_, ?_, ?_, ?_, ?_, ?_, ?_⟩
  · rw [emitSubMeshes_positions, List.getElem?_map, hget]
    simp only [Option.map_some', layerValue, MeshBuilder.layers, Option.some.injEq]
    rw [hst]
  · rw [emitSubMeshes_normals, List.getElem?_map, hget]
    simp only [Option.map_some', layerValue, MeshBuilder.layers, Option.some.injEq]
    rw [hst]
  · rw [emitSubMeshes_map, hget]
    simp only [Option.map_some', layerValue, MeshBuilder.layers, Option.some.injEq]
    rw [hst]
  · intro i v hv
    have hi : i < uvs.length := by
      rcases Nat.lt_or_ge i uvs.length with h | h
      · exact h
      · rw [List.getElem?_eq_none (by simpa [cornerAttributes] using h)] at hv; cases hv
    refine ⟨_, emitSubMeshes_uvs kind _ _ i _ (builder_layer_getElem? _ i _ hi), ?_⟩
    rw [List.getElem?_map, hget]
    simp only [Option.map_some', layerValue, Option.some.injEq]
    rw [hst, List.getD_eq_getElem?_getD, hv]
    rfl
  · intro i v hv
    have hi : i < tangents.length := by
      rcases Nat.lt_or_ge i tangents.length with h | h
      · exact h
      · rw [List.getElem?_eq_none (by simpa [cornerAttributes] using h)] at hv; cases hv
    refine ⟨_, emitSubMeshes_tangents kind _ _ i _ (builder_layer_getElem? _ i _ hi), ?_⟩
    rw [List.getElem?_map, hget]
    simp only [Option.map_some', layerValue, Option.some.injEq]
    rw [hst, List.getD_eq_getElem?_getD, hv]
    rfl
  · intro i v hv
    have hi : i < bitangents.length := by
      rcases Nat.lt_or_ge i bitangents.length with h | h
      · exact h
      · rw [List.getElem?_eq_none (by simpa [cornerAttributes] using h)] at hv; cases hv
    refine ⟨_, emitSubMeshes_bitangents kind _ _ i _ (builder_layer_getElem? _ i _ hi), ?_⟩
    rw [List.getElem?_map, hget]
    simp only [Option.map_some', layerValue, Option.some.injEq]
    rw [hst, List.getD_eq_getElem?_getD, hv]
    rfl
  · intro i v hv
    have hi : i < vertexColors.length := by
      rcases Nat.lt_or_ge i vertexColors.length with h | h
      · exact h
      · rw [List.getElem?_eq_none (by simpa [cornerAttributes] using h)] at hv; cases hv
    refine ⟨_, emitSubMeshes_colors kind _ _ i _ (builder_layer_getElem? _ i _ hi), ?_⟩
    rw [List.getElem?_map, hget]
    simp only [Option.map_some', layerValue, Option.some.injEq]
    rw [hst, List.getD_eq_getElem?_getD, hv]
    rfl

/-- Every output vertex of `OptimizeMesh` carries the attribute tuple of a corner of the mesh:
its position and normal, its original vertex number in the back-reference map, and in node `i`
of every attribute kind the value of input `i` of that kind at the corner. -/
theorem optimizeMesh_vertex_carries_corner (kind : MeshKind) (meshData baseMesh : IMeshData)
    (uvs : List IMeshVertexUVData) (tangents : List IMeshVertexTangentData)
    (bitangents : List IMeshVertexBitangentData) (vertexColors : List IMeshVertexColorData)
    (skinWeights : List ISkinWeightData) (meshGroup : IMeshGroup) (hasBlendShapes : Bool)
    (j : Nat)
    (hj : j < (OptimizeMesh kind meshData baseMesh uvs tangents bitangents vertexColors
      skinWeights meshGroup hasBlendShapes).nodes.optimizedMesh.GetVertexCount) :
    ∃ vi, IsCorner meshData vi ∧
      CarriesAttributes (OptimizeMesh kind meshData baseMesh uvs tangents bitangents vertexColors
        skinWeights meshGroup hasBlendShapes).nodes j
        (cornerAttributes meshData uvs tangents bitangents vertexColors vi) := by
  simp only [OptimizeMesh, MeshData.GetVertexCount, emitSubMeshes_positions,
    List.length_map] at hj
  obtain ⟨vi, hc, _, hst⟩ := buildMesh_lookup_from_corner meshData baseMesh uvs tangents
    bitangents vertexColors skinWeights meshGroup hasBlendShapes _ (List.getElem_mem hj)
  exact ⟨vi, hc, carries_of_lookup kind meshData baseMesh uvs tangents bitangents vertexColors
    skinWeights meshGroup hasBlendShapes j _ vi (List.getElem?_eq_getElem hj) hst⟩

/-! ### The skin-weight loop -/

theorem modify_modify_same {α : Type} (f g : α → α) (n : Nat) (l : List α) :
    List.modify f n (List.modify g n l) = List.modify (fun a => f (g a)) n l := by
  apply List.ext_getElem?
  intro m
  simp only [List.getElem?_modify]
  cases l[m]? with
  | none => rfl
  | some a =>
    by_cases h : n = m
    · simp [h]
    · simp [h]

theorem modify_append_nil {α : Type} (n : Nat) (l : List (List α)) :
    List.modify (fun a => a ++ []) n l = l := by
  apply List.ext_getElem?
  intro m
  simp only [List.getElem?_modify, List.append_nil]
  cases l[m]? with
  | none => rfl
  | some a => simp

theorem appendInfluence_linkWeights (skinWeights : List ISkinWeightData)
    (info : MeshBuilderSkinningInfo) (vertex : Nat) (d : SkinWeightData) (i : Nat) :
    (appendInfluence skinWeights info vertex d i).linkWeights =
      List.modify (fun l => l ++ [(info.GetInfluence vertex i).mWeight]) vertex
        d.linkWeights := by
  have hlinks : ∀ name, (d.GetBoneId name).2.links = d.links := by
    intro name
    unfold SkinWeightData.GetBoneId
    split <;> rfl
  simp only [appendInfluence, SkinWeightData.AppendLink, SkinWeightData.linkWeights, hlinks]
  apply List.ext_getElem?
  intro m
  simp only [List.getElem?_map, List.getElem?_modify]
  cases d.links[m]? with
  | none => rfl
  | some a =>
    by_cases h : vertex = m
    · simp [h]
    · simp [h]

theorem foldl_appendInfluence_linkWeights (skinWeights : List ISkinWeightData)
    (info : MeshBuilderSkinningInfo) (vertex : Nat) (is : List Nat) (d : SkinWeightData) :
    (is.foldl (appendInfluence skinWeights info vertex) d).linkWeights =
      List.modify (fun l => l ++ is.map (fun i => (info.GetInfluence vertex i).mWeight)) vertex
        d.linkWeights := by
  induction is generalizing d with
  | nil =>
    simp only [List.foldl_nil, List.map_nil]
    exact (modify_append_nil vertex d.linkWeights).symm
  | cons i is ih =>
    simp only [List.foldl_cons, List.map_cons]
    rw [ih, appendInfluence_linkWeights, modify_modify_same]
    simp

theorem range_map_getD {α : Type} (l : List α) (d : α) :
    (List.range l.length).map (fun i => l.getD i d) = l := by
  apply List.ext_getElem?
  intro n
  simp only [List.getElem?_map]
  by_cases h : n < l.length
  · simp [List.getElem?_range h, List.getD_eq_getElem?_getD, List.getElem?_eq_getElem h]
  · rw [List.getElem?_eq_none (by simpa using h), List.getElem?_eq_none (by omega)]
    rfl

/-- The loop over the influences of one vertex appends, to the links of that vertex, one link per
influence with the weight of the influence, in order. -/
theorem appendVertexLinks_linkWeights (skinWeights : List ISkinWeightData)
    (info : MeshBuilderSkinningInfo) (d : SkinWeightData) (vertex : Nat) :
    (appendVertexLinks skinWeights info d vertex).linkWeights =
      List.modify (fun l => l ++ info.weights vertex) vertex d.linkWeights := by
  unfold appendVertexLinks
  rw [foldl_appendInfluence_linkWeights]
  congr 1
  funext l
  congr 1
  have := range_map_getD (info.influences vertex) default
  simp only [MeshBuilderSkinningInfo.GetNumInfluences, MeshBuilderSkinningInfo.GetInfluence,
    MeshBuilderSkinningInfo.weights]
  conv_rhs => rw [← this]
  simp [List.map_map, Function.comp]

theorem foldl_appendVertexLinks_linkWeights (skinWeights : List ISkinWeightData)
    (info : MeshBuilderSkinningInfo) (vs : List Nat) (hnd : vs.Nodup) (d : SkinWeightData)
    (u : Nat) :
    (vs.foldl (appendVertexLinks skinWeights info) d).linkWeights[u]? =
      if u ∈ vs then (d.linkWeights[u]?).map (fun l => l ++ info.weights u)
      else d.linkWeights[u]? := by
  induction vs generalizing d with
  | nil => simp
  | cons v vs ih =>
    simp only [List.foldl_cons]
    rw [ih (List.nodup_cons.1 hnd).2, appendVertexLinks_linkWeights]
    by_cases huv : u = v
    · subst huv
      have hnot : u ∉ vs := (List.nodup_cons.1 hnd).1
      simp [hnot, List.getElem?_modify_eq]
    · have hne : v ≠ u := fun h => huv h.symm
      rw [List.getElem?_modify_ne _ _ hne]
      simp [huv]

/-- The skin weights made from a skinning info: one entry per original vertex of the skinning
info, entry `v` holding the weights of the influences of original vertex `v`, in order. -/
theorem makeSkinWeights_some (skinWeights : List ISkinWeightData)
    (info : MeshBuilderSkinningInfo) :
    ∃ d, makeSkinWeights skinWeights (some info) = some d ∧
      d.GetVertexCount = info.GetNumOrgVertices ∧
      ∀ v, v < info.GetNumOrgVertices → d.linkWeights[v]? = some (info.weights v) := by
  refine ⟨_, rfl, ?_, ?_⟩
  · have hlen : ∀ (vs : List Nat) (d : SkinWeightData),
        (vs.foldl (appendVertexLinks skinWeights info) d).linkWeights.length =
          d.linkWeights.length := by
      intro vs
      induction vs with
      | nil => intro d; rfl
      | cons v vs ih =>
        intro d
        simp only [List.foldl_cons]
        rw [ih, appendVertexLinks_linkWeights, List.length_modify]
    have := hlen (List.range info.GetNumOrgVertices)
      (SkinWeightData.empty.ResizeContainerSpace info.GetNumOrgVertices)
    simp only [SkinWeightData.linkWeights, List.length_map] at this
    simp only [SkinWeightData.GetVertexCount]
    rw [this]
    simp [SkinWeightData.ResizeContainerSpace, SkinWeightData.empty]
  · intro v hv
    rw [foldl_appendVertexLinks_linkWeights _ _ _ (List.nodup_range _)]
    simp [hv, SkinWeightData.linkWeights, SkinWeightData.ResizeContainerSpace,
      SkinWeightData.empty, List.getElem?_replicate]

theorem addFacePolygon_skinningInfo (meshData baseMesh : IMeshData)
    (uvs : List IMeshVertexUVData) (tangents : List IMeshVertexTangentData)
    (bitangents : List IMeshVertexBitangentData) (vertexColors : List IMeshVertexColorData)
    (b : MeshBuilder) (f : Nat) :
    (addFacePolygon meshData baseMesh uvs tangents bitangents vertexColors b f).skinningInfo =
      b.skinningInfo := rfl

/-- The builder of `OptimizeMesh` keeps the skinning info `ExtractSkinningInfo` returned. -/
theorem buildMesh_skinningInfo (meshData baseMesh : IMeshData) (uvs : List IMeshVertexUVData)
    (tangents : List IMeshVertexTangentData) (bitangents : List IMeshVertexBitangentData)
    (vertexColors : List IMeshVertexColorData) (skinWeights : List ISkinWeightData)
    (meshGroup : IMeshGroup) (hasBlendShapes : Bool) :
    (buildMesh meshData baseMesh uvs tangents bitangents vertexColors skinWeights meshGroup
      hasBlendShapes).GetSkinningInfo =
      ExtractSkinningInfo meshData skinWeights (skinningParameters meshGroup).1
        (skinningParameters meshGroup).2 := by
  simp only [buildMesh, MeshBuilder.GetSkinningInfo, MeshBuilder.GenerateSubMeshVertexOrders]
  apply foldl_addFacePolygon_invariant (fun b => b.skinningInfo = _)
  · rfl
  · intro b f _ hb
    rw [addFacePolygon_skinningInfo]
    exact hb

theorem foldl_preserves {σ ι α : Type} (g : σ → α) (f : σ → ι → σ)
    (h : ∀ s i, g (f s i) = g s) (l : List ι) (s : σ) : g (l.foldl f s) = g s := by
  induction l generalizing s with
  | nil => rfl
  | cons i l ih => simp only [List.foldl_cons]; rw [ih, h]

theorem addControlPoint_numOrgVertices (meshData : IMeshData) (skinData : ISkinWeightData)
    (info : MeshBuilderSkinningInfo) (controlPointIndex : Nat) :
    (addControlPoint meshData skinData info controlPointIndex).GetNumOrgVertices =
      info.GetNumOrgVertices := by
  unfold addControlPoint
  simp only
  split
  · rfl
  · unfold addLinks
    apply foldl_preserves (fun i : MeshBuilderSkinningInfo => i.GetNumOrgVertices)
    intro s i
    rfl

theorem addSkinData_numOrgVertices (meshData : IMeshData) (info : MeshBuilderSkinningInfo)
    (skinData : ISkinWeightData) :
    (addSkinData meshData info skinData).GetNumOrgVertices = info.GetNumOrgVertices := by
  unfold addSkinData
  exact foldl_preserves (fun i : MeshBuilderSkinningInfo => i.GetNumOrgVertices) _
    (fun s i => addControlPoint_numOrgVertices meshData skinData s i) _ _

/-- The skinning info `ExtractSkinningInfo` returns is sized by the used control point count of
the mesh. -/
theorem ExtractSkinningInfo_numOrgVertices (meshData : IMeshData)
    (skinWeights : List ISkinWeightData) (maxWeightsPerVertex : Nat) (weightThreshold : ℚ)
    (info : MeshBuilderSkinningInfo)
    (h : ExtractSkinningInfo meshData skinWeights maxWeightsPerVertex weightThreshold =
      some info) :
    info.GetNumOrgVertices = meshData.GetUsedControlPointCount % 2 ^ 32 := by
  unfold ExtractSkinningInfo at h
  split at h
  · cases h
  · simp only [Option.some.injEq] at h
    subst h
    simp only [MeshBuilderSkinningInfo.Optimize, gatherInfluences]
    exact foldl_preserves (fun i : MeshBuilderSkinningInfo => i.GetNumOrgVertices) _
      (fun s i => addSkinData_numOrgVertices meshData s i) _ _

/-! ### `OptimizeMeshes`: the graph grows, the blend-shape flag is stable -/

theorem ExtendsGraph_refl (g0 : SceneGraph) : ExtendsGraph g0 g0 :=
  ⟨Nat.le_refl _, fun _ _ => rfl, fun i n hi hn => by
    rw [List.getElem?_eq_none hi] at hn; cases hn⟩

theorem AddChild_extends (g0 g : SceneGraph) (parent : Option Nat) (name : String)
    (content : GraphObject) (h : ExtendsGraph g0 g)
    (hp : ∀ p, parent = some p → p < g0.nodes.length → content.type = ObjectType.IMeshData) :
    ExtendsGraph g0 (g.AddChild parent name content).1 ∧
      IsNewNode g0 (g.AddChild parent name content).2 := by
  obtain ⟨h1, h2, h3⟩ := h
  unfold SceneGraph.AddChild
  cases parent with
  | none => exact ⟨⟨h1, h2, h3⟩, fun k hk => by cases hk⟩
  | some p =>
    simp only
    split
    · refine ⟨⟨?_, ?_, ?_⟩, ?_⟩
      · simp only [List.length_append, List.length_singleton]; omega
      · intro i hi
        simp only
        rw [List.getElem?_append_left (by omega)]
        exact h2 i hi
      · intro i n hi hn q hq hq2
        simp only at hn
        rw [List.getElem?_append] at hn
        split at hn
        · exact h3 i n hi hn q hq hq2
        · have : i - g.nodes.length = 0 := by
            rcases Nat.eq_zero_or_pos (i - g.nodes.length) with h0 | h0
            · exact h0
            · rw [List.getElem?_eq_none (by simp only [List.length_singleton]; omega)] at hn
              cases hn
          rw [this] at hn
          simp only [List.getElem?_cons_zero, Option.some.injEq] at hn
          subst hn
          simp only [Option.some.injEq] at hq
          subst hq
          exact hp p rfl hq2
      · intro k hk
        simp only [Option.some.injEq] at hk
        omega
    · exact ⟨⟨h1, h2, h3⟩, fun k hk => by cases hk⟩

theorem MakeEndPoint_extends (g0 g : SceneGraph) (nodeIndex : Option Nat)
    (h : ExtendsGraph g0 g) (hn : IsNewNode g0 nodeIndex) :
    ExtendsGraph g0 (g.MakeEndPoint nodeIndex) := by
  obtain ⟨h1, h2, h3⟩ := h
  unfold SceneGraph.MakeEndPoint
  cases nodeIndex with
  | none => exact ⟨h1, h2, h3⟩
  | some k =>
    have hk := hn k rfl
    refine ⟨?_, ?_, ?_⟩
    · simp only [List.length_modify]; exact h1
    · intro i hi
      simp only
      rw [List.getElem?_modify_ne _ _ (by omega)]
      exact h2 i hi
    · intro i n hi hget q hq hq2
      simp only [List.getElem?_modify] at hget
      cases hgi : g.nodes[i]? with
      | none => rw [hgi] at hget; cases hget
      | some m =>
        rw [hgi] at hget
        simp only [Option.map_eq_map, Option.map_some', Option.some.injEq] at hget
        have hm := h3 i m hi hgi q
        split at hget
        · subst hget
          exact hm hq hq2
        · subst hget
          exact hm hq hq2

theorem endPointCopy_extends (g0 g : SceneGraph) (nodeIndex : Option Nat) (original : Nat)
    (h : ExtendsGraph g0 g) (hn : IsNewNode g0 nodeIndex) :
    ExtendsGraph g0 (if g.IsNodeEndPoint original then g.MakeEndPoint nodeIndex else g) := by
  split
  · exact MakeEndPoint_extends g0 g nodeIndex h hn
  · exact h

theorem addOptimizedNodes_extends (g0 : SceneGraph) (optimizedMeshNodeIndex : Option Nat)
    (hnew : IsNewNode g0 optimizedMeshNodeIndex) (g : SceneGraph) (originals : List Nat)
    (optimized : List GraphObject) (h : ExtendsGraph g0 g) :
    ExtendsGraph g0 (addOptimizedNodes optimizedMeshNodeIndex g originals optimized) := by
  induction originals generalizing g optimized with
  | nil => simpa [addOptimizedNodes] using h
  | cons o originals ih =>
    cases optimized with
    | nil => simpa [addOptimizedNodes] using h
    | cons n optimized =>
      simp only [addOptimizedNodes]
      apply ih
      obtain ⟨ha, hb⟩ := AddChild_extends g0 g optimizedMeshNodeIndex (g.GetName o) n h
        (fun p hp hp2 => absurd hp2 (Nat.not_lt.2 (hnew p hp)))
      exact endPointCopy_extends g0 _ _ o ha hb

theorem copyOtherChild_extends (g0 : SceneGraph) (optimizedMeshNodeIndex : Option Nat)
    (hnew : IsNewNode g0 optimizedMeshNodeIndex) (g : SceneGraph) (child : Nat)
    (h : ExtendsGraph g0 g) :
    ExtendsGraph g0 (copyOtherChild optimizedMeshNodeIndex g child) := by
  unfold copyOtherChild
  split
  · exact h
  · rename_i childNode _
    split
    · obtain ⟨ha, hb⟩ := AddChild_extends g0 g optimizedMeshNodeIndex (g.GetName child)
        childNode.content h (fun p hp hp2 => absurd hp2 (Nat.not_lt.2 (hnew p hp)))
      exact endPointCopy_extends g0 _ _ child ha hb
    · exact h

theorem foldl_copyOtherChild_extends (g0 : SceneGraph) (optimizedMeshNodeIndex : Option Nat)
    (hnew : IsNewNode g0 optimizedMeshNodeIndex) (children : List Nat) (g : SceneGraph)
    (h : ExtendsGraph g0 g) :
    ExtendsGraph g0 (children.foldl (copyOtherChild optimizedMeshNodeIndex) g) := by
  induction children generalizing g with
  | nil => exact h
  | cons c children ih =>
    simp only [List.foldl_cons]
    exact ih _ (copyOtherChild_extends g0 _ hnew g c h)

theorem optimizeBlendShape_invariant (g0 : SceneGraph) (mesh : IMeshData)
    (nodeIndex meshGroupIndex : Nat) (meshGroup : IMeshGroup) (hasBlendShapes : Bool)
    (optimizedMeshNodeIndex : Option Nat) (hnew : IsNewNode g0 optimizedMeshNodeIndex)
    (hnode : nodeIndex < g0.nodes.length)
    (hflag : hasBlendShapes = HasAnyBlendShapeChild g0 nodeIndex)
    (st : PassState) (blendShapeNodeIndex : Nat)
    (h : ExtendsGraph g0 st.graph ∧ CallsUseNodeFlag g0 st.calls) :
    ExtendsGraph g0 (optimizeBlendShape mesh nodeIndex meshGroupIndex meshGroup hasBlendShapes
        optimizedMeshNodeIndex st blendShapeNodeIndex).graph ∧
      CallsUseNodeFlag g0 (optimizeBlendShape mesh nodeIndex meshGroupIndex meshGroup
        hasBlendShapes optimizedMeshNodeIndex st blendShapeNodeIndex).calls := by
  unfold optimizeBlendShape
  split
  · exact h
  · rename_i blendShapeNode _
    constructor
    · obtain ⟨ha, hb⟩ := AddChild_extends g0 st.graph optimizedMeshNodeIndex
        (st.graph.GetName blendShapeNodeIndex)
        (GraphObject.optimizedBlendShape (OptimizeMesh MeshKind.blendShape blendShapeNode mesh
          [] [] [] [] [] meshGroup hasBlendShapes).nodes.optimizedMesh) h.1
        (fun p hp hp2 => absurd hp2 (Nat.not_lt.2 (hnew p hp)))
      exact endPointCopy_extends g0 _ _ blendShapeNodeIndex ha hb
    · intro c hc
      simp only [List.mem_append, List.mem_singleton] at hc
      rcases hc with hc | hc
      · exact h.2 c hc
      · subst hc
        exact ⟨hnode, hflag⟩

theorem foldl_optimizeBlendShape_invariant (g0 : SceneGraph) (mesh : IMeshData)
    (nodeIndex meshGroupIndex : Nat) (meshGroup : IMeshGroup) (hasBlendShapes : Bool)
    (optimizedMeshNodeIndex : Option Nat) (hnew : IsNewNode g0 optimizedMeshNodeIndex)
    (hnode : nodeIndex < g0.nodes.length)
    (hflag : hasBlendShapes = HasAnyBlendShapeChild g0 nodeIndex)
    (blendShapes : List Nat) (st : PassState)
    (h : ExtendsGraph g0 st.graph ∧ CallsUseNodeFlag g0 st.calls) :
    ExtendsGraph g0 (blendShapes.foldl (optimizeBlendShape mesh nodeIndex meshGroupIndex
        meshGroup hasBlendShapes optimizedMeshNodeIndex) st).graph ∧
      CallsUseNodeFlag g0 (blendShapes.foldl (optimizeBlendShape mesh nodeIndex meshGroupIndex
        meshGroup hasBlendShapes optimizedMeshNodeIndex) st).calls := by
  induction blendShapes generalizing st with
  | nil => exact h
  | cons b blendShapes ih =>
    simp only [List.foldl_cons]
    exact ih _ (optimizeBlendShape_invariant g0 mesh nodeIndex meshGroupIndex meshGroup
      hasBlendShapes optimizedMeshNodeIndex hnew hnode hflag st b h)

theorem filter_range_extends (p : Nat → Bool) (n0 n : Nat) (hle : n0 ≤ n)
    (hp : ∀ i, n0 ≤ i → i < n → p i = false) :
    (List.range n).filter p = (List.range n0).filter p := by
  obtain ⟨k, rfl⟩ := Nat.exists_eq_add_of_le hle
  rw [List.range_add, List.filter_append]
  have : List.filter p (List.map (fun x => n0 + x) (List.range k)) = [] := by
    rw [List.filter_eq_nil_iff]
    intro a ha
    obtain ⟨x, hx, rfl⟩ := List.mem_map.1 ha
    have := hp (n0 + x) (by omega) (by have := List.mem_range.1 hx; omega)
    simp [this]
  rw [this, List.append_nil]

/-- The blend-shape children of a node of the starting graph are the same in every graph that
extends it. -/
theorem childNodesOfType_blendShape_extends (g0 g : SceneGraph) (h : ExtendsGraph g0 g)
    (nodeIndex : Nat) (hnode : nodeIndex < g0.nodes.length) :
    g.childNodesOfType nodeIndex ObjectType.IBlendShapeData =
      g0.childNodesOfType nodeIndex ObjectType.IBlendShapeData := by
  obtain ⟨h1, h2, h3⟩ := h
  simp only [SceneGraph.childNodesOfType, SceneGraph.childNodes, List.filter_filter]
  rw [filter_range_extends _ g0.nodes.length g.nodes.length h1]
  · apply List.filter_congr
    intro i hi
    have hi2 := List.mem_range.1 hi
    simp only [SceneGraph.typeOf, SceneGraph.GetNodeParent, h2 i hi2]
  · intro i hi hi2
    have hget := List.getElem?_eq_getElem hi2
    by_cases hpar : g.GetNodeParent i = some nodeIndex
    · have ht := h3 i _ hi hget nodeIndex
        (by simpa [SceneGraph.GetNodeParent, hget] using hpar) hnode
      simp [SceneGraph.typeOf, hget, ht]
    · simp [hpar]

theorem HasAnyBlendShapeChild_extends (g0 g : SceneGraph) (h : ExtendsGraph g0 g)
    (nodeIndex : Nat) (hnode : nodeIndex < g0.nodes.length) :
    HasAnyBlendShapeChild g nodeIndex = HasAnyBlendShapeChild g0 nodeIndex := by
  unfold HasAnyBlendShapeChild
  rw [childNodesOfType_blendShape_extends g0 g h nodeIndex hnode]

theorem optimizeSelectedMesh_invariant (g0 : SceneGraph) (mesh : IMeshData) (nodeIndex : Nat)
    (streams : MeshStreams) (meshGroupIndex : Nat) (meshGroup : IMeshGroup) (name : String)
    (st : PassState) (hnode : nodeIndex < g0.nodes.length)
    (h : ExtendsGraph g0 st.graph ∧ CallsUseNodeFlag g0 st.calls) :
    ExtendsGraph g0 (optimizeSelectedMesh mesh nodeIndex streams meshGroupIndex meshGroup name
        st).graph ∧
      CallsUseNodeFlag g0 (optimizeSelectedMesh mesh nodeIndex streams meshGroupIndex meshGroup
        name st).calls := by
  have hflag := HasAnyBlendShapeChild_extends g0 st.graph h.1 nodeIndex hnode
  unfold optimizeSelectedMesh
  simp only
  generalize hr : OptimizeMesh MeshKind.mesh mesh mesh streams.uvDatas streams.tangentDatas
    streams.bitangentDatas streams.colorDatas streams.skinWeightDatas meshGroup
    (HasAnyBlendShapeChild st.graph nodeIndex) = r
  obtain ⟨ha, hnew⟩ := AddChild_extends g0 st.graph (st.graph.GetNodeParent nodeIndex) name
    (GraphObject.optimizedMesh r.nodes.optimizedMesh) h.1 (fun _ _ _ => rfl)
  generalize st.graph.AddChild (st.graph.GetNodeParent nodeIndex) name
    (GraphObject.optimizedMesh r.nodes.optimizedMesh) = a at ha hnew ⊢
  have h1 := addOptimizedNodes_extends g0 a.2 hnew a.1
    (a.1.childNodesOfType nodeIndex ObjectType.IMeshVertexUVData)
    (r.nodes.optimizedUVs.map GraphObject.optimizedUV) ha
  generalize addOptimizedNodes a.2 a.1
    (a.1.childNodesOfType nodeIndex ObjectType.IMeshVertexUVData)
    (r.nodes.optimizedUVs.map GraphObject.optimizedUV) = g1 at h1 ⊢
  have h2 := addOptimizedNodes_extends g0 a.2 hnew g1
    (g1.childNodesOfType nodeIndex ObjectType.IMeshVertexTangentData)
    (r.nodes.optimizedTangents.map GraphObject.optimizedTangent) h1
  generalize addOptimizedNodes a.2 g1
    (g1.childNodesOfType nodeIndex ObjectType.IMeshVertexTangentData)
    (r.nodes.optimizedTangents.map GraphObject.optimizedTangent) = g2 at h2 ⊢
  have h3 := addOptimizedNodes_extends g0 a.2 hnew g2
    (g2.childNodesOfType nodeIndex ObjectType.IMeshVertexBitangentData)
    (r.nodes.optimizedBitangents.map GraphObject.optimizedBitangent) h2
  generalize addOptimizedNodes a.2 g2
    (g2.childNodesOfType nodeIndex ObjectType.IMeshVertexBitangentData)
    (r.nodes.optimizedBitangents.map GraphObject.optimizedBitangent) = g3 at h3 ⊢
  have h4 := addOptimizedNodes_extends g0 a.2 hnew g3
    (g3.childNodesOfType nodeIndex ObjectType.IMeshVertexColorData)
    (r.nodes.optimizedVertexColors.map GraphObject.optimizedColor) h3
  generalize addOptimizedNodes a.2 g3
    (g3.childNodesOfType nodeIndex ObjectType.IMeshVertexColorData)
    (r.nodes.optimizedVertexColors.map GraphObject.optimizedColor) = g4 at h4 ⊢
  have h5 : ExtendsGraph g0
      (match r.optimizedSkinWeights with
       | some optimizedSkinWeights =>
           (g4.AddChild a.2 "skinWeights"
             (GraphObject.optimizedSkin optimizedSkinWeights)).1.MakeEndPoint
             (g4.AddChild a.2 "skinWeights" (GraphObject.optimizedSkin optimizedSkinWeights)).2
       | none => g4) := by
    split
    · rename_i sw _
      obtain ⟨hs1, hs2⟩ := AddChild_extends g0 g4 a.2 "skinWeights"
        (GraphObject.optimizedSkin sw) h4
        (fun p hp hp2 => absurd hp2 (Nat.not_lt.2 (hnew p hp)))
      exact MakeEndPoint_extends g0 _ _ hs1 hs2
    · exact h4
  generalize (match r.optimizedSkinWeights with
       | some optimizedSkinWeights =>
           (g4.AddChild a.2 "skinWeights"
             (GraphObject.optimizedSkin optimizedSkinWeights)).1.MakeEndPoint
             (g4.AddChild a.2 "skinWeights" (GraphObject.optimizedSkin optimizedSkinWeights)).2
       | none => g4) = g5 at h5 ⊢
  have hcalls : CallsUseNodeFlag g0 (st.calls ++
      [{ kind := MeshKind.mesh, nodeIndex := nodeIndex, blendShapeNodeIndex := none,
         meshGroupIndex := meshGroupIndex, meshData := mesh, baseMesh := mesh,
         hasBlendShapes := HasAnyBlendShapeChild st.graph nodeIndex }]) := by
    intro c hc
    simp only [List.mem_append, List.mem_singleton] at hc
    rcases hc with hc | hc
    · exact h.2 c hc
    · subst hc
      exact ⟨hnode, hflag⟩
  have h6 := foldl_optimizeBlendShape_invariant g0 mesh nodeIndex meshGroupIndex meshGroup
    (HasAnyBlendShapeChild st.graph nodeIndex) a.2 hnew hnode hflag
    (g5.childNodesOfType nodeIndex ObjectType.IBlendShapeData)
    { graph := g5, calls := st.calls ++
      [{ kind := MeshKind.mesh, nodeIndex := nodeIndex, blendShapeNodeIndex := none,
         meshGroupIndex := meshGroupIndex, meshData := mesh, baseMesh := mesh,
         hasBlendShapes := HasAnyBlendShapeChild st.graph nodeIndex }] } ⟨h5, hcalls⟩
  exact ⟨foldl_copyOtherChild_extends g0 a.2 hnew _ _ h6.1, h6.2⟩

theorem optimizeForMeshGroup_invariant (g0 : SceneGraph)
    (selectedNodes : List (Nat × List String)) (mesh : IMeshData) (nodeIndex : Nat)
    (streams : MeshStreams) (nodePath : String) (hnode : nodeIndex < g0.nodes.length)
    (st : Option PassState) (entry : Nat × IMeshGroup) (h : PassInvariant g0 st) :
    PassInvariant g0
      (optimizeForMeshGroup selectedNodes mesh nodeIndex streams nodePath st entry) := by
  intro s hs
  unfold optimizeForMeshGroup at hs
  cases st with
  | none => cases hs
  | some st0 =>
    have h0 := h st0 rfl
    simp only at hs
    split at hs
    · cases hs
    · split at hs
      · cases hs; exact h0
      · split at hs
        · cases hs; exact h0
        · cases hs
          exact optimizeSelectedMesh_invariant g0 mesh nodeIndex streams entry.1 entry.2 _ st0
            hnode h0

theorem foldl_optimizeForMeshGroup_invariant (g0 : SceneGraph)
    (selectedNodes : List (Nat × List String)) (mesh : IMeshData) (nodeIndex : Nat)
    (streams : MeshStreams) (nodePath : String) (hnode : nodeIndex < g0.nodes.length)
    (entries : List (Nat × IMeshGroup)) (st : Option PassState) (h : PassInvariant g0 st) :
    PassInvariant g0 (entries.foldl
      (optimizeForMeshGroup selectedNodes mesh nodeIndex streams nodePath) st) := by
  induction entries generalizing st with
  | nil => exact h
  | cons e entries ih =>
    simp only [List.foldl_cons]
    exact ih _ (optimizeForMeshGroup_invariant g0 selectedNodes mesh nodeIndex streams nodePath
      hnode st e h)

theorem optimizeMeshNode_invariant (g0 : SceneGraph) (selectedNodes : List (Nat × List String))
    (meshGroups : List IMeshGroup) (st : Option PassState) (entry : IMeshData × Nat)
    (hnode : entry.2 < g0.nodes.length) (h : PassInvariant g0 st) :
    PassInvariant g0 (optimizeMeshNode selectedNodes meshGroups st entry) := by
  unfold optimizeMeshNode
  cases st with
  | none => intro s hs; cases hs
  | some st0 =>
    simp only
    exact foldl_optimizeForMeshGroup_invariant g0 selectedNodes entry.1 entry.2 _ _ hnode _ _ h

theorem foldl_optimizeMeshNode_invariant (g0 : SceneGraph)
    (selectedNodes : List (Nat × List String)) (meshGroups : List IMeshGroup)
    (meshes : List (IMeshData × Nat)) (hm : ∀ e ∈ meshes, e.2 < g0.nodes.length)
    (st : Option PassState) (h : PassInvariant g0 st) :
    PassInvariant g0 (meshes.foldl (optimizeMeshNode selectedNodes meshGroups) st) := by
  induction meshes generalizing st with
  | nil => exact h
  | cons e meshes ih =>
    simp only [List.foldl_cons]
    exact ih (fun e' he' => hm e' (List.mem_cons_of_mem _ he')) _
      (optimizeMeshNode_invariant g0 selectedNodes meshGroups st e
        (hm e (List.mem_cons_self _ _)) h)

theorem collectMeshes_index_lt (graph : SceneGraph) :
    ∀ e ∈ collectMeshes graph, e.2 < graph.nodes.length := by
  intro e he
  simp only [collectMeshes, List.mem_filterMap, List.mem_range, Option.map_eq_some'] at he
  obtain ⟨i, hi, m, _, rfl⟩ := he
  exact hi

/-- Every call of `OptimizeMesh` a completed pass made is for a mesh node of the scene graph and
carries the flag `HasAnyBlendShapeChild` gives for that node in the scene graph. -/
theorem OptimizeMeshes_calls (scene : Scene) (r : PassResult)
    (h : OptimizeMeshes scene = some r) : CallsUseNodeFlag scene.graph r.calls := by
  unfold OptimizeMeshes at h
  simp only at h
  have hinv := foldl_optimizeMeshNode_invariant scene.graph
    (buildSelectedNodes scene.meshGroups) scene.meshGroups (collectMeshes scene.graph)
    (collectMeshes_index_lt scene.graph) (some { graph := scene.graph, calls := [] })
    (fun s hs => by
      cases hs
      exact ⟨ExtendsGraph_refl _, fun c hc => by cases hc⟩)
  split at h
  · cases h
  · rename_i st hst
    cases h
    exact (hinv st hst).2

theorem addFacePolygon_optimizeDuplicates (meshData baseMesh : IMeshData)
    (uvs : List IMeshVertexUVData) (tangents : List IMeshVertexTangentData)
    (bitangents : List IMeshVertexBitangentData) (vertexColors : List IMeshVertexColorData)
    (b : MeshBuilder) (f : Nat) :
    (addFacePolygon meshData baseMesh uvs tangents bitangents vertexColors b f).optimizeDuplicates =
      b.optimizeDuplicates := rfl

/-- The builder of `OptimizeMesh` optimizes duplicates exactly when `hasBlendShapes` is false. -/
theorem buildMesh_optimizeDuplicates (meshData baseMesh : IMeshData)
    (uvs : List IMeshVertexUVData) (tangents : List IMeshVertexTangentData)
    (bitangents : List IMeshVertexBitangentData) (vertexColors : List IMeshVertexColorData)
    (skinWeights : List ISkinWeightData) (meshGroup : IMeshGroup) (hasBlendShapes : Bool) :
    (buildMesh meshData baseMesh uvs tangents bitangents vertexColors skinWeights meshGroup
      hasBlendShapes).optimizeDuplicates = !hasBlendShapes := by
  simp only [buildMesh, MeshBuilder.GenerateSubMeshVertexOrders]
  apply foldl_addFacePolygon_invariant (fun b => b.optimizeDuplicates = !hasBlendShapes)
  · rfl
  · intro b f _ hb
    rw [addFacePolygon_optimizeDuplicates]
    exact hb

theorem HasAnyBlendShapeChild_iff (graph : SceneGraph) (nodeIndex : Nat) :
    HasAnyBlendShapeChild graph nodeIndex = true ↔
      ∃ child, child < graph.nodes.length ∧ graph.GetNodeParent child = some nodeIndex ∧
        graph.typeOf child = ObjectType.IBlendShapeData := by
  unfold HasAnyBlendShapeChild
  rw [Bool.not_eq_true', List.isEmpty_eq_false]
  constructor
  · intro h
    obtain ⟨x, hx⟩ := List.exists_mem_of_ne_nil _ h
    simp only [SceneGraph.childNodesOfType, SceneGraph.childNodes, List.mem_filter,
      List.mem_range, decide_eq_true_eq] at hx
    exact ⟨x, hx.1.1, hx.1.2, hx.2⟩
  · rintro ⟨x, h1, h2, h3⟩
    apply List.ne_nil_of_mem (a := x)
    simp only [SceneGraph.childNodesOfType, SceneGraph.childNodes, List.mem_filter,
      List.mem_range, decide_eq_true_eq]
    exact ⟨⟨h1, h2⟩, h3⟩

/-! ### The skinning compactor -/

theorem smallestInfluenceIndex_lt (l : List Influence) (h : l ≠ []) :
    smallestInfluenceIndex l < l.length := by
  induction l with
  | nil => exact absurd rfl h
  | cons a l ih =>
    cases l with
    | nil => simp [smallestInfluenceIndex]
    | cons b rest =>
      simp only [smallestInfluenceIndex]
      have := ih (by simp)
      split
      · simp only [List.length_cons] at this ⊢; omega
      · simp

theorem eraseSmallest_length (l : List Influence) :
    (l.eraseIdx (smallestInfluenceIndex l)).length = l.length - 1 := by
  cases l with
  | nil => rfl
  | cons a rest =>
    rw [List.length_eraseIdx, if_pos (smallestInfluenceIndex_lt _ (by simp))]

theorem eraseSmallest_iterate_length (n : Nat) (l : List Influence) :
    ((List.range n).foldl (fun l _ => l.eraseIdx (smallestInfluenceIndex l)) l).length =
      l.length - n := by
  induction n with
  | zero => simp
  | succ n ih =>
    rw [List.range_succ, List.foldl_append]
    simp only [List.foldl_cons, List.foldl_nil]
    rw [eraseSmallest_length, ih]
    omega

theorem eraseSmallest_iterate_subset (n : Nat) (l : List Influence) :
    ∀ i ∈ (List.range n).foldl (fun l _ => l.eraseIdx (smallestInfluenceIndex l)) l, i ∈ l := by
  induction n with
  | zero => intro i hi; simpa using hi
  | succ n ih =>
    intro i hi
    rw [List.range_succ, List.foldl_append] at hi
    simp only [List.foldl_cons, List.foldl_nil] at hi
    exact ih i ((List.eraseIdx_sublist _ _).subset hi)

/-- Step (2) of the compactor leaves at most `maxWeights` influences. -/
theorem keepHighestWeights_length (maxWeights : Nat) (l : List Influence) :
    (keepHighestWeights maxWeights l).length = min l.length maxWeights := by
  unfold keepHighestWeights
  rw [eraseSmallest_iterate_length]
  omega

theorem keepHighestWeights_subset (maxWeights : Nat) (l : List Influence) :
    ∀ i ∈ keepHighestWeights maxWeights l, i ∈ l :=
  eraseSmallest_iterate_subset _ l

/-- The compactor leaves at most `maxWeightsPerVertex` influences for a vertex. -/
theorem optimizeInfluences_length (maxWeightsPerVertex : Nat) (weightThreshold : ℚ)
    (l : List Influence) :
    (optimizeInfluences maxWeightsPerVertex weightThreshold l).length ≤ maxWeightsPerVertex := by
  simp only [optimizeInfluences, renormalizeWeights, List.length_map, keepHighestWeights_length]
  exact Nat.min_le_right _ _

theorem sum_map_div (l : List ℚ) (t : ℚ) : (l.map (fun w => w / t)).sum = l.sum / t := by
  induction l with
  | nil => simp
  | cons a l ih => simp only [List.map_cons, List.sum_cons, ih, add_div]

theorem sum_pos_of_forall_pos (l : List ℚ) (hne : l ≠ []) (h : ∀ w ∈ l, 0 < w) : 0 < l.sum := by
  induction l with
  | nil => exact absurd rfl hne
  | cons a l ih =>
    simp only [List.sum_cons]
    have ha := h a (List.mem_cons_self _ _)
    cases l with
    | nil => simpa using ha
    | cons b rest =>
      have := ih (by simp) (fun w hw => h w (List.mem_cons_of_mem _ hw))
      linarith

theorem renormalizeWeights_weights (K : List Influence) :
    (renormalizeWeights K).map (fun i => i.mWeight) =
      (K.map (fun i => i.mWeight)).map (fun w => w / (K.map (fun i => i.mWeight)).sum) := by
  unfold renormalizeWeights
  rw [List.map_map, List.map_map]
  rfl

/-- With room for at least one weight and a positive threshold, the weights the compactor leaves
for a vertex sum to 1 as soon as one influence of the vertex reaches the threshold. -/
theorem optimizeInfluences_sum (maxWeightsPerVertex : Nat) (weightThreshold : ℚ)
    (l : List Influence) (hmax : 1 ≤ maxWeightsPerVertex) (hthr : 0 < weightThreshold)
    (hex : ∃ i ∈ l, weightThreshold ≤ i.mWeight) :
    ((optimizeInfluences maxWeightsPerVertex weightThreshold l).map
      (fun i => i.mWeight)).sum = 1 := by
  obtain ⟨i0, hi0, hw0⟩ := hex
  have hF : i0 ∈ l.filter (fun i => decide (¬ i.mWeight < weightThreshold)) := by
    rw [List.mem_filter]
    exact ⟨hi0, by simpa using hw0⟩
  have hKlen := keepHighestWeights_length maxWeightsPerVertex
    (l.filter (fun i => decide (¬ i.mWeight < weightThreshold)))
  have hFlen : 0 < (l.filter (fun i => decide (¬ i.mWeight < weightThreshold))).length :=
    List.length_pos_of_mem hF
  have hKne : keepHighestWeights maxWeightsPerVertex
      (l.filter (fun i => decide (¬ i.mWeight < weightThreshold))) ≠ [] := by
    intro hnil
    rw [hnil] at hKlen
    simp only [List.length_nil] at hKlen
    omega
  have hKpos : ∀ w ∈ (keepHighestWeights maxWeightsPerVertex
      (l.filter (fun i => decide (¬ i.mWeight < weightThreshold)))).map (fun i => i.mWeight),
      0 < w := by
    intro w hw
    obtain ⟨i, hi, rfl⟩ := List.mem_map.1 hw
    have := keepHighestWeights_subset _ _ i hi
    rw [List.mem_filter] at this
    have h2 : weightThreshold ≤ i.mWeight := by simpa using this.2
    linarith
  have hT := sum_pos_of_forall_pos _ (by simpa using hKne) hKpos
  simp only [optimizeInfluences]
  rw [renormalizeWeights_weights, sum_map_div]
  exact div_self (ne_of_gt hT)

/-- The skin weights `OptimizeMesh` returns: one entry per original vertex of the optimized
skinning info, entry `v` holding the weights the compactor left for original vertex `v`. -/
theorem optimizeMesh_skin_entries (kind : MeshKind) (meshData baseMesh : IMeshData)
    (uvs : List IMeshVertexUVData) (tangents : List IMeshVertexTangentData)
    (bitangents : List IMeshVertexBitangentData) (vertexColors : List IMeshVertexColorData)
    (skinWeights : List ISkinWeightData) (meshGroup : IMeshGroup) (hasBlendShapes : Bool)
    (d : SkinWeightData)
    (h : (OptimizeMesh kind meshData baseMesh uvs tangents bitangents vertexColors skinWeights
      meshGroup hasBlendShapes).optimizedSkinWeights = some d) :
    d.GetVertexCount = meshData.GetUsedControlPointCount % 2 ^ 32 ∧
    ∀ v, v < d.GetVertexCount →
      d.linkWeights[v]? = some ((optimizeInfluences (skinningParameters meshGroup).1
        (skinningParameters meshGroup).2
        ((gatherInfluences meshData skinWeights).influences v)).map (fun i => i.mWeight)) := by
  simp only [OptimizeMesh, buildMesh_skinningInfo] at h
  cases he : ExtractSkinningInfo meshData skinWeights (skinningParameters meshGroup).1
      (skinningParameters meshGroup).2 with
  | none => rw [he] at h; cases h
  | some info =>
    rw [he] at h
    obtain ⟨d2, hd2, hcount, hw⟩ := makeSkinWeights_some skinWeights info
    rw [hd2] at h
    have hd : d2 = d := Option.some.inj h
    subst hd
    have hinfo : info = (gatherInfluences meshData skinWeights).Optimize
        (skinningParameters meshGroup).1 (skinningParameters meshGroup).2 := by
      unfold ExtractSkinningInfo at he
      split at he
      · cases he
      · exact (Option.some.inj he).symm
    refine ⟨?_, ?_⟩
    · rw [hcount]
      exact ExtractSkinningInfo_numOrgVertices _ _ _ _ _ he
    · intro v hv
      rw [hw v (by rw [← hcount]; exact hv), hinfo]
      rfl

/-! ### The mesh builder: where the faces go -/

/-- Slots are only ever added at the end: a stored tuple stays where it is. -/
theorem AddPolygonVertex_getElem?_stable (b : MeshBuilder) (org : Nat) (cur : VertexAttributes)
    (o d : Nat) (a : VertexAttributes) (h : (b.duplicates o)[d]? = some a) :
    ((b.AddPolygonVertex org cur).duplicates o)[d]? = some a := by
  simp only [MeshBuilder.AddPolygonVertex]
  split
  · exact h
  · by_cases ho : o = org
    · subst ho
      simp only [if_true]
      have hd : d < (b.duplicates o).length := by
        rcases Nat.lt_or_ge d (b.duplicates o).length with h1 | h1
        · exact h1
        · rw [List.getElem?_eq_none h1] at h; cases h
      rw [List.getElem?_append_left hd]
      exact h
    · simp only [ho, if_false]
      exact h

/-- The lookup a corner resolves to names a slot that stores the tuple of the corner. -/
theorem AddPolygonVertex_stores (b : MeshBuilder) (org : Nat) (cur : VertexAttributes) :
    ((b.AddPolygonVertex org cur).duplicates org)[
      resolveDuplicate b.optimizeDuplicates (b.duplicates org) cur]? = some cur := by
  simp only [MeshBuilder.AddPolygonVertex]
  split
  · rename_i hlt
    unfold resolveDuplicate at hlt ⊢
    split
    · rename_i ho
      simp only [ho, if_true] at hlt
      rw [List.getElem?_eq_getElem hlt]
      exact congrArg some (List.getElem_indexOf hlt)
    · rename_i ho
      simp only [ho] at hlt
      exact absurd hlt (Nat.lt_irrefl _)
  · rename_i hlt
    have hle := resolveDuplicate_le b.optimizeDuplicates (b.duplicates org) cur
    have heq : resolveDuplicate b.optimizeDuplicates (b.duplicates org) cur =
        (b.duplicates org).length := by omega
    simp only [if_true]
    rw [heq, List.getElem?_append_right (Nat.le_refl _)]
    simp

theorem AddPolygonVertex_nodup (b : MeshBuilder) (org : Nat) (cur : VertexAttributes)
    (ho : b.optimizeDuplicates = true) (h : ∀ o, (b.duplicates o).Nodup) :
    ∀ o, ((b.AddPolygonVertex org cur).duplicates o).Nodup := by
  intro o
  simp only [MeshBuilder.AddPolygonVertex]
  split
  · exact h o
  · rename_i hlt
    by_cases hoo : o = org
    · subst hoo
      simp only [if_true]
      have hnot : cur ∉ b.duplicates o := by
        intro hmem
        apply hlt
        simp only [resolveDuplicate, ho, if_true]
        exact List.indexOf_lt_length.2 hmem
      rw [List.nodup_append]
      exact ⟨h o, List.nodup_singleton _, by
        intro a ha hb
        rw [List.mem_singleton] at hb
        exact hnot (hb ▸ ha)⟩
    · simp only [hoo, if_false]
      exact h o

theorem addPolygonToSubMeshes_stable (subs : List SubMeshData) (m : Nat)
    (vs : List MeshBuilderVertexLookup) (k : Nat) (s : SubMeshData)
    (h : subs[k]? = some s) :
    ∃ s' : SubMeshData, (addPolygonToSubMeshes subs m vs)[k]? = some s' ∧
      s'.materialIndex = s.materialIndex ∧
      ∃ t : List MeshBuilderVertexLookup, s'.indices = s.indices ++ t := by
  induction subs generalizing k with
  | nil => simp at h
  | cons s0 subs ih =>
    simp only [addPolygonToSubMeshes]
    split
    · cases k with
      | zero =>
        simp only [List.getElem?_cons_zero, Option.some.injEq] at h
        subst h
        exact ⟨_, List.getElem?_cons_zero, rfl, vs, rfl⟩
      | succ k =>
        simp only [List.getElem?_cons_succ] at h ⊢
        exact ⟨s, h, rfl, [], by simp⟩
    · cases k with
      | zero =>
        simp only [List.getElem?_cons_zero, Option.some.injEq] at h
        subst h
        exact ⟨_, List.getElem?_cons_zero, rfl, [], by simp⟩
      | succ k =>
        simp only [List.getElem?_cons_succ] at h ⊢
        exact ih k h

/-- The polygon handed to the partitioner ends up at the end of the sub-mesh of its material. -/
theorem addPolygonToSubMeshes_placed (subs : List SubMeshData) (m : Nat)
    (vs : List MeshBuilderVertexLookup) :
    ∃ (k : Nat) (s' : SubMeshData) (pre : List MeshBuilderVertexLookup),
      (addPolygonToSubMeshes subs m vs)[k]? = some s' ∧ s'.materialIndex = m ∧
      s'.indices = pre ++ vs ∧ (pre = [] ∨ ∃ s, s ∈ subs ∧ s.indices = pre) := by
  induction subs with
  | nil => exact ⟨0, _, [], List.getElem?_cons_zero, rfl, rfl, Or.inl rfl⟩
  | cons s0 subs ih =>
    simp only [addPolygonToSubMeshes]
    split
    · rename_i hm
      exact ⟨0, _, s0.indices, List.getElem?_cons_zero, hm, rfl,
        Or.inr ⟨s0, List.mem_cons_self _ _, rfl⟩⟩
    · obtain ⟨k, s', pre, h1, h2, h3, h4⟩ := ih
      refine ⟨k + 1, s', pre, by simpa using h1, h2, h3, ?_⟩
      rcases h4 with h4 | ⟨s, hs, hpre⟩
      · exact Or.inl h4
      · exact Or.inr ⟨s, List.mem_cons_of_mem _ hs, hpre⟩

theorem addPolygonToSubMeshes_materials (subs : List SubMeshData) (m : Nat)
    (vs : List MeshBuilderVertexLookup) (k : Nat) (s' : SubMeshData)
    (h : (addPolygonToSubMeshes subs m vs)[k]? = some s') :
    (∃ s : SubMeshData, subs[k]? = some s ∧ s.materialIndex = s'.materialIndex) ∨
      (subs.length ≤ k ∧ s'.materialIndex = m ∧ ∀ s ∈ subs, s.materialIndex ≠ m) := by
  induction subs generalizing k with
  | nil =>
    right
    simp only [addPolygonToSubMeshes] at h
    cases k with
    | zero =>
      simp only [List.getElem?_cons_zero, Option.some.injEq] at h
      subst h
      exact ⟨Nat.le_refl _, rfl, fun s hs => by cases hs⟩
    | succ k => simp at h
  | cons s0 subs ih =>
    simp only [addPolygonToSubMeshes] at h
    split at h
    · left
      cases k with
      | zero =>
        simp only [List.getElem?_cons_zero, Option.some.injEq] at h
        subst h
        exact ⟨s0, List.getElem?_cons_zero, rfl⟩
      | succ k =>
        simp only [List.getElem?_cons_succ] at h
        exact ⟨s', by simpa using h, rfl⟩
    · rename_i hne
      cases k with
      | zero =>
        simp only [List.getElem?_cons_zero, Option.some.injEq] at h
        subst h
        exact Or.inl ⟨_, List.getElem?_cons_zero, rfl⟩
      | succ k =>
        simp only [List.getElem?_cons_succ] at h
        rcases ih k h with ⟨s, hs, hm⟩ | ⟨hlen, hm, hall⟩
        · exact Or.inl ⟨s, by simpa using hs, hm⟩
        · right
          refine ⟨by simp only [List.length_cons]; omega, hm, ?_⟩
          intro s hs
          rcases List.mem_cons.1 hs with rfl | hs
          · exact hne
          · exact hall s hs

theorem addPolygonToSubMeshes_distinct (subs : List SubMeshData) (m : Nat)
    (vs : List MeshBuilderVertexLookup)
    (h : ∀ (k1 k2 : Nat) (s1 s2 : SubMeshData), subs[k1]? = some s1 → subs[k2]? = some s2 →
      s1.materialIndex = s2.materialIndex → k1 = k2) :
    ∀ (k1 k2 : Nat) (s1 s2 : SubMeshData),
      (addPolygonToSubMeshes subs m vs)[k1]? = some s1 →
      (addPolygonToSubMeshes subs m vs)[k2]? = some s2 →
      s1.materialIndex = s2.materialIndex → k1 = k2 := by
  have hlen : (addPolygonToSubMeshes subs m vs).length ≤ subs.length + 1 := by
    clear h
    induction subs with
    | nil => simp [addPolygonToSubMeshes]
    | cons s0 subs ih =>
      simp only [addPolygonToSubMeshes]
      split
      · simp
      · simp only [List.length_cons]; omega
  intro k1 k2 s1 s2 h1 h2 hm
  have hk1 : k1 < (addPolygonToSubMeshes subs m vs).length := by
    rcases Nat.lt_or_ge k1 (addPolygonToSubMeshes subs m vs).length with h' | h'
    · exact h'
    · rw [List.getElem?_eq_none h'] at h1; cases h1
  have hk2 : k2 < (addPolygonToSubMeshes subs m vs).length := by
    rcases Nat.lt_or_ge k2 (addPolygonToSubMeshes subs m vs).length with h' | h'
    · exact h'
    · rw [List.getElem?_eq_none h'] at h2; cases h2
  rcases addPolygonToSubMeshes_materials subs m vs k1 s1 h1 with ⟨t1, ht1, hm1⟩ | ⟨hl1, hm1, ha1⟩
  · rcases addPolygonToSubMeshes_materials subs m vs k2 s2 h2 with
      ⟨t2, ht2, hm2⟩ | ⟨hl2, hm2, ha2⟩
    · exact h k1 k2 t1 t2 ht1 ht2 (by rw [hm1, hm2, hm])
    · exact absurd (by rw [hm1, hm, hm2]) (ha2 t1 (List.getElem?_mem ht1))
  · rcases addPolygonToSubMeshes_materials subs m vs k2 s2 h2 with
      ⟨t2, ht2, hm2⟩ | ⟨hl2, hm2, ha2⟩
    · exact absurd (by rw [hm2, ← hm, hm1]) (ha1 t2 (List.getElem?_mem ht2))
    · omega

theorem addFacePolygon_facesPlaced (meshData baseMesh : IMeshData)
    (uvs : List IMeshVertexUVData) (tangents : List IMeshVertexTangentData)
    (bitangents : List IMeshVertexBitangentData) (vertexColors : List IMeshVertexColorData)
    (n : Nat) (b : MeshBuilder)
    (h : FacesPlaced meshData baseMesh uvs tangents bitangents vertexColors n b) :
    FacesPlaced meshData baseMesh uvs tangents bitangents vertexColors (n + 1)
      (addFacePolygon meshData baseMesh uvs tangents bitangents vertexColors b n) := by
  obtain ⟨hfaces, hnodup, hdistinct, htri⟩ := h
  -- the three corners, one after the other
  let m := baseMesh.GetFaceMaterialId n
  let v0 := cornerVertex meshData n 0
  let v1 := cornerVertex meshData n 1
  let v2 := cornerVertex meshData n 2
  let a0 := cornerAttributes meshData uvs tangents bitangents vertexColors v0
  let a1 := cornerAttributes meshData uvs tangents bitangents vertexColors v1
  let a2 := cornerAttributes meshData uvs tangents bitangents vertexColors v2
  let b0 := b.BeginPolygon m
  let b1 := b0.AddPolygonVertex (cornerKey meshData v0) a0
  let b2 := b1.AddPolygonVertex (cornerKey meshData v1) a1
  let b3 := b2.AddPolygonVertex (cornerKey meshData v2) a2
  let l0 : MeshBuilderVertexLookup := ⟨cornerKey meshData v0,
    resolveDuplicate b0.optimizeDuplicates (b0.duplicates (cornerKey meshData v0)) a0⟩
  let l1 : MeshBuilderVertexLookup := ⟨cornerKey meshData v1,
    resolveDuplicate b1.optimizeDuplicates (b1.duplicates (cornerKey meshData v1)) a1⟩
  let l2 : MeshBuilderVertexLookup := ⟨cornerKey meshData v2,
    resolveDuplicate b2.optimizeDuplicates (b2.duplicates (cornerKey meshData v2)) a2⟩
  have hres : addFacePolygon meshData baseMesh uvs tangents bitangents vertexColors b n =
      b3.EndPolygon := rfl
  have hsubs : b3.EndPolygon.subMeshes = addPolygonToSubMeshes b.subMeshes m [l0, l1, l2] := rfl
  have hdups : b3.EndPolygon.duplicates = b3.duplicates := rfl
  have hstable : ∀ (o d : Nat) (a : VertexAttributes), (b.duplicates o)[d]? = some a →
      (b3.duplicates o)[d]? = some a := by
    intro o d a ha
    exact AddPolygonVertex_getElem?_stable b2 _ _ o d a
      (AddPolygonVertex_getElem?_stable b1 _ _ o d a
        (AddPolygonVertex_getElem?_stable b0 _ _ o d a ha))
  have hs0 : (b3.duplicates l0.mOrgVtx)[l0.mDuplicateNr]? = some a0 :=
    AddPolygonVertex_getElem?_stable b2 _ _ _ _ _
      (AddPolygonVertex_getElem?_stable b1 _ _ _ _ _ (AddPolygonVertex_stores b0 _ a0))
  have hs1 : (b3.duplicates l1.mOrgVtx)[l1.mDuplicateNr]? = some a1 :=
    AddPolygonVertex_getElem?_stable b2 _ _ _ _ _ (AddPolygonVertex_stores b1 _ a1)
  have hs2 : (b3.duplicates l2.mOrgVtx)[l2.mDuplicateNr]? = some a2 :=
    AddPolygonVertex_stores b2 _ a2
  rw [hres]
  refine ⟨?_, ?_, ?_, ?_⟩
  · intro f hf
    rcases Nat.lt_succ_iff_lt_or_eq.1 hf with hlt | heq
    · obtain ⟨k, s, p, hk, hm, hp, hc⟩ := hfaces f hlt
      obtain ⟨s', hk', hm', t, ht⟩ := addPolygonToSubMeshes_stable b.subMeshes m [l0, l1, l2] k s hk
      refine ⟨k, s', p, by rw [hsubs]; exact hk', by rw [hm', hm], by rw [ht]; simp; omega, ?_⟩
      intro j hj
      obtain ⟨l, hl, hlo, hld⟩ := hc j hj
      refine ⟨l, ?_, hlo, ?_⟩
      · rw [ht, List.getElem?_append_left (by omega)]
        exact hl
      · rw [hdups]
        exact hstable _ _ _ hld
    · subst heq
      obtain ⟨k, s', pre, hk, hm, hind, hpre⟩ :=
        addPolygonToSubMeshes_placed b.subMeshes m [l0, l1, l2]
      have hprelen : pre.length % 3 = 0 := by
        rcases hpre with rfl | ⟨s, hs, rfl⟩
        · rfl
        · exact htri s hs
      refine ⟨k, s', pre.length / 3, by rw [hsubs]; exact hk, hm, ?_, ?_⟩
      · rw [hind]
        simp only [List.length_append, List.length_cons, List.length_nil]
        omega
      · intro j hj
        have hidx : pre.length / 3 * 3 + j = pre.length + j := by omega
        rw [hidx, hind, List.getElem?_append_right (by omega)]
        have hj3 : pre.length + j - pre.length = j := by omega
        rw [hj3, hdups]
        have hj' : j = 0 ∨ j = 1 ∨ j = 2 := by omega
        rcases hj' with rfl | rfl | rfl
        · exact ⟨l0, rfl, rfl, hs0⟩
        · exact ⟨l1, rfl, rfl, hs1⟩
        · exact ⟨l2, rfl, rfl, hs2⟩
  · intro ho org
    have ho' : b.optimizeDuplicates = true := ho
    rw [hdups]
    exact AddPolygonVertex_nodup b2 _ _ ho'
      (AddPolygonVertex_nodup b1 _ _ ho' (AddPolygonVertex_nodup b0 _ _ ho' (hnodup ho'))) org
  · rw [hsubs]
    exact addPolygonToSubMeshes_distinct _ _ _ hdistinct
  · rw [hsubs]
    exact addPolygonToSubMeshes_triangles _ _ _ (by simp) htri

theorem foldl_range_addFacePolygon_facesPlaced (meshData baseMesh : IMeshData)
    (uvs : List IMeshVertexUVData) (tangents : List IMeshVertexTangentData)
    (bitangents : List IMeshVertexBitangentData) (vertexColors : List IMeshVertexColorData)
    (n : Nat) (b : MeshBuilder)
    (h : FacesPlaced meshData baseMesh uvs tangents bitangents vertexColors 0 b) :
    FacesPlaced meshData baseMesh uvs tangents bitangents vertexColors n
      ((List.range n).foldl
        (addFacePolygon meshData baseMesh uvs tangents bitangents vertexColors) b) := by
  induction n with
  | zero => simpa using h
  | succ n ih =>
    rw [List.range_succ, List.foldl_append]
    simp only [List.foldl_cons, List.foldl_nil]
    exact addFacePolygon_facesPlaced _ _ _ _ _ _ n _ ih

/-- The builder of `OptimizeMesh` has placed every face of the mesh. -/
theorem buildMesh_facesPlaced (meshData baseMesh : IMeshData) (uvs : List IMeshVertexUVData)
    (tangents : List IMeshVertexTangentData) (bitangents : List IMeshVertexBitangentData)
    (vertexColors : List IMeshVertexColorData) (skinWeights : List ISkinWeightData)
    (meshGroup : IMeshGroup) (hasBlendShapes : Bool) :
    FacesPlaced meshData baseMesh uvs tangents bitangents vertexColors meshData.GetFaceCount
      (buildMesh meshData baseMesh uvs tangents bitangents vertexColors skinWeights meshGroup
        hasBlendShapes) := by
  have h := foldl_range_addFacePolygon_facesPlaced meshData baseMesh uvs tangents bitangents
    vertexColors meshData.GetFaceCount
    ((MeshBuilder.create (!hasBlendShapes)).SetSkinningInfo
      (ExtractSkinningInfo meshData skinWeights (skinningParameters meshGroup).1
        (skinningParameters meshGroup).2))
    ⟨fun f hf => absurd hf (Nat.not_lt_zero f),
     fun _ org => by simp [MeshBuilder.create, MeshBuilder.SetSkinningInfo],
     fun k1 k2 s1 s2 h1 => by simp [MeshBuilder.create, MeshBuilder.SetSkinningInfo] at h1,
     fun s hs => by simp [MeshBuilder.create, MeshBuilder.SetSkinningInfo] at hs⟩
  obtain ⟨h1, h2, h3, h4⟩ := h
  simp only [buildMesh, MeshBuilder.GenerateSubMeshVertexOrders]
  refine ⟨?_, h2, ?_, ?_⟩
  · intro f hf
    obtain ⟨k, s, p, hk, hm, hp, hc⟩ := h1 f hf
    refine ⟨k, { s with vertexOrder := firstSeenOrder s.indices }, p, ?_, hm, hp, hc⟩
    simp only [List.getElem?_map, hk, Option.map_some']
  · intro k1 k2 s1 s2 hs1 hs2 hm
    simp only [List.getElem?_map, Option.map_eq_some'] at hs1 hs2
    obtain ⟨t1, ht1, rfl⟩ := hs1
    obtain ⟨t2, ht2, rfl⟩ := hs2
    exact h3 k1 k2 t1 t2 ht1 ht2 hm
  · intro s hs
    simp only [List.mem_map] at hs
    obtain ⟨t, ht, rfl⟩ := hs
    exact h4 t ht

/-! ### Material ids of the emitted faces -/

theorem foldl_emitFace_faceMaterialIds (s : MeshBuilderSubMesh) (off : Nat)
    (ps : List Nat) (st : MeshData × List Nat) :
    (ps.foldl (emitFace MeshKind.mesh s off) st).1.faceMaterialIds =
      st.1.faceMaterialIds ++ ps.map (fun _ => s.GetMaterialIndex) := by
  induction ps generalizing st with
  | nil => simp
  | cons p ps ih =>
    simp only [List.foldl_cons, List.map_cons]
    rw [ih, emitFace_fst]
    simp [AddFace]

theorem emitSubMesh_faceMaterialIds (layers : BuilderLayers) (st : OptimizedNodes × Nat)
    (s : MeshBuilderSubMesh) :
    (emitSubMesh MeshKind.mesh layers st s).1.optimizedMesh.faceMaterialIds =
      st.1.optimizedMesh.faceMaterialIds ++
        List.replicate s.GetNumPolygons s.GetMaterialIndex := by
  simp only [emitSubMesh, emitFaces, foldl_emitFace_faceMaterialIds, emitVertices_eq,
    foldl_emitVertex_faceMaterialIds]
  congr 1
  apply List.ext_getElem?
  intro n
  simp only [List.getElem?_map, List.getElem?_replicate]
  by_cases h : n < s.GetNumPolygons
  · simp [h, List.getElem?_range h]
  · simp [h, List.getElem?_eq_none (show (List.range s.GetNumPolygons).length ≤ n by simp; omega)]

theorem foldl_emitSubMesh_faceMaterialIds (layers : BuilderLayers)
    (subs : List MeshBuilderSubMesh) (st : OptimizedNodes × Nat) :
    (subs.foldl (emitSubMesh MeshKind.mesh layers) st).1.optimizedMesh.faceMaterialIds =
      st.1.optimizedMesh.faceMaterialIds ++
        subs.flatMap (fun s => List.replicate s.GetNumPolygons s.GetMaterialIndex) := by
  induction subs generalizing st with
  | nil => simp
  | cons s subs ih =>
    simp only [List.foldl_cons]
    rw [ih, emitSubMesh_faceMaterialIds]
    simp

theorem materials_getElem? (subs : List MeshBuilderSubMesh) (k : Nat) (s : MeshBuilderSubMesh)
    (hk : subs[k]? = some s) (p : Nat) (hp : p < s.GetNumPolygons) :
    (subs.flatMap (fun s => List.replicate s.GetNumPolygons s.GetMaterialIndex))[
      totalPolygons (subs.take k) + p]? = some s.GetMaterialIndex := by
  induction subs generalizing k with
  | nil => simp at hk
  | cons s0 subs ih =>
    cases k with
    | zero =>
      simp only [List.getElem?_cons_zero, Option.some.injEq] at hk
      subst hk
      simp only [List.flatMap_cons, List.take_zero, totalPolygons, List.map_nil, List.sum_nil,
        Nat.zero_add]
      rw [List.getElem?_append_left (by simpa using hp)]
      simp [List.getElem?_replicate, hp]
    | succ k =>
      simp only [List.getElem?_cons_succ] at hk
      have := ih k hk
      simp only [List.flatMap_cons, List.take_succ_cons, totalPolygons_cons]
      rw [List.getElem?_append_right (by simp; omega)]
      have e : s0.GetNumPolygons + totalPolygons (List.take k subs) + p -
          (List.replicate s0.GetNumPolygons s0.GetMaterialIndex).length =
          totalPolygons (List.take k subs) + p := by
        simp; omega
      rw [e, this]


/-! ### Every face of the mesh in the output -/

theorem emitSubMeshes_faceList_of_exact (kind : MeshKind) (layers : BuilderLayers)
    (subs : List MeshBuilderSubMesh) (h : ∀ s ∈ subs, SubMeshIndicesExact s) :
    (emitSubMeshes kind layers subs).1.optimizedMesh.faceList = facesFrom 0 subs := by
  unfold emitSubMeshes
  rw [(foldl_emitSubMesh_faceList kind layers subs _ h).1]
  simp [initialNodes, MeshData.empty]

theorem emitSubMeshes_faceMaterialIds (layers : BuilderLayers)
    (subs : List MeshBuilderSubMesh) :
    (emitSubMeshes MeshKind.mesh layers subs).1.optimizedMesh.faceMaterialIds =
      subs.flatMap (fun s => List.replicate s.GetNumPolygons s.GetMaterialIndex) := by
  unfold emitSubMeshes
  rw [foldl_emitSubMesh_faceMaterialIds]
  simp [initialNodes, MeshData.empty]

theorem offsetFace_getD (s : MeshBuilderSubMesh) (off p j : Nat) (hj : j < 3) :
    (offsetFace s off p).vertexIndex.getD j 0 = off + s.GetIndex (p * 3 + j) := by
  have hj' : j = 0 ∨ j = 1 ∨ j = 2 := by omega
  rcases hj' with rfl | rfl | rfl <;> rfl

/-- Where a face of the mesh is in the output of `OptimizeMesh`: in the sub-mesh `k` of its
material as polygon `p`; the output face is the polygon moved by the vertices of the sub-meshes
before `k`, it has the material of the face, and its corner `j` is the output vertex of the lookup
the corner resolved to, which carries the tuple of the corner. -/
theorem optimizeMesh_face_output (meshData baseMesh : IMeshData) (uvs : List IMeshVertexUVData)
    (tangents : List IMeshVertexTangentData) (bitangents : List IMeshVertexBitangentData)
    (vertexColors : List IMeshVertexColorData) (skinWeights : List ISkinWeightData)
    (meshGroup : IMeshGroup) (hasBlendShapes : Bool) (f : Nat) (hf : f < meshData.GetFaceCount) :
    ∃ (k : Nat) (s : SubMeshData) (p : Nat),
      (buildMesh meshData baseMesh uvs tangents bitangents vertexColors skinWeights meshGroup
        hasBlendShapes).subMeshes[k]? = some s ∧
      s.materialIndex = baseMesh.GetFaceMaterialId f ∧
      (∃ F : Face, (OptimizeMesh MeshKind.mesh meshData baseMesh uvs tangents bitangents
          vertexColors skinWeights meshGroup hasBlendShapes).nodes.optimizedMesh.faceList[
            totalPolygons ((buildMesh meshData baseMesh uvs tangents bitangents vertexColors
              skinWeights meshGroup hasBlendShapes).GetSubMeshes.take k) + p]? = some F ∧
        (OptimizeMesh MeshKind.mesh meshData baseMesh uvs tangents bitangents
          vertexColors skinWeights meshGroup hasBlendShapes).nodes.optimizedMesh.faceMaterialIds[
            totalPolygons ((buildMesh meshData baseMesh uvs tangents bitangents vertexColors
              skinWeights meshGroup hasBlendShapes).GetSubMeshes.take k) + p]? =
          some (baseMesh.GetFaceMaterialId f) ∧
        ∀ j, j < 3 → ∃ l : MeshBuilderVertexLookup,
          l ∈ s.vertexOrder ∧
          l.mOrgVtx = cornerKey meshData (cornerVertex meshData f j) ∧
          ((buildMesh meshData baseMesh uvs tangents bitangents vertexColors skinWeights
            meshGroup hasBlendShapes).duplicates l.mOrgVtx)[l.mDuplicateNr]? =
            some (cornerAttributes meshData uvs tangents bitangents vertexColors
              (cornerVertex meshData f j)) ∧
          F.vertexIndex.getD j 0 =
            totalVertices ((buildMesh meshData baseMesh uvs tangents bitangents vertexColors
              skinWeights meshGroup hasBlendShapes).GetSubMeshes.take k) +
              s.vertexOrder.indexOf l ∧
          s.vertexOrder.indexOf l < s.vertexOrder.length ∧
          CarriesAttributes (OptimizeMesh MeshKind.mesh meshData baseMesh uvs tangents bitangents
            vertexColors skinWeights meshGroup hasBlendShapes).nodes (F.vertexIndex.getD j 0)
            (cornerAttributes meshData uvs tangents bitangents vertexColors
              (cornerVertex meshData f j))) := by
  obtain ⟨hfaces, _, _, _⟩ := buildMesh_facesPlaced meshData baseMesh uvs tangents bitangents
    vertexColors skinWeights meshGroup hasBlendShapes
  obtain ⟨k, s, p, hk, hm, hp, hc⟩ := hfaces f hf
  have hexact := buildMesh_subMeshes_exact meshData baseMesh uvs tangents bitangents
    vertexColors skinWeights meshGroup hasBlendShapes
  have hsub : (buildMesh meshData baseMesh uvs tangents bitangents vertexColors skinWeights
      meshGroup hasBlendShapes).GetSubMeshes[k]? = some s.toSubMesh := by
    simp only [MeshBuilder.GetSubMeshes, List.getElem?_map, hk, Option.map_some']
  have hpoly : p < s.toSubMesh.GetNumPolygons := by
    simp only [SubMeshData.toSubMesh]; omega
  have hord := buildMesh_vertexOrder meshData baseMesh uvs tangents bitangents vertexColors
    skinWeights meshGroup hasBlendShapes s (List.getElem?_mem hk)
  refine ⟨k, s, p, hk, hm, offsetFace s.toSubMesh (totalVertices
    ((buildMesh meshData baseMesh uvs tangents bitangents vertexColors skinWeights meshGroup
      hasBlendShapes).GetSubMeshes.take k)) p, ?_, ?_, ?_⟩
  · simp only [OptimizeMesh]
    rw [emitSubMeshes_faceList_of_exact _ _ _ hexact, facesFrom_getElem? _ 0 k _ hsub p hpoly]
    simp
  · simp only [OptimizeMesh]
    rw [emitSubMeshes_faceMaterialIds, materials_getElem? _ k _ hsub p hpoly]
    simp [SubMeshData.toSubMesh, hm]
  · intro j hj
    obtain ⟨l, hl, hlo, hld⟩ := hc j hj
    have hmem : l ∈ s.vertexOrder := by
      rw [hord, mem_firstSeenOrder]
      exact List.getElem?_mem hl
    have hidx : s.vertexOrder.indexOf l < s.vertexOrder.length := List.indexOf_lt_length.2 hmem
    have hface : (offsetFace s.toSubMesh (totalVertices
        ((buildMesh meshData baseMesh uvs tangents bitangents vertexColors skinWeights meshGroup
          hasBlendShapes).GetSubMeshes.take k)) p).vertexIndex.getD j 0 =
        totalVertices ((buildMesh meshData baseMesh uvs tangents bitangents vertexColors
          skinWeights meshGroup hasBlendShapes).GetSubMeshes.take k) +
          s.vertexOrder.indexOf l := by
      rw [offsetFace_getD _ _ _ _ hj]
      simp only [SubMeshData.toSubMesh, List.getD_eq_getElem?_getD, hl, Option.getD_some]
    refine ⟨l, hmem, hlo, hld, hface, hidx, ?_⟩
    rw [hface]
    have hget : (allLookups (buildMesh meshData baseMesh uvs tangents bitangents vertexColors
        skinWeights meshGroup hasBlendShapes).GetSubMeshes)[
        totalVertices ((buildMesh meshData baseMesh uvs tangents bitangents vertexColors
          skinWeights meshGroup hasBlendShapes).GetSubMeshes.take k) +
          s.vertexOrder.indexOf l]? = some l := by
      have := allLookups_getElem? _ k _ hsub (s.vertexOrder.indexOf l)
        (by simpa [SubMeshData.toSubMesh] using hidx)
      rw [this]
      simp only [SubMeshData.toSubMesh, List.getD_eq_getElem?_getD,
        List.getElem?_eq_getElem hidx, Option.getD_some, Option.some.injEq]
      exact List.getElem_indexOf hidx
    have hst : (buildMesh meshData baseMesh uvs tangents bitangents vertexColors skinWeights
        meshGroup hasBlendShapes).storedAttributes l.mOrgVtx l.mDuplicateNr =
        cornerAttributes meshData uvs tangents bitangents vertexColors
          (cornerVertex meshData f j) := by
      simp only [MeshBuilder.storedAttributes, List.getD_eq_getElem?_getD, hld,
        Option.getD_some]
    exact carries_of_lookup MeshKind.mesh meshData baseMesh uvs tangents bitangents vertexColors
      skinWeights meshGroup hasBlendShapes _ l _ hget hst

/-! ### One output vertex, one tuple -/

theorem list_eq_of_same_nodes {α : Type} (l1 l2 : List α) (nodes : List (List α)) (x : Nat)
    (hlen : l1.length = l2.length)
    (h1 : ∀ (i : Nat) (v : α), l1[i]? = some v →
      ∃ node : List α, nodes[i]? = some node ∧ node[x]? = some v)
    (h2 : ∀ (i : Nat) (v : α), l2[i]? = some v →
      ∃ node : List α, nodes[i]? = some node ∧ node[x]? = some v) : l1 = l2 := by
  apply List.ext_getElem?
  intro i
  by_cases hi : i < l1.length
  · have hi2 : i < l2.length := by omega
    obtain ⟨n1, hn1, hv1⟩ := h1 i _ (List.getElem?_eq_getElem hi)
    obtain ⟨n2, hn2, hv2⟩ := h2 i _ (List.getElem?_eq_getElem hi2)
    rw [hn1] at hn2
    cases hn2
    rw [hv1] at hv2
    rw [List.getElem?_eq_getElem hi, List.getElem?_eq_getElem hi2]
    exact hv2
  · rw [List.getElem?_eq_none (by omega), List.getElem?_eq_none (by omega)]

/-- An output vertex carries the tuple of at most one corner tuple value. -/
theorem carries_unique (out : OptimizedNodes) (x : Nat) (meshData : IMeshData)
    (uvs : List IMeshVertexUVData) (tangents : List IMeshVertexTangentData)
    (bitangents : List IMeshVertexBitangentData) (vertexColors : List IMeshVertexColorData)
    (v1 v2 : Nat)
    (h1 : CarriesAttributes out x
      (cornerAttributes meshData uvs tangents bitangents vertexColors v1))
    (h2 : CarriesAttributes out x
      (cornerAttributes meshData uvs tangents bitangents vertexColors v2)) :
    cornerAttributes meshData uvs tangents bitangents vertexColors v1 =
      cornerAttributes meshData uvs tangents bitangents vertexColors v2 := by
  obtain ⟨p1, n1, o1, u1, t1, b1, c1⟩ := h1
  obtain ⟨p2, n2, o2, u2, t2, b2, c2⟩ := h2
  have hp : (cornerAttributes meshData uvs tangents bitangents vertexColors v1).position =
      (cornerAttributes meshData uvs tangents bitangents vertexColors v2).position :=
    Option.some.inj (p1.symm.trans p2)
  have hn : (cornerAttributes meshData uvs tangents bitangents vertexColors v1).normal =
      (cornerAttributes meshData uvs tangents bitangents vertexColors v2).normal :=
    Option.some.inj (n1.symm.trans n2)
  have ho : (cornerAttributes meshData uvs tangents bitangents vertexColors v1).orgVtx =
      (cornerAttributes meshData uvs tangents bitangents vertexColors v2).orgVtx :=
    Option.some.inj (o1.symm.trans o2)
  have hu := list_eq_of_same_nodes _ _ _ x (by simp [cornerAttributes]) u1 u2
  have ht := list_eq_of_same_nodes _ _ _ x (by simp [cornerAttributes]) t1 t2
  have hb := list_eq_of_same_nodes _ _ _ x (by simp [cornerAttributes]) b1 b2
  have hc := list_eq_of_same_nodes _ _ _ x (by simp [cornerAttributes]) c1 c2
  cases hA : cornerAttributes meshData uvs tangents bitangents vertexColors v1
  cases hB : cornerAttributes meshData uvs tangents bitangents vertexColors v2
  rw [hA, hB] at hp hn ho hu ht hb hc
  simp only at hp hn ho hu ht hb hc
  subst hp hn ho hu ht hb hc
  rfl

theorem totalVertices_take_le (subs : List MeshBuilderSubMesh) (k1 k2 : Nat)
    (s1 : MeshBuilderSubMesh) (h1 : subs[k1]? = some s1) (hlt : k1 < k2) :
    totalVertices (subs.take k1) + s1.GetNumVertices ≤ totalVertices (subs.take k2) := by
  induction subs generalizing k1 k2 with
  | nil => simp at h1
  | cons s0 subs ih =>
    cases k2 with
    | zero => omega
    | succ k2 =>
      cases k1 with
      | zero =>
        simp only [List.getElem?_cons_zero, Option.some.injEq] at h1
        subst h1
        simp only [List.take_zero, List.take_succ_cons, totalVertices_cons]
        simp [totalVertices]
      | succ k1 =>
        simp only [List.getElem?_cons_succ] at h1
        have := ih k1 k2 h1 (by omega)
        simp only [List.take_succ_cons, totalVertices_cons]
        omega

theorem nodup_getElem?_inj {α : Type} (l : List α) (hnd : l.Nodup) (i j : Nat) (a : α)
    (hi : l[i]? = some a) (hj : l[j]? = some a) : i = j := by
  obtain ⟨hi1, hi2⟩ := List.getElem?_eq_some.1 hi
  obtain ⟨hj1, hj2⟩ := List.getElem?_eq_some.1 hj
  exact (List.Nodup.getElem_inj_iff hnd).1 (hi2.trans hj2.symm)

/-! ### The skinning info is there exactly when there are skin-weight sources -/

theorem ExtractSkinningInfo_isSome (meshData : IMeshData) (skinWeights : List ISkinWeightData)
    (maxWeightsPerVertex : Nat) (weightThreshold : ℚ) :
    (ExtractSkinningInfo meshData skinWeights maxWeightsPerVertex weightThreshold).isSome =
      !skinWeights.isEmpty := by
  unfold ExtractSkinningInfo
  cases skinWeights <;> rfl

theorem makeSkinWeights_isSome (skinWeights : List ISkinWeightData)
    (info : Option MeshBuilderSkinningInfo) :
    (makeSkinWeights skinWeights info).isSome = info.isSome := by
  cases info <;> rfl

/-! ### Faces and materials of the output -/

theorem foldl_emitSubMesh_faceList_append (kind : MeshKind) (layers : BuilderLayers)
    (subs : List MeshBuilderSubMesh) (st : OptimizedNodes × Nat) :
    ∃ X : List Face, (subs.foldl (emitSubMesh kind layers) st).1.optimizedMesh.faceList =
      st.1.optimizedMesh.faceList ++ X ∧ X.length = totalPolygons subs := by
  induction subs generalizing st with
  | nil => exact ⟨[], by simp, by simp [totalPolygons]⟩
  | cons s subs ih =>
    obtain ⟨X, hX, hlen⟩ := ih (emitSubMesh kind layers st s)
    refine ⟨(List.range s.GetNumPolygons).map (offsetFace s st.2) ++ X, ?_, ?_⟩
    · simp only [List.foldl_cons]
      rw [hX, emitSubMesh_faceList, List.append_assoc]
    · rw [totalPolygons_cons]
      simp [hlen]

theorem emitSubMeshes_take_succ (kind : MeshKind) (layers : BuilderLayers)
    (subs : List MeshBuilderSubMesh) (k : Nat) (s : MeshBuilderSubMesh)
    (hk : subs[k]? = some s) :
    emitSubMeshes kind layers (subs.take (k + 1)) =
      emitSubMesh kind layers (emitSubMeshes kind layers (subs.take k)) s := by
  have hlt : k < subs.length := by
    rcases Nat.lt_or_ge k subs.length with h | h
    · exact h
    · rw [List.getElem?_eq_none h] at hk
      cases hk
  have hs : subs[k] = s := by
    rw [List.getElem?_eq_getElem hlt] at hk
    exact Option.some.inj hk
  unfold emitSubMeshes
  rw [List.take_succ, hk]
  simp [List.foldl_append]

theorem emitSubMeshes_face_getElem? (kind : MeshKind) (layers : BuilderLayers)
    (subs : List MeshBuilderSubMesh) (k : Nat) (s : MeshBuilderSubMesh)
    (hk : subs[k]? = some s) (p : Nat) (hp : p < s.GetNumPolygons) :
    (emitSubMeshes kind layers subs).1.optimizedMesh.faceList[
        totalPolygons (subs.take k) + p]? =
      some (offsetFace s (emitSubMeshes kind layers (subs.take k)).2 p) := by
  have hsplit : subs = subs.take (k + 1) ++ subs.drop (k + 1) := (List.take_append_drop _ _).symm
  have h1 : (emitSubMeshes kind layers subs).1.optimizedMesh.faceList =
      ((subs.drop (k + 1)).foldl (emitSubMesh kind layers)
        (emitSubMeshes kind layers (subs.take (k + 1)))).1.optimizedMesh.faceList := by
    conv_lhs => rw [hsplit]
    unfold emitSubMeshes
    rw [List.foldl_append]
  obtain ⟨X, hX, _⟩ := foldl_emitSubMesh_faceList_append kind layers (subs.drop (k + 1))
    (emitSubMeshes kind layers (subs.take (k + 1)))
  obtain ⟨Y, hY, hYlen⟩ := foldl_emitSubMesh_faceList_append kind layers (subs.take k)
    (initialNodes layers, 0)
  have hY2 : (emitSubMeshes kind layers (subs.take k)).1.optimizedMesh.faceList = Y := by
    unfold emitSubMeshes
    rw [hY]
    simp [initialNodes, MeshData.empty]
  rw [h1, hX, emitSubMeshes_take_succ kind layers subs k s hk, emitSubMesh_faceList, hY2]
  rw [List.append_assoc, List.getElem?_append_right (by omega)]
  rw [List.getElem?_append_left (by simp; omega)]
  rw [List.getElem?_map, show totalPolygons (List.take k subs) + p - Y.length = p by omega,
    List.getElem?_range hp]
  rfl

theorem emitSubMeshes_faceList_length (kind : MeshKind) (layers : BuilderLayers)
    (subs : List MeshBuilderSubMesh) :
    (emitSubMeshes kind layers subs).1.optimizedMesh.faceList.length = totalPolygons subs := by
  obtain ⟨X, hX, hlen⟩ := foldl_emitSubMesh_faceList_append kind layers subs
    (initialNodes layers, 0)
  unfold emitSubMeshes
  rw [hX]
  simp [initialNodes, MeshData.empty, hlen]

theorem emitSubMeshes_blendShape_faceMaterialIds (layers : BuilderLayers)
    (subs : List MeshBuilderSubMesh) :
    (emitSubMeshes MeshKind.blendShape layers subs).1.optimizedMesh.faceMaterialIds = [] := by
  unfold emitSubMeshes
  have h : ∀ (st : OptimizedNodes × Nat) (s : MeshBuilderSubMesh),
      (emitSubMesh MeshKind.blendShape layers st s).1.optimizedMesh.faceMaterialIds =
        st.1.optimizedMesh.faceMaterialIds := by
    intro st s
    simp only [emitSubMesh, emitFaces]
    rw [foldl_preserves (fun x : MeshData × List Nat => x.1.faceMaterialIds)
      (emitFace MeshKind.blendShape s st.2) (fun x i => rfl)]
    simp only [emitVertices_eq, foldl_emitVertex_faceMaterialIds]
  rw [foldl_preserves (fun x : OptimizedNodes × Nat => x.1.optimizedMesh.faceMaterialIds)
    (emitSubMesh MeshKind.blendShape layers) h]
  rfl

theorem totalPolygons_length_materials (subs : List MeshBuilderSubMesh) :
    (subs.flatMap (fun s => List.replicate s.GetNumPolygons s.GetMaterialIndex)).length =
      totalPolygons subs := by
  induction subs with
  | nil => rfl
  | cons s subs ih => simp [totalPolygons_cons, ih]

/-! ### The influences gathered by `ExtractSkinningInfo` -/

theorem addInfluences_append (info : MeshBuilderSkinningInfo) (l1 l2 : List (Nat × Influence)) :
    addInfluences info (l1 ++ l2) = addInfluences (addInfluences info l1) l2 := by
  simp [addInfluences, List.foldl_append]

theorem addLinks_eq (skinData : ISkinWeightData) (controlPointIndex : Nat) (used : Int)
    (links : List Nat) (info : MeshBuilderSkinningInfo) :
    links.foldl
      (fun info linkIndex =>
        let link := skinData.GetLink controlPointIndex linkIndex
        info.AddInfluence used.toNat ⟨link.boneId.toNat, link.weight⟩) info =
      addInfluences info (links.map (fun linkIndex =>
        (used.toNat, ⟨(skinData.GetLink controlPointIndex linkIndex).boneId.toNat,
          (skinData.GetLink controlPointIndex linkIndex).weight⟩))) := by
  induction links generalizing info with
  | nil => rfl
  | cons l links ih =>
    simp only [List.foldl_cons, List.map_cons, addInfluences]
    exact ih _

theorem addControlPoint_eq (meshData : IMeshData) (skinData : ISkinWeightData)
    (info : MeshBuilderSkinningInfo) (controlPointIndex : Nat) :
    addControlPoint meshData skinData info controlPointIndex =
      addInfluences info (controlPointInfluences meshData skinData controlPointIndex) := by
  unfold addControlPoint controlPointInfluences usedPointIndex
  by_cases hneg : meshData.GetUsedPointIndexForControlPoint
      (meshData.GetControlPointIndex controlPointIndex) < 0
  · simp [hneg, addInfluences]
  · by_cases hzero : skinData.GetLinkCount controlPointIndex = 0
    · simp [hneg, hzero, addInfluences]
    · simp only [hneg, hzero, or_self, if_false]
      exact addLinks_eq skinData controlPointIndex _ _ info

theorem foldl_addControlPoint_eq (meshData : IMeshData) (skinData : ISkinWeightData)
    (cps : List Nat) (info : MeshBuilderSkinningInfo) :
    cps.foldl (addControlPoint meshData skinData) info =
      addInfluences info (cps.flatMap (controlPointInfluences meshData skinData)) := by
  induction cps generalizing info with
  | nil => rfl
  | cons c cps ih =>
    simp only [List.foldl_cons, List.flatMap_cons]
    rw [ih, addControlPoint_eq, addInfluences_append]

theorem foldl_addSkinData_eq (meshData : IMeshData) (skinWeights : List ISkinWeightData)
    (info : MeshBuilderSkinningInfo) :
    skinWeights.foldl (addSkinData meshData) info =
      addInfluences info (influencesInOrder meshData skinWeights) := by
  induction skinWeights generalizing info with
  | nil => rfl
  | cons s skinWeights ih =>
    simp only [List.foldl_cons, influencesInOrder, List.flatMap_cons]
    rw [ih, addSkinData, foldl_addControlPoint_eq, addInfluences_append]
    rfl

theorem addInfluences_influences (info : MeshBuilderSkinningInfo)
    (l : List (Nat × Influence)) (v : Nat) :
    (addInfluences info l).influences v =
      info.influences v ++ (l.filter (fun c => decide (c.1 = v))).map (fun c => c.2) := by
  induction l generalizing info with
  | nil => simp [addInfluences]
  | cons c l ih =>
    have h : addInfluences info (c :: l) = addInfluences (info.AddInfluence c.1 c.2) l := rfl
    rw [h, ih]
    simp only [MeshBuilderSkinningInfo.AddInfluence, List.filter_cons]
    by_cases hv : c.1 = v
    · simp [hv]
    · have hv' : ¬ v = c.1 := fun h => hv h.symm
      simp [hv, hv']

theorem controlPointInfluences_length (meshData : IMeshData) (skinData : ISkinWeightData)
    (controlPointIndex : Nat) :
    (controlPointInfluences meshData skinData controlPointIndex).length =
      if 0 ≤ usedPointIndex meshData controlPointIndex then skinData.GetLinkCount controlPointIndex
      else 0 := by
  unfold controlPointInfluences
  by_cases h : usedPointIndex meshData controlPointIndex < 0
  · have h2 : ¬ 0 ≤ usedPointIndex meshData controlPointIndex := by omega
    simp [h, h2]
  · have h2 : 0 ≤ usedPointIndex meshData controlPointIndex := by omega
    simp [h, h2]

theorem flatMap_controlPointInfluences_length (meshData : IMeshData)
    (skinData : ISkinWeightData) (cps : List Nat) :
    (cps.flatMap (controlPointInfluences meshData skinData)).length =
      ((cps.filter (fun controlPointIndex =>
        decide (0 ≤ usedPointIndex meshData controlPointIndex))).map
          skinData.GetLinkCount).sum := by
  induction cps with
  | nil => rfl
  | cons c cps ih =>
    simp only [List.flatMap_cons, List.length_append, ih, controlPointInfluences_length,
      List.filter_cons]
    by_cases h : 0 ≤ usedPointIndex meshData c
    · simp [h]
    · simp [h]

theorem influencesInOrder_length (meshData : IMeshData) (skinWeights : List ISkinWeightData) :
    (influencesInOrder meshData skinWeights).length =
      (skinWeights.map (fun skinData => (usedLinkCounts meshData skinData).sum)).sum := by
  induction skinWeights with
  | nil => rfl
  | cons s skinWeights ih =>
    have h : influencesInOrder meshData (s :: skinWeights) =
        (List.range s.GetVertexCount).flatMap (controlPointInfluences meshData s) ++
          influencesInOrder meshData skinWeights := by
      simp [influencesInOrder]
    rw [h, List.length_append, ih, flatMap_controlPointInfluences_length]
    simp [usedLinkCounts]

/-! ### The result of the pass -/

theorem OptimizeMeshes_result (scene : Scene) (r : PassResult)
    (h : OptimizeMeshes scene = some r) : r.result = ProcessingResult.Success := by
  unfold OptimizeMeshes at h
  simp only at h
  split at h
  · cases h
  · cases h
    rfl

/-! ### The result depends only on the values read -/

theorem foldl_congr_mem {σ ι : Type} (f g : σ → ι → σ) (l : List ι)
    (h : ∀ s, ∀ x ∈ l, f s x = g s x) (s : σ) : l.foldl f s = l.foldl g s := by
  induction l generalizing s with
  | nil => rfl
  | cons x l ih =>
    simp only [List.foldl_cons]
    rw [h s x (List.mem_cons_self _ _)]
    exact ih (fun s y hy => h s y (List.mem_cons_of_mem _ hy)) _

theorem map_eq_of_sameChannelValues {α β : Type} (meshData : IMeshData) (get : α → Nat → β)
    (channels1 channels2 : List α) (h : SameChannelValues meshData get channels1 channels2)
    (v : Nat) (hv : IsCorner meshData v) :
    channels1.map (fun a => get a v) = channels2.map (fun a => get a v) := by
  unfold SameChannelValues at h
  induction h with
  | nil => rfl
  | cons hab _ ih => simp only [List.map_cons, hab v hv, ih]

theorem cornerAttributes_congr (skinWeights : List ISkinWeightData) (m1 m2 : IMeshData)
    (uvs1 uvs2 : List IMeshVertexUVData) (tangents1 tangents2 : List IMeshVertexTangentData)
    (bitangents1 bitangents2 : List IMeshVertexBitangentData)
    (colors1 colors2 : List IMeshVertexColorData) (hm : SameMeshValues skinWeights m1 m2)
    (hu : SameChannelValues m1 IMeshVertexUVData.GetUV uvs1 uvs2)
    (ht : SameChannelValues m1 IMeshVertexTangentData.GetTangent tangents1 tangents2)
    (hb : SameChannelValues m1 IMeshVertexBitangentData.GetBitangent bitangents1 bitangents2)
    (hc : SameChannelValues m1 IMeshVertexColorData.GetColor colors1 colors2)
    (v : Nat) (hv : IsCorner m1 v) :
    cornerAttributes m1 uvs1 tangents1 bitangents1 colors1 v =
      cornerAttributes m2 uvs2 tangents2 bitangents2 colors2 v ∧
    cornerKey m1 v = cornerKey m2 v := by
  obtain ⟨_, _, _, hcorner, _⟩ := hm
  obtain ⟨h1, h2, h3⟩ := hcorner v hv
  constructor
  · simp only [cornerAttributes, h1, h2, h3]
    rw [map_eq_of_sameChannelValues m1 _ _ _ hu v hv,
      map_eq_of_sameChannelValues m1 _ _ _ ht v hv,
      map_eq_of_sameChannelValues m1 _ _ _ hb v hv,
      map_eq_of_sameChannelValues m1 _ _ _ hc v hv]
  · simp only [cornerKey, h1]

theorem addFacePolygon_congr (skinWeights : List ISkinWeightData) (m1 m2 b1 b2 : IMeshData)
    (uvs1 uvs2 : List IMeshVertexUVData) (tangents1 tangents2 : List IMeshVertexTangentData)
    (bitangents1 bitangents2 : List IMeshVertexBitangentData)
    (colors1 colors2 : List IMeshVertexColorData) (hm : SameMeshValues skinWeights m1 m2)
    (hbase : ∀ f, f < m1.GetFaceCount → b1.GetFaceMaterialId f = b2.GetFaceMaterialId f)
    (hu : SameChannelValues m1 IMeshVertexUVData.GetUV uvs1 uvs2)
    (ht : SameChannelValues m1 IMeshVertexTangentData.GetTangent tangents1 tangents2)
    (hb : SameChannelValues m1 IMeshVertexBitangentData.GetBitangent bitangents1 bitangents2)
    (hc : SameChannelValues m1 IMeshVertexColorData.GetColor colors1 colors2)
    (b : MeshBuilder) (f : Nat) (hf : f < m1.GetFaceCount) :
    addFacePolygon m1 b1 uvs1 tangents1 bitangents1 colors1 b f =
      addFacePolygon m2 b2 uvs2 tangents2 bitangents2 colors2 b f := by
  unfold addFacePolygon
  rw [← hm.2.2.1 f hf, hbase f hf]
  congr 1
  apply foldl_congr_mem
  intro s v hv
  have hcorner : IsCorner m1 v := ⟨f, hf, hv⟩
  obtain ⟨h1, h2⟩ := cornerAttributes_congr skinWeights m1 m2 uvs1 uvs2 tangents1 tangents2
    bitangents1 bitangents2 colors1 colors2 hm hu ht hb hc v hcorner
  simp only [addCorner, h1, h2]

theorem gatherInfluences_congr (skinWeights : List ISkinWeightData) (m1 m2 : IMeshData)
    (hm : SameMeshValues skinWeights m1 m2) :
    gatherInfluences m1 skinWeights = gatherInfluences m2 skinWeights := by
  obtain ⟨hcount, _, _, _, hskin⟩ := hm
  unfold gatherInfluences
  simp only [hcount]
  apply foldl_congr_mem
  intro info skinData hmem
  unfold addSkinData
  apply foldl_congr_mem
  intro info2 controlPointIndex hcp
  have hlt : controlPointIndex < skinData.GetVertexCount := List.mem_range.1 hcp
  have := hskin skinData hmem controlPointIndex hlt
  simp only [usedPointIndex] at this
  simp only [addControlPoint, this]

theorem buildMesh_congr (skinWeights : List ISkinWeightData) (m1 m2 b1 b2 : IMeshData)
    (uvs1 uvs2 : List IMeshVertexUVData) (tangents1 tangents2 : List IMeshVertexTangentData)
    (bitangents1 bitangents2 : List IMeshVertexBitangentData)
    (colors1 colors2 : List IMeshVertexColorData) (meshGroup : IMeshGroup)
    (hasBlendShapes : Bool) (hm : SameMeshValues skinWeights m1 m2)
    (hbase : ∀ f, f < m1.GetFaceCount → b1.GetFaceMaterialId f = b2.GetFaceMaterialId f)
    (hu : SameChannelValues m1 IMeshVertexUVData.GetUV uvs1 uvs2)
    (ht : SameChannelValues m1 IMeshVertexTangentData.GetTangent tangents1 tangents2)
    (hb : SameChannelValues m1 IMeshVertexBitangentData.GetBitangent bitangents1 bitangents2)
    (hc : SameChannelValues m1 IMeshVertexColorData.GetColor colors1 colors2) :
    buildMesh m1 b1 uvs1 tangents1 bitangents1 colors1 skinWeights meshGroup hasBlendShapes =
      buildMesh m2 b2 uvs2 tangents2 bitangents2 colors2 skinWeights meshGroup
        hasBlendShapes := by
  unfold buildMesh
  simp only [ExtractSkinningInfo, gatherInfluences_congr skinWeights m1 m2 hm, ← hm.2.1]
  congr 1
  apply foldl_congr_mem
  intro b f hf
  exact addFacePolygon_congr skinWeights m1 m2 b1 b2 uvs1 uvs2 tangents1 tangents2 bitangents1
    bitangents2 colors1 colors2 hm hbase hu ht hb hc b f (List.mem_range.1 hf)

theorem emitFaces_used_card (kind : MeshKind) (s : MeshBuilderSubMesh) (off : Nat)
    (m : MeshData) :
    (emitFaces kind s off m).2.length =
      ((Finset.range (s.GetNumPolygons * 3)).image (fun i => off + s.GetIndex i)).card := by
  have hnd : (emitFaces kind s off m).2.Nodup :=
    (foldl_emitFace_used kind s off (List.range s.GetNumPolygons) (m, []) List.nodup_nil).1
  rw [← List.toFinset_card_of_nodup hnd]
  congr 1
  ext x
  simp only [List.mem_toFinset, emitFaces_used_mem, Finset.mem_image, Finset.mem_range]
  constructor
  · rintro ⟨i, hi, rfl⟩
    exact ⟨i, hi, rfl⟩
  · rintro ⟨i, hi, rfl⟩
    exact ⟨i, hi, rfl⟩

theorem exampleMesh_corner_lt (v : Nat) (h : IsCorner exampleMesh v) : v < 6 := by
  obtain ⟨f, hf, hv⟩ := h
  have hf2 : f < 2 := hf
  have hcases : f = 0 ∨ f = 1 := by omega
  rcases hcases with rfl | rfl
  · have : v ∈ [0, 1, 2] := hv
    simp only [List.mem_cons, List.mem_singleton, List.not_mem_nil, or_false] at this
    omega
  · have : v ∈ [3, 4, 5] := hv
    simp only [List.mem_cons, List.mem_singleton, List.not_mem_nil, or_false] at this
    omega

theorem exampleMeshPadded_same : SameMeshValues [exampleSkin] exampleMesh exampleMeshPadded := by
  refine ⟨rfl, rfl, fun f _ => rfl, ?_, ?_⟩
  · intro v hv
    have hlt := exampleMesh_corner_lt v hv
    simp [orgVertexNumber, exampleMeshPadded, hlt]
  · intro skinData hmem controlPointIndex hlt
    simp only [List.mem_singleton] at hmem
    subst hmem
    have h6 : controlPointIndex < 6 := hlt
    simp [usedPointIndex, exampleMeshPadded, h6]

/-! ### The calls made on the builder -/

theorem setCurrentValues_range' {α : Type} (value : α → LayerValue) (layerOf : Nat → LayerId)
    (datas : List α) (k : Nat) (calls : List BuilderCall) :
    setCurrentValues value calls datas ((List.range' k datas.length).map layerOf) =
      calls ++ (datas.enumFrom k).map
        (fun p => BuilderCall.SetCurrentVertexValue (layerOf p.1) (value p.2)) := by
  induction datas generalizing k calls with
  | nil => simp [setCurrentValues]
  | cons d datas ih =>
    simp only [List.length_cons, List.range'_succ, List.map_cons, setCurrentValues,
      List.enumFrom_cons]
    rw [ih]
    simp

theorem enum_sets_eq {α : Type} (value : α → LayerValue) (layerOf : Nat → LayerId)
    (datas : List α) (cv : LayerId → LayerValue)
    (h : ∀ (i : Nat) (d : α), datas[i]? = some d → cv (layerOf i) = value d) :
    datas.enum.map (fun p => BuilderCall.SetCurrentVertexValue (layerOf p.1) (value p.2)) =
      ((List.range datas.length).map layerOf).map
        (fun layer => BuilderCall.SetCurrentVertexValue layer (cv layer)) := by
  apply List.ext_getElem?
  intro i
  simp only [List.getElem?_map, List.getElem?_enum]
  by_cases hi : i < datas.length
  · rw [List.getElem?_range hi, List.getElem?_eq_getElem hi]
    simp only [Option.map_some']
    rw [h i datas[i] (List.getElem?_eq_getElem hi)]
  · rw [List.getElem?_eq_none (by omega), List.getElem?_eq_none (by simp; omega)]
    rfl

theorem setCurrentValues_eq {α : Type} (value : α → LayerValue) (layerOf : Nat → LayerId)
    (datas : List α) (cv : LayerId → LayerValue)
    (h : ∀ (i : Nat) (d : α), datas[i]? = some d → cv (layerOf i) = value d)
    (calls : List BuilderCall) :
    setCurrentValues value calls datas (makeLayersForData layerOf datas) =
      calls ++ ((List.range datas.length).map layerOf).map
        (fun layer => BuilderCall.SetCurrentVertexValue layer (cv layer)) := by
  unfold makeLayersForData
  rw [List.range_eq_range', setCurrentValues_range', ← List.range_eq_range',
    ← enum_sets_eq value layerOf datas cv h]
  rfl

theorem recordCorner_eq (meshData : IMeshData) (uvs : List IMeshVertexUVData)
    (tangents : List IMeshVertexTangentData) (bitangents : List IMeshVertexBitangentData)
    (vertexColors : List IMeshVertexColorData) (calls : List BuilderCall) (vertexIndex : Nat) :
    recordCorner meshData uvs tangents bitangents vertexColors calls vertexIndex =
      calls ++ cornerGroup meshData uvs tangents bitangents vertexColors vertexIndex := by
  unfold recordCorner cornerGroup registeredLayers
  simp only
  rw [setCurrentValues_eq _ LayerId.uv uvs
      (cornerValue meshData uvs tangents bitangents vertexColors vertexIndex)
      (fun i d hd => by simp only [cornerValue, hd]),
    setCurrentValues_eq _ LayerId.tangent tangents
      (cornerValue meshData uvs tangents bitangents vertexColors vertexIndex)
      (fun i d hd => by simp only [cornerValue, hd]),
    setCurrentValues_eq _ LayerId.bitangent bitangents
      (cornerValue meshData uvs tangents bitangents vertexColors vertexIndex)
      (fun i d hd => by simp only [cornerValue, hd]),
    setCurrentValues_eq _ LayerId.color vertexColors
      (cornerValue meshData uvs tangents bitangents vertexColors vertexIndex)
      (fun i d hd => by simp only [cornerValue, hd])]
  simp only [List.map_append, List.map_cons, List.map_nil, List.append_assoc, cornerValue,
    List.cons_append, List.nil_append]

theorem recordFace_eq (meshData baseMesh : IMeshData) (uvs : List IMeshVertexUVData)
    (tangents : List IMeshVertexTangentData) (bitangents : List IMeshVertexBitangentData)
    (vertexColors : List IMeshVertexColorData) (calls : List BuilderCall) (faceIndex : Nat) :
    recordFace meshData baseMesh uvs tangents bitangents vertexColors calls faceIndex =
      calls ++ polygonGroup meshData baseMesh uvs tangents bitangents vertexColors faceIndex := by
  unfold recordFace polygonGroup cornerVertex Face.vertexIndex
  simp only [List.foldl_cons, List.foldl_nil, recordCorner_eq, List.append_assoc,
    List.getD_cons_zero, List.getD_cons_succ]

theorem foldl_recordFace_eq (meshData baseMesh : IMeshData) (uvs : List IMeshVertexUVData)
    (tangents : List IMeshVertexTangentData) (bitangents : List IMeshVertexBitangentData)
    (vertexColors : List IMeshVertexColorData) (faces : List Nat) (calls : List BuilderCall) :
    faces.foldl (recordFace meshData baseMesh uvs tangents bitangents vertexColors) calls =
      calls ++
        faces.flatMap (polygonGroup meshData baseMesh uvs tangents bitangents vertexColors) := by
  induction faces generalizing calls with
  | nil => simp
  | cons f faces ih =>
    simp only [List.foldl_cons, List.flatMap_cons]
    rw [ih, recordFace_eq, List.append_assoc]

theorem registeredLayers_nodup (uvCount tangentCount bitangentCount colorCount : Nat) :
    (registeredLayers uvCount tangentCount bitangentCount colorCount).Nodup := by
  have hu : ((List.range uvCount).map LayerId.uv).Nodup :=
    (List.nodup_range uvCount).map (fun a b h => LayerId.uv.inj h)
  have ht : ((List.range tangentCount).map LayerId.tangent).Nodup :=
    (List.nodup_range tangentCount).map (fun a b h => LayerId.tangent.inj h)
  have hb : ((List.range bitangentCount).map LayerId.bitangent).Nodup :=
    (List.nodup_range bitangentCount).map (fun a b h => LayerId.bitangent.inj h)
  have hc : ((List.range colorCount).map LayerId.color).Nodup :=
    (List.nodup_range colorCount).map (fun a b h => LayerId.color.inj h)
  unfold registeredLayers
  refine List.Nodup.append (List.Nodup.append (List.Nodup.append (List.Nodup.append ?_ hu ?_)
    ht ?_) hb ?_) hc ?_
  · decide
  · intro x h1 h2
    simp only [List.mem_cons, List.mem_singleton, List.not_mem_nil, or_false] at h1
    simp only [List.mem_map] at h2
    obtain ⟨i, _, rfl⟩ := h2
    rcases h1 with h | h | h <;> cases h
  · intro x h1 h2
    simp only [List.mem_append, List.mem_cons, List.mem_singleton, List.not_mem_nil, or_false,
      List.mem_map] at h1 h2
    obtain ⟨i, _, rfl⟩ := h2
    rcases h1 with (h | h | h) | ⟨j, _, h⟩ <;> cases h
  · intro x h1 h2
    simp only [List.mem_append, List.mem_cons, List.mem_singleton, List.not_mem_nil, or_false,
      List.mem_map] at h1 h2
    obtain ⟨i, _, rfl⟩ := h2
    rcases h1 with ((h | h | h) | ⟨j, _, h⟩) | ⟨j, _, h⟩ <;> cases h
  · intro x h1 h2
    simp only [List.mem_append, List.mem_cons, List.mem_singleton, List.not_mem_nil, or_false,
      List.mem_map] at h1 h2
    obtain ⟨i, _, rfl⟩ := h2
    rcases h1 with (((h | h | h) | ⟨j, _, h⟩) | ⟨j, _, h⟩) | ⟨j, _, h⟩ <;> cases h

theorem run_append (registered : List LayerId) (a b : List BuilderCall) (s : ProtocolState) :
    ProtocolState.run registered s (a ++ b) =
      (ProtocolState.run registered s a).bind (fun s' => ProtocolState.run registered s' b) := by
  induction a generalizing s with
  | nil => rfl
  | cons c a ih =>
    simp only [List.cons_append, ProtocolState.run]
    cases ProtocolState.step registered s c with
    | none => rfl
    | some s' => exact ih s'

theorem run_sets (registered : List LayerId) (cv : LayerId → LayerValue) (layers : List LayerId)
    (hl : ∀ layer ∈ layers, layer ∈ registered) (s : ProtocolState)
    (hopen : s.polygonOpen = true) :
    ProtocolState.run registered s
        (layers.map (fun layer => BuilderCall.SetCurrentVertexValue layer (cv layer))) =
      some { s with valuesSet := s.valuesSet ++ layers } := by
  induction layers generalizing s with
  | nil => simp [ProtocolState.run]
  | cons l layers ih =>
    have hmem : l ∈ registered := hl l (List.mem_cons_self _ _)
    simp only [List.map_cons, ProtocolState.run, ProtocolState.step, hopen, hmem, and_self,
      if_true]
    have := ih (fun x hx => hl x (List.mem_cons_of_mem _ hx))
      { polygonOpen := true, corners := s.corners, valuesSet := s.valuesSet ++ [l],
        polygons := s.polygons, generated := s.generated } rfl
    rw [this]
    simp

theorem run_cornerGroup (meshData : IMeshData) (uvs : List IMeshVertexUVData)
    (tangents : List IMeshVertexTangentData) (bitangents : List IMeshVertexBitangentData)
    (vertexColors : List IMeshVertexColorData) (vertexIndex corners polygons : Nat) :
    ProtocolState.run
        (registeredLayers uvs.length tangents.length bitangents.length vertexColors.length)
        { polygonOpen := true, corners := corners, valuesSet := [], polygons := polygons,
          generated := false }
        (cornerGroup meshData uvs tangents bitangents vertexColors vertexIndex) =
      some { polygonOpen := true, corners := corners + 1, valuesSet := [], polygons := polygons,
             generated := false } := by
  unfold cornerGroup
  rw [run_append, run_sets _ _ _ (fun _ h => h) _ rfl]
  have hcount : ∀ layer ∈ registeredLayers uvs.length tangents.length bitangents.length
      vertexColors.length,
      List.count layer (registeredLayers uvs.length tangents.length bitangents.length
        vertexColors.length) = 1 :=
    fun layer h => List.count_eq_one_of_mem (registeredLayers_nodup _ _ _ _) h
  simp only [Option.bind, ProtocolState.run, ProtocolState.step, List.nil_append, true_and]
  rw [if_pos hcount]

theorem run_begin (registered : List LayerId) (materialId polygons : Nat) :
    ProtocolState.run registered
        { polygonOpen := false, corners := 0, valuesSet := [], polygons := polygons,
          generated := false } [BuilderCall.BeginPolygon materialId] =
      some { polygonOpen := true, corners := 0, valuesSet := [], polygons := polygons,
             generated := false } := by
  simp [ProtocolState.run, ProtocolState.step]

theorem run_end (registered : List LayerId) (polygons : Nat) :
    ProtocolState.run registered
        { polygonOpen := true, corners := 3, valuesSet := [], polygons := polygons,
          generated := false } [BuilderCall.EndPolygon] =
      some { polygonOpen := false, corners := 0, valuesSet := [], polygons := polygons + 1,
             generated := false } := by
  simp [ProtocolState.run, ProtocolState.step]

theorem run_generate (registered : List LayerId) (polygons : Nat) :
    ProtocolState.run registered
        { polygonOpen := false, corners := 0, valuesSet := [], polygons := polygons,
          generated := false } [BuilderCall.GenerateSubMeshVertexOrders] =
      some { polygonOpen := false, corners := 0, valuesSet := [], polygons := polygons,
             generated := true } := by
  simp [ProtocolState.run, ProtocolState.step]

theorem run_polygonGroup (meshData baseMesh : IMeshData) (uvs : List IMeshVertexUVData)
    (tangents : List IMeshVertexTangentData) (bitangents : List IMeshVertexBitangentData)
    (vertexColors : List IMeshVertexColorData) (faceIndex polygons : Nat) :
    ProtocolState.run
        (registeredLayers uvs.length tangents.length bitangents.length vertexColors.length)
        { polygonOpen := false, corners := 0, valuesSet := [], polygons := polygons,
          generated := false }
        (polygonGroup meshData baseMesh uvs tangents bitangents vertexColors faceIndex) =
      some { polygonOpen := false, corners := 0, valuesSet := [], polygons := polygons + 1,
             generated := false } := by
  unfold polygonGroup
  simp only [run_append, run_begin, run_cornerGroup, Option.some_bind]
  exact run_end _ polygons

theorem run_polygonGroups (meshData baseMesh : IMeshData) (uvs : List IMeshVertexUVData)
    (tangents : List IMeshVertexTangentData) (bitangents : List IMeshVertexBitangentData)
    (vertexColors : List IMeshVertexColorData) (faces : List Nat) (polygons : Nat) :
    ProtocolState.run
        (registeredLayers uvs.length tangents.length bitangents.length vertexColors.length)
        { polygonOpen := false, corners := 0, valuesSet := [], polygons := polygons,
          generated := false }
        (faces.flatMap (polygonGroup meshData baseMesh uvs tangents bitangents vertexColors)) =
      some { polygonOpen := false, corners := 0, valuesSet := [],
             polygons := polygons + faces.length, generated := false } := by
  induction faces generalizing polygons with
  | nil => simp [ProtocolState.run]
  | cons f faces ih =>
    simp only [List.flatMap_cons, List.length_cons]
    rw [run_append, run_polygonGroup, Option.some_bind, ih]
    simp only [Option.some.injEq, ProtocolState.mk.injEq, true_and, and_true]
    omega

/-! ### Carrying out the recorded calls gives the builder of `OptimizeMesh` -/

theorem replay_sets (uvCount tangentCount bitangentCount colorCount : Nat)
    (cv : LayerId → LayerValue) (layers : List LayerId) (b : MeshBuilder)
    (current : LayerId → LayerValue) :
    (layers.map (fun layer => BuilderCall.SetCurrentVertexValue layer (cv layer))).foldl
        (replayCall uvCount tangentCount bitangentCount colorCount) (b, current) =
      (b, fun l => if l ∈ layers then cv l else current l) := by
  induction layers generalizing current with
  | nil => simp
  | cons x layers ih =>
    simp only [List.map_cons, List.foldl_cons, replayCall]
    rw [ih]
    congr 1
    funext l
    by_cases h1 : l ∈ layers
    · simp [h1]
    · by_cases h2 : l = x
      · simp [h1, h2]
      · simp [h1, h2]

theorem map_range_getElem? {α β : Type} (l : List α) (f : Nat → β) (g : α → β)
    (h : ∀ (i : Nat) (a : α), l[i]? = some a → f i = g a) :
    (List.range l.length).map f = l.map g := by
  apply List.ext_getElem?
  intro i
  simp only [List.getElem?_map]
  by_cases hi : i < l.length
  · rw [List.getElem?_range hi, List.getElem?_eq_getElem hi]
    simp only [Option.map_some']
    rw [h i l[i] (List.getElem?_eq_getElem hi)]
  · rw [List.getElem?_eq_none (by simp; omega), List.getElem?_eq_none (by omega)]
    rfl

theorem currentAttributes_cornerValue (meshData : IMeshData) (uvs : List IMeshVertexUVData)
    (tangents : List IMeshVertexTangentData) (bitangents : List IMeshVertexBitangentData)
    (vertexColors : List IMeshVertexColorData) (vertexIndex : Nat)
    (current : LayerId → LayerValue) :
    currentAttributes uvs.length tangents.length bitangents.length vertexColors.length
        (fun l => if l ∈ registeredLayers uvs.length tangents.length bitangents.length
            vertexColors.length
          then cornerValue meshData uvs tangents bitangents vertexColors vertexIndex l
          else current l) =
      cornerAttributes meshData uvs tangents bitangents vertexColors vertexIndex := by
  have hu : ∀ i, i < uvs.length → LayerId.uv i ∈ registeredLayers uvs.length tangents.length
      bitangents.length vertexColors.length := by
    intro i hi
    simp [registeredLayers, hi]
  have ht : ∀ i, i < tangents.length → LayerId.tangent i ∈ registeredLayers uvs.length
      tangents.length bitangents.length vertexColors.length := by
    intro i hi
    simp [registeredLayers, hi]
  have hb : ∀ i, i < bitangents.length → LayerId.bitangent i ∈ registeredLayers uvs.length
      tangents.length bitangents.length vertexColors.length := by
    intro i hi
    simp [registeredLayers, hi]
  have hc : ∀ i, i < vertexColors.length → LayerId.color i ∈ registeredLayers uvs.length
      tangents.length bitangents.length vertexColors.length := by
    intro i hi
    simp [registeredLayers, hi]
  have hlt : ∀ {α : Type} (l : List α) (i : Nat) (a : α), l[i]? = some a → i < l.length := by
    intro α l i a h
    rcases Nat.lt_or_ge i l.length with h1 | h1
    · exact h1
    · rw [List.getElem?_eq_none h1] at h
      cases h
  simp only [currentAttributes, cornerAttributes, VertexAttributes.mk.injEq]
  refine ⟨?_, ?_, ?_, ?_, ?_, ?_, ?_⟩
  · simp [registeredLayers, cornerValue]
  · simp [registeredLayers, cornerValue]
  · simp [registeredLayers, cornerValue]
  · apply map_range_getElem?
    intro i a ha
    simp only [hu i (hlt _ _ _ ha), if_true, cornerValue, ha]
  · apply map_range_getElem?
    intro i a ha
    simp only [ht i (hlt _ _ _ ha), if_true, cornerValue, ha]
  · apply map_range_getElem?
    intro i a ha
    simp only [hb i (hlt _ _ _ ha), if_true, cornerValue, ha]
  · apply map_range_getElem?
    intro i a ha
    simp only [hc i (hlt _ _ _ ha), if_true, cornerValue, ha]

theorem replay_cornerGroup (meshData : IMeshData) (uvs : List IMeshVertexUVData)
    (tangents : List IMeshVertexTangentData) (bitangents : List IMeshVertexBitangentData)
    (vertexColors : List IMeshVertexColorData) (vertexIndex : Nat) (b : MeshBuilder)
    (current : LayerId → LayerValue) :
    ((cornerGroup meshData uvs tangents bitangents vertexColors vertexIndex).foldl
        (replayCall uvs.length tangents.length bitangents.length vertexColors.length)
        (b, current)).1 =
      addCorner meshData uvs tangents bitangents vertexColors b vertexIndex := by
  unfold cornerGroup
  rw [List.foldl_append, replay_sets]
  simp only [List.foldl_cons, List.foldl_nil, replayCall, currentAttributes_cornerValue]
  rfl

theorem replay_cornerGroups (meshData : IMeshData) (uvs : List IMeshVertexUVData)
    (tangents : List IMeshVertexTangentData) (bitangents : List IMeshVertexBitangentData)
    (vertexColors : List IMeshVertexColorData) (corners : List Nat) (b : MeshBuilder)
    (current : LayerId → LayerValue) :
    ((corners.flatMap (cornerGroup meshData uvs tangents bitangents vertexColors)).foldl
        (replayCall uvs.length tangents.length bitangents.length vertexColors.length)
        (b, current)).1 =
      corners.foldl (addCorner meshData uvs tangents bitangents vertexColors) b := by
  induction corners generalizing b current with
  | nil => rfl
  | cons v corners ih =>
    simp only [List.flatMap_cons, List.foldl_append, List.foldl_cons]
    rw [← replay_cornerGroup meshData uvs tangents bitangents vertexColors v b current]
    exact ih _ _

theorem replay_polygonGroups (meshData baseMesh : IMeshData) (uvs : List IMeshVertexUVData)
    (tangents : List IMeshVertexTangentData) (bitangents : List IMeshVertexBitangentData)
    (vertexColors : List IMeshVertexColorData) (faces : List Nat) (b : MeshBuilder)
    (current : LayerId → LayerValue) :
    ((faces.flatMap
        (polygonGroup meshData baseMesh uvs tangents bitangents vertexColors)).foldl
        (replayCall uvs.length tangents.length bitangents.length vertexColors.length)
        (b, current)).1 =
      faces.foldl (addFacePolygon meshData baseMesh uvs tangents bitangents vertexColors) b := by
  induction faces generalizing b current with
  | nil => rfl
  | cons f faces ih =>
    simp only [List.flatMap_cons, List.foldl_append, List.foldl_cons]
    have hstep : ∀ cur, ((polygonGroup meshData baseMesh uvs tangents bitangents vertexColors
        f).foldl (replayCall uvs.length tangents.length bitangents.length vertexColors.length)
        (b, cur)).1 =
        addFacePolygon meshData baseMesh uvs tangents bitangents vertexColors b f := by
      intro cur
      have hg : polygonGroup meshData baseMesh uvs tangents bitangents vertexColors f =
          [BuilderCall.BeginPolygon (baseMesh.GetFaceMaterialId f)] ++
            (meshData.GetFaceInfo f).vertexIndex.flatMap
              (cornerGroup meshData uvs tangents bitangents vertexColors) ++
            [BuilderCall.EndPolygon] := by
        simp [polygonGroup, cornerVertex, Face.vertexIndex]
      rw [hg, List.foldl_append, List.foldl_append]
      simp only [List.foldl_cons, List.foldl_nil, replayCall]
      have := replay_cornerGroups meshData uvs tangents bitangents vertexColors
        (meshData.GetFaceInfo f).vertexIndex (b.BeginPolygon (baseMesh.GetFaceMaterialId f)) cur
      rw [this]
      rfl
    have hpair : ∀ x : MeshBuilder × (LayerId → LayerValue), x = (x.1, x.2) := fun x => rfl
    rw [hpair ((polygonGroup meshData baseMesh uvs tangents bitangents vertexColors f).foldl
      (replayCall uvs.length tangents.length bitangents.length vertexColors.length)
      (b, current)), hstep]
    exact ih _ _

/-- Carrying out the recorded calls, in order, on a new builder that was given the skinning info
yields the builder `OptimizeMesh` reads its result from. -/
theorem replay_builderCalls (meshData baseMesh : IMeshData) (uvs : List IMeshVertexUVData)
    (tangents : List IMeshVertexTangentData) (bitangents : List IMeshVertexBitangentData)
    (vertexColors : List IMeshVertexColorData) (skinWeights : List ISkinWeightData)
    (meshGroup : IMeshGroup) (hasBlendShapes : Bool) (current : LayerId → LayerValue) :
    ((builderCalls meshData baseMesh uvs tangents bitangents vertexColors).foldl
        (replayCall uvs.length tangents.length bitangents.length vertexColors.length)
        ((MeshBuilder.create (!hasBlendShapes)).SetSkinningInfo
          (ExtractSkinningInfo meshData skinWeights (skinningParameters meshGroup).1
            (skinningParameters meshGroup).2), current)).1 =
      buildMesh meshData baseMesh uvs tangents bitangents vertexColors skinWeights meshGroup
        hasBlendShapes := by
  unfold builderCalls buildMesh
  simp only [foldl_recordFace_eq, List.nil_append, List.foldl_append, List.foldl_cons,
    List.foldl_nil, replayCall]
  rw [replay_polygonGroups]

/-! ### The nodes the pass adds -/

theorem filter_map_range {α β : Type} (l : List α) (p : α → Bool) (f : α → β)
    (pi : Nat → Bool) (fi : Nat → β) (hp : ∀ i a, l[i]? = some a → pi i = p a)
    (hf : ∀ i a, l[i]? = some a → fi i = f a) :
    ((List.range l.length).filter pi).map fi = (l.filter p).map f := by
  induction l using List.reverseRecOn with
  | nil => rfl
  | append_singleton l a ih =>
    have hp' : ∀ i b, l[i]? = some b → pi i = p b := by
      intro i b hb
      apply hp
      rw [List.getElem?_append_left (by
        rcases Nat.lt_or_ge i l.length with h | h
        · exact h
        · rw [List.getElem?_eq_none h] at hb
          cases hb)]
      exact hb
    have hf' : ∀ i b, l[i]? = some b → fi i = f b := by
      intro i b hb
      apply hf
      rw [List.getElem?_append_left (by
        rcases Nat.lt_or_ge i l.length with h | h
        · exact h
        · rw [List.getElem?_eq_none h] at hb
          cases hb)]
      exact hb
    have hlast : (l ++ [a])[l.length]? = some a := by simp
    rw [List.length_append, List.length_singleton, List.range_succ, List.filter_append,
      List.filter_append, List.map_append, List.map_append, ih hp' hf']
    congr 1
    simp only [List.filter_cons, List.filter_nil, hp _ _ hlast]
    cases p a with
    | false => rfl
    | true => simp [hf _ _ hlast]

theorem blendShapeChildren_eq_filter (g : SceneGraph) (m : Nat) :
    blendShapeChildren g m =
      (g.nodes.filter (fun node => node.isBlendShapeChildOf m)).map
        (fun node => (node.name, node.isEndPoint)) := by
  unfold blendShapeChildren SceneGraph.childNodesOfType SceneGraph.childNodes
  rw [List.filter_filter]
  apply filter_map_range
  · intro i a ha
    simp [SceneGraph.typeOf, SceneGraph.GetNodeParent, ha, GraphNode.isBlendShapeChildOf]
  · intro i a ha
    simp [SceneGraph.GetName, SceneGraph.IsNodeEndPoint, ha]

theorem AddChild_none (g : SceneGraph) (name : String) (content : GraphObject) :
    g.AddChild none name content = (g, none) := rfl

theorem AddChild_some (g : SceneGraph) (p : Nat) (hp : p < g.nodes.length) (name : String)
    (content : GraphObject) :
    ∃ path, g.AddChild (some p) name content =
      ({ nodes := g.nodes ++ [{ name := name, path := path, parent := some p,
                                content := content, isEndPoint := false }] },
        some g.nodes.length) := by
  simp only [SceneGraph.AddChild, hp, if_true]
  exact ⟨_, rfl⟩

theorem modify_append_last {α : Type} (f : α → α) (l : List α) (a : α) :
    List.modify f l.length (l ++ [a]) = l ++ [f a] := by
  apply List.ext_getElem?
  intro i
  rw [List.getElem?_modify]
  rcases Nat.lt_trichotomy i l.length with h | h | h
  · have hne : ¬ l.length = i := by omega
    rw [List.getElem?_append_left h, List.getElem?_append_left h]
    simp [hne]
  · subst h
    simp
  · rw [List.getElem?_eq_none (by simp; omega), List.getElem?_eq_none (by simp; omega)]
    rfl

/-- Adding a child under a node of the graph and marking it an end point when `flag` is set
appends one node to the graph. -/
theorem AddChild_endPoint_some (g : SceneGraph) (p : Nat) (hp : p < g.nodes.length)
    (name : String) (content : GraphObject) (flag : Bool) :
    ∃ path,
      (if flag = true then (g.AddChild (some p) name content).1.MakeEndPoint
          (g.AddChild (some p) name content).2
        else (g.AddChild (some p) name content).1).nodes =
        g.nodes ++ [{ name := name, path := path, parent := some p, content := content,
                      isEndPoint := flag }] := by
  obtain ⟨path, h⟩ := AddChild_some g p hp name content
  refine ⟨path, ?_⟩
  rw [h]
  cases flag with
  | false => simp
  | true =>
    simp only [if_true, SceneGraph.MakeEndPoint]
    rw [modify_append_last]

theorem AddChild_endPoint_node (g : SceneGraph) (p : Nat) (hp : p < g.nodes.length)
    (name : String) (content : GraphObject) (flag : Bool) :
    ∃ node : GraphNode,
      (if flag = true then (g.AddChild (some p) name content).1.MakeEndPoint
          (g.AddChild (some p) name content).2
        else (g.AddChild (some p) name content).1).nodes = g.nodes ++ [node] ∧
      node.name = name ∧ node.parent = some p ∧ node.content = content ∧
      node.isEndPoint = flag := by
  obtain ⟨path, h⟩ := AddChild_endPoint_some g p hp name content flag
  exact ⟨_, h, rfl, rfl, rfl, rfl⟩

theorem AddChild_endPoint_none (g : SceneGraph) (name : String) (content : GraphObject)
    (flag : Bool) :
    (if flag = true then (g.AddChild none name content).1.MakeEndPoint
        (g.AddChild none name content).2
      else (g.AddChild none name content).1) = g := by
  cases flag <;> rfl

theorem getElem?_append_old (g : SceneGraph) (news : List GraphNode) (i : Nat)
    (hi : i < g.nodes.length) : (g.nodes ++ news)[i]? = g.nodes[i]? :=
  List.getElem?_append_left hi

theorem addOptimizedNodes_none (g : SceneGraph) (originals : List Nat)
    (optimized : List GraphObject) : addOptimizedNodes none g originals optimized = g := by
  induction originals generalizing g optimized with
  | nil => cases optimized <;> rfl
  | cons o originals ih =>
    cases optimized with
    | nil => rfl
    | cons x optimized =>
      simp only [addOptimizedNodes]
      rw [AddChild_endPoint_none]
      exact ih g optimized

theorem addOptimizedNodes_some (m : Nat) (g : SceneGraph) (hm : m < g.nodes.length)
    (originals : List Nat) (optimized : List GraphObject) :
    ∃ news, (addOptimizedNodes (some m) g originals optimized).nodes = g.nodes ++ news ∧
      ∀ node ∈ news, node.parent = some m ∧ node.content ∈ optimized := by
  induction originals generalizing g optimized with
  | nil => exact ⟨[], by cases optimized <;> simp [addOptimizedNodes], by simp⟩
  | cons o originals ih =>
    cases optimized with
    | nil => exact ⟨[], by simp [addOptimizedNodes], by simp⟩
    | cons x optimized =>
      simp only [addOptimizedNodes]
      obtain ⟨nd, h1, _, hpar, hcont, _⟩ := AddChild_endPoint_node g m hm (g.GetName o) x
        ((g.AddChild (some m) (g.GetName o) x).1.IsNodeEndPoint o)
      have hm1 : m < (if (g.AddChild (some m) (g.GetName o) x).1.IsNodeEndPoint o = true then
          (g.AddChild (some m) (g.GetName o) x).1.MakeEndPoint
            (g.AddChild (some m) (g.GetName o) x).2
          else (g.AddChild (some m) (g.GetName o) x).1).nodes.length := by
        rw [h1, List.length_append]
        omega
      obtain ⟨news, h2, h3⟩ := ih _ hm1 optimized
      refine ⟨nd :: news, ?_, ?_⟩
      · rw [h2, h1]
        simp
      · intro node hnode
        rcases List.mem_cons.1 hnode with h | h
        · subst h
          exact ⟨hpar, by rw [hcont]; exact List.mem_cons_self _ _⟩
        · exact ⟨(h3 node h).1, List.mem_cons_of_mem _ (h3 node h).2⟩

theorem copyOtherChild_none (g : SceneGraph) (child : Nat) : copyOtherChild none g child = g := by
  unfold copyOtherChild
  cases g.nodes[child]? with
  | none => rfl
  | some childNode =>
    simp only
    split
    · exact AddChild_endPoint_none g _ _ _
    · rfl

theorem foldl_copyOtherChild_none (children : List Nat) (g : SceneGraph) :
    children.foldl (copyOtherChild none) g = g := by
  induction children generalizing g with
  | nil => rfl
  | cons c children ih =>
    simp only [List.foldl_cons]
    rw [copyOtherChild_none]
    exact ih g

theorem copyOtherChild_some (m : Nat) (g : SceneGraph) (hm : m < g.nodes.length) (child : Nat) :
    ∃ news, (copyOtherChild (some m) g child).nodes = g.nodes ++ news ∧
      ∀ node ∈ news, node.parent = some m ∧ node.content.type = ObjectType.other := by
  unfold copyOtherChild
  cases hc : g.nodes[child]? with
  | none => exact ⟨[], by simp, by simp⟩
  | some childNode =>
    simp only
    by_cases ht : childNode.content.type = ObjectType.other
    · simp only [ht, if_true]
      obtain ⟨nd, h1, _, hpar, hcont, _⟩ := AddChild_endPoint_node g m hm (g.GetName child)
        childNode.content
        ((g.AddChild (some m) (g.GetName child) childNode.content).1.IsNodeEndPoint child)
      refine ⟨[nd], h1, ?_⟩
      intro node hnode
      simp only [List.mem_singleton] at hnode
      subst hnode
      exact ⟨hpar, by rw [hcont]; exact ht⟩
    · simp only [ht, if_false]
      exact ⟨[], by simp, by simp⟩

theorem foldl_copyOtherChild_some (m : Nat) (children : List Nat) (g : SceneGraph)
    (hm : m < g.nodes.length) :
    ∃ news, (children.foldl (copyOtherChild (some m)) g).nodes = g.nodes ++ news ∧
      ∀ node ∈ news, node.parent = some m ∧ node.content.type = ObjectType.other := by
  induction children generalizing g with
  | nil => exact ⟨[], by simp, by simp⟩
  | cons c children ih =>
    obtain ⟨n1, h1, h2⟩ := copyOtherChild_some m g hm c
    have hm1 : m < (copyOtherChild (some m) g c).nodes.length := by
      rw [h1, List.length_append]
      omega
    obtain ⟨n2, h3, h4⟩ := ih _ hm1
    refine ⟨n1 ++ n2, ?_, ?_⟩
    · simp only [List.foldl_cons]
      rw [h3, h1, List.append_assoc]
    · intro node hnode
      rcases List.mem_append.1 hnode with h | h
      · exact h2 node h
      · exact h4 node h

theorem typeOf_blendShape_cast (g : SceneGraph) (b : Nat)
    (ht : g.typeOf b = ObjectType.IBlendShapeData) :
    ∃ (node : GraphNode) (blendShape : IMeshData), g.nodes[b]? = some node ∧
      node.content.asIBlendShapeData = some blendShape := by
  unfold SceneGraph.typeOf at ht
  cases hn : g.nodes[b]? with
  | none => rw [hn] at ht; cases ht
  | some node =>
    rw [hn] at ht
    simp only [Option.map_some', Option.getD_some] at ht
    cases hc : node.content <;> rw [hc] at ht <;> cases ht
    · exact ⟨node, _, rfl, by rw [hc]; rfl⟩
    · exact ⟨node, _, rfl, by rw [hc]; rfl⟩

theorem optimizeBlendShape_calls (mesh : IMeshData) (nodeIndex meshGroupIndex : Nat)
    (meshGroup : IMeshGroup) (hasBlendShapes : Bool) (optimizedMeshNodeIndex : Option Nat)
    (st : PassState) (b : Nat) :
    ∃ extra, (optimizeBlendShape mesh nodeIndex meshGroupIndex meshGroup hasBlendShapes
        optimizedMeshNodeIndex st b).calls = st.calls ++ extra ∧
      ∀ c ∈ extra, c.kind = MeshKind.blendShape := by
  unfold optimizeBlendShape
  split
  · exact ⟨[], by simp, by simp⟩
  · refine ⟨_, rfl, ?_⟩
    intro c hc
    simp only [List.mem_singleton] at hc
    subst hc
    rfl

theorem foldl_optimizeBlendShape_calls (mesh : IMeshData) (nodeIndex meshGroupIndex : Nat)
    (meshGroup : IMeshGroup) (hasBlendShapes : Bool) (optimizedMeshNodeIndex : Option Nat)
    (bs : List Nat) (st : PassState) :
    ∃ extra, (bs.foldl (optimizeBlendShape mesh nodeIndex meshGroupIndex meshGroup hasBlendShapes
        optimizedMeshNodeIndex) st).calls = st.calls ++ extra ∧
      ∀ c ∈ extra, c.kind = MeshKind.blendShape := by
  induction bs generalizing st with
  | nil => exact ⟨[], by simp, by simp⟩
  | cons b bs ih =>
    obtain ⟨e1, h1, h2⟩ := optimizeBlendShape_calls mesh nodeIndex meshGroupIndex meshGroup
      hasBlendShapes optimizedMeshNodeIndex st b
    obtain ⟨e2, h3, h4⟩ := ih (optimizeBlendShape mesh nodeIndex meshGroupIndex meshGroup
      hasBlendShapes optimizedMeshNodeIndex st b)
    refine ⟨e1 ++ e2, ?_, ?_⟩
    · simp only [List.foldl_cons]
      rw [h3, h1, List.append_assoc]
    · intro c hc
      rcases List.mem_append.1 hc with h | h
      · exact h2 c h
      · exact h4 c h

theorem optimizeBlendShape_none (mesh : IMeshData) (nodeIndex meshGroupIndex : Nat)
    (meshGroup : IMeshGroup) (hasBlendShapes : Bool) (st : PassState) (b : Nat) :
    (optimizeBlendShape mesh nodeIndex meshGroupIndex meshGroup hasBlendShapes none st
      b).graph = st.graph := by
  unfold optimizeBlendShape
  split
  · rfl
  · exact AddChild_endPoint_none st.graph _ _ _

theorem foldl_optimizeBlendShape_none (mesh : IMeshData) (nodeIndex meshGroupIndex : Nat)
    (meshGroup : IMeshGroup) (hasBlendShapes : Bool) (bs : List Nat) (st : PassState) :
    (bs.foldl (optimizeBlendShape mesh nodeIndex meshGroupIndex meshGroup hasBlendShapes none)
      st).graph = st.graph := by
  induction bs generalizing st with
  | nil => rfl
  | cons b bs ih =>
    simp only [List.foldl_cons]
    rw [ih, optimizeBlendShape_none]

theorem IsNodeEndPoint_append (g : SceneGraph) (news : List GraphNode) (i : Nat)
    (hi : i < g.nodes.length) :
    SceneGraph.IsNodeEndPoint { nodes := g.nodes ++ news } i = g.IsNodeEndPoint i := by
  simp only [SceneGraph.IsNodeEndPoint]
  rw [List.getElem?_append_left hi]

theorem GetName_append (g : SceneGraph) (news : List GraphNode) (i : Nat)
    (hi : i < g.nodes.length) :
    SceneGraph.GetName { nodes := g.nodes ++ news } i = g.GetName i := by
  simp only [SceneGraph.GetName]
  rw [List.getElem?_append_left hi]

theorem typeOf_append (g : SceneGraph) (news : List GraphNode) (i : Nat)
    (hi : i < g.nodes.length) :
    SceneGraph.typeOf { nodes := g.nodes ++ news } i = g.typeOf i := by
  simp only [SceneGraph.typeOf]
  rw [List.getElem?_append_left hi]

theorem optimizeBlendShape_some (mesh : IMeshData) (nodeIndex meshGroupIndex : Nat)
    (meshGroup : IMeshGroup) (hasBlendShapes : Bool) (m : Nat) (st : PassState) (b : Nat)
    (hm : m < st.graph.nodes.length) (hb : b < st.graph.nodes.length)
    (ht : st.graph.typeOf b = ObjectType.IBlendShapeData) :
    ∃ node : GraphNode,
      (optimizeBlendShape mesh nodeIndex meshGroupIndex meshGroup hasBlendShapes (some m) st
        b).graph.nodes = st.graph.nodes ++ [node] ∧
      node.name = st.graph.GetName b ∧ node.parent = some m ∧
      node.content.type = ObjectType.IBlendShapeData ∧
      node.isEndPoint = st.graph.IsNodeEndPoint b := by
  obtain ⟨bnode, blendShape, hn, hcast⟩ := typeOf_blendShape_cast st.graph b ht
  unfold optimizeBlendShape
  simp only [hn, Option.some_bind, hcast]
  obtain ⟨nd, h1, hname, hpar, hcont, hflag⟩ := AddChild_endPoint_node st.graph m hm
    (st.graph.GetName b)
    (GraphObject.optimizedBlendShape (OptimizeMesh MeshKind.blendShape blendShape mesh [] [] []
      [] [] meshGroup hasBlendShapes).nodes.optimizedMesh)
    ((st.graph.AddChild (some m) (st.graph.GetName b)
      (GraphObject.optimizedBlendShape (OptimizeMesh MeshKind.blendShape blendShape mesh [] []
        [] [] [] meshGroup hasBlendShapes).nodes.optimizedMesh)).1.IsNodeEndPoint b)
  refine ⟨nd, h1, hname, hpar, by rw [hcont]; rfl, ?_⟩
  rw [hflag]
  obtain ⟨path2, h2⟩ := AddChild_some st.graph m hm (st.graph.GetName b)
    (GraphObject.optimizedBlendShape (OptimizeMesh MeshKind.blendShape blendShape mesh [] [] []
      [] [] meshGroup hasBlendShapes).nodes.optimizedMesh)
  rw [h2]
  exact IsNodeEndPoint_append st.graph _ b hb

theorem foldl_optimizeBlendShape_some (mesh : IMeshData) (nodeIndex meshGroupIndex : Nat)
    (meshGroup : IMeshGroup) (hasBlendShapes : Bool) (m : Nat) (bs : List Nat) (st : PassState)
    (hm : m < st.graph.nodes.length)
    (hbs : ∀ b ∈ bs, b < st.graph.nodes.length ∧
      st.graph.typeOf b = ObjectType.IBlendShapeData) :
    ∃ news : List GraphNode,
      (bs.foldl (optimizeBlendShape mesh nodeIndex meshGroupIndex meshGroup hasBlendShapes
        (some m)) st).graph.nodes = st.graph.nodes ++ news ∧
      news.map (fun node => (node.name, node.isEndPoint)) =
        bs.map (fun b => (st.graph.GetName b, st.graph.IsNodeEndPoint b)) ∧
      ∀ node ∈ news, node.parent = some m ∧
        node.content.type = ObjectType.IBlendShapeData := by
  induction bs generalizing st with
  | nil => exact ⟨[], by simp, rfl, by simp⟩
  | cons b bs ih =>
    obtain ⟨hb, ht⟩ := hbs b (List.mem_cons_self _ _)
    obtain ⟨node, h1, h2, h3, h4, h5⟩ := optimizeBlendShape_some mesh nodeIndex meshGroupIndex
      meshGroup hasBlendShapes m st b hm hb ht
    have hg : (optimizeBlendShape mesh nodeIndex meshGroupIndex meshGroup hasBlendShapes
        (some m) st b).graph = { nodes := st.graph.nodes ++ [node] } := by
      cases hgr : (optimizeBlendShape mesh nodeIndex meshGroupIndex meshGroup hasBlendShapes
        (some m) st b).graph
      rw [hgr] at h1
      simp only at h1
      rw [h1]
    have hm1 : m < (optimizeBlendShape mesh nodeIndex meshGroupIndex meshGroup hasBlendShapes
        (some m) st b).graph.nodes.length := by
      rw [h1, List.length_append]
      omega
    have hbs1 : ∀ b' ∈ bs, b' < (optimizeBlendShape mesh nodeIndex meshGroupIndex meshGroup
        hasBlendShapes (some m) st b).graph.nodes.length ∧
        (optimizeBlendShape mesh nodeIndex meshGroupIndex meshGroup hasBlendShapes (some m) st
          b).graph.typeOf b' = ObjectType.IBlendShapeData := by
      intro b' hb'
      obtain ⟨h6, h7⟩ := hbs b' (List.mem_cons_of_mem _ hb')
      constructor
      · rw [h1, List.length_append]
        omega
      · rw [hg, typeOf_append st.graph _ b' h6]
        exact h7
    obtain ⟨news, h8, h9, h10⟩ := ih _ hm1 hbs1
    refine ⟨node :: news, ?_, ?_, ?_⟩
    · simp only [List.foldl_cons]
      rw [h8, h1]
      simp
    · simp only [List.map_cons, h2, h5, h9]
      congr 1
      apply List.map_congr_left
      intro b' hb'
      obtain ⟨h6, _⟩ := hbs b' (List.mem_cons_of_mem _ hb')
      rw [hg, GetName_append st.graph _ b' h6, IsNodeEndPoint_append st.graph _ b' h6]
    · intro nd hnd
      rcases List.mem_cons.1 hnd with h | h
      · subst h
        exact ⟨h3, h4⟩
      · exact h10 nd h

theorem mem_childNodesOfType (g : SceneGraph) (nodeIndex b : Nat) (t : ObjectType)
    (h : b ∈ g.childNodesOfType nodeIndex t) : b < g.nodes.length ∧ g.typeOf b = t := by
  simp only [SceneGraph.childNodesOfType, SceneGraph.childNodes, List.mem_filter,
    List.mem_range, decide_eq_true_eq] at h
  exact ⟨h.1.1, h.2⟩

/-- Appending nodes that are no blend-shape children of `n` leaves the blend-shape children of
`n` as they were. -/
theorem blendShapeChildren_append (g g' : SceneGraph) (news : List GraphNode) (n : Nat)
    (hg : g'.nodes = g.nodes ++ news)
    (hn : ∀ node ∈ news, node.isBlendShapeChildOf n = false) :
    blendShapeChildren g' n = blendShapeChildren g n := by
  rw [blendShapeChildren_eq_filter, blendShapeChildren_eq_filter, hg, List.filter_append]
  have : news.filter (fun node => node.isBlendShapeChildOf n) = [] := by
    rw [List.filter_eq_nil_iff]
    intro node hnode
    simp [hn node hnode]
  rw [this, List.append_nil]

theorem isBlendShapeChildOf_false_of_parent (node : GraphNode) (m n : Nat)
    (hp : node.parent = some m) (hne : m ≠ n) : node.isBlendShapeChildOf n = false := by
  simp [GraphNode.isBlendShapeChildOf, hp, hne]

theorem isBlendShapeChildOf_false_of_type (node : GraphNode) (n : Nat)
    (ht : node.content.type ≠ ObjectType.IBlendShapeData) :
    node.isBlendShapeChildOf n = false := by
  simp [GraphNode.isBlendShapeChildOf, ht]

/-- The part of one optimization after the skin weights: the blend shapes are added under the
optimized mesh, mirroring the blend-shape children of the mesh node, then the other children. -/
theorem optimizeSelectedMesh_tail (mesh : IMeshData) (nodeIndex meshGroupIndex : Nat)
    (meshGroup : IMeshGroup) (hasBlendShapes : Bool) (name : String) (g : SceneGraph) (p : Nat)
    (calls : List OptimizeMeshCall) (meshNode : GraphNode) (g5 : SceneGraph)
    (N5 : List GraphNode) (hmname : meshNode.name = name)
    (hmpar : meshNode.parent = some p) (hmt : meshNode.content.type = ObjectType.IMeshData)
    (h5 : g5.nodes = g.nodes ++ meshNode :: N5)
    (h5p : ∀ node ∈ N5, node.parent = some g.nodes.length ∧
      node.content.type ≠ ObjectType.IBlendShapeData) :
    ∃ (meshNode : GraphNode) (news : List GraphNode),
      (List.foldl (copyOtherChild (some g.nodes.length))
        (List.foldl (optimizeBlendShape mesh nodeIndex meshGroupIndex meshGroup hasBlendShapes
          (some g.nodes.length)) { graph := g5, calls := calls }
          (g5.childNodesOfType nodeIndex ObjectType.IBlendShapeData)).graph
        ((List.foldl (optimizeBlendShape mesh nodeIndex meshGroupIndex meshGroup hasBlendShapes
          (some g.nodes.length)) { graph := g5, calls := calls }
          (g5.childNodesOfType nodeIndex ObjectType.IBlendShapeData)).graph.childNodes
            nodeIndex)).nodes = g.nodes ++ meshNode :: news ∧
      meshNode.name = name ∧ meshNode.parent = some p ∧
      meshNode.content.type = ObjectType.IMeshData ∧
      (∀ node ∈ news, node.parent = some g.nodes.length) ∧
      ((news.filter (fun node => decide (node.content.type = ObjectType.IBlendShapeData))).map
        (fun node => (node.name, node.isEndPoint))) = blendShapeChildren g nodeIndex := by
  have hlen5 : g.nodes.length < g5.nodes.length := by
    rw [h5, List.length_append, List.length_cons]
    omega
  have hbs5 : blendShapeChildren g5 nodeIndex = blendShapeChildren g nodeIndex := by
    apply blendShapeChildren_append g g5 (meshNode :: N5) nodeIndex h5
    intro node hn
    rcases List.mem_cons.1 hn with h | h
    · subst h
      exact isBlendShapeChildOf_false_of_type _ _ (by rw [hmt]; intro h; cases h)
    · exact isBlendShapeChildOf_false_of_type _ _ (h5p node h).2
  obtain ⟨NC, hC, hCmap, hCp⟩ := foldl_optimizeBlendShape_some mesh nodeIndex meshGroupIndex
    meshGroup hasBlendShapes g.nodes.length
    (g5.childNodesOfType nodeIndex ObjectType.IBlendShapeData)
    { graph := g5, calls := calls } hlen5
    (fun b hb => mem_childNodesOfType g5 nodeIndex b _ hb)
  generalize List.foldl (optimizeBlendShape mesh nodeIndex meshGroupIndex meshGroup
    hasBlendShapes (some g.nodes.length)) { graph := g5, calls := calls }
    (g5.childNodesOfType nodeIndex ObjectType.IBlendShapeData) = stC at hC ⊢
  simp only at hC hCmap
  have hlenC : g.nodes.length < stC.graph.nodes.length := by
    rw [hC, List.length_append]
    omega
  obtain ⟨ND, hD, hDp⟩ := foldl_copyOtherChild_some g.nodes.length
    (stC.graph.childNodes nodeIndex) stC.graph hlenC
  refine ⟨meshNode, N5 ++ NC ++ ND, ?_, hmname, hmpar, hmt, ?_, ?_⟩
  · rw [hD, hC, h5]
    simp
  · intro node hn
    rcases List.mem_append.1 hn with h | h
    · rcases List.mem_append.1 h with h | h
      · exact (h5p node h).1
      · exact (hCp node h).1
    · exact (hDp node h).1
  · have f5 : N5.filter (fun node => decide (node.content.type = ObjectType.IBlendShapeData)) =
        [] := by
      rw [List.filter_eq_nil_iff]
      intro node hn
      simp [(h5p node hn).2]
    have fC : NC.filter (fun node => decide (node.content.type = ObjectType.IBlendShapeData)) =
        NC := by
      rw [List.filter_eq_self]
      intro node hn
      simp [(hCp node hn).2]
    have fD : ND.filter (fun node => decide (node.content.type = ObjectType.IBlendShapeData)) =
        [] := by
      rw [List.filter_eq_nil_iff]
      intro node hn
      simp [(hDp node hn).2]
    rw [List.filter_append, List.filter_append, f5, fC, fD, List.nil_append, List.append_nil,
      hCmap, ← hbs5]
    rfl

/-- What one optimization of a mesh for a mesh group adds to the graph when the mesh node has a
parent: the optimized mesh under that parent, then children of the optimized mesh, among which
the blend shapes mirror the blend-shape children of the mesh node; and the calls it makes: one
for the mesh, then calls for blend shapes. -/
theorem optimizeSelectedMesh_nodes (mesh : IMeshData) (nodeIndex : Nat) (streams : MeshStreams)
    (meshGroupIndex : Nat) (meshGroup : IMeshGroup) (name : String) (st : PassState) (p : Nat)
    (hpar : st.graph.GetNodeParent nodeIndex = some p) (hp : p < st.graph.nodes.length) :
    ∃ (meshNode : GraphNode) (news : List GraphNode),
      (optimizeSelectedMesh mesh nodeIndex streams meshGroupIndex meshGroup name
        st).graph.nodes = st.graph.nodes ++ meshNode :: news ∧
      meshNode.name = name ∧ meshNode.parent = some p ∧
      meshNode.content.type = ObjectType.IMeshData ∧
      (∀ node ∈ news, node.parent = some st.graph.nodes.length) ∧
      ((news.filter (fun node => decide (node.content.type = ObjectType.IBlendShapeData))).map
        (fun node => (node.name, node.isEndPoint))) = blendShapeChildren st.graph nodeIndex := by
  unfold optimizeSelectedMesh
  simp only [hpar]
  generalize hr : OptimizeMesh MeshKind.mesh mesh mesh streams.uvDatas streams.tangentDatas
    streams.bitangentDatas streams.colorDatas streams.skinWeightDatas meshGroup
    (HasAnyBlendShapeChild st.graph nodeIndex) = r
  obtain ⟨path, hA⟩ := AddChild_some st.graph p hp name
    (GraphObject.optimizedMesh r.nodes.optimizedMesh)
  generalize hAeq : st.graph.AddChild (some p) name
    (GraphObject.optimizedMesh r.nodes.optimizedMesh) = a
  rw [hAeq] at hA
  generalize hmn : GraphNode.mk name path (some p)
    (GraphObject.optimizedMesh r.nodes.optimizedMesh) false = meshNode at hA
  have hmt : meshNode.content.type = ObjectType.IMeshData := by rw [← hmn]; rfl
  have hmname : meshNode.name = name := by rw [← hmn]
  have hmpar : meshNode.parent = some p := by rw [← hmn]
  have ha2 : a.2 = some st.graph.nodes.length := by rw [hA]
  have hA0 : a.1.nodes = st.graph.nodes ++ meshNode :: [] := by rw [hA]
  rw [ha2]
  generalize a.1 = gA at hA0 ⊢
  have key : ∀ (g g' : SceneGraph) (N n : List GraphNode),
      g.nodes = st.graph.nodes ++ meshNode :: N →
      (∀ node ∈ N, node.parent = some st.graph.nodes.length ∧
        node.content.type ≠ ObjectType.IBlendShapeData) →
      g'.nodes = g.nodes ++ n →
      (∀ node ∈ n, node.parent = some st.graph.nodes.length ∧
        node.content.type ≠ ObjectType.IBlendShapeData) →
      g'.nodes = st.graph.nodes ++ meshNode :: (N ++ n) ∧
      (∀ node ∈ N ++ n, node.parent = some st.graph.nodes.length ∧
        node.content.type ≠ ObjectType.IBlendShapeData) := by
    intro g g' N n h1 h2 h3 h4
    refine ⟨by rw [h3, h1]; simp, ?_⟩
    intro node hnode
    rcases List.mem_append.1 hnode with h | h
    · exact h2 node h
    · exact h4 node h
  have hlen : ∀ (g : SceneGraph) (N : List GraphNode),
      g.nodes = st.graph.nodes ++ meshNode :: N → st.graph.nodes.length < g.nodes.length := by
    intro g N h
    rw [h, List.length_append, List.length_cons]
    omega
  have hadd : ∀ (g : SceneGraph) (N : List GraphNode) (originals : List Nat)
      (optimized : List GraphObject),
      g.nodes = st.graph.nodes ++ meshNode :: N →
      (∀ node ∈ N, node.parent = some st.graph.nodes.length ∧
        node.content.type ≠ ObjectType.IBlendShapeData) →
      (∀ o ∈ optimized, o.type ≠ ObjectType.IBlendShapeData) →
      ∃ N', (addOptimizedNodes (some st.graph.nodes.length) g originals optimized).nodes =
          st.graph.nodes ++ meshNode :: N' ∧
        (∀ node ∈ N', node.parent = some st.graph.nodes.length ∧
          node.content.type ≠ ObjectType.IBlendShapeData) := by
    intro g N originals optimized h1 h2 h3
    obtain ⟨n, h4, h5⟩ := addOptimizedNodes_some st.graph.nodes.length g (hlen g N h1)
      originals optimized
    exact ⟨N ++ n, key g _ N n h1 h2 h4 (fun node hn => ⟨(h5 node hn).1, h3 _ (h5 node hn).2⟩)⟩
  obtain ⟨N1, h1, h1p⟩ := hadd gA [] (gA.childNodesOfType nodeIndex ObjectType.IMeshVertexUVData)
    (r.nodes.optimizedUVs.map GraphObject.optimizedUV) hA0 (by simp)
    (by
      intro o ho
      obtain ⟨x, _, rfl⟩ := List.mem_map.1 ho
      intro h; cases h)
  generalize addOptimizedNodes (some st.graph.nodes.length) gA
    (gA.childNodesOfType nodeIndex ObjectType.IMeshVertexUVData)
    (r.nodes.optimizedUVs.map GraphObject.optimizedUV) = g1 at h1 ⊢
  obtain ⟨N2, h2, h2p⟩ := hadd g1 N1
    (g1.childNodesOfType nodeIndex ObjectType.IMeshVertexTangentData)
    (r.nodes.optimizedTangents.map GraphObject.optimizedTangent) h1 h1p
    (by
      intro o ho
      obtain ⟨x, _, rfl⟩ := List.mem_map.1 ho
      intro h; cases h)
  generalize addOptimizedNodes (some st.graph.nodes.length) g1
    (g1.childNodesOfType nodeIndex ObjectType.IMeshVertexTangentData)
    (r.nodes.optimizedTangents.map GraphObject.optimizedTangent) = g2 at h2 ⊢
  obtain ⟨N3, h3, h3p⟩ := hadd g2 N2
    (g2.childNodesOfType nodeIndex ObjectType.IMeshVertexBitangentData)
    (r.nodes.optimizedBitangents.map GraphObject.optimizedBitangent) h2 h2p
    (by
      intro o ho
      obtain ⟨x, _, rfl⟩ := List.mem_map.1 ho
      intro h; cases h)
  generalize addOptimizedNodes (some st.graph.nodes.length) g2
    (g2.childNodesOfType nodeIndex ObjectType.IMeshVertexBitangentData)
    (r.nodes.optimizedBitangents.map GraphObject.optimizedBitangent) = g3 at h3 ⊢
  obtain ⟨N4, h4, h4p⟩ := hadd g3 N3
    (g3.childNodesOfType nodeIndex ObjectType.IMeshVertexColorData)
    (r.nodes.optimizedVertexColors.map GraphObject.optimizedColor) h3 h3p
    (by
      intro o ho
      obtain ⟨x, _, rfl⟩ := List.mem_map.1 ho
      intro h; cases h)
  generalize addOptimizedNodes (some st.graph.nodes.length) g3
    (g3.childNodesOfType nodeIndex ObjectType.IMeshVertexColorData)
    (r.nodes.optimizedVertexColors.map GraphObject.optimizedColor) = g4 at h4 ⊢
  cases hsw : r.optimizedSkinWeights with
  | none =>
    simp only
    exact optimizeSelectedMesh_tail mesh nodeIndex meshGroupIndex meshGroup
      (HasAnyBlendShapeChild st.graph nodeIndex) name st.graph p _ meshNode g4 N4 hmname
      hmpar hmt h4 h4p
  | some sw =>
    simp only
    obtain ⟨nd, hs1, _, hs2, hs3, _⟩ := AddChild_endPoint_node g4 st.graph.nodes.length
      (hlen g4 N4 h4) "skinWeights" (GraphObject.optimizedSkin sw) true
    simp only [if_true] at hs1
    have h5 := key g4 _ N4 [nd] h4 h4p hs1 (by
      intro node hn
      simp only [List.mem_singleton] at hn
      subst hn
      exact ⟨hs2, by rw [hs3]; intro h; cases h⟩)
    exact optimizeSelectedMesh_tail mesh nodeIndex meshGroupIndex meshGroup
      (HasAnyBlendShapeChild st.graph nodeIndex) name st.graph p _ meshNode _ (N4 ++ [nd])
      hmname hmpar hmt h5.1 h5.2

theorem optimizeSelectedMesh_graph_none (mesh : IMeshData) (nodeIndex : Nat)
    (streams : MeshStreams) (meshGroupIndex : Nat) (meshGroup : IMeshGroup) (name : String)
    (st : PassState) (hpar : st.graph.GetNodeParent nodeIndex = none) :
    (optimizeSelectedMesh mesh nodeIndex streams meshGroupIndex meshGroup name st).graph =
      st.graph := by
  unfold optimizeSelectedMesh
  simp only [hpar, AddChild_none, addOptimizedNodes_none]
  split
  · simp only [SceneGraph.MakeEndPoint]
    rw [foldl_optimizeBlendShape_none, foldl_copyOtherChild_none]
  · rw [foldl_optimizeBlendShape_none, foldl_copyOtherChild_none]

theorem optimizeSelectedMesh_calls (mesh : IMeshData) (nodeIndex : Nat)
    (streams : MeshStreams) (meshGroupIndex : Nat) (meshGroup : IMeshGroup) (name : String)
    (st : PassState) :
    ∃ (c : OptimizeMeshCall) (extra : List OptimizeMeshCall),
      (optimizeSelectedMesh mesh nodeIndex streams meshGroupIndex meshGroup name st).calls =
        st.calls ++ c :: extra ∧
      c.nodeIndex = nodeIndex ∧ ∀ e ∈ extra, e.kind = MeshKind.blendShape := by
  unfold optimizeSelectedMesh
  simp only
  obtain ⟨extra, h1, h2⟩ := foldl_optimizeBlendShape_calls mesh nodeIndex meshGroupIndex
    meshGroup (HasAnyBlendShapeChild st.graph nodeIndex) _ _ _
  exact ⟨_, extra, by rw [h1, List.append_assoc]; rfl, rfl, h2⟩

/-! ### Blend-shape nodes of the optimized meshes -/

theorem blendShapeChildren_extends (g0 g : SceneGraph) (h : ExtendsGraph g0 g) (n : Nat)
    (hn : n < g0.nodes.length) : blendShapeChildren g n = blendShapeChildren g0 n := by
  unfold blendShapeChildren
  rw [childNodesOfType_blendShape_extends g0 g h n hn]
  apply List.map_congr_left
  intro b hb
  have hb2 := (mem_childNodesOfType g0 n b _ hb).1
  simp only [SceneGraph.GetName, SceneGraph.IsNodeEndPoint, h.2.1 b hb2]

theorem GetNodeParent_some (g : SceneGraph) (i p : Nat) (h : g.GetNodeParent i = some p) :
    ∃ node, g.nodes[i]? = some node ∧ node.parent = some p := by
  unfold SceneGraph.GetNodeParent at h
  cases hn : g.nodes[i]? with
  | none => rw [hn] at h; cases h
  | some node =>
    rw [hn] at h
    exact ⟨node, rfl, h⟩

theorem GetName_of_getElem? (g : SceneGraph) (i : Nat) (node : GraphNode)
    (h : g.nodes[i]? = some node) : g.GetName i = node.name := by
  simp [SceneGraph.GetName, h]

theorem GetNodeParent_of_getElem? (g : SceneGraph) (i : Nat) (node : GraphNode)
    (h : g.nodes[i]? = some node) : g.GetNodeParent i = node.parent := by
  simp [SceneGraph.GetNodeParent, h]

theorem typeOf_of_getElem? (g : SceneGraph) (i : Nat) (node : GraphNode)
    (h : g.nodes[i]? = some node) : g.typeOf i = node.content.type := by
  simp [SceneGraph.typeOf, h]

/-- Nodes appended to a graph that are blend-shape children of no node of the graph leave every
mirrored optimization mirrored. -/
theorem BlendShapesMirrored_append (g0 g g' : SceneGraph) (news : List GraphNode) (n : Nat)
    (hg : g'.nodes = g.nodes ++ news)
    (hnews : ∀ node ∈ news, ∀ k, k < g.nodes.length → node.isBlendShapeChildOf k = false)
    (h : BlendShapesMirrored g0 g n) : BlendShapesMirrored g0 g' n := by
  obtain ⟨m, ⟨h1, h2, h3, h4, h5⟩, h6⟩ := h
  have hold : g'.nodes[m]? = g.nodes[m]? := by
    rw [hg, List.getElem?_append_left h2]
  refine ⟨m, ⟨h1, ?_, ?_, ?_, ?_⟩, ?_⟩
  · rw [hg, List.length_append]
    omega
  · rw [← h3]
    simp only [SceneGraph.GetName, hold]
  · rw [← h4]
    simp only [SceneGraph.GetNodeParent, hold]
  · rw [← h5]
    simp only [SceneGraph.typeOf, hold]
  · rw [← h6]
    exact blendShapeChildren_append g g' news m hg (fun node hn => hnews node hn m h2)

theorem optimizeSelectedMesh_mirror (g0 : SceneGraph) (mesh : IMeshData) (nodeIndex : Nat)
    (streams : MeshStreams) (meshGroupIndex : Nat) (meshGroup : IMeshGroup) (st : PassState)
    (hnode : nodeIndex < g0.nodes.length) (hext : ExtendsGraph g0 st.graph)
    (hinv : MirrorInvariant g0 (some st)) :
    MirrorInvariant g0 (some (optimizeSelectedMesh mesh nodeIndex streams meshGroupIndex
      meshGroup ((st.graph.GetName nodeIndex).append OptimizedMeshSuffix) st)) := by
  obtain ⟨hwf, hmir⟩ := hinv st rfl
  intro s hs
  cases hs
  obtain ⟨c0, extra, hcalls, hc0, hextra⟩ := optimizeSelectedMesh_calls mesh nodeIndex streams
    meshGroupIndex meshGroup ((st.graph.GetName nodeIndex).append OptimizedMeshSuffix) st
  have hold : st.graph.nodes[nodeIndex]? = g0.nodes[nodeIndex]? := hext.2.1 nodeIndex hnode
  have hparent : st.graph.GetNodeParent nodeIndex = g0.GetNodeParent nodeIndex := by
    simp only [SceneGraph.GetNodeParent, hold]
  have hname : st.graph.GetName nodeIndex = g0.GetName nodeIndex := by
    simp only [SceneGraph.GetName, hold]
  cases hpar : st.graph.GetNodeParent nodeIndex with
  | none =>
    have hg := optimizeSelectedMesh_graph_none mesh nodeIndex streams meshGroupIndex meshGroup
      ((st.graph.GetName nodeIndex).append OptimizedMeshSuffix) st hpar
    rw [hg]
    refine ⟨hwf, ?_⟩
    intro c hc hk hp
    rw [hcalls] at hc
    rcases List.mem_append.1 hc with h | h
    · exact hmir c h hk hp
    · rcases List.mem_cons.1 h with h | h
      · subst h
        rw [hc0, ← hparent, hpar] at hp
        cases hp
      · rw [hextra c h] at hk
        cases hk
  | some p =>
    obtain ⟨pnode, hpn1, hpn2⟩ := GetNodeParent_some st.graph nodeIndex p hpar
    have hp : p < st.graph.nodes.length := hwf nodeIndex pnode hpn1 p hpn2
    obtain ⟨meshNode, news, hnodes, hmname, hmpar, hmt, hnewsp, hnewsbs⟩ :=
      optimizeSelectedMesh_nodes mesh nodeIndex streams meshGroupIndex meshGroup
        ((st.graph.GetName nodeIndex).append OptimizedMeshSuffix) st p hpar hp
    have hnot : ∀ node ∈ meshNode :: news, ∀ k, k < st.graph.nodes.length →
        node.isBlendShapeChildOf k = false := by
      intro node hn k hk
      rcases List.mem_cons.1 hn with h | h
      · subst h
        exact isBlendShapeChildOf_false_of_type _ _ (by rw [hmt]; intro h; cases h)
      · exact isBlendShapeChildOf_false_of_parent _ _ _ (hnewsp node h) (by omega)
    constructor
    · intro i node hi q hq
      rw [hnodes] at hi ⊢
      rw [List.length_append, List.length_cons]
      rcases Nat.lt_or_ge i st.graph.nodes.length with hlt | hge
      · rw [List.getElem?_append_left hlt] at hi
        have := hwf i node hi q hq
        omega
      · rw [List.getElem?_append_right hge] at hi
        have hmem : node ∈ meshNode :: news := List.getElem?_mem hi
        rcases List.mem_cons.1 hmem with h | h
        · subst h
          rw [hmpar] at hq
          cases hq
          omega
        · rw [hnewsp node h] at hq
          cases hq
          omega
    · intro c hc hk hpc
      rw [hcalls] at hc
      rcases List.mem_append.1 hc with h | h
      · exact BlendShapesMirrored_append g0 st.graph _ (meshNode :: news) c.nodeIndex hnodes hnot
          (hmir c h hk hpc)
      · rcases List.mem_cons.1 h with h | h
        · subst h
          rw [hc0]
          have hnew : (optimizeSelectedMesh mesh nodeIndex streams meshGroupIndex meshGroup
              ((st.graph.GetName nodeIndex).append OptimizedMeshSuffix) st).graph.nodes[
              st.graph.nodes.length]? = some meshNode := by
            rw [hnodes, List.getElem?_append_right (Nat.le_refl _)]
            simp
          refine ⟨st.graph.nodes.length, ⟨hext.1, ?_, ?_, ?_, ?_⟩, ?_⟩
          · rw [hnodes, List.length_append, List.length_cons]
            omega
          · rw [GetName_of_getElem? _ _ _ hnew, hmname, hname]
          · rw [GetNodeParent_of_getElem? _ _ _ hnew, hmpar, ← hparent, hpar]
          · rw [typeOf_of_getElem? _ _ _ hnew, hmt]
          · rw [blendShapeChildren_eq_filter, hnodes, List.filter_append, List.filter_cons]
            have hold0 : st.graph.nodes.filter
                (fun node => node.isBlendShapeChildOf st.graph.nodes.length) = [] := by
              rw [List.filter_eq_nil_iff]
              intro node hn
              obtain ⟨i, hi⟩ := List.getElem?_of_mem hn
              simp only [GraphNode.isBlendShapeChildOf, Bool.and_eq_true, decide_eq_true_eq,
                not_and]
              intro _ hq
              have := hwf i node hi _ hq
              omega
            have hmesh0 : meshNode.isBlendShapeChildOf st.graph.nodes.length = false :=
              isBlendShapeChildOf_false_of_type _ _ (by rw [hmt]; intro h; cases h)
            have hnews0 : news.filter
                (fun node => node.isBlendShapeChildOf st.graph.nodes.length) =
                news.filter (fun node =>
                  decide (node.content.type = ObjectType.IBlendShapeData)) := by
              apply List.filter_congr
              intro node hn
              simp [GraphNode.isBlendShapeChildOf, hnewsp node hn]
            rw [hold0, hmesh0, hnews0]
            simp only [Bool.false_eq_true, if_false, List.nil_append]
            rw [hnewsbs]
            exact blendShapeChildren_extends g0 st.graph hext nodeIndex hnode
        · rw [hextra c h] at hk
          cases hk

theorem optimizeForMeshGroup_mirror (g0 : SceneGraph)
    (selectedNodes : List (Nat × List String)) (mesh : IMeshData) (nodeIndex : Nat)
    (streams : MeshStreams) (nodePath : String) (hnode : nodeIndex < g0.nodes.length)
    (st : Option PassState) (entry : Nat × IMeshGroup) (h : PassInvariant g0 st)
    (hm : MirrorInvariant g0 st) :
    MirrorInvariant g0
      (optimizeForMeshGroup selectedNodes mesh nodeIndex streams nodePath st entry) := by
  unfold optimizeForMeshGroup
  cases st with
  | none => intro s hs; cases hs
  | some st0 =>
    simp only
    split
    · intro s hs; cases hs
    · split
      · exact hm
      · split
        · exact hm
        · exact optimizeSelectedMesh_mirror g0 mesh nodeIndex streams entry.1 entry.2 st0 hnode
            (h st0 rfl).1 hm

theorem foldl_optimizeForMeshGroup_mirror (g0 : SceneGraph)
    (selectedNodes : List (Nat × List String)) (mesh : IMeshData) (nodeIndex : Nat)
    (streams : MeshStreams) (nodePath : String) (hnode : nodeIndex < g0.nodes.length)
    (entries : List (Nat × IMeshGroup)) (st : Option PassState) (h : PassInvariant g0 st)
    (hm : MirrorInvariant g0 st) :
    MirrorInvariant g0 (entries.foldl
      (optimizeForMeshGroup selectedNodes mesh nodeIndex streams nodePath) st) := by
  induction entries generalizing st with
  | nil => exact hm
  | cons e entries ih =>
    simp only [List.foldl_cons]
    exact ih _
      (optimizeForMeshGroup_invariant g0 selectedNodes mesh nodeIndex streams nodePath hnode st
        e h)
      (optimizeForMeshGroup_mirror g0 selectedNodes mesh nodeIndex streams nodePath hnode st e
        h hm)

theorem optimizeMeshNode_mirror (g0 : SceneGraph) (selectedNodes : List (Nat × List String))
    (meshGroups : List IMeshGroup) (st : Option PassState) (entry : IMeshData × Nat)
    (hnode : entry.2 < g0.nodes.length) (h : PassInvariant g0 st)
    (hm : MirrorInvariant g0 st) :
    MirrorInvariant g0 (optimizeMeshNode selectedNodes meshGroups st entry) := by
  unfold optimizeMeshNode
  cases st with
  | none => intro s hs; cases hs
  | some st0 =>
    simp only
    exact foldl_optimizeForMeshGroup_mirror g0 selectedNodes entry.1 entry.2 _ _ hnode _ _ h hm

theorem foldl_optimizeMeshNode_mirror (g0 : SceneGraph)
    (selectedNodes : List (Nat × List String)) (meshGroups : List IMeshGroup)
    (meshes : List (IMeshData × Nat)) (hmesh : ∀ e ∈ meshes, e.2 < g0.nodes.length)
    (st : Option PassState) (h : PassInvariant g0 st) (hm : MirrorInvariant g0 st) :
    MirrorInvariant g0 (meshes.foldl (optimizeMeshNode selectedNodes meshGroups) st) := by
  induction meshes generalizing st with
  | nil => exact hm
  | cons e meshes ih =>
    simp only [List.foldl_cons]
    exact ih (fun e' he' => hmesh e' (List.mem_cons_of_mem _ he')) _
      (optimizeMeshNode_invariant g0 selectedNodes meshGroups st e
        (hmesh e (List.mem_cons_self _ _)) h)
      (optimizeMeshNode_mirror g0 selectedNodes meshGroups st e
        (hmesh e (List.mem_cons_self _ _)) h hm)

/-- After a completed pass over a graph whose parents are in range, every optimization of a mesh
node that has a parent has left an optimized mesh whose blend shapes mirror the blend-shape
children of the mesh node. -/
theorem OptimizeMeshes_mirror (scene : Scene) (r : PassResult)
    (h : OptimizeMeshes scene = some r) (hwf : scene.graph.ParentsInRange) :
    ∀ c ∈ r.calls, c.kind = MeshKind.mesh →
      (scene.graph.GetNodeParent c.nodeIndex).isSome = true →
      BlendShapesMirrored scene.graph r.graph c.nodeIndex := by
  unfold OptimizeMeshes at h
  simp only at h
  have h0 : PassInvariant scene.graph (some { graph := scene.graph, calls := [] }) := by
    intro s hs
    cases hs
    exact ⟨ExtendsGraph_refl _, fun c hc => by cases hc⟩
  have hm0 : MirrorInvariant scene.graph (some { graph := scene.graph, calls := [] }) := by
    intro s hs
    cases hs
    exact ⟨hwf, fun c hc => by cases hc⟩
  have hinv := foldl_optimizeMeshNode_mirror scene.graph
    (buildSelectedNodes scene.meshGroups) scene.meshGroups (collectMeshes scene.graph)
    (collectMeshes_index_lt scene.graph) _ h0 hm0
  split at h
  · cases h
  · rename_i st hst
    cases h
    exact (hinv st hst).2

theorem exampleScene_parentsInRange : exampleScene.graph.ParentsInRange := by
  intro i node hi p hp
  have hlen : exampleScene.graph.nodes.length = 5 := rfl
  rw [hlen]
  rcases i with _ | _ | _ | _ | _ | i
  · cases hi; cases hp
  · cases hi; cases hp; decide
  · cases hi; cases hp; decide
  · cases hi; cases hp; decide
  · cases hi; cases hp; decide
  · cases hi

/-! ### Calls of `OptimizeMesh` on a blend shape -/

theorem submittedPairs_sets (materialId : Nat) (layers : List LayerId) (cv : LayerId → LayerValue)
    (rest : List BuilderCall) :
    submittedPairs materialId
        (layers.map (fun layer => BuilderCall.SetCurrentVertexValue layer (cv layer)) ++ rest) =
      submittedPairs materialId rest := by
  induction layers with
  | nil => rfl
  | cons l layers ih => simpa [submittedPairs] using ih

theorem submittedPairs_cornerGroup (meshData : IMeshData) (uvs : List IMeshVertexUVData)
    (tangents : List IMeshVertexTangentData) (bitangents : List IMeshVertexBitangentData)
    (vertexColors : List IMeshVertexColorData) (vertexIndex materialId : Nat)
    (rest : List BuilderCall) :
    submittedPairs materialId
        (cornerGroup meshData uvs tangents bitangents vertexColors vertexIndex ++ rest) =
      (materialId, cornerKey meshData vertexIndex) :: submittedPairs materialId rest := by
  unfold cornerGroup
  rw [List.append_assoc, submittedPairs_sets]
  rfl

theorem submittedPairs_begin (materialId newMaterialId : Nat) (rest : List BuilderCall) :
    submittedPairs materialId (BuilderCall.BeginPolygon newMaterialId :: rest) =
      submittedPairs newMaterialId rest := rfl

theorem submittedPairs_polygonGroup (meshData baseMesh : IMeshData)
    (uvs : List IMeshVertexUVData) (tangents : List IMeshVertexTangentData)
    (bitangents : List IMeshVertexBitangentData) (vertexColors : List IMeshVertexColorData)
    (faceIndex materialId : Nat) (rest : List BuilderCall) :
    submittedPairs materialId
        (polygonGroup meshData baseMesh uvs tangents bitangents vertexColors faceIndex ++ rest) =
      facePairs meshData baseMesh faceIndex ++
        submittedPairs (baseMesh.GetFaceMaterialId faceIndex) rest := by
  unfold polygonGroup facePairs
  simp only [List.append_assoc, List.singleton_append, List.cons_append, List.nil_append]
  rw [submittedPairs_begin, submittedPairs_cornerGroup, submittedPairs_cornerGroup,
    submittedPairs_cornerGroup]
  rfl

theorem submittedPairs_polygonGroups (meshData baseMesh : IMeshData)
    (uvs : List IMeshVertexUVData) (tangents : List IMeshVertexTangentData)
    (bitangents : List IMeshVertexBitangentData) (vertexColors : List IMeshVertexColorData)
    (faces : List Nat) (materialId : Nat) :
    submittedPairs materialId
        (faces.flatMap (polygonGroup meshData baseMesh uvs tangents bitangents vertexColors) ++
          [BuilderCall.GenerateSubMeshVertexOrders]) =
      faces.flatMap (facePairs meshData baseMesh) := by
  induction faces generalizing materialId with
  | nil => rfl
  | cons f faces ih =>
    simp only [List.flatMap_cons, List.append_assoc]
    rw [submittedPairs_polygonGroup, ih]

theorem submittedPairs_builderCalls (meshData baseMesh : IMeshData)
    (uvs : List IMeshVertexUVData) (tangents : List IMeshVertexTangentData)
    (bitangents : List IMeshVertexBitangentData) (vertexColors : List IMeshVertexColorData)
    (materialId : Nat) :
    submittedPairs materialId
        (builderCalls meshData baseMesh uvs tangents bitangents vertexColors) =
      (List.range meshData.GetFaceCount).flatMap (facePairs meshData baseMesh) := by
  unfold builderCalls
  simp only [foldl_recordFace_eq, List.nil_append]
  exact submittedPairs_polygonGroups _ _ _ _ _ _ _ _

theorem cornerGroup_blendShape (meshData : IMeshData) (vertexIndex : Nat) :
    cornerGroup meshData [] [] [] [] vertexIndex = blendShapeCornerCalls meshData vertexIndex :=
  rfl

theorem flatMap_congr_mem {α β : Type} (xs : List α) (f g : α → List β)
    (h : ∀ x ∈ xs, f x = g x) : xs.flatMap f = xs.flatMap g := by
  induction xs with
  | nil => rfl
  | cons x xs ih =>
    simp only [List.flatMap_cons]
    rw [h x (List.mem_cons_self _ _), ih (fun y hy => h y (List.mem_cons_of_mem _ hy))]


/-! ## The claims of the specification -/

/-- C1 (channel-length invariant): for every list of sub-meshes and every set of layers the mesh
builder hands to the output loop of `OptimizeMesh`, the number of positions, the number of
normals and the number of entries of every returned UV, tangent, bitangent and colour channel
all equal the sum of `GetNumVertices` over the sub-meshes. -/
theorem optimizeMesh_channel_lengths (kind : MeshKind) (layers : BuilderLayers)
    (subMeshes : List MeshBuilderSubMesh) :
    (emitSubMeshes kind layers subMeshes).1.optimizedMesh.positions.length =
        totalVertices subMeshes ∧
    (emitSubMeshes kind layers subMeshes).1.optimizedMesh.normals.length =
        totalVertices subMeshes ∧
    (∀ ch ∈ (emitSubMeshes kind layers subMeshes).1.optimizedUVs,
        ch.length = totalVertices subMeshes) ∧
    (∀ ch ∈ (emitSubMeshes kind layers subMeshes).1.optimizedTangents,
        ch.length = totalVertices subMeshes) ∧
    (∀ ch ∈ (emitSubMeshes kind layers subMeshes).1.optimizedBitangents,
        ch.length = totalVertices subMeshes) ∧
    (∀ ch ∈ (emitSubMeshes kind layers subMeshes).1.optimizedVertexColors,
        ch.length = totalVertices subMeshes) := by
  unfold emitSubMeshes
  refine ⟨?_, ?_, ?_, ?_, ?_, ?_⟩
  · rw [foldl_emitSubMesh_positions]
    simp [initialNodes, MeshData.empty, allLookups_length]
  · rw [foldl_emitSubMesh_normals]
    simp [initialNodes, MeshData.empty, allLookups_length]
  · intro ch h
    rw [foldl_emitSubMesh_uvs] at h
    rw [← allLookups_length]
    exact channel_mem_length _ _ ch h
  · intro ch h
    rw [foldl_emitSubMesh_tangents] at h
    rw [← allLookups_length]
    exact channel_mem_length _ _ ch h
  · intro ch h
    rw [foldl_emitSubMesh_bitangents] at h
    rw [← allLookups_length]
    exact channel_mem_length _ _ ch h
  · intro ch h
    rw [foldl_emitSubMesh_colors] at h
    rw [← allLookups_length]
    exact channel_mem_length _ _ ch h

/-- C2 (index alignment): `OptimizeMesh` walks the sub-meshes in index order and the vertices of
each in local order: for sub-mesh `k` and its local vertex `v`, the position, the normal and the
entry of every returned UV, tangent, bitangent and colour channel at output index
(vertices emitted for sub-meshes `0 .. k-1`) `+ v` are the values the corresponding layer stores
for the (original vertex, duplicate number) pair of that vertex. -/
theorem optimizeMesh_channels_aligned (kind : MeshKind) (layers : BuilderLayers)
    (subMeshes : List MeshBuilderSubMesh) (k : Nat) (s : MeshBuilderSubMesh)
    (hk : subMeshes[k]? = some s) (v : Nat) (hv : v < s.GetNumVertices) :
    AlignedAt layers (emitSubMeshes kind layers subMeshes).1
      (totalVertices (subMeshes.take k) + v) (s.GetVertex v) := by
  have hl := allLookups_getElem? subMeshes k s hk v hv
  unfold AlignedAt emitSubMeshes
  refine ⟨?_, ?_, ?_, ?_, ?_, ?_⟩
  · rw [foldl_emitSubMesh_positions]
    simp [initialNodes, MeshData.empty, List.getElem?_map, hl]
  · rw [foldl_emitSubMesh_normals]
    simp [initialNodes, MeshData.empty, List.getElem?_map, hl]
  · intro i layer hlayer
    rw [foldl_emitSubMesh_uvs]
    exact ⟨_, channel_getElem? _ _ i layer hlayer, by simp [List.getElem?_map, hl]⟩
  · intro i layer hlayer
    rw [foldl_emitSubMesh_tangents]
    exact ⟨_, channel_getElem? _ _ i layer hlayer, by simp [List.getElem?_map, hl]⟩
  · intro i layer hlayer
    rw [foldl_emitSubMesh_bitangents]
    exact ⟨_, channel_getElem? _ _ i layer hlayer, by simp [List.getElem?_map, hl]⟩
  · intro i layer hlayer
    rw [foldl_emitSubMesh_colors]
    exact ⟨_, channel_getElem? _ _ i layer hlayer, by simp [List.getElem?_map, hl]⟩

/-- Instance of C2: local vertex 1 of the second example sub-mesh (original vertex 2) is output
vertex 3 + 1. -/
theorem optimizeMesh_channels_aligned_witness :
    (1 : Nat) < 3 ∧
    AlignedAt exampleLayers (emitSubMeshes MeshKind.mesh exampleLayers exampleSubMeshes).1
      (totalVertices (exampleSubMeshes.take 1) + 1) ⟨2, 0⟩ :=
  ⟨by decide,
    optimizeMesh_channels_aligned MeshKind.mesh exampleLayers exampleSubMeshes 1
      { GetNumVertices := 3, GetVertex := fun i => ⟨[0, 2, 3].getD i 0, 0⟩, GetNumPolygons := 1,
        GetIndex := fun i => i, GetMaterialIndex := 1 } rfl 1 (by decide)⟩

/-- C3 (face index offset): for sub-meshes as the builder produces them (the polygons of a
sub-mesh use exactly the vertices of its local buffer), every index of the face `OptimizeMesh`
emits for polygon `p` of sub-mesh `k` is the sub-mesh-local index plus the sum of
`GetNumVertices` over the sub-meshes `0 .. k-1`. -/
theorem optimizeMesh_face_index_offset (kind : MeshKind) (layers : BuilderLayers)
    (subMeshes : List MeshBuilderSubMesh) (h : ∀ s ∈ subMeshes, SubMeshIndicesExact s)
    (k : Nat) (s : MeshBuilderSubMesh) (hk : subMeshes[k]? = some s)
    (p : Nat) (hp : p < s.GetNumPolygons) :
    (emitSubMeshes kind layers subMeshes).1.optimizedMesh.faceList[
        totalPolygons (subMeshes.take k) + p]? =
      some ⟨totalVertices (subMeshes.take k) + s.GetIndex (p * 3 + 0),
            totalVertices (subMeshes.take k) + s.GetIndex (p * 3 + 1),
            totalVertices (subMeshes.take k) + s.GetIndex (p * 3 + 2)⟩ := by
  unfold emitSubMeshes
  rw [(foldl_emitSubMesh_faceList kind layers subMeshes _ h).1]
  simp only [initialNodes, MeshData.empty, List.nil_append]
  rw [facesFrom_getElem? subMeshes 0 k s hk p hp]
  simp [offsetFace]

/-- Instance of C3: the only polygon of the second example sub-mesh is emitted as face 1 with
indices 3, 4, 5. -/
theorem optimizeMesh_face_index_offset_witness :
    (∀ s ∈ exampleSubMeshes, SubMeshIndicesExact s) ∧ (0 : Nat) < 1 ∧
    (emitSubMeshes MeshKind.mesh exampleLayers exampleSubMeshes).1.optimizedMesh.faceList[
        totalPolygons (exampleSubMeshes.take 1) + 0]? =
      some ⟨totalVertices (exampleSubMeshes.take 1) + (0 * 3 + 0),
            totalVertices (exampleSubMeshes.take 1) + (0 * 3 + 1),
            totalVertices (exampleSubMeshes.take 1) + (0 * 3 + 2)⟩ :=
  ⟨exampleSubMeshes_exact, by decide,
    optimizeMesh_face_index_offset MeshKind.mesh exampleLayers exampleSubMeshes
      exampleSubMeshes_exact 1
      { GetNumVertices := 3, GetVertex := fun i => ⟨[0, 2, 3].getD i 0, 0⟩, GetNumPolygons := 1,
        GetIndex := fun i => i, GetMaterialIndex := 1 } rfl 0 (by decide)⟩

/-- C4 (index bound safety): provided every local index of every sub-mesh is smaller than the
vertex count of that sub-mesh, every vertex index of every face emitted by `OptimizeMesh` is
smaller than the number of vertices of the output mesh; and for sub-meshes as the builder
produces them (every vertex of a sub-mesh is used by one of its polygons) the indices of the
faces of sub-mesh `k` lie inside the range of output vertices emitted for sub-mesh `k`. -/
theorem optimizeMesh_index_bound (kind : MeshKind) (layers : BuilderLayers)
    (subMeshes : List MeshBuilderSubMesh) (h : ∀ s ∈ subMeshes, SubMeshIndicesInRange s) :
    (∀ f ∈ (emitSubMeshes kind layers subMeshes).1.optimizedMesh.faceList,
      ∀ x ∈ f.vertexIndex,
        x < (emitSubMeshes kind layers subMeshes).1.optimizedMesh.GetVertexCount) ∧
    ((∀ s ∈ subMeshes, SubMeshVerticesUsed s) →
      ∀ (k : Nat) (s : MeshBuilderSubMesh), subMeshes[k]? = some s →
        ∀ p, p < s.GetNumPolygons →
          ∃ f, (emitSubMeshes kind layers subMeshes).1.optimizedMesh.faceList[
              totalPolygons (subMeshes.take k) + p]? = some f ∧
            ∀ x ∈ f.vertexIndex,
              totalVertices (subMeshes.take k) ≤ x ∧
              x < totalVertices (subMeshes.take k) + s.GetNumVertices) := by
  constructor
  · intro f hf x hx
    have hlen : (emitSubMeshes kind layers subMeshes).1.optimizedMesh.GetVertexCount =
        totalVertices subMeshes := by
      unfold MeshData.GetVertexCount emitSubMeshes
      rw [foldl_emitSubMesh_positions]
      simp [initialNodes, MeshData.empty, allLookups_length]
    rw [hlen]
    unfold emitSubMeshes at hf
    rcases (foldl_emitSubMesh_index_lt kind layers subMeshes _ h).2 f hf with h1 | h1
    · simp [initialNodes, MeshData.empty] at h1
    · simpa using h1 x hx
  · intro hused k s hk p hp
    have hex : ∀ t ∈ subMeshes, SubMeshIndicesExact t := fun t ht => ⟨h t ht, hused t ht⟩
    refine ⟨offsetFace s (totalVertices (subMeshes.take k)) p, ?_, ?_⟩
    · unfold emitSubMeshes
      rw [(foldl_emitSubMesh_faceList kind layers subMeshes _ hex).1]
      simp only [initialNodes, MeshData.empty, List.nil_append]
      rw [facesFrom_getElem? subMeshes 0 k s hk p hp]
      simp
    · intro x hx
      obtain ⟨i, hi1, hi2, rfl⟩ := mem_offsetFace_vertexIndex s _ p x hx
      have := h s (List.getElem?_mem hk) i (by omega)
      omega

/-- Instance of C4 on the example sub-meshes. -/
theorem optimizeMesh_index_bound_witness :
    (∀ s ∈ exampleSubMeshes, SubMeshIndicesInRange s) ∧
    ∀ f ∈ (emitSubMeshes MeshKind.mesh exampleLayers exampleSubMeshes).1.optimizedMesh.faceList,
      ∀ x ∈ f.vertexIndex,
        x < (emitSubMeshes MeshKind.mesh exampleLayers
          exampleSubMeshes).1.optimizedMesh.GetVertexCount :=
  ⟨fun s hs => (exampleSubMeshes_exact s hs).1,
    (optimizeMesh_index_bound MeshKind.mesh exampleLayers exampleSubMeshes
      (fun s hs => (exampleSubMeshes_exact s hs).1)).1⟩

/-- C5, as stated, fails: on the example mesh (control points 10 .. 13, used points 0 .. 3) output
vertex 0 is mapped to 0, which is the control-point index of no corner of the mesh. -/
theorem optimizeMesh_map_not_control_point :
    ¬ ∀ j, j < (OptimizeMesh MeshKind.mesh exampleMesh exampleMesh [] [] [] [] []
          exampleMeshGroup false).nodes.optimizedMesh.GetVertexCount →
        ∃ vi, IsCorner exampleMesh vi ∧
          (OptimizeMesh MeshKind.mesh exampleMesh exampleMesh [] [] [] [] []
            exampleMeshGroup false).nodes.optimizedMesh.vertexIndexToControlPointIndexMap j =
            some (exampleMesh.GetControlPointIndex vi) := by
  intro h
  obtain ⟨vi, _, hmap⟩ := h 0 (by decide!)
  have h0 : (OptimizeMesh MeshKind.mesh exampleMesh exampleMesh [] [] [] [] []
      exampleMeshGroup false).nodes.optimizedMesh.vertexIndexToControlPointIndexMap 0 =
      some 0 := by decide!
  rw [h0] at hmap
  have h1 : (0 : Int) = exampleMesh.GetControlPointIndex vi := Option.some.inj hmap
  have h2 : (0 : Int) ≤ Int.ofNat ([0, 1, 2, 0, 2, 3].getD vi 0) := Int.ofNat_nonneg _
  have h3 : exampleMesh.GetControlPointIndex vi =
      10 + Int.ofNat ([0, 1, 2, 0, 2, 3].getD vi 0) := rfl
  omega

/-- C5, amended: every output vertex of `OptimizeMesh` is made from a corner of the mesh (it has
the position and the normal of that corner), and the vertex-index-to-control-point map gives the
original vertex number of that corner, that is the used-point index
`GetUsedPointIndexForControlPoint(GetControlPointIndex(vertexIndex))`. -/
theorem optimizeMesh_map_gives_used_point (kind : MeshKind) (meshData baseMesh : IMeshData)
    (uvs : List IMeshVertexUVData) (tangents : List IMeshVertexTangentData)
    (bitangents : List IMeshVertexBitangentData) (vertexColors : List IMeshVertexColorData)
    (skinWeights : List ISkinWeightData) (meshGroup : IMeshGroup) (hasBlendShapes : Bool)
    (j : Nat)
    (hj : j < (OptimizeMesh kind meshData baseMesh uvs tangents bitangents vertexColors
      skinWeights meshGroup hasBlendShapes).nodes.optimizedMesh.GetVertexCount) :
    ∃ vi, IsCorner meshData vi ∧
      (OptimizeMesh kind meshData baseMesh uvs tangents bitangents vertexColors skinWeights
        meshGroup hasBlendShapes).nodes.optimizedMesh.positions[j]? =
        some (meshData.GetPosition vi) ∧
      (OptimizeMesh kind meshData baseMesh uvs tangents bitangents vertexColors skinWeights
        meshGroup hasBlendShapes).nodes.optimizedMesh.normals[j]? =
        some (meshData.GetNormal vi) ∧
      (OptimizeMesh kind meshData baseMesh uvs tangents bitangents vertexColors skinWeights
        meshGroup hasBlendShapes).nodes.optimizedMesh.vertexIndexToControlPointIndexMap j =
        some (meshData.GetUsedPointIndexForControlPoint (meshData.GetControlPointIndex vi)) := by
  obtain ⟨vi, hc, h1, h2, h3, _⟩ := optimizeMesh_vertex_carries_corner kind meshData baseMesh
    uvs tangents bitangents vertexColors skinWeights meshGroup hasBlendShapes j hj
  exact ⟨vi, hc, h1, h2, h3⟩

/-- Instance of the amended C5: output vertex 3 of the example mesh. -/
theorem optimizeMesh_map_gives_used_point_witness :
    3 < (OptimizeMesh MeshKind.mesh exampleMesh exampleMesh [] [] [] [] []
      exampleMeshGroup false).nodes.optimizedMesh.GetVertexCount ∧
    ∃ vi, IsCorner exampleMesh vi ∧
      (OptimizeMesh MeshKind.mesh exampleMesh exampleMesh [] [] [] [] []
        exampleMeshGroup false).nodes.optimizedMesh.positions[3]? =
        some (exampleMesh.GetPosition vi) ∧
      (OptimizeMesh MeshKind.mesh exampleMesh exampleMesh [] [] [] [] []
        exampleMeshGroup false).nodes.optimizedMesh.normals[3]? =
        some (exampleMesh.GetNormal vi) ∧
      (OptimizeMesh MeshKind.mesh exampleMesh exampleMesh [] [] [] [] []
        exampleMeshGroup false).nodes.optimizedMesh.vertexIndexToControlPointIndexMap 3 =
        some (exampleMesh.GetUsedPointIndexForControlPoint
          (exampleMesh.GetControlPointIndex vi)) :=
  ⟨by decide!,
    optimizeMesh_map_gives_used_point MeshKind.mesh exampleMesh exampleMesh [] [] [] [] []
      exampleMeshGroup false 3 (by decide!)⟩

/-- C7 (channels in, channels out): for each attribute kind `OptimizeMesh` returns exactly as many
channel nodes as inputs of that kind were passed; without a colour input the list of colour nodes
is empty; and the order is kept: at every output vertex, node `i` of a kind holds the value input
`i` of that kind gives for the corner the vertex was made from. -/
theorem optimizeMesh_channel_counts (kind : MeshKind) (meshData baseMesh : IMeshData)
    (uvs : List IMeshVertexUVData) (tangents : List IMeshVertexTangentData)
    (bitangents : List IMeshVertexBitangentData) (vertexColors : List IMeshVertexColorData)
    (skinWeights : List ISkinWeightData) (meshGroup : IMeshGroup) (hasBlendShapes : Bool) :
    (OptimizeMesh kind meshData baseMesh uvs tangents bitangents vertexColors skinWeights
      meshGroup hasBlendShapes).nodes.optimizedUVs.length = uvs.length ∧
    (OptimizeMesh kind meshData baseMesh uvs tangents bitangents vertexColors skinWeights
      meshGroup hasBlendShapes).nodes.optimizedTangents.length = tangents.length ∧
    (OptimizeMesh kind meshData baseMesh uvs tangents bitangents vertexColors skinWeights
      meshGroup hasBlendShapes).nodes.optimizedBitangents.length = bitangents.length ∧
    (OptimizeMesh kind meshData baseMesh uvs tangents bitangents vertexColors skinWeights
      meshGroup hasBlendShapes).nodes.optimizedVertexColors.length = vertexColors.length ∧
    (vertexColors = [] →
      (OptimizeMesh kind meshData baseMesh uvs tangents bitangents vertexColors skinWeights
        meshGroup hasBlendShapes).nodes.optimizedVertexColors = []) ∧
    (∀ j, j < (OptimizeMesh kind meshData baseMesh uvs tangents bitangents vertexColors
        skinWeights meshGroup hasBlendShapes).nodes.optimizedMesh.GetVertexCount →
      ∃ vi, IsCorner meshData vi ∧
        (∀ (i : Nat) (uvData : IMeshVertexUVData), uvs[i]? = some uvData →
          ∃ node : List Vector2,
            (OptimizeMesh kind meshData baseMesh uvs tangents bitangents vertexColors skinWeights
              meshGroup hasBlendShapes).nodes.optimizedUVs[i]? = some node ∧
            node[j]? = some (uvData.GetUV vi)) ∧
        (∀ (i : Nat) (tangentData : IMeshVertexTangentData), tangents[i]? = some tangentData →
          ∃ node : List Vector4,
            (OptimizeMesh kind meshData baseMesh uvs tangents bitangents vertexColors skinWeights
              meshGroup hasBlendShapes).nodes.optimizedTangents[i]? = some node ∧
            node[j]? = some (tangentData.GetTangent vi)) ∧
        (∀ (i : Nat) (bitangentData : IMeshVertexBitangentData),
          bitangents[i]? = some bitangentData →
          ∃ node : List Vector3,
            (OptimizeMesh kind meshData baseMesh uvs tangents bitangents vertexColors skinWeights
              meshGroup hasBlendShapes).nodes.optimizedBitangents[i]? = some node ∧
            node[j]? = some (bitangentData.GetBitangent vi)) ∧
        (∀ (i : Nat) (vertexColorData : IMeshVertexColorData),
          vertexColors[i]? = some vertexColorData →
          ∃ node : List Color,
            (OptimizeMesh kind meshData baseMesh uvs tangents bitangents vertexColors skinWeights
              meshGroup hasBlendShapes).nodes.optimizedVertexColors[i]? = some node ∧
            node[j]? = some (vertexColorData.GetColor vi))) := by
  have hc := emitSubMeshes_channel_counts kind
    ((buildMesh meshData baseMesh uvs tangents bitangents vertexColors skinWeights meshGroup
      hasBlendShapes).layers uvs.length tangents.length bitangents.length vertexColors.length)
    (buildMesh meshData baseMesh uvs tangents bitangents vertexColors skinWeights meshGroup
      hasBlendShapes).GetSubMeshes
  simp only [MeshBuilder.layers, List.length_map, List.length_range] at hc
  obtain ⟨hc1, hc2, hc3, hc4⟩ := hc
  refine ⟨hc1, hc2, hc3, hc4, ?_, ?_⟩
  · intro hnil
    apply List.eq_nil_of_length_eq_zero
    have h4 : (OptimizeMesh kind meshData baseMesh uvs tangents bitangents vertexColors
        skinWeights meshGroup hasBlendShapes).nodes.optimizedVertexColors.length =
        vertexColors.length := hc4
    rw [h4, hnil]
    rfl
  · intro j hj
    obtain ⟨vi, hcorner, _, _, _, h4, h5, h6, h7⟩ := optimizeMesh_vertex_carries_corner kind
      meshData baseMesh uvs tangents bitangents vertexColors skinWeights meshGroup
      hasBlendShapes j hj
    refine ⟨vi, hcorner, ?_, ?_, ?_, ?_⟩
    · intro i d hd
      exact h4 i _ (by simp [cornerAttributes, List.getElem?_map, hd])
    · intro i d hd
      exact h5 i _ (by simp [cornerAttributes, List.getElem?_map, hd])
    · intro i d hd
      exact h6 i _ (by simp [cornerAttributes, List.getElem?_map, hd])
    · intro i d hd
      exact h7 i _ (by simp [cornerAttributes, List.getElem?_map, hd])

/-- C6, as stated, fails: on the example mesh (four original vertices, six output vertices
because of the hard edge) the returned skin-weight object has four entries, not one per output
vertex. -/
theorem optimizeMesh_skin_not_per_output_vertex :
    ∃ d, (OptimizeMesh MeshKind.mesh exampleMesh exampleMesh [] [] [] [] [exampleSkin]
        exampleMeshGroup false).optimizedSkinWeights = some d ∧
      d.GetVertexCount = 4 ∧
      (OptimizeMesh MeshKind.mesh exampleMesh exampleMesh [] [] [] [] [exampleSkin]
        exampleMeshGroup false).nodes.optimizedMesh.GetVertexCount = 6 := by
  have h : Option.map SkinWeightData.GetVertexCount
      (OptimizeMesh MeshKind.mesh exampleMesh exampleMesh [] [] [] [] [exampleSkin]
        exampleMeshGroup false).optimizedSkinWeights = some 4 := by decide!
  cases hs : (OptimizeMesh MeshKind.mesh exampleMesh exampleMesh [] [] [] [] [exampleSkin]
      exampleMeshGroup false).optimizedSkinWeights with
  | none => rw [hs] at h; cases h
  | some d =>
    rw [hs] at h
    exact ⟨d, rfl, Option.some.inj h, by decide!⟩

/-- C6, amended: whenever `OptimizeMesh` returns a skin-weight object, that object is keyed by
original vertex: it has one entry per original vertex of the skinning info (the used control point
count of the mesh), and entry `v` holds one link per influence the skinning info gives original
vertex `v`, in order and with the weight of the influence. -/
theorem optimizeMesh_skin_keyed_by_original_vertex (kind : MeshKind)
    (meshData baseMesh : IMeshData) (uvs : List IMeshVertexUVData)
    (tangents : List IMeshVertexTangentData) (bitangents : List IMeshVertexBitangentData)
    (vertexColors : List IMeshVertexColorData) (skinWeights : List ISkinWeightData)
    (meshGroup : IMeshGroup) (hasBlendShapes : Bool) (d : SkinWeightData)
    (h : (OptimizeMesh kind meshData baseMesh uvs tangents bitangents vertexColors skinWeights
      meshGroup hasBlendShapes).optimizedSkinWeights = some d) :
    d.GetVertexCount = meshData.GetUsedControlPointCount % 2 ^ 32 ∧
    ∃ info, ExtractSkinningInfo meshData skinWeights (skinningParameters meshGroup).1
        (skinningParameters meshGroup).2 = some info ∧
      ∀ v, v < d.GetVertexCount → d.linkWeights[v]? = some (info.weights v) := by
  simp only [OptimizeMesh, buildMesh_skinningInfo] at h
  cases he : ExtractSkinningInfo meshData skinWeights (skinningParameters meshGroup).1
      (skinningParameters meshGroup).2 with
  | none => rw [he] at h; cases h
  | some info =>
    rw [he] at h
    obtain ⟨d2, hd2, hcount, hw⟩ := makeSkinWeights_some skinWeights info
    rw [hd2] at h
    have hd : d2 = d := Option.some.inj h
    subst hd
    refine ⟨?_, info, rfl, ?_⟩
    · rw [hcount]
      exact ExtractSkinningInfo_numOrgVertices _ _ _ _ _ he
    · intro v hv
      exact hw v (by rw [← hcount]; exact hv)

/-- Instance of the amended C6: the skin weights of the example mesh. -/
theorem optimizeMesh_skin_keyed_by_original_vertex_witness :
    (OptimizeMesh MeshKind.mesh exampleMesh exampleMesh [] [] [] [] [exampleSkin]
      exampleMeshGroup false).optimizedSkinWeights = some exampleSkinWeights ∧
    exampleSkinWeights.GetVertexCount = exampleMesh.GetUsedControlPointCount % 2 ^ 32 ∧
    ∃ info, ExtractSkinningInfo exampleMesh [exampleSkin]
        (skinningParameters exampleMeshGroup).1 (skinningParameters exampleMeshGroup).2 =
        some info ∧
      ∀ v, v < exampleSkinWeights.GetVertexCount →
        exampleSkinWeights.linkWeights[v]? = some (info.weights v) :=
  ⟨by decide!,
    optimizeMesh_skin_keyed_by_original_vertex MeshKind.mesh exampleMesh exampleMesh [] [] [] []
      [exampleSkin] exampleMeshGroup false exampleSkinWeights (by decide!)⟩

/-- C8 (duplicate optimization and blend shapes): `OptimizeMesh` makes its builder with
`optimizeDuplicates` equal to the negation of `hasBlendShapes`; and every call of `OptimizeMesh`
made by a completed `OptimizeMeshes` passes `hasBlendShapes = true` exactly when the mesh node of
the call has at least one blend-shape child, the base mesh and each of its blend shapes getting
the same flag. -/
theorem optimizeMeshes_blend_shape_flag (scene : Scene) (r : PassResult)
    (h : OptimizeMeshes scene = some r) (c : OptimizeMeshCall) (hc : c ∈ r.calls) :
    FlagFollowsBlendShapes scene.graph r.calls c ∧
    ∀ (meshData baseMesh : IMeshData) (uvs : List IMeshVertexUVData)
      (tangents : List IMeshVertexTangentData) (bitangents : List IMeshVertexBitangentData)
      (vertexColors : List IMeshVertexColorData) (skinWeights : List ISkinWeightData)
      (meshGroup : IMeshGroup) (hasBlendShapes : Bool),
      (buildMesh meshData baseMesh uvs tangents bitangents vertexColors skinWeights meshGroup
        hasBlendShapes).optimizeDuplicates = !hasBlendShapes := by
  have hcalls := OptimizeMeshes_calls scene r h
  refine ⟨⟨?_, ?_⟩, buildMesh_optimizeDuplicates⟩
  · rw [(hcalls c hc).2]
    exact HasAnyBlendShapeChild_iff scene.graph c.nodeIndex
  · intro c2 hc2 heq
    rw [(hcalls c hc).2, (hcalls c2 hc2).2, heq]

/-- Instance of C8: the pass over the example scene completes, and its calls (for the mesh
`Root.Cube` and for its blend shape) follow the blend shapes of the mesh node. -/
theorem optimizeMeshes_blend_shape_flag_witness :
    ∃ r c, OptimizeMeshes exampleScene = some r ∧ c ∈ r.calls ∧
      FlagFollowsBlendShapes exampleScene.graph r.calls c := by
  have hlen : Option.map (fun r : PassResult => r.calls.length) (OptimizeMeshes exampleScene) =
      some 2 := by decide!
  cases hr : OptimizeMeshes exampleScene with
  | none => rw [hr] at hlen; cases hlen
  | some r =>
    rw [hr] at hlen
    have h2 : r.calls.length = 2 := Option.some.inj hlen
    have h1 : 1 < r.calls.length := by omega
    exact ⟨r, r.calls.get ⟨1, h1⟩, rfl, List.get_mem _ _ _,
      (optimizeMeshes_blend_shape_flag exampleScene r hr (r.calls.get ⟨1, h1⟩)
        (List.get_mem _ _ _)).1⟩

/-- C10, as stated, fails: with a skin rule that allows no weight per vertex, vertex 0 of the
example mesh has an influence that survives thresholding, yet the returned skin weights hold no
link for it, so its weights sum to 0 and not to 1. -/
theorem optimizeMesh_skin_weights_sum_not_one :
    ∃ d w, (OptimizeMesh MeshKind.mesh exampleMesh exampleMesh [] [] [] [] [exampleSkin]
        exampleMeshGroupNoWeights false).optimizedSkinWeights = some d ∧
      (∃ i ∈ (gatherInfluences exampleMesh [exampleSkin]).influences 0,
        ¬ i.mWeight < (skinningParameters exampleMeshGroupNoWeights).2) ∧
      d.linkWeights[0]? = some w ∧ w.sum ≠ 1 := by
  refine ⟨⟨[[], [], [], []], []⟩, [], by decide!, by decide!, by decide!, by simp⟩

/-- C10, amended: for every vertex of the skin-weight object returned by `OptimizeMesh` the
number of links is at most `maxWeightsPerVertex`; and when `maxWeightsPerVertex` is at least 1 and
the weight threshold is positive, the link weights (exact rationals) sum to 1 whenever at least one
influence gathered for that vertex reaches the threshold. -/
theorem optimizeMesh_skin_weights_capped (kind : MeshKind) (meshData baseMesh : IMeshData)
    (uvs : List IMeshVertexUVData) (tangents : List IMeshVertexTangentData)
    (bitangents : List IMeshVertexBitangentData) (vertexColors : List IMeshVertexColorData)
    (skinWeights : List ISkinWeightData) (meshGroup : IMeshGroup) (hasBlendShapes : Bool)
    (d : SkinWeightData)
    (h : (OptimizeMesh kind meshData baseMesh uvs tangents bitangents vertexColors skinWeights
      meshGroup hasBlendShapes).optimizedSkinWeights = some d)
    (v : Nat) (hv : v < d.GetVertexCount) :
    ∃ w, d.linkWeights[v]? = some w ∧
      w.length ≤ (skinningParameters meshGroup).1 ∧
      (1 ≤ (skinningParameters meshGroup).1 → 0 < (skinningParameters meshGroup).2 →
        (∃ i ∈ (gatherInfluences meshData skinWeights).influences v,
          (skinningParameters meshGroup).2 ≤ i.mWeight) →
        w.sum = 1) := by
  obtain ⟨_, hw⟩ := optimizeMesh_skin_entries kind meshData baseMesh uvs tangents bitangents
    vertexColors skinWeights meshGroup hasBlendShapes d h
  refine ⟨_, hw v hv, ?_, ?_⟩
  · rw [List.length_map]
    exact optimizeInfluences_length _ _ _
  · intro hmax hthr hex
    exact optimizeInfluences_sum _ _ _ hmax hthr hex

/-- Instance of the amended C10: vertex 0 of the skin weights of the example mesh, with the
default parameters 4 and 0.001. -/
theorem optimizeMesh_skin_weights_capped_witness :
    (OptimizeMesh MeshKind.mesh exampleMesh exampleMesh [] [] [] [] [exampleSkin]
      exampleMeshGroup false).optimizedSkinWeights = some exampleSkinWeights ∧
    0 < exampleSkinWeights.GetVertexCount ∧
    ∃ w, exampleSkinWeights.linkWeights[0]? = some w ∧
      w.length ≤ (skinningParameters exampleMeshGroup).1 ∧
      (1 ≤ (skinningParameters exampleMeshGroup).1 →
        0 < (skinningParameters exampleMeshGroup).2 →
        (∃ i ∈ (gatherInfluences exampleMesh [exampleSkin]).influences 0,
          (skinningParameters exampleMeshGroup).2 ≤ i.mWeight) →
        w.sum = 1) :=
  ⟨by decide!, by decide,
    optimizeMesh_skin_weights_capped MeshKind.mesh exampleMesh exampleMesh [] [] [] []
      [exampleSkin] exampleMeshGroup false exampleSkinWeights (by decide!) 0 (by decide)⟩

/-- C9, as stated, fails: in the example mesh with two materials, corner 0 of face 0 and corner 0
of face 1 share original vertex 0 and have equal attribute tuples, duplicate optimization is
enabled, and yet the output faces that reproduce the two faces have different output vertices at
corner 0 (the faces lie in different sub-meshes, and each sub-mesh emits vertices of its own). -/
theorem optimizeMesh_equal_corners_not_merged :
    orgVertexNumber exampleTwoMaterialMesh (cornerVertex exampleTwoMaterialMesh 0 0) =
      orgVertexNumber exampleTwoMaterialMesh (cornerVertex exampleTwoMaterialMesh 1 0) ∧
    cornerAttributes exampleTwoMaterialMesh [] [] [] [] (cornerVertex exampleTwoMaterialMesh 0 0) =
      cornerAttributes exampleTwoMaterialMesh [] [] [] []
        (cornerVertex exampleTwoMaterialMesh 1 0) ∧
    (∃ q1 q2,
      ReproducesFace (OptimizeMesh MeshKind.mesh exampleTwoMaterialMesh exampleTwoMaterialMesh
        [] [] [] [] [] exampleMeshGroup false).nodes exampleTwoMaterialMesh
        exampleTwoMaterialMesh [] [] [] [] 0 q1 ∧
      ReproducesFace (OptimizeMesh MeshKind.mesh exampleTwoMaterialMesh exampleTwoMaterialMesh
        [] [] [] [] [] exampleMeshGroup false).nodes exampleTwoMaterialMesh
        exampleTwoMaterialMesh [] [] [] [] 1 q2) ∧
    ∀ q1 q2,
      ReproducesFace (OptimizeMesh MeshKind.mesh exampleTwoMaterialMesh exampleTwoMaterialMesh
        [] [] [] [] [] exampleMeshGroup false).nodes exampleTwoMaterialMesh
        exampleTwoMaterialMesh [] [] [] [] 0 q1 →
      ReproducesFace (OptimizeMesh MeshKind.mesh exampleTwoMaterialMesh exampleTwoMaterialMesh
        [] [] [] [] [] exampleMeshGroup false).nodes exampleTwoMaterialMesh
        exampleTwoMaterialMesh [] [] [] [] 1 q2 →
      outputCorner (OptimizeMesh MeshKind.mesh exampleTwoMaterialMesh exampleTwoMaterialMesh
        [] [] [] [] [] exampleMeshGroup false).nodes q1 0 ≠
      outputCorner (OptimizeMesh MeshKind.mesh exampleTwoMaterialMesh exampleTwoMaterialMesh
        [] [] [] [] [] exampleMeshGroup false).nodes q2 0 := by
  have hfaces : (OptimizeMesh MeshKind.mesh exampleTwoMaterialMesh exampleTwoMaterialMesh
      [] [] [] [] [] exampleMeshGroup false).nodes.optimizedMesh.faceList =
      [⟨0, 1, 2⟩, ⟨3, 4, 5⟩] := by decide!
  have hmats : (OptimizeMesh MeshKind.mesh exampleTwoMaterialMesh exampleTwoMaterialMesh
      [] [] [] [] [] exampleMeshGroup false).nodes.optimizedMesh.faceMaterialIds = [0, 1] := by
    decide!
  have hcarry : ∀ x v,
      (OptimizeMesh MeshKind.mesh exampleTwoMaterialMesh exampleTwoMaterialMesh
        [] [] [] [] [] exampleMeshGroup false).nodes.optimizedMesh.positions[x]? =
        some (exampleTwoMaterialMesh.GetPosition v) →
      (OptimizeMesh MeshKind.mesh exampleTwoMaterialMesh exampleTwoMaterialMesh
        [] [] [] [] [] exampleMeshGroup false).nodes.optimizedMesh.normals[x]? =
        some (exampleTwoMaterialMesh.GetNormal v) →
      (OptimizeMesh MeshKind.mesh exampleTwoMaterialMesh exampleTwoMaterialMesh
        [] [] [] [] [] exampleMeshGroup false).nodes.optimizedMesh.vertexIndexToControlPointIndexMap
        x = some (orgVertexNumber exampleTwoMaterialMesh v) →
      CarriesAttributes (OptimizeMesh MeshKind.mesh exampleTwoMaterialMesh
        exampleTwoMaterialMesh [] [] [] [] [] exampleMeshGroup false).nodes x
        (cornerAttributes exampleTwoMaterialMesh [] [] [] [] v) := by
    intro x v h1 h2 h3
    refine ⟨h1, h2, h3, ?_, ?_, ?_, ?_⟩ <;>
      · intro i w hw
        simp [cornerAttributes] at hw
  refine ⟨by decide!, by decide!, ⟨0, 1, ?_, ?_⟩, ?_⟩
  · refine ⟨⟨0, 1, 2⟩, by rw [hfaces]; rfl, by rw [hmats]; rfl, ?_⟩
    intro j hj
    have hj' : j = 0 ∨ j = 1 ∨ j = 2 := by omega
    rcases hj' with rfl | rfl | rfl
    · exact hcarry _ _ (by decide!) (by decide!) (by decide!)
    · exact hcarry _ _ (by decide!) (by decide!) (by decide!)
    · exact hcarry _ _ (by decide!) (by decide!) (by decide!)
  · refine ⟨⟨3, 4, 5⟩, by rw [hfaces]; rfl, by rw [hmats]; rfl, ?_⟩
    intro j hj
    have hj' : j = 0 ∨ j = 1 ∨ j = 2 := by omega
    rcases hj' with rfl | rfl | rfl
    · exact hcarry _ _ (by decide!) (by decide!) (by decide!)
    · exact hcarry _ _ (by decide!) (by decide!) (by decide!)
    · exact hcarry _ _ (by decide!) (by decide!) (by decide!)
  · rintro q1 q2 ⟨F1, _, hm1, _⟩ ⟨F2, _, hm2, _⟩
    rw [hmats] at hm1 hm2
    have hq1 : q1 = 0 := by
      rcases q1 with _ | _ | q1
      · rfl
      · simp [exampleTwoMaterialMesh] at hm1
      · simp at hm1
    have hq2 : q2 = 1 := by
      rcases q2 with _ | _ | q2
      · simp [exampleTwoMaterialMesh] at hm2
      · rfl
      · simp at hm2
    subst hq1 hq2
    simp only [outputCorner, hfaces]
    decide

/-- C9, amended: with duplicate optimization enabled, every face of the mesh is reproduced by an
output face, and for two corners that share the same original vertex: if their full attribute
tuples are equal and their faces have the same material (so lie in the same sub-mesh) they are the
same output vertex; if the tuples differ in any channel they are different output vertices; and
corners of faces with different materials are always different output vertices. -/
theorem optimizeMesh_dedup_soundness (meshData baseMesh : IMeshData)
    (uvs : List IMeshVertexUVData) (tangents : List IMeshVertexTangentData)
    (bitangents : List IMeshVertexBitangentData) (vertexColors : List IMeshVertexColorData)
    (skinWeights : List ISkinWeightData) (meshGroup : IMeshGroup)
    (f1 f2 j1 j2 : Nat) (hf1 : f1 < meshData.GetFaceCount) (hf2 : f2 < meshData.GetFaceCount)
    (hj1 : j1 < 3) (hj2 : j2 < 3)
    (hsame : orgVertexNumber meshData (cornerVertex meshData f1 j1) =
      orgVertexNumber meshData (cornerVertex meshData f2 j2)) :
    ∃ q1 q2,
      ReproducesFace (OptimizeMesh MeshKind.mesh meshData baseMesh uvs tangents bitangents
        vertexColors skinWeights meshGroup false).nodes meshData baseMesh uvs tangents
        bitangents vertexColors f1 q1 ∧
      ReproducesFace (OptimizeMesh MeshKind.mesh meshData baseMesh uvs tangents bitangents
        vertexColors skinWeights meshGroup false).nodes meshData baseMesh uvs tangents
        bitangents vertexColors f2 q2 ∧
      (cornerAttributes meshData uvs tangents bitangents vertexColors
          (cornerVertex meshData f1 j1) =
        cornerAttributes meshData uvs tangents bitangents vertexColors
          (cornerVertex meshData f2 j2) →
        baseMesh.GetFaceMaterialId f1 = baseMesh.GetFaceMaterialId f2 →
        outputCorner (OptimizeMesh MeshKind.mesh meshData baseMesh uvs tangents bitangents
          vertexColors skinWeights meshGroup false).nodes q1 j1 =
        outputCorner (OptimizeMesh MeshKind.mesh meshData baseMesh uvs tangents bitangents
          vertexColors skinWeights meshGroup false).nodes q2 j2) ∧
      (cornerAttributes meshData uvs tangents bitangents vertexColors
          (cornerVertex meshData f1 j1) ≠
        cornerAttributes meshData uvs tangents bitangents vertexColors
          (cornerVertex meshData f2 j2) →
        outputCorner (OptimizeMesh MeshKind.mesh meshData baseMesh uvs tangents bitangents
          vertexColors skinWeights meshGroup false).nodes q1 j1 ≠
        outputCorner (OptimizeMesh MeshKind.mesh meshData baseMesh uvs tangents bitangents
          vertexColors skinWeights meshGroup false).nodes q2 j2) ∧
      (baseMesh.GetFaceMaterialId f1 ≠ baseMesh.GetFaceMaterialId f2 →
        outputCorner (OptimizeMesh MeshKind.mesh meshData baseMesh uvs tangents bitangents
          vertexColors skinWeights meshGroup false).nodes q1 j1 ≠
        outputCorner (OptimizeMesh MeshKind.mesh meshData baseMesh uvs tangents bitangents
          vertexColors skinWeights meshGroup false).nodes q2 j2) := by
  obtain ⟨k1, s1, p1, hk1, hm1, F1, hF1, hM1, hc1⟩ := optimizeMesh_face_output meshData baseMesh
    uvs tangents bitangents vertexColors skinWeights meshGroup false f1 hf1
  obtain ⟨k2, s2, p2, hk2, hm2, F2, hF2, hM2, hc2⟩ := optimizeMesh_face_output meshData baseMesh
    uvs tangents bitangents vertexColors skinWeights meshGroup false f2 hf2
  obtain ⟨_, hnodup, hdistinct, _⟩ := buildMesh_facesPlaced meshData baseMesh uvs tangents
    bitangents vertexColors skinWeights meshGroup false
  have hopt := buildMesh_optimizeDuplicates meshData baseMesh uvs tangents bitangents
    vertexColors skinWeights meshGroup false
  obtain ⟨l1, hl1mem, hl1o, hl1d, hx1, hi1, hcar1⟩ := hc1 j1 hj1
  obtain ⟨l2, hl2mem, hl2o, hl2d, hx2, hi2, hcar2⟩ := hc2 j2 hj2
  have ho1 : outputCorner (OptimizeMesh MeshKind.mesh meshData baseMesh uvs tangents bitangents
      vertexColors skinWeights meshGroup false).nodes
      (totalPolygons ((buildMesh meshData baseMesh uvs tangents bitangents vertexColors
        skinWeights meshGroup false).GetSubMeshes.take k1) + p1) j1 =
      F1.vertexIndex.getD j1 0 := by
    simp only [outputCorner, List.getD_eq_getElem?_getD, hF1, Option.getD_some]
  have ho2 : outputCorner (OptimizeMesh MeshKind.mesh meshData baseMesh uvs tangents bitangents
      vertexColors skinWeights meshGroup false).nodes
      (totalPolygons ((buildMesh meshData baseMesh uvs tangents bitangents vertexColors
        skinWeights meshGroup false).GetSubMeshes.take k2) + p2) j2 =
      F2.vertexIndex.getD j2 0 := by
    simp only [outputCorner, List.getD_eq_getElem?_getD, hF2, Option.getD_some]
  refine ⟨_, _, ⟨F1, hF1, hM1, fun j hj => ?_⟩, ⟨F2, hF2, hM2, fun j hj => ?_⟩, ?_, ?_, ?_⟩
  · obtain ⟨_, _, _, _, _, _, h⟩ := hc1 j hj
    exact h
  · obtain ⟨_, _, _, _, _, _, h⟩ := hc2 j hj
    exact h
  · intro htuple hmat
    rw [ho1, ho2, hx1, hx2]
    have hk : k1 = k2 := hdistinct k1 k2 s1 s2 hk1 hk2 (by rw [hm1, hm2, hmat])
    subst hk
    have hs : s1 = s2 := Option.some.inj (hk1.symm.trans hk2)
    subst hs
    have horg : l1.mOrgVtx = l2.mOrgVtx := by
      rw [hl1o, hl2o]
      simp only [cornerKey, hsame]
    have hdup : l1.mDuplicateNr = l2.mDuplicateNr := by
      rw [horg, htuple] at hl1d
      exact nodup_getElem?_inj _ (hnodup (by rw [hopt]; rfl) l2.mOrgVtx) _ _ _ hl1d hl2d
    have hl : l1 = l2 := by
      cases l1; cases l2
      simp only at horg hdup
      subst horg hdup
      rfl
    rw [hl]
  · intro htuple heq
    rw [ho1, ho2] at heq
    rw [heq] at hcar1
    exact htuple (carries_unique _ _ _ _ _ _ _ _ _ hcar1 hcar2)
  · intro hmat heq
    rw [ho1, ho2, hx1, hx2] at heq
    have hs1 : (buildMesh meshData baseMesh uvs tangents bitangents vertexColors skinWeights
        meshGroup false).GetSubMeshes[k1]? = some s1.toSubMesh := by
      simp only [MeshBuilder.GetSubMeshes, List.getElem?_map, hk1, Option.map_some']
    have hs2 : (buildMesh meshData baseMesh uvs tangents bitangents vertexColors skinWeights
        meshGroup false).GetSubMeshes[k2]? = some s2.toSubMesh := by
      simp only [MeshBuilder.GetSubMeshes, List.getElem?_map, hk2, Option.map_some']
    have hne : k1 ≠ k2 := by
      intro hk
      subst hk
      have hs : s1 = s2 := Option.some.inj (hk1.symm.trans hk2)
      subst hs
      exact hmat (by rw [← hm1, ← hm2])
    rcases Nat.lt_or_gt_of_ne hne with hlt | hgt
    · have := totalVertices_take_le _ k1 k2 _ hs1 hlt
      simp only [SubMeshData.toSubMesh] at this
      omega
    · have := totalVertices_take_le _ k2 k1 _ hs2 hgt
      simp only [SubMeshData.toSubMesh] at this
      omega

/-- Instance of the amended C9: corner 0 of face 0 and corner 0 of face 1 of the example mesh
(original vertex 0 on both, with different normals across the hard edge). -/
theorem optimizeMesh_dedup_soundness_witness :
    orgVertexNumber exampleMesh (cornerVertex exampleMesh 0 0) =
      orgVertexNumber exampleMesh (cornerVertex exampleMesh 1 0) ∧
    ∃ q1 q2,
      ReproducesFace (OptimizeMesh MeshKind.mesh exampleMesh exampleMesh [] [] [] [] []
        exampleMeshGroup false).nodes exampleMesh exampleMesh [] [] [] [] 0 q1 ∧
      ReproducesFace (OptimizeMesh MeshKind.mesh exampleMesh exampleMesh [] [] [] [] []
        exampleMeshGroup false).nodes exampleMesh exampleMesh [] [] [] [] 1 q2 ∧
      (cornerAttributes exampleMesh [] [] [] [] (cornerVertex exampleMesh 0 0) =
        cornerAttributes exampleMesh [] [] [] [] (cornerVertex exampleMesh 1 0) →
        exampleMesh.GetFaceMaterialId 0 = exampleMesh.GetFaceMaterialId 1 →
        outputCorner (OptimizeMesh MeshKind.mesh exampleMesh exampleMesh [] [] [] [] []
          exampleMeshGroup false).nodes q1 0 =
        outputCorner (OptimizeMesh MeshKind.mesh exampleMesh exampleMesh [] [] [] [] []
          exampleMeshGroup false).nodes q2 0) ∧
      (cornerAttributes exampleMesh [] [] [] [] (cornerVertex exampleMesh 0 0) ≠
        cornerAttributes exampleMesh [] [] [] [] (cornerVertex exampleMesh 1 0) →
        outputCorner (OptimizeMesh MeshKind.mesh exampleMesh exampleMesh [] [] [] [] []
          exampleMeshGroup false).nodes q1 0 ≠
        outputCorner (OptimizeMesh MeshKind.mesh exampleMesh exampleMesh [] [] [] [] []
          exampleMeshGroup false).nodes q2 0) ∧
      (exampleMesh.GetFaceMaterialId 0 ≠ exampleMesh.GetFaceMaterialId 1 →
        outputCorner (OptimizeMesh MeshKind.mesh exampleMesh exampleMesh [] [] [] [] []
          exampleMeshGroup false).nodes q1 0 ≠
        outputCorner (OptimizeMesh MeshKind.mesh exampleMesh exampleMesh [] [] [] [] []
          exampleMeshGroup false).nodes q2 0) :=
  ⟨by decide!,
    optimizeMesh_dedup_soundness exampleMesh exampleMesh [] [] [] [] [] exampleMeshGroup
      0 1 0 0 (by decide) (by decide) (by decide) (by decide) (by decide!)⟩

/-- C11 (skinning parameters): without a skin rule on the mesh group `OptimizeMesh` extracts the
skinning info with `maxWeightsPerVertex = 4` and `weightThreshold = 0.001` (the rational 1/1000),
with a skin rule it extracts it with exactly the maximum and the threshold of the rule; the
builder holds that skinning info and the skin weights returned are made from it. -/
theorem optimizeMesh_skinning_parameters (kind : MeshKind) (meshData baseMesh : IMeshData)
    (uvs : List IMeshVertexUVData) (tangents : List IMeshVertexTangentData)
    (bitangents : List IMeshVertexBitangentData) (vertexColors : List IMeshVertexColorData)
    (skinWeights : List ISkinWeightData) (selectionList : List String)
    (lodRule : Option (List (List String))) (skinRule : ISkinRule) (hasBlendShapes : Bool) :
    ((buildMesh meshData baseMesh uvs tangents bitangents vertexColors skinWeights
        ⟨none, selectionList, lodRule⟩ hasBlendShapes).GetSkinningInfo =
        ExtractSkinningInfo meshData skinWeights 4 (1 / 1000) ∧
      (OptimizeMesh kind meshData baseMesh uvs tangents bitangents vertexColors skinWeights
        ⟨none, selectionList, lodRule⟩ hasBlendShapes).optimizedSkinWeights =
        makeSkinWeights skinWeights (ExtractSkinningInfo meshData skinWeights 4 (1 / 1000))) ∧
    ((buildMesh meshData baseMesh uvs tangents bitangents vertexColors skinWeights
        ⟨some skinRule, selectionList, lodRule⟩ hasBlendShapes).GetSkinningInfo =
        ExtractSkinningInfo meshData skinWeights skinRule.GetMaxWeightsPerVertex
          skinRule.GetWeightThreshold ∧
      (OptimizeMesh kind meshData baseMesh uvs tangents bitangents vertexColors skinWeights
        ⟨some skinRule, selectionList, lodRule⟩ hasBlendShapes).optimizedSkinWeights =
        makeSkinWeights skinWeights
          (ExtractSkinningInfo meshData skinWeights skinRule.GetMaxWeightsPerVertex
            skinRule.GetWeightThreshold)) := by
  refine ⟨⟨?_, ?_⟩, ?_, ?_⟩
  · rw [buildMesh_skinningInfo]; rfl
  · simp only [OptimizeMesh, buildMesh_skinningInfo]; rfl
  · rw [buildMesh_skinningInfo]; rfl
  · simp only [OptimizeMesh, buildMesh_skinningInfo]; rfl

/-- C12 (absence, not an empty object): `ExtractSkinningInfo` returns nothing for an empty list
of skin-weight sources and an object for a non-empty one, so `OptimizeMesh` returns skin weights
exactly when at least one source was passed in; the call made for a blend shape, which passes
none, returns no skin weights. -/
theorem optimizeMesh_skin_weights_presence (kind : MeshKind) (meshData baseMesh : IMeshData)
    (uvs : List IMeshVertexUVData) (tangents : List IMeshVertexTangentData)
    (bitangents : List IMeshVertexBitangentData) (vertexColors : List IMeshVertexColorData)
    (skinWeights : List ISkinWeightData) (meshGroup : IMeshGroup) (hasBlendShapes : Bool)
    (maxWeightsPerVertex : Nat) (weightThreshold : ℚ) :
    ExtractSkinningInfo meshData [] maxWeightsPerVertex weightThreshold = none ∧
    ((ExtractSkinningInfo meshData skinWeights maxWeightsPerVertex weightThreshold).isSome =
        true ↔ skinWeights ≠ []) ∧
    ((OptimizeMesh kind meshData baseMesh uvs tangents bitangents vertexColors skinWeights
        meshGroup hasBlendShapes).optimizedSkinWeights.isSome = true ↔ skinWeights ≠ []) ∧
    (OptimizeMesh MeshKind.blendShape meshData baseMesh [] [] [] [] [] meshGroup
      hasBlendShapes).optimizedSkinWeights = none := by
  refine ⟨rfl, ?_, ?_, ?_⟩
  · rw [ExtractSkinningInfo_isSome]
    cases skinWeights <;> simp
  · simp only [OptimizeMesh, buildMesh_skinningInfo]
    rw [makeSkinWeights_isSome, ExtractSkinningInfo_isSome]
    cases skinWeights <;> simp
  · simp only [OptimizeMesh, buildMesh_skinningInfo]
    rfl

/-- C19 (faces and materials): the number of faces `OptimizeMesh` emits is the sum of
`GetNumPolygons` over the sub-meshes; the face at index (polygons of sub-meshes 0..k-1) + p is
the one emitted for polygon `p` of sub-mesh `k` (its indices moved by the index offset reached
after sub-meshes 0..k-1) and, for a mesh output, it carries the material index of sub-mesh `k`;
a blend-shape output records no material at all. -/
theorem optimizeMesh_faces_per_sub_mesh (kind : MeshKind) (layers : BuilderLayers)
    (subMeshes : List MeshBuilderSubMesh) :
    (emitSubMeshes kind layers subMeshes).1.optimizedMesh.GetFaceCount =
      totalPolygons subMeshes ∧
    (∀ (k : Nat) (subMesh : MeshBuilderSubMesh) (p : Nat), subMeshes[k]? = some subMesh →
      p < subMesh.GetNumPolygons →
      (emitSubMeshes kind layers subMeshes).1.optimizedMesh.faceList[
          totalPolygons (subMeshes.take k) + p]? =
        some (offsetFace subMesh (emitSubMeshes kind layers (subMeshes.take k)).2 p) ∧
      (emitSubMeshes MeshKind.mesh layers subMeshes).1.optimizedMesh.faceMaterialIds[
          totalPolygons (subMeshes.take k) + p]? = some subMesh.GetMaterialIndex) ∧
    (emitSubMeshes MeshKind.mesh layers subMeshes).1.optimizedMesh.faceMaterialIds.length =
      totalPolygons subMeshes ∧
    (emitSubMeshes MeshKind.blendShape layers subMeshes).1.optimizedMesh.faceMaterialIds =
      [] := by
  refine ⟨emitSubMeshes_faceList_length kind layers subMeshes, ?_, ?_,
    emitSubMeshes_blendShape_faceMaterialIds layers subMeshes⟩
  · intro k s p hk hp
    refine ⟨emitSubMeshes_face_getElem? kind layers subMeshes k s hk p hp, ?_⟩
    rw [emitSubMeshes_faceMaterialIds]
    exact materials_getElem? subMeshes k s hk p hp
  · rw [emitSubMeshes_faceMaterialIds]
    exact totalPolygons_length_materials subMeshes

/-- C13 (influences in order): the skinning info gathered by `ExtractSkinningInfo` before
`Optimize` is the empty skinning info to which one influence (used-point index, bone id, weight)
was added for every link of every control point with a non-negative used-point index, in the
order source, control point, link; so every original vertex holds its influences in that order, a
control point that maps to no used point contributes nothing, and the number of influences added
is the sum of the link counts over the used control points of all sources. -/
theorem extractSkinningInfo_influences_in_order (meshData : IMeshData)
    (skinWeights : List ISkinWeightData) :
    gatherInfluences meshData skinWeights =
      addInfluences (MeshBuilderSkinningInfo.create (meshData.GetUsedControlPointCount % 2 ^ 32))
        (influencesInOrder meshData skinWeights) ∧
    (∀ v, (gatherInfluences meshData skinWeights).influences v =
      ((influencesInOrder meshData skinWeights).filter (fun c => decide (c.1 = v))).map
        (fun c => c.2)) ∧
    (∀ skinData ∈ skinWeights, ∀ controlPointIndex,
      usedPointIndex meshData controlPointIndex < 0 →
        controlPointInfluences meshData skinData controlPointIndex = []) ∧
    (influencesInOrder meshData skinWeights).length =
      (skinWeights.map (fun skinData => (usedLinkCounts meshData skinData).sum)).sum := by
  have h1 : gatherInfluences meshData skinWeights =
      addInfluences (MeshBuilderSkinningInfo.create (meshData.GetUsedControlPointCount % 2 ^ 32))
        (influencesInOrder meshData skinWeights) := by
    unfold gatherInfluences
    exact foldl_addSkinData_eq meshData skinWeights _
  refine ⟨h1, ?_, ?_, influencesInOrder_length meshData skinWeights⟩
  · intro v
    rw [h1, addInfluences_influences]
    simp [MeshBuilderSkinningInfo.create]
  · intro skinData _ controlPointIndex hneg
    simp [controlPointInfluences, hneg]

/-- C14 at its failing input: with two skin-weight sources on the example mesh, the only
influence of original vertex 1 is gathered from the second source (the loop of lines 129-145
runs over every source), whose bone 0 is called `arm`; line 568 resolves its bone id through
the first source, so the link returned for vertex 1 names `hip`, the name the first source has
for bone 0, and the returned object has no bone called `arm` at all. -/
theorem optimizeMesh_bone_name_not_from_own_source :
    ∃ d, (OptimizeMesh MeshKind.mesh exampleMesh exampleMesh [] [] [] []
        [exampleSkinHip, exampleSkinArm] exampleMeshGroup false).optimizedSkinWeights = some d ∧
      (gatherInfluences exampleMesh [exampleSkinHip]).influences 1 = [] ∧
      (gatherInfluences exampleMesh [exampleSkinArm]).influences 1 = [⟨0, 1⟩] ∧
      exampleSkinArm.GetBoneName 0 = "arm" ∧
      d.linkBoneNames[1]? = some [some "hip"] ∧
      "arm" ∉ d.boneNames :=
  ⟨⟨[[⟨0, 1⟩], [⟨0, 1⟩], [], []], ["hip"]⟩, by decide!, by decide!, by decide!, by decide!,
    by decide!, by decide!⟩

/-- C15, as stated, fails: the mesh of the scene is selected and the last corner of its second
face has the original vertex number -1, so the assertion of `OptimizeMesh` does not hold; the
pass is not aborted (it calls `OptimizeMesh` and adds the optimized mesh to the graph) and it
returns `Success`. -/
theorem optimizeMeshes_no_failure_on_unused_point :
    orgVertexNumber exampleBrokenMesh (cornerVertex exampleBrokenMesh 1 2) = -1 ∧
    vertexNumbersAsserted exampleBrokenMesh = false ∧
    ∃ r, OptimizeMeshes (exampleRootScene exampleBrokenMesh 1) = some r ∧
      r.result = ProcessingResult.Success ∧ r.calls.length = 1 ∧
      r.graph.nodes.length = (exampleRootScene exampleBrokenMesh 1).graph.nodes.length + 1 := by
  have h : Option.map (fun r : PassResult => (r.result, r.calls.length, r.graph.nodes.length))
      (OptimizeMeshes (exampleRootScene exampleBrokenMesh 1)) =
      some (ProcessingResult.Success, 1, 3) := by decide!
  refine ⟨by decide!, by decide!, ?_⟩
  cases hr : OptimizeMeshes (exampleRootScene exampleBrokenMesh 1) with
  | none => rw [hr] at h; cases h
  | some r =>
    rw [hr] at h
    simp only [Option.map_some', Option.some.injEq, Prod.mk.injEq] at h
    exact ⟨r, rfl, h.1, h.2.1, h.2.2⟩

/-- C15, amended: `OptimizeMesh` only asserts that the original vertex number of a corner is
non-negative; neither it nor `OptimizeMeshes` has a failure result: a pass of `OptimizeMeshes`
that completes returns `Success`, whether or not the assertion holds for its meshes. -/
theorem optimizeMeshes_returns_success (scene : Scene) (r : PassResult)
    (h : OptimizeMeshes scene = some r) : r.result = ProcessingResult.Success :=
  OptimizeMeshes_result scene r h

/-- Instance of the amended C15: the pass over the example scene. -/
theorem optimizeMeshes_returns_success_witness :
    ∃ r, OptimizeMeshes exampleScene = some r ∧ r.result = ProcessingResult.Success := by
  have hlen : Option.map (fun r : PassResult => r.calls.length) (OptimizeMeshes exampleScene) =
      some 2 := by decide!
  cases hr : OptimizeMeshes exampleScene with
  | none => rw [hr] at hlen; cases hlen
  | some r => exact ⟨r, rfl, optimizeMeshes_returns_success exampleScene r hr⟩

/-- C16 (an optimized name that already exists): when the lookup of the optimized name (name of
the mesh node followed by the optimized-mesh suffix) finds a node, the iteration for this mesh
and mesh group leaves the graph and the calls of `OptimizeMesh` as they were, the loop goes on
with the remaining mesh groups from the same state, and a pass that completes returns
`Success`. -/
theorem optimizeMeshes_skips_existing_name (selectedNodes : List (Nat × List String))
    (mesh : IMeshData) (nodeIndex : Nat) (streams : MeshStreams) (nodePath : String)
    (st : PassState) (entry : Nat × IMeshGroup) (rest : List (Nat × IMeshGroup))
    (selected : List String) (hsel : selectedNodes.lookup entry.1 = some selected)
    (hfound : (st.graph.Find
      ((st.graph.GetName nodeIndex).append OptimizedMeshSuffix)).isSome = true) :
    optimizeForMeshGroup selectedNodes mesh nodeIndex streams nodePath (some st) entry =
      some st ∧
    (entry :: rest).foldl (optimizeForMeshGroup selectedNodes mesh nodeIndex streams nodePath)
        (some st) =
      rest.foldl (optimizeForMeshGroup selectedNodes mesh nodeIndex streams nodePath)
        (some st) ∧
    ∀ (scene : Scene) (r : PassResult), OptimizeMeshes scene = some r →
      r.result = ProcessingResult.Success := by
  have h1 : optimizeForMeshGroup selectedNodes mesh nodeIndex streams nodePath (some st) entry =
      some st := by
    simp only [optimizeForMeshGroup, hsel, hfound, if_true]
    split <;> rfl
  refine ⟨h1, ?_, OptimizeMeshes_result⟩
  rw [List.foldl_cons, h1]

/-- Instance of C16: in the scene whose mesh `Cube` is selected by two mesh groups, the mesh is
optimized for the first group, the second group finds `Cube_optimized` and is skipped, and the
pass ends with one call of `OptimizeMesh`, one new node and `Success`. -/
theorem optimizeMeshes_skips_existing_name_witness :
    (buildSelectedNodes (exampleRootScene exampleMesh 2).meshGroups).lookup 1 = some ["Cube"] ∧
    (exampleStateAfterFirstGroup.graph.Find
      ((exampleStateAfterFirstGroup.graph.GetName 1).append OptimizedMeshSuffix)).isSome = true ∧
    optimizeForMeshGroup (buildSelectedNodes (exampleRootScene exampleMesh 2).meshGroups)
      exampleMesh 1 ⟨[], [], [], [], []⟩ "Cube" (some exampleStateAfterFirstGroup)
      (1, ⟨none, ["Cube"], none⟩) = some exampleStateAfterFirstGroup ∧
    Option.map (fun r : PassResult => (r.result, r.calls.length, r.graph.nodes.length))
      (OptimizeMeshes (exampleRootScene exampleMesh 2)) =
      some (ProcessingResult.Success, 1, 3) :=
  ⟨by decide!, by decide!,
    (optimizeMeshes_skips_existing_name
      (buildSelectedNodes (exampleRootScene exampleMesh 2).meshGroups) exampleMesh 1
      ⟨[], [], [], [], []⟩ "Cube" exampleStateAfterFirstGroup (1, ⟨none, ["Cube"], none⟩) []
      ["Cube"] (by decide!) (by decide!)).1,
    by decide!⟩

/-- C17 (determinism): the result of `OptimizeMesh` is a function of the values its inputs give
where the code reads them: two runs whose meshes agree on the counts, the faces, the corners and
the control points asked for by the skin weights, whose base meshes agree on the face materials
and whose attribute inputs agree at every corner, with the same skin-weight sources, mesh group
and flag, return the same vertex buffers, channel buffers, faces and skin links in the same order;
the unordered set of used indexes is only asked for its size, which is the number of distinct
indices of the faces of the sub-mesh and so does not depend on any iteration order. -/
theorem optimizeMesh_deterministic (kind : MeshKind) (skinWeights : List ISkinWeightData)
    (meshData1 meshData2 baseMesh1 baseMesh2 : IMeshData)
    (uvs1 uvs2 : List IMeshVertexUVData) (tangents1 tangents2 : List IMeshVertexTangentData)
    (bitangents1 bitangents2 : List IMeshVertexBitangentData)
    (vertexColors1 vertexColors2 : List IMeshVertexColorData) (meshGroup : IMeshGroup)
    (hasBlendShapes : Bool) (hmesh : SameMeshValues skinWeights meshData1 meshData2)
    (hbase : ∀ f, f < meshData1.GetFaceCount →
      baseMesh1.GetFaceMaterialId f = baseMesh2.GetFaceMaterialId f)
    (huvs : SameChannelValues meshData1 IMeshVertexUVData.GetUV uvs1 uvs2)
    (htangents : SameChannelValues meshData1 IMeshVertexTangentData.GetTangent tangents1
      tangents2)
    (hbitangents : SameChannelValues meshData1 IMeshVertexBitangentData.GetBitangent bitangents1
      bitangents2)
    (hcolors : SameChannelValues meshData1 IMeshVertexColorData.GetColor vertexColors1
      vertexColors2) :
    OptimizeMesh kind meshData1 baseMesh1 uvs1 tangents1 bitangents1 vertexColors1 skinWeights
        meshGroup hasBlendShapes =
      OptimizeMesh kind meshData2 baseMesh2 uvs2 tangents2 bitangents2 vertexColors2 skinWeights
        meshGroup hasBlendShapes ∧
    ∀ (subMesh : MeshBuilderSubMesh) (indexOffset : Nat) (m : MeshData),
      (emitFaces kind subMesh indexOffset m).2.length =
        ((Finset.range (subMesh.GetNumPolygons * 3)).image
          (fun i => indexOffset + subMesh.GetIndex i)).card := by
  refine ⟨?_, emitFaces_used_card kind⟩
  unfold OptimizeMesh
  simp only [buildMesh_congr skinWeights meshData1 meshData2 baseMesh1 baseMesh2 uvs1 uvs2
    tangents1 tangents2 bitangents1 bitangents2 vertexColors1 vertexColors2 meshGroup
    hasBlendShapes hmesh hbase huvs htangents hbitangents hcolors,
    List.Forall₂.length_eq huvs, List.Forall₂.length_eq htangents,
    List.Forall₂.length_eq hbitangents, List.Forall₂.length_eq hcolors]

/-- Instance of C17: the example mesh and a mesh that differs from it only outside its six
vertices give the same result. -/
theorem optimizeMesh_deterministic_witness :
    SameMeshValues [exampleSkin] exampleMesh exampleMeshPadded ∧
    exampleMesh.GetPosition 6 ≠ exampleMeshPadded.GetPosition 6 ∧
    OptimizeMesh MeshKind.mesh exampleMesh exampleMesh [] [] [] [] [exampleSkin]
        exampleMeshGroup false =
      OptimizeMesh MeshKind.mesh exampleMeshPadded exampleMesh [] [] [] [] [exampleSkin]
        exampleMeshGroup false :=
  ⟨exampleMeshPadded_same, by decide,
    (optimizeMesh_deterministic MeshKind.mesh [exampleSkin] exampleMesh exampleMeshPadded
      exampleMesh exampleMesh [] [] [] [] [] [] [] [] exampleMeshGroup false
      exampleMeshPadded_same (fun _ _ => rfl) List.Forall₂.nil List.Forall₂.nil
      List.Forall₂.nil List.Forall₂.nil).1⟩

/-- C20 (polygon calls): for a mesh with `n` faces the calls `OptimizeMesh` makes on the builder
are, in face order, `n` groups of one `BeginPolygon` (with the material of the face), for each of
the three corners one `SetCurrentVertexValue` per registered layer followed by one
`AddPolygonVertex`, and one `EndPolygon`, followed by a single `GenerateSubMeshVertexOrders`; the
sequence obeys the protocol of the builder (no polygon is begun inside another or left open, and
before each `AddPolygonVertex` every registered layer was set exactly once) and ends with `n`
polygons; the registered layers are pairwise different; and carrying out these calls on a new
builder yields the builder `OptimizeMesh` reads its result from. -/
theorem optimizeMesh_polygon_calls (meshData baseMesh : IMeshData)
    (uvs : List IMeshVertexUVData) (tangents : List IMeshVertexTangentData)
    (bitangents : List IMeshVertexBitangentData) (vertexColors : List IMeshVertexColorData) :
    builderCalls meshData baseMesh uvs tangents bitangents vertexColors =
      (List.range meshData.GetFaceCount).flatMap
          (polygonGroup meshData baseMesh uvs tangents bitangents vertexColors) ++
        [BuilderCall.GenerateSubMeshVertexOrders] ∧
    ProtocolState.run
        (registeredLayers uvs.length tangents.length bitangents.length vertexColors.length)
        ProtocolState.initial
        (builderCalls meshData baseMesh uvs tangents bitangents vertexColors) =
      some { polygonOpen := false, corners := 0, valuesSet := [],
             polygons := meshData.GetFaceCount, generated := true } ∧
    (registeredLayers uvs.length tangents.length bitangents.length vertexColors.length).Nodup ∧
    ∀ (skinWeights : List ISkinWeightData) (meshGroup : IMeshGroup) (hasBlendShapes : Bool)
      (current : LayerId → LayerValue),
      ((builderCalls meshData baseMesh uvs tangents bitangents vertexColors).foldl
          (replayCall uvs.length tangents.length bitangents.length vertexColors.length)
          ((MeshBuilder.create (!hasBlendShapes)).SetSkinningInfo
            (ExtractSkinningInfo meshData skinWeights (skinningParameters meshGroup).1
              (skinningParameters meshGroup).2), current)).1 =
        buildMesh meshData baseMesh uvs tangents bitangents vertexColors skinWeights meshGroup
          hasBlendShapes := by
  have h1 : builderCalls meshData baseMesh uvs tangents bitangents vertexColors =
      (List.range meshData.GetFaceCount).flatMap
          (polygonGroup meshData baseMesh uvs tangents bitangents vertexColors) ++
        [BuilderCall.GenerateSubMeshVertexOrders] := by
    unfold builderCalls
    simp only [foldl_recordFace_eq, List.nil_append]
  refine ⟨h1, ?_, registeredLayers_nodup _ _ _ _,
    replay_builderCalls meshData baseMesh uvs tangents bitangents vertexColors⟩
  rw [h1, run_append]
  unfold ProtocolState.initial
  rw [run_polygonGroups, Option.some_bind, run_generate]
  simp

/-- C18 (blend-shape nodes): after a completed pass over a scene graph whose parent indices are
in range, every optimization the pass made of a mesh node that has a parent has left an optimized
mesh (added next to the mesh node, with its name followed by the suffix) that has as many
blend-shape children as the mesh node has, one per blend shape and in the same order, each with
the name of its original and marked as an end point exactly when the original is. -/
theorem optimizeMeshes_blend_shape_nodes (scene : Scene) (r : PassResult)
    (h : OptimizeMeshes scene = some r) (hwf : scene.graph.ParentsInRange)
    (c : OptimizeMeshCall) (hc : c ∈ r.calls) (hk : c.kind = MeshKind.mesh)
    (hp : (scene.graph.GetNodeParent c.nodeIndex).isSome = true) :
    ∃ m, IsOptimizedMeshOf scene.graph r.graph c.nodeIndex m ∧
      (r.graph.childNodesOfType m ObjectType.IBlendShapeData).length =
        (scene.graph.childNodesOfType c.nodeIndex ObjectType.IBlendShapeData).length ∧
      blendShapeChildren r.graph m = blendShapeChildren scene.graph c.nodeIndex := by
  obtain ⟨m, h1, h2⟩ := OptimizeMeshes_mirror scene r h hwf c hc hk hp
  refine ⟨m, h1, ?_, h2⟩
  have := congrArg List.length h2
  simpa only [blendShapeChildren, List.length_map] using this

/-- Instance of C18: in the example scene the mesh `Cube` has the blend shape `Smile`, an end
point; the optimized mesh gets one blend-shape child, called `Smile` and marked as an end
point. -/
theorem optimizeMeshes_blend_shape_nodes_witness :
    exampleScene.graph.ParentsInRange ∧
    ∃ (r : PassResult) (c : OptimizeMeshCall) (m : Nat),
      OptimizeMeshes exampleScene = some r ∧ c ∈ r.calls ∧ c.kind = MeshKind.mesh ∧
      c.nodeIndex = 1 ∧ IsOptimizedMeshOf exampleScene.graph r.graph c.nodeIndex m ∧
      blendShapeChildren r.graph m = [("Smile", true)] := by
  have hcalls : Option.map (fun r : PassResult => r.calls.map (fun c => (c.kind, c.nodeIndex)))
      (OptimizeMeshes exampleScene) =
      some [(MeshKind.mesh, 1), (MeshKind.blendShape, 1)] := by decide!
  cases hr : OptimizeMeshes exampleScene with
  | none => rw [hr] at hcalls; cases hcalls
  | some r =>
    rw [hr] at hcalls
    have h2 : r.calls.map (fun c => (c.kind, c.nodeIndex)) =
        [(MeshKind.mesh, 1), (MeshKind.blendShape, 1)] := Option.some.inj hcalls
    cases hcs : r.calls with
    | nil => rw [hcs] at h2; cases h2
    | cons c rest =>
      rw [hcs] at h2
      simp only [List.map_cons, List.cons.injEq, Prod.mk.injEq] at h2
      obtain ⟨⟨hk, hn⟩, _⟩ := h2
      have hmem : c ∈ r.calls := by rw [hcs]; exact List.mem_cons_self _ _
      obtain ⟨m, hm1, _, hm2⟩ := optimizeMeshes_blend_shape_nodes exampleScene r hr
        exampleScene_parentsInRange c hmem hk (by rw [hn]; decide)
      refine ⟨exampleScene_parentsInRange, r, c, m, rfl, hmem, hk, hn, hm1, ?_⟩
      rw [hm2, hn]
      decide!

/-- C21, as stated, fails: the blend shape has the face list of the example mesh, but numbers the
control points of its corners differently, and the pairs (material id, original vertex number)
given to the builder for it differ from those given for the example mesh. -/
theorem optimizeMesh_blend_shape_pairs_differ :
    exampleBlendShapeRenumbered.GetFaceCount = exampleMesh.GetFaceCount ∧
    exampleBlendShapeRenumbered.GetFaceInfo = exampleMesh.GetFaceInfo ∧
    submittedPairs 0 (builderCalls exampleBlendShapeRenumbered exampleMesh [] [] [] []) =
      [(0, 3), (0, 2), (0, 1), (0, 3), (0, 1), (0, 0)] ∧
    submittedPairs 0 (builderCalls exampleMesh exampleMesh [] [] [] []) =
      [(0, 0), (0, 1), (0, 2), (0, 0), (0, 2), (0, 3)] ∧
    submittedPairs 0 (builderCalls exampleBlendShapeRenumbered exampleMesh [] [] [] []) ≠
      submittedPairs 0 (builderCalls exampleMesh exampleMesh [] [] [] []) := by
  refine ⟨rfl, rfl, by decide!, by decide!, by decide!⟩

/-- C21, amended: when `OptimizeMesh` is run on a blend shape (no attribute channel and no skin
weights, as in line 320), the calls of face `i` are `BeginPolygon` with the material id the base
mesh gives to face `i`, then for each corner the original vertex number, the position and the
normal the blend shape gives to the corner, and `EndPolygon`; the pairs (material id, original
vertex number) given to the builder are those of the faces in order; and for a blend shape with
the face list of its base mesh that gives every corner the original vertex number the base mesh
gives it, these pairs are the pairs of the optimization of the base mesh itself, whatever
attribute channels the base mesh has. -/
theorem optimizeMesh_blend_shape_calls (meshData baseMesh : IMeshData)
    (uvs : List IMeshVertexUVData) (tangents : List IMeshVertexTangentData)
    (bitangents : List IMeshVertexBitangentData) (vertexColors : List IMeshVertexColorData)
    (hcount : meshData.GetFaceCount = baseMesh.GetFaceCount)
    (hfaces : ∀ i, i < baseMesh.GetFaceCount → meshData.GetFaceInfo i = baseMesh.GetFaceInfo i)
    (hnumbers : ∀ i, i < baseMesh.GetFaceCount → ∀ v ∈ (baseMesh.GetFaceInfo i).vertexIndex,
      orgVertexNumber meshData v = orgVertexNumber baseMesh v) :
    builderCalls meshData baseMesh [] [] [] [] =
      (List.range meshData.GetFaceCount).flatMap
          (fun i => [BuilderCall.BeginPolygon (baseMesh.GetFaceMaterialId i)] ++
            blendShapeCornerCalls meshData (cornerVertex meshData i 0) ++
            blendShapeCornerCalls meshData (cornerVertex meshData i 1) ++
            blendShapeCornerCalls meshData (cornerVertex meshData i 2) ++
            [BuilderCall.EndPolygon]) ++
        [BuilderCall.GenerateSubMeshVertexOrders] ∧
    submittedPairs 0 (builderCalls meshData baseMesh [] [] [] []) =
      (List.range meshData.GetFaceCount).flatMap (facePairs meshData baseMesh) ∧
    submittedPairs 0 (builderCalls meshData baseMesh [] [] [] []) =
      submittedPairs 0 (builderCalls baseMesh baseMesh uvs tangents bitangents vertexColors) := by
  refine ⟨?_, submittedPairs_builderCalls _ _ _ _ _ _ _, ?_⟩
  · unfold builderCalls
    simp only [foldl_recordFace_eq, List.nil_append]
    rfl
  · rw [submittedPairs_builderCalls, submittedPairs_builderCalls, hcount]
    apply flatMap_congr_mem
    intro i hi
    have hi2 : i < baseMesh.GetFaceCount := List.mem_range.mp hi
    have hkey : ∀ j, j < 3 → cornerKey meshData (cornerVertex meshData i j) =
        cornerKey baseMesh (cornerVertex baseMesh i j) := by
      intro j hj
      have hv : cornerVertex meshData i j = cornerVertex baseMesh i j := by
        unfold cornerVertex
        rw [hfaces i hi2]
      have hmem : cornerVertex baseMesh i j ∈ (baseMesh.GetFaceInfo i).vertexIndex := by
        unfold cornerVertex Face.vertexIndex
        interval_cases j <;> simp
      unfold cornerKey
      rw [hv, hnumbers i hi2 _ hmem]
    unfold facePairs
    rw [hkey 0 (by decide), hkey 1 (by decide), hkey 2 (by decide)]

/-- Instance of the amended C21: the blend shape of the example mesh that keeps its faces and
control points. -/
theorem optimizeMesh_blend_shape_calls_witness :
    submittedPairs 0 (builderCalls exampleBlendShape exampleMesh [] [] [] []) =
      submittedPairs 0 (builderCalls exampleMesh exampleMesh [] [] [] []) :=
  (optimizeMesh_blend_shape_calls exampleBlendShape exampleMesh [] [] [] [] rfl
    (fun _ _ => rfl) (fun _ _ _ _ => rfl)).2.2

/-- C22 at its failing input: the scene has one mesh and one mesh group, whose selection lists
are all empty; the map of selected nodes is built without an entry for the mesh group (the entry
is only made when a selected node is added), so the lookup of line 273 fails and the pass has no
result. -/
theorem optimizeMeshes_lookup_of_empty_mesh_group :
    (collectMeshes exampleSceneEmptyGroup.graph).length = 1 ∧
    exampleSceneEmptyGroup.meshGroups.length = 1 ∧
    buildSelectedNodes exampleSceneEmptyGroup.meshGroups = [] ∧
    (buildSelectedNodes exampleSceneEmptyGroup.meshGroups).lookup 0 = none ∧
    (OptimizeMeshes exampleSceneEmptyGroup).isNone = true := by
  refine ⟨by decide!, by decide!, by decide!, by decide!, by decide!⟩

end MeshOptimizer

namespace ScriptCanvas

/-! ## Properties of the ordered sequencer -/

/-! ### Output names are pairwise different -/

/-- Value of a decimal digit character. -/
theorem digitChar_toNat (k : Nat) (h : k < 10) : (Nat.digitChar k).toNat - 48 = k := by
  interval_cases k <;> rfl

theorem toDigitsCore_value (fuel : Nat) : ∀ (n : Nat) (ds : List Char), n < fuel →
    ∃ pre, Nat.toDigitsCore 10 fuel n ds = pre ++ ds ∧
      pre.foldl (fun a c => a * 10 + (c.toNat - 48)) 0 = n := by
  induction fuel with
  | zero => intro n ds h; omega
  | succ fuel ih =>
    intro n ds h
    unfold Nat.toDigitsCore
    simp only
    by_cases h0 : n / 10 = 0
    · rw [if_pos h0]
      refine ⟨[Nat.digitChar (n % 10)], rfl, ?_⟩
      simp only [List.foldl_cons, List.foldl_nil, Nat.zero_mul, Nat.zero_add]
      rw [digitChar_toNat _ (Nat.mod_lt _ (by decide))]
      omega
    · rw [if_neg h0]
      obtain ⟨pre, hpre, hval⟩ := ih (n / 10) (Nat.digitChar (n % 10) :: ds) (by omega)
      refine ⟨pre ++ [Nat.digitChar (n % 10)], ?_, ?_⟩
      · rw [hpre]; simp
      · rw [List.foldl_append, hval]
        simp only [List.foldl_cons, List.foldl_nil]
        rw [digitChar_toNat _ (Nat.mod_lt _ (by decide))]
        omega

theorem Nat_repr_injective (n m : Nat) (h : Nat.repr n = Nat.repr m) : n = m := by
  unfold Nat.repr Nat.toDigits at h
  obtain ⟨p1, h1, v1⟩ := toDigitsCore_value (n + 1) n [] (Nat.lt_succ_self n)
  obtain ⟨p2, h2, v2⟩ := toDigitsCore_value (m + 1) m [] (Nat.lt_succ_self m)
  rw [h1, h2] at h
  simp only [List.append_nil, List.asString] at h
  have hp : p1 = p2 := by injection h
  rw [← v1, ← v2, hp]

theorem GenerateOutputName_injective (i j : Nat)
    (h : OrderedSequencer.GenerateOutputName (Int.ofNat i) =
      OrderedSequencer.GenerateOutputName (Int.ofNat j)) : i = j := by
  unfold OrderedSequencer.GenerateOutputName at h
  have h2 : ("Out " ++ toString (Int.ofNat i)).data = ("Out " ++ toString (Int.ofNat j)).data := by
    rw [h]
  rw [String.data_append, String.data_append] at h2
  have h3 : (toString (Int.ofNat i)).data = (toString (Int.ofNat j)).data :=
    List.append_cancel_left h2
  have h4 : toString (Int.ofNat i) = toString (Int.ofNat j) := String.ext h3
  exact Nat_repr_injective i j h4

theorem outputNames_nodup (n : Nat) :
    ((List.range n).map (fun i => OrderedSequencer.GenerateOutputName (Int.ofNat i))).Nodup :=
  (List.nodup_map_iff_inj_on (List.nodup_range n)).mpr
    (fun i _ j _ h => GenerateOutputName_injective i j h)

/-! ### Lookups in a node whose slot ids are pairwise different -/

theorem GetSlot_of_mem (node : OrderedSequencer) (h : node.SlotIdsDistinct) (slot : Slot)
    (hmem : slot ∈ node.m_slots) : node.GetSlot slot.m_id = some slot := by
  unfold OrderedSequencer.GetSlot
  cases hf : node.m_slots.find? (fun s => decide (s.m_id = slot.m_id)) with
  | none =>
    have := List.find?_eq_none.mp hf slot hmem
    simp at this
  | some found =>
    have hid : found.m_id = slot.m_id := by simpa using List.find?_some hf
    have hfm : found ∈ node.m_slots := List.mem_of_find?_eq_some hf
    rw [List.inj_on_of_nodup_map h hfm hmem hid]

theorem renameSlot_eq_map (slots : List Slot) (h : (slots.map Slot.m_id).Nodup)
    (slotId : SlotId) (name : String) :
    renameSlot slots slotId name =
      slots.map (fun s => if s.m_id = slotId then s.Rename name else s) := by
  induction slots with
  | nil => rfl
  | cons s slots ih =>
    rw [List.map_cons, List.nodup_cons] at h
    unfold renameSlot
    by_cases hs : s.m_id = slotId
    · rw [if_pos hs, List.map_cons, if_pos hs]
      congr 1
      symm
      conv_rhs => rw [← List.map_id slots]
      apply List.map_congr_left
      intro t ht
      have hne : t.m_id ≠ slotId := by
        intro ht2
        exact h.1 (List.mem_map.mpr ⟨t, ht, by rw [ht2, hs]⟩)
      rw [if_neg hne]
      rfl
    · rw [if_neg hs, List.map_cons, if_neg hs, ih h.2]

theorem outputSlots_mem (node : OrderedSequencer) (slot : Slot) :
    slot ∈ node.outputSlots ↔
      slot ∈ node.m_slots ∧ slot.m_descriptor = SlotDescriptors.ExecutionOut := by
  unfold OrderedSequencer.outputSlots OrderedSequencer.GetAllSlotsByDescriptor
  simp [List.mem_filter]

theorem outputSlots_ids_nodup (node : OrderedSequencer) (h : node.SlotIdsDistinct) :
    (node.outputSlots.map Slot.m_id).Nodup := by
  unfold OrderedSequencer.outputSlots OrderedSequencer.GetAllSlotsByDescriptor
  exact List.Nodup.sublist (List.Sublist.map _ (List.filter_sublist _)) h

theorem outputSlots_map (slots : List Slot) (n1 n2 : Int) (f : Slot → Slot)
    (hf : ∀ s, (f s).m_descriptor = s.m_descriptor) :
    OrderedSequencer.outputSlots { m_slots := slots.map f, m_numOutputs := n1 } =
      (OrderedSequencer.outputSlots { m_slots := slots, m_numOutputs := n2 }).map f := by
  unfold OrderedSequencer.outputSlots OrderedSequencer.GetAllSlotsByDescriptor
  simp only
  rw [List.filter_map]
  congr 1
  apply List.filter_congr
  intro s _
  simp only [Function.comp, hf]

theorem castToInt_of_lt (size : Nat) (h : size < 2 ^ 31) : castToInt size = Int.ofNat size := by
  unfold castToInt
  simp only [Int.ofNat_eq_coe]
  omega

/-! ### `FixupStateNames` -/

/-- The loop of `FixupStateNames` after `k` rounds: every slot kept its id and its descriptor,
the first `k` outputs carry their new names, and the other slots are as before. -/
theorem foldl_fixupStateName (node : OrderedSequencer) (h : node.SlotIdsDistinct)
    (numOutputs : Int) (k : Nat) (hk : k ≤ node.outputSlots.length) :
    ∃ f : Slot → Slot,
      (∀ s, (f s).m_id = s.m_id ∧ (f s).m_descriptor = s.m_descriptor) ∧
      (List.range k).foldl (fixupStateName node.outputSlots)
          { node with m_numOutputs := numOutputs } =
        { m_slots := node.m_slots.map f, m_numOutputs := numOutputs } ∧
      (∀ i o, i < k → node.outputSlots[i]? = some o →
        (f o).m_name = OrderedSequencer.GenerateOutputName (Int.ofNat i)) ∧
      (∀ s, (∀ i o, i < k → node.outputSlots[i]? = some o → s.m_id ≠ o.m_id) → f s = s) := by
  induction k with
  | zero =>
    refine ⟨fun s => s, fun s => ⟨rfl, rfl⟩, ?_, ?_, fun s _ => rfl⟩
    · simp
    · intro i o hi; omega
  | succ k ih =>
    obtain ⟨f, hf, hfold, hnames, hframe⟩ := ih (by omega)
    have hklt : k < node.outputSlots.length := by omega
    obtain ⟨o, ho⟩ : ∃ o, node.outputSlots[k]? = some o :=
      ⟨node.outputSlots[k], List.getElem?_eq_getElem hklt⟩
    have hom : o ∈ node.m_slots :=
      ((outputSlots_mem node o).mp (List.getElem?_mem ho)).1
    have hdist : OrderedSequencer.SlotIdsDistinct
        { m_slots := node.m_slots.map f, m_numOutputs := numOutputs } := by
      unfold OrderedSequencer.SlotIdsDistinct
      simp only [List.map_map]
      have : (Slot.m_id ∘ f) = Slot.m_id := funext (fun s => (hf s).1)
      rw [this]
      exact h
    have hget : OrderedSequencer.GetSlot
        { m_slots := node.m_slots.map f, m_numOutputs := numOutputs } o.m_id = some (f o) := by
      have := GetSlot_of_mem _ hdist (f o) (List.mem_map.mpr ⟨o, hom, rfl⟩)
      rw [(hf o).1] at this
      exact this
    let g : Slot → Slot := fun s =>
      if s.m_id = o.m_id then s.Rename (OrderedSequencer.GenerateOutputName (Int.ofNat k)) else s
    refine ⟨g ∘ f, ?_, ?_, ?_, ?_⟩
    · intro s
      simp only [Function.comp, g]
      split
      · exact ⟨(hf s).1, (hf s).2⟩
      · exact hf s
    · rw [List.range_succ, List.foldl_append, hfold]
      simp only [List.foldl_cons, List.foldl_nil, fixupStateName, ho, hget, (hf o).1]
      rw [renameSlot_eq_map _ hdist, List.map_map]
    · intro i o2 hi ho2
      simp only [Function.comp, g]
      by_cases hik : i = k
      · subst hik
        rw [ho] at ho2
        cases ho2
        rw [if_pos (hf o).1]
        rfl
      · have hne : o2.m_id ≠ o.m_id := by
          intro heq
          have hinj := List.inj_on_of_nodup_map (outputSlots_ids_nodup node h)
            (List.getElem?_mem ho2) (List.getElem?_mem ho) heq
          subst hinj
          have hnd : node.outputSlots.Nodup :=
            List.Nodup.of_map _ (outputSlots_ids_nodup node h)
          have hi2 : i < node.outputSlots.length := by omega
          rw [List.getElem?_eq_getElem hi2] at ho2
          rw [List.getElem?_eq_getElem hklt] at ho
          exact hik ((List.Nodup.getElem_inj_iff hnd).mp
            ((Option.some.inj ho2).trans (Option.some.inj ho).symm))
        rw [if_neg (by rw [(hf o2).1]; exact hne)]
        exact hnames i o2 (by omega) ho2
    · intro s hs
      simp only [Function.comp, g]
      have hfs : f s = s := hframe s (fun i o2 hi ho2 => hs i o2 (by omega) ho2)
      rw [hfs, if_neg (hs k o (by omega) ho)]

/-- What `FixupStateNames` leaves: the output count is the number of execution-out slots, which
are named `Out 0`, `Out 1`, ... in order; ids and descriptors are as before, and so is every
slot that is not an execution-out slot. -/
theorem FixupStateNames_spec (node : OrderedSequencer) (h : node.SlotIdsDistinct)
    (hsize : node.outputSlots.length < 2 ^ 31) :
    node.FixupStateNames.m_numOutputs = Int.ofNat node.FixupStateNames.outputSlots.length ∧
    node.FixupStateNames.outputSlots.length = node.outputSlots.length ∧
    node.FixupStateNames.OutputsNamedInOrder ∧
    node.FixupStateNames.m_slots.map Slot.m_id = node.m_slots.map Slot.m_id ∧
    node.FixupStateNames.m_slots.map Slot.m_descriptor = node.m_slots.map Slot.m_descriptor ∧
    (∀ (i : Nat) (slot : Slot), node.m_slots[i]? = some slot →
      slot.m_descriptor ≠ SlotDescriptors.ExecutionOut →
      node.FixupStateNames.m_slots[i]? = some slot) := by
  obtain ⟨f, hf, hfold, hnames, hframe⟩ :=
    foldl_fixupStateName node h (castToInt node.outputSlots.length) node.outputSlots.length
      (Nat.le_refl _)
  have hfix : node.FixupStateNames =
      { m_slots := node.m_slots.map f, m_numOutputs := castToInt node.outputSlots.length } := by
    unfold OrderedSequencer.FixupStateNames
    exact hfold
  have houts : node.FixupStateNames.outputSlots = node.outputSlots.map f := by
    rw [hfix]
    exact outputSlots_map node.m_slots _ node.m_numOutputs f (fun s => (hf s).2)
  have hlen : node.FixupStateNames.outputSlots.length = node.outputSlots.length := by
    rw [houts, List.length_map]
  refine ⟨?_, hlen, ?_, ?_, ?_, ?_⟩
  · rw [hlen, hfix]
    exact castToInt_of_lt _ hsize
  · unfold OrderedSequencer.OutputsNamedInOrder
    rw [hlen, houts, List.map_map]
    apply List.ext_getElem?
    intro i
    rw [List.getElem?_map, List.getElem?_map]
    by_cases hi : i < node.outputSlots.length
    · rw [List.getElem?_eq_getElem hi, List.getElem?_range hi]
      simp only [Option.map_some', Function.comp]
      rw [hnames i _ hi (List.getElem?_eq_getElem hi)]
    · rw [List.getElem?_eq_none (by omega), List.getElem?_eq_none (by simpa using hi)]
      rfl
  · rw [hfix]
    simp only [List.map_map]
    congr 1
    exact funext (fun s => (hf s).1)
  · rw [hfix]
    simp only [List.map_map]
    congr 1
    exact funext (fun s => (hf s).2)
  · intro i slot hslot hdesc
    rw [hfix]
    simp only [List.getElem?_map, hslot, Option.map_some']
    congr 1
    apply hframe
    intro j o _ ho heq
    have hom := (outputSlots_mem node o).mp (List.getElem?_mem ho)
    have := List.inj_on_of_nodup_map h (List.getElem?_mem hslot) hom.1 heq
    rw [this] at hdesc
    exact hdesc hom.2

theorem OutputsNamedInOrder_getElem? (node : OrderedSequencer) (h : node.OutputsNamedInOrder)
    (i : Nat) (hi : i < node.outputSlots.length) :
    (node.outputSlots[i]?).map Slot.m_name =
      some (OrderedSequencer.GenerateOutputName (Int.ofNat i)) := by
  unfold OrderedSequencer.OutputsNamedInOrder at h
  rw [← List.getElem?_map, h, List.getElem?_map, List.getElem?_range hi]
  rfl

theorem removed_slot_ids (node : OrderedSequencer) (h : node.SlotIdsDistinct) (slotId : SlotId) :
    OrderedSequencer.SlotIdsDistinct
      { node with m_slots := node.m_slots.filter (fun slot => decide (slot.m_id ≠ slotId)) } := by
  unfold OrderedSequencer.SlotIdsDistinct
  exact List.Nodup.sublist (List.Sublist.map _ (List.filter_sublist _)) h

theorem removed_slot_outputs (node : OrderedSequencer) (slotId : SlotId) :
    (OrderedSequencer.outputSlots
      { node with m_slots := node.m_slots.filter (fun slot => decide (slot.m_id ≠ slotId)) }).length
      ≤ node.outputSlots.length := by
  unfold OrderedSequencer.outputSlots OrderedSequencer.GetAllSlotsByDescriptor
  simp only
  rw [List.filter_filter]
  apply List.Sublist.length_le
  apply List.monotone_filter_right
  intro s hs
  simp only [Bool.and_eq_true] at hs
  exact hs.1

/-! ### `GetSlotsInExecutionThreadByTypeImpl` -/

theorem GetSlotId_output (node : OrderedSequencer) (h : node.SlotIdsDistinct)
    (hnames : node.OutputsNamedInOrder) (hres : node.OutputNamesReserved)
    (i : Nat) (hi : i < node.outputSlots.length) :
    (node.GetSlotId (OrderedSequencer.GenerateOutputName (Int.ofNat i))).bind node.GetSlot =
      node.outputSlots[i]? := by
  have hname := OutputsNamedInOrder_getElem? node hnames i hi
  rw [List.getElem?_eq_getElem hi] at hname ⊢
  simp only [Option.map_some', Option.some.injEq] at hname
  have hmem := (outputSlots_mem node _).mp (List.getElem_mem hi)
  unfold OrderedSequencer.GetSlotId
  cases hf : node.m_slots.find?
      (fun slot => decide (slot.m_name = OrderedSequencer.GenerateOutputName (Int.ofNat i))) with
  | none =>
    have := List.find?_eq_none.mp hf _ hmem.1
    simp [hname] at this
  | some found =>
    have hfn : found.m_name = OrderedSequencer.GenerateOutputName (Int.ofNat i) := by
      simpa using List.find?_some hf
    have hfm : found ∈ node.m_slots := List.mem_of_find?_eq_some hf
    have hfd : found.m_descriptor = SlotDescriptors.ExecutionOut := by
      by_contra hne
      exact hres found hfm hne i hi hfn
    have hfo : found ∈ node.outputSlots := (outputSlots_mem node found).mpr ⟨hfm, hfd⟩
    obtain ⟨j, hj⟩ := List.mem_iff_getElem?.mp hfo
    have hjlt : j < node.outputSlots.length := by
      by_contra hge
      rw [List.getElem?_eq_none (by omega)] at hj
      cases hj
    have hjname := OutputsNamedInOrder_getElem? node hnames j hjlt
    rw [hj] at hjname
    simp only [Option.map_some', Option.some.injEq] at hjname
    have hij : j = i := GenerateOutputName_injective j i (by rw [← hjname, hfn])
    subst hij
    rw [List.getElem?_eq_getElem hi] at hj
    cases hj
    simp only [Option.map_some', Option.some_bind]
    exact GetSlot_of_mem node h _ hmem.1

theorem foldl_addOrderedOutputSlot (node : OrderedSequencer) (k : Nat)
    (hk : k ≤ node.outputSlots.length)
    (hget : ∀ i, i < k →
      (node.GetSlotId (OrderedSequencer.GenerateOutputName (Int.ofNat i))).bind node.GetSlot =
        node.outputSlots[i]?) :
    (List.range k).foldl (addOrderedOutputSlot node) [] = node.outputSlots.take k := by
  induction k with
  | zero => simp
  | succ k ih =>
    rw [List.range_succ, List.foldl_append, ih (by omega) (fun i hi => hget i (by omega))]
    simp only [List.foldl_cons, List.foldl_nil, addOrderedOutputSlot]
    rw [hget k (by omega), List.getElem?_eq_getElem (by omega)]
    simp only
    rw [List.take_succ, List.getElem?_eq_getElem (by omega)]
    rfl

theorem foldl_addOrderedOutputSlot_length (node : OrderedSequencer) (is : List Nat)
    (acc : List Slot) :
    (is.foldl (addOrderedOutputSlot node) acc).length ≤ acc.length + is.length := by
  induction is generalizing acc with
  | nil => simp
  | cons i is ih =>
    simp only [List.foldl_cons, List.length_cons]
    refine Nat.le_trans (ih _) ?_
    unfold addOrderedOutputSlot
    split
    · simp only [List.length_append, List.length_singleton]
      omega
    · omega

/-! ### Claims on the ordered sequencer -/

/-- C23 (`CanDeleteSlot`): the result is true exactly when the slot id names a slot of the node
that is an execution slot and an output slot and the output count is greater than 1; it is false
for an id that names no slot, for a slot that is not an output or not an execution slot, and
whenever the output count is at most 1. -/
theorem canDeleteSlot_iff (node : OrderedSequencer) (slotId : SlotId) :
    (node.CanDeleteSlot slotId = true ↔
      ∃ slot, node.GetSlot slotId = some slot ∧ slot.IsExecution = true ∧
        slot.IsOutput = true ∧ 1 < node.m_numOutputs) ∧
    ((node.GetSlot slotId).isSome = true ↔ ∃ slot ∈ node.m_slots, slot.m_id = slotId) ∧
    (node.GetSlot slotId = none → node.CanDeleteSlot slotId = false) ∧
    (∀ slot, node.GetSlot slotId = some slot →
      slot.IsOutput = false ∨ slot.IsExecution = false → node.CanDeleteSlot slotId = false) ∧
    (node.m_numOutputs ≤ 1 → node.CanDeleteSlot slotId = false) := by
  refine ⟨?_, ?_, ?_, ?_, ?_⟩
  · unfold OrderedSequencer.CanDeleteSlot
    cases hg : node.GetSlot slotId with
    | none => simp
    | some slot =>
      by_cases hc : (slot.IsExecution && slot.IsOutput) = true
      · simp only [hc, if_true, decide_eq_true_eq, Option.some.injEq, exists_eq_left']
        simp only [Bool.and_eq_true] at hc
        constructor
        · intro h; exact ⟨hc.1, hc.2, h⟩
        · intro h; exact h.2.2
      · simp only [hc, Option.some.injEq, exists_eq_left']
        simp only [Bool.and_eq_true] at hc
        constructor
        · intro h; cases h
        · intro h; exact absurd ⟨h.1, h.2.1⟩ hc
  · unfold OrderedSequencer.GetSlot
    rw [List.find?_isSome]
    simp
  · intro hg
    unfold OrderedSequencer.CanDeleteSlot
    rw [hg]
  · intro slot hg hor
    unfold OrderedSequencer.CanDeleteSlot
    rw [hg]
    rcases hor with h | h <;> simp [h]
  · intro hle
    unfold OrderedSequencer.CanDeleteSlot
    cases node.GetSlot slotId with
    | none => rfl
    | some slot =>
      simp only
      split
      · simp only [decide_eq_false_iff_not, not_lt]
        exact hle
      · rfl

/-- C24 (`FixupStateNames`): for a node whose slot ids are pairwise different and whose outputs
are fewer than 2^31, after `FixupStateNames` the output count is the number `n` of execution-out
slots, the `i`-th execution-out slot is named `Out i` for every `i < n`, and these names are
pairwise different; the slots keep their ids and descriptors, the other slots are unchanged;
`OnConfigured` and `OnSlotRemoved` are `FixupStateNames`, so the same holds after every removal
of a slot. -/
theorem fixupStateNames_output_names (node : OrderedSequencer) (hids : node.SlotIdsDistinct)
    (hsize : node.outputSlots.length < 2 ^ 31) :
    node.FixupStateNames.m_numOutputs = Int.ofNat node.FixupStateNames.outputSlots.length ∧
    node.FixupStateNames.outputSlots.length = node.outputSlots.length ∧
    (∀ i, i < node.FixupStateNames.outputSlots.length →
      (node.FixupStateNames.outputSlots[i]?).map Slot.m_name =
        some (OrderedSequencer.GenerateOutputName (Int.ofNat i))) ∧
    (node.FixupStateNames.outputSlots.map Slot.m_name).Nodup ∧
    node.FixupStateNames.m_slots.map Slot.m_id = node.m_slots.map Slot.m_id ∧
    node.FixupStateNames.m_slots.map Slot.m_descriptor = node.m_slots.map Slot.m_descriptor ∧
    (∀ (i : Nat) (slot : Slot), node.m_slots[i]? = some slot →
      slot.m_descriptor ≠ SlotDescriptors.ExecutionOut →
      node.FixupStateNames.m_slots[i]? = some slot) ∧
    node.OnConfigured = node.FixupStateNames ∧
    (∀ slotId, node.OnSlotRemoved slotId = node.FixupStateNames) ∧
    (∀ slotId,
      (node.removeSlot slotId).m_numOutputs =
        Int.ofNat (node.removeSlot slotId).outputSlots.length ∧
      (node.removeSlot slotId).OutputsNamedInOrder) := by
  obtain ⟨h1, h2, h3, h4, h5, h6⟩ := FixupStateNames_spec node hids hsize
  refine ⟨h1, h2, fun i hi => OutputsNamedInOrder_getElem? _ h3 i hi, ?_, h4, h5, h6, rfl,
    fun _ => rfl, ?_⟩
  · rw [h3]
    exact outputNames_nodup _
  · intro slotId
    have hr := FixupStateNames_spec _ (removed_slot_ids node hids slotId)
      (Nat.lt_of_le_of_lt (removed_slot_outputs node slotId) hsize)
    exact ⟨hr.1, hr.2.2.1⟩

/-- Instance of C24: the sequencer that was left with the outputs `Out 0` and `Out 2`. -/
theorem fixupStateNames_output_names_witness :
    exampleSequencerGap.SlotIdsDistinct ∧ exampleSequencerGap.outputSlots.length < 2 ^ 31 ∧
    exampleSequencerGap.FixupStateNames.m_numOutputs =
      Int.ofNat exampleSequencerGap.FixupStateNames.outputSlots.length ∧
    exampleSequencerGap.FixupStateNames.outputSlots.map Slot.m_name = ["Out 0", "Out 1"] :=
  ⟨by unfold OrderedSequencer.SlotIdsDistinct; decide, by decide,
    (fixupStateNames_output_names exampleSequencerGap
      (by unfold OrderedSequencer.SlotIdsDistinct; decide) (by decide)).1, by decide⟩

/-- C25 (`GetSlotsInExecutionThreadByTypeImpl`): in a state where the slot ids are pairwise
different, the `n` execution-out slots are named `Out 0` .. `Out n-1` in order, no other slot
carries one of these names and the output count is `n`, the result for the target type
`ExecutionOut` is the list of exactly these `n` slots, each once, in the order of their numbers;
in every state the result for `ExecutionOut` has at most output-count entries; and for any other
target type the result is the list `GetSlotsByType` gives. -/
theorem getSlotsInExecutionThread_outputs (node : OrderedSequencer) (executionSlot : Slot)
    (executionChildSlot : Option Slot) :
    (node.SlotIdsDistinct → node.OutputsNamedInOrder → node.OutputNamesReserved →
      node.m_numOutputs = Int.ofNat node.outputSlots.length →
      node.GetSlotsInExecutionThreadByTypeImpl executionSlot CombinedSlotType.ExecutionOut
          executionChildSlot = Except.ok node.outputSlots ∧
        node.outputSlots.Nodup ∧
        node.outputSlots.map Slot.m_name =
          (List.range node.outputSlots.length).map
            (fun i => OrderedSequencer.GenerateOutputName (Int.ofNat i))) ∧
    (∃ slots,
      node.GetSlotsInExecutionThreadByTypeImpl executionSlot CombinedSlotType.ExecutionOut
          executionChildSlot = Except.ok slots ∧
        slots.length ≤ node.m_numOutputs.toNat ∧
        (0 ≤ node.m_numOutputs → Int.ofNat slots.length ≤ node.m_numOutputs)) ∧
    (∀ targetSlotType, targetSlotType ≠ CombinedSlotType.ExecutionOut →
      node.GetSlotsInExecutionThreadByTypeImpl executionSlot targetSlotType
          executionChildSlot = Except.ok (node.GetSlotsByType targetSlotType)) := by
  refine ⟨?_, ?_, ?_⟩
  · intro hids hnames hres hcount
    refine ⟨?_, List.Nodup.of_map _ (outputSlots_ids_nodup node hids), hnames⟩
    unfold OrderedSequencer.GetSlotsInExecutionThreadByTypeImpl
    rw [if_pos rfl, hcount]
    rw [show (Int.ofNat node.outputSlots.length).toNat = node.outputSlots.length from rfl]
    rw [foldl_addOrderedOutputSlot node node.outputSlots.length (Nat.le_refl _)
      (fun i hi => GetSlotId_output node hids hnames hres i hi), List.take_length]
  · unfold OrderedSequencer.GetSlotsInExecutionThreadByTypeImpl
    rw [if_pos rfl]
    refine ⟨_, rfl, ?_⟩
    have hlen := foldl_addOrderedOutputSlot_length node (List.range node.m_numOutputs.toNat) []
    simp only [List.length_nil, List.length_range, Nat.zero_add] at hlen
    refine ⟨hlen, fun h0 => ?_⟩
    simp only [Int.ofNat_eq_coe]
    omega
  · intro targetSlotType hne
    unfold OrderedSequencer.GetSlotsInExecutionThreadByTypeImpl
    rw [if_neg hne]

/-- Instance of C25: the sequencer with the outputs `Out 0`, `Out 1` and `Out 2`. -/
theorem getSlotsInExecutionThread_outputs_witness :
    exampleSequencer.GetSlotsInExecutionThreadByTypeImpl ⟨100, "In", SlotDescriptors.ExecutionIn⟩
        CombinedSlotType.ExecutionOut none = Except.ok exampleSequencer.outputSlots ∧
    exampleSequencer.outputSlots.map Slot.m_id = [7, 3, 9] :=
  ⟨((getSlotsInExecutionThread_outputs exampleSequencer
      ⟨100, "In", SlotDescriptors.ExecutionIn⟩ none).1
      (by unfold OrderedSequencer.SlotIdsDistinct; decide)
      (by unfold OrderedSequencer.OutputsNamedInOrder; decide)
      (by unfold OrderedSequencer.OutputNamesReserved; decide) rfl).1, by decide⟩

end ScriptCanvas

namespace LyShine

/-! ## Properties of the editor-only entities -/

/-! ### `AddEditorOnlyEntity` -/

/-- The child elements of an entity, in order; none without a `UiElementComponent`. -/
theorem pushChildElements_take (c : UiElementComponent) (childEntities : List EntityPtr)
    (k : Nat) (hk : k ≤ c.m_children.length) :
    (List.range k).foldl
        (fun childEntities i =>
          match c.GetChildElement i with
          | some child => childEntities ++ [child]
          | none => childEntities)
        childEntities =
      childEntities ++ (c.m_children.take k).map ChildElement.element := by
  induction k with
  | zero => simp
  | succ k ih =>
    rw [List.range_succ, List.foldl_append, ih (by omega)]
    simp only [List.foldl_cons, List.foldl_nil, UiElementComponent.GetChildElement]
    rw [List.getElem?_eq_getElem (by omega), List.take_succ,
      List.getElem?_eq_getElem (by omega)]
    simp only [Option.map_some', Option.toList_some, List.map_append, List.map_cons,
      List.map_nil, List.append_assoc]

theorem pushChildElements_eq (c : UiElementComponent) (childEntities : List EntityPtr) :
    pushChildElements c childEntities =
      childEntities ++ c.m_children.map ChildElement.element := by
  unfold pushChildElements UiElementComponent.GetNumChildElements
  rw [pushChildElements_take c childEntities _ (Nat.le_refl _), List.take_length]

/-- The entities pushed for an entity. -/
theorem addEditorOnlyLoop_step (entities : List Entity) (fuel : Nat) (stack : List EntityPtr)
    (p : EntityPtr) (entity : Entity) (hp : entities[p]? = some entity)
    (editorOnlyEntities : Finset EntityId) :
    addEditorOnlyLoop entities (fuel + 1) (stack ++ [p]) editorOnlyEntities =
      addEditorOnlyLoop entities fuel
        (stack ++ (match entity.uiElement with
          | some c => c.m_children.map ChildElement.element
          | none => []))
        (insert entity.m_id editorOnlyEntities) := by
  rw [addEditorOnlyLoop]
  simp only [List.getLast?_concat, List.dropLast_concat, hp]
  cases entity.uiElement with
  | none => simp
  | some c => simp only [pushChildElements_eq]

theorem addEditorOnlyLoop_nil (entities : List Entity) (fuel : Nat)
    (editorOnlyEntities : Finset EntityId) :
    addEditorOnlyLoop entities fuel [] editorOnlyEntities = some editorOnlyEntities := by
  cases fuel with
  | zero => simp [addEditorOnlyLoop]
  | succ fuel => simp [addEditorOnlyLoop]

theorem addEditorOnlyLoop_children (entities : List Entity) (children : List EntityPtr)
    (h : ∀ c ∈ children, ProcessesEntity entities c) :
    ∀ (stack : List EntityPtr) (editorOnlyEntities : Finset EntityId),
      ∃ (n : Nat) (result : Finset EntityId),
        (∀ k, addEditorOnlyLoop entities (n + k) (stack ++ children) editorOnlyEntities =
          addEditorOnlyLoop entities k stack result) ∧
        ∀ x, x ∈ result ↔
          x ∈ editorOnlyEntities ∨ ∃ c ∈ children, IsIdOfSelfOrDescendant entities c x := by
  induction children using List.reverseRecOn with
  | nil =>
    intro stack set
    exact ⟨0, set, fun k => by simp, fun x => by simp⟩
  | append_singleton cs c ih =>
    intro stack set
    obtain ⟨n1, s1, hrun1, hmem1⟩ := h c (by simp) (stack ++ cs) set
    obtain ⟨n2, s2, hrun2, hmem2⟩ :=
      ih (fun c2 hc2 => h c2 (List.mem_append_left _ hc2)) stack s1
    refine ⟨n1 + n2, s2, ?_, ?_⟩
    · intro k
      rw [← List.append_assoc, Nat.add_assoc, hrun1, hrun2]
    · intro x
      rw [hmem2, hmem1]
      simp only [List.mem_append, List.mem_singleton]
      constructor
      · rintro ((hx | hx) | ⟨c2, hc2, hx⟩)
        · exact Or.inl hx
        · exact Or.inr ⟨c, Or.inr rfl, hx⟩
        · exact Or.inr ⟨c2, Or.inl hc2, hx⟩
      · rintro (hx | ⟨c2, hc2 | hc2, hx⟩)
        · exact Or.inl (Or.inl hx)
        · exact Or.inr ⟨c2, hc2, hx⟩
        · subst hc2
          exact Or.inl (Or.inr hx)

theorem isIdOfSelfOrDescendant_iff (entities : List Entity) (p : EntityPtr) (entity : Entity)
    (hp : entities[p]? = some entity) (x : EntityId) :
    IsIdOfSelfOrDescendant entities p x ↔
      x = entity.m_id ∨
        ∃ c ∈ (match entity.uiElement with
          | some comp => comp.m_children.map ChildElement.element
          | none => []), IsIdOfSelfOrDescendant entities c x := by
  constructor
  · rintro ⟨q, e, hreach, hq, hx⟩
    rcases Relation.ReflTransGen.cases_head hreach with heq | ⟨c, hchild, hrest⟩
    · subst heq
      rw [hp] at hq
      cases hq
      exact Or.inl hx.symm
    · obtain ⟨parent, comp, hparent, hcomp, hc⟩ := hchild
      rw [hp] at hparent
      cases hparent
      refine Or.inr ⟨c, ?_, q, e, hrest, hq, hx⟩
      rw [hcomp]
      exact hc
  · rintro (hx | ⟨c, hc, q, e, hreach, hq, hxe⟩)
    · exact ⟨p, entity, Relation.ReflTransGen.refl, hp, hx.symm⟩
    · refine ⟨q, e, Relation.ReflTransGen.head ?_ hreach, hq, hxe⟩
      cases hcomp : entity.uiElement with
      | none => rw [hcomp] at hc; cases hc
      | some comp =>
        rw [hcomp] at hc
        exact ⟨entity, comp, hp, hcomp, hc⟩

theorem processesEntity_of_children (entities : List Entity) (p : EntityPtr) (entity : Entity)
    (hp : entities[p]? = some entity)
    (h : ∀ c, IsChildElement entities p c → ProcessesEntity entities c) :
    ProcessesEntity entities p := by
  intro stack set
  have hchildren : ∀ c ∈ (match entity.uiElement with
      | some comp => comp.m_children.map ChildElement.element
      | none => []), ProcessesEntity entities c := by
    intro c hc
    apply h
    cases hcomp : entity.uiElement with
    | none => rw [hcomp] at hc; cases hc
    | some comp =>
      rw [hcomp] at hc
      exact ⟨entity, comp, hp, hcomp, hc⟩
  obtain ⟨n, result, hrun, hmem⟩ :=
    addEditorOnlyLoop_children entities _ hchildren stack (insert entity.m_id set)
  refine ⟨n + 1, result, ?_, ?_⟩
  · intro k
    rw [show n + 1 + k = (n + k) + 1 by omega, addEditorOnlyLoop_step entities _ stack p entity hp,
      hrun]
  · intro x
    rw [hmem, isIdOfSelfOrDescendant_iff entities p entity hp, Finset.mem_insert]
    tauto

/-- Child elements, as a relation between the places of a hierarchy whose children are valid. -/
theorem childElement_wellFounded (entities : List Entity) (hacyclic : Acyclic entities) :
    WellFounded (fun (a b : Fin entities.length) => IsChildElement entities b.val a.val) := by
  have hlift : ∀ a b : Fin entities.length,
      Relation.TransGen (fun (a b : Fin entities.length) =>
        IsChildElement entities b.val a.val) a b →
      Relation.TransGen (IsChildElement entities) b.val a.val := by
    intro a b hab
    induction hab with
    | single h => exact Relation.TransGen.single h
    | tail _ h ih => exact Relation.TransGen.head h ih
  haveI : IsIrrefl (Fin entities.length)
      (Relation.TransGen (fun (a b : Fin entities.length) =>
        IsChildElement entities b.val a.val)) :=
    ⟨fun a h => hacyclic a.val (hlift a a h)⟩
  have hwf := Finite.wellFounded_of_trans_of_irrefl
    (Relation.TransGen (fun (a b : Fin entities.length) =>
      IsChildElement entities b.val a.val))
  exact hwf.mono (fun a b h => Relation.TransGen.single h)

theorem processesEntity (entities : List Entity) (hvalid : ChildrenValid entities)
    (hacyclic : Acyclic entities) (p : EntityPtr) (hp : p < entities.length) :
    ProcessesEntity entities p := by
  have key : ∀ a : Fin entities.length, ProcessesEntity entities a.val := by
    intro a
    induction a using (childElement_wellFounded entities hacyclic).induction with
    | _ a ih =>
      apply processesEntity_of_children entities a.val entities[a.val]
        (List.getElem?_eq_getElem a.isLt)
      intro c hc
      exact ih ⟨c, hvalid a.val c hc⟩ hc
  exact key ⟨p, hp⟩

/-! ### `HandleEditorOnlyEntities` -/

theorem foldl_mapChildToParent (exportParentId : EntityId) (c : UiElementComponent)
    (parentToChildren : EntityId → List EntityId) (k : Nat) (hk : k ≤ c.m_children.length) :
    (List.range k).foldl (mapChildToParent exportParentId c) parentToChildren =
      fun key =>
        if key = exportParentId then
          parentToChildren key ++ (c.m_children.take k).map ChildElement.entityId
        else parentToChildren key := by
  induction k with
  | zero =>
    funext key
    simp
  | succ k ih =>
    rw [List.range_succ, List.foldl_append, ih (by omega)]
    simp only [List.foldl_cons, List.foldl_nil, mapChildToParent,
      UiElementComponent.GetChildEntityId]
    rw [List.getElem?_eq_getElem (by omega)]
    funext key
    simp only [Option.map_some']
    by_cases hkey : key = exportParentId
    · simp only [hkey, if_true]
      rw [List.take_succ, List.getElem?_eq_getElem (by omega)]
      simp only [Option.toList_some, List.map_append, List.map_cons, List.map_nil,
        List.append_assoc]
    · simp only [hkey, if_false]

theorem mapChildrenToParent_eq (parentToChildren : EntityId → List EntityId)
    (entity : Entity) :
    mapChildrenToParent parentToChildren entity =
      fun key =>
        if key = entity.m_id then parentToChildren key ++ entity.childIds
        else parentToChildren key := by
  unfold mapChildrenToParent Entity.childIds
  cases entity.uiElement with
  | none =>
    funext key
    simp
  | some c =>
    simp only [UiElementComponent.GetNumChildElements]
    rw [foldl_mapChildToParent _ c _ _ (Nat.le_refl _), List.take_length]

theorem foldl_mapChildrenToParent (entities : List Entity)
    (parentToChildren : EntityId → List EntityId) (key : EntityId) :
    entities.foldl mapChildrenToParent parentToChildren key =
      parentToChildren key ++
        (entities.filter (fun e => decide (e.m_id = key))).flatMap Entity.childIds := by
  induction entities generalizing parentToChildren with
  | nil => simp
  | cons e entities ih =>
    rw [List.foldl_cons, ih, mapChildrenToParent_eq]
    by_cases hkey : key = e.m_id
    · subst hkey
      simp [List.filter_cons]
    · have hne : ¬ e.m_id = key := fun h => hkey h.symm
      simp [List.filter_cons, hkey, hne]

theorem filter_id_of_nodup (entities : List Entity) (h : (entities.map Entity.m_id).Nodup)
    (entity : Entity) (hmem : entity ∈ entities) :
    entities.filter (fun e => decide (e.m_id = entity.m_id)) = [entity] := by
  induction entities with
  | nil => cases hmem
  | cons e entities ih =>
    rw [List.map_cons, List.nodup_cons] at h
    rcases List.mem_cons.mp hmem with heq | hin
    · subst heq
      rw [List.filter_cons, if_pos (by simp)]
      congr 1
      rw [List.filter_eq_nil_iff]
      intro a ha hid
      exact h.1 (List.mem_map.mpr ⟨a, ha, by simpa using hid⟩)
    · have hne : ¬ e.m_id = entity.m_id := by
        intro hid
        exact h.1 (List.mem_map.mpr ⟨entity, hin, hid.symm⟩)
      rw [List.filter_cons, if_neg (by simpa using hne)]
      exact ih h.2 hin

theorem parentToChildren_of_nodup (entities : List Entity)
    (h : (entities.map Entity.m_id).Nodup) (entity : Entity) (hmem : entity ∈ entities) :
    entities.foldl mapChildrenToParent (fun _ => []) entity.m_id = entity.childIds := by
  rw [foldl_mapChildrenToParent, filter_id_of_nodup entities h entity hmem]
  simp

/-- The inner loop over the children of an entity with a component: the children seen so far
that stay are `kept`, the children still to come are `rest`. -/
theorem foldl_removeEditorOnlyChild (editorOnlyEntityIds : Finset EntityId) (position : Nat)
    (entityId : EntityId) (rest : List ChildElement) :
    ∀ (kept : List ChildElement) (calls : List RemoveChildCall),
      (∀ child ∈ kept, child.entityId ∉ editorOnlyEntityIds) →
      (rest.map ChildElement.entityId).foldl
          (removeEditorOnlyChild editorOnlyEntityIds position)
          (some (⟨entityId, some ⟨kept ++ rest⟩⟩, calls)) =
        some (⟨entityId, some ⟨kept ++
            rest.filter (fun child => decide (child.entityId ∉ editorOnlyEntityIds))⟩⟩,
          calls ++
            ((rest.map ChildElement.entityId).filter
              (fun child => decide (child ∈ editorOnlyEntityIds))).map
              (fun child => RemoveChildCall.mk position child)) := by
  induction rest with
  | nil => intro kept calls _; simp
  | cons t rest ih =>
    intro kept calls hkept
    rw [List.map_cons, List.foldl_cons]
    by_cases ht : t.entityId ∈ editorOnlyEntityIds
    · have hstep : removeEditorOnlyChild editorOnlyEntityIds position
          (some (⟨entityId, some ⟨kept ++ t :: rest⟩⟩, calls)) t.entityId =
          some (⟨entityId, some ⟨kept ++ rest⟩⟩, calls ++ [⟨position, t.entityId⟩]) := by
        simp only [removeEditorOnlyChild, ht, decide_True, if_true,
          UiElementComponent.RemoveChild]
        rw [List.eraseP_append_right _ (by
          intro b hb
          simp only [decide_eq_true_eq]
          intro hbt
          exact hkept b hb (hbt ▸ ht))]
        rw [List.eraseP_cons_of_pos (by simp)]
      rw [hstep, ih kept _ hkept]
      simp [List.filter_cons, ht]
    · have hstep : removeEditorOnlyChild editorOnlyEntityIds position
          (some (⟨entityId, some ⟨kept ++ t :: rest⟩⟩, calls)) t.entityId =
          some (⟨entityId, some ⟨(kept ++ [t]) ++ rest⟩⟩, calls) := by
        simp only [removeEditorOnlyChild, ht, decide_False, Bool.false_eq_true, if_false,
          List.append_assoc, List.singleton_append]
      rw [hstep, ih (kept ++ [t]) calls (by
        intro child hc
        rcases List.mem_append.mp hc with h1 | h1
        · exact hkept child h1
        · rw [List.mem_singleton.mp h1]; exact ht)]
      simp [List.filter_cons, ht]

theorem removeEditorOnly_entity (editorOnlyEntityIds : Finset EntityId) (position : Nat)
    (entity : Entity) (calls : List RemoveChildCall) :
    entity.childIds.foldl (removeEditorOnlyChild editorOnlyEntityIds position)
        (some (entity, calls)) =
      some (entity.withoutEditorOnly editorOnlyEntityIds,
        calls ++
          (entity.childIds.filter (fun child => decide (child ∈ editorOnlyEntityIds))).map
            (fun child => RemoveChildCall.mk position child)) := by
  obtain ⟨entityId, uiElement⟩ := entity
  cases uiElement with
  | none => simp [Entity.childIds, Entity.withoutEditorOnly]
  | some c =>
    obtain ⟨children⟩ := c
    have := foldl_removeEditorOnlyChild editorOnlyEntityIds position entityId children [] calls
      (by simp)
    simpa [Entity.childIds, Entity.withoutEditorOnly] using this

theorem removeEditorOnlyChildren_eq (parentToChildren : EntityId → List EntityId)
    (editorOnlyEntityIds : Finset EntityId) (entities : List Entity)
    (h : ∀ entity ∈ entities, parentToChildren entity.m_id = entity.childIds) :
    ∀ (position : Nat) (calls : List RemoveChildCall),
      removeEditorOnlyChildren parentToChildren editorOnlyEntityIds position entities calls =
        some (entities.map (fun entity => entity.withoutEditorOnly editorOnlyEntityIds),
          calls ++ expectedRemoveChildCalls editorOnlyEntityIds position entities) := by
  induction entities with
  | nil => intro position calls; simp [removeEditorOnlyChildren, expectedRemoveChildCalls]
  | cons e entities ih =>
    intro position calls
    rw [removeEditorOnlyChildren, h e (List.mem_cons_self _ _), removeEditorOnly_entity]
    simp only
    rw [ih (fun entity hm => h entity (List.mem_cons_of_mem _ hm))]
    simp [expectedRemoveChildCalls]

theorem HandleEditorOnlyEntities_eq (exportSliceEntities : List Entity)
    (editorOnlyEntityIds : Finset EntityId)
    (h : (exportSliceEntities.map Entity.m_id).Nodup) :
    HandleEditorOnlyEntities exportSliceEntities editorOnlyEntityIds =
      some (exportSliceEntities.map
          (fun entity => entity.withoutEditorOnly editorOnlyEntityIds),
        expectedRemoveChildCalls editorOnlyEntityIds 0 exportSliceEntities) := by
  unfold HandleEditorOnlyEntities
  simp only
  rw [removeEditorOnlyChildren_eq _ _ _
    (fun entity hm => parentToChildren_of_nodup exportSliceEntities h entity hm)]
  simp

/-! ### Hierarchies whose children come later in the list -/

theorem childrenComeLater_spec (entities : List Entity) (h : childrenComeLater entities = true)
    (p q : EntityPtr) (hc : IsChildElement entities p q) : p < q ∧ q < entities.length := by
  obtain ⟨parent, comp, hp, hcomp, hq⟩ := hc
  unfold childrenComeLater at h
  rw [List.all_eq_true] at h
  have hplt : p < entities.length := by
    by_contra hge
    rw [List.getElem?_eq_none (Nat.le_of_not_lt hge)] at hp
    cases hp
  have hpp := h p (List.mem_range.mpr hplt)
  rw [hp] at hpp
  simp only [hcomp, List.all_eq_true, Bool.and_eq_true, decide_eq_true_eq] at hpp
  obtain ⟨child, hchild, hel⟩ := List.mem_map.mp hq
  rw [← hel]
  exact hpp child hchild

theorem childrenValid_of_comeLater (entities : List Entity)
    (h : childrenComeLater entities = true) : ChildrenValid entities :=
  fun p q hc => (childrenComeLater_spec entities h p q hc).2

theorem acyclic_of_comeLater (entities : List Entity)
    (h : childrenComeLater entities = true) : Acyclic entities := by
  have hlt : ∀ p q, Relation.TransGen (IsChildElement entities) p q → p < q := by
    intro p q hpq
    induction hpq with
    | single hc => exact (childrenComeLater_spec entities h _ _ hc).1
    | tail _ hc ih => exact Nat.lt_trans ih (childrenComeLater_spec entities h _ _ hc).1
  intro p hp
  exact Nat.lt_irrefl p (hlt p p hp)

/-! ### Claims on the editor-only entities -/

/-- C26 (`AddEditorOnlyEntity`): for a list of entities whose child elements are entities of the
list and whose hierarchy has no cycle, the loop of `AddEditorOnlyEntity` ends (from some number
of rounds on it gives the same result), and the set it leaves holds exactly its previous
contents and the ids of the given entity and of all its descendants. -/
theorem addEditorOnlyEntity_descendants (entities : List Entity)
    (hvalid : ChildrenValid entities) (hacyclic : Acyclic entities)
    (editorOnlyEntity : EntityPtr) (hentity : editorOnlyEntity < entities.length)
    (editorOnlyEntities : Finset EntityId) :
    ∃ (rounds : Nat) (result : Finset EntityId),
      (∀ fuel, rounds ≤ fuel →
        AddEditorOnlyEntity entities fuel editorOnlyEntity editorOnlyEntities = some result) ∧
      (∀ x, x ∈ result ↔
        x ∈ editorOnlyEntities ∨ IsIdOfSelfOrDescendant entities editorOnlyEntity x) ∧
      editorOnlyEntities ⊆ result := by
  obtain ⟨n, result, hrun, hmem⟩ :=
    processesEntity entities hvalid hacyclic editorOnlyEntity hentity [] editorOnlyEntities
  refine ⟨n, result, ?_, hmem, fun x hx => (hmem x).mpr (Or.inl hx)⟩
  intro fuel hfuel
  unfold AddEditorOnlyEntity
  obtain ⟨k, rfl⟩ := Nat.exists_eq_add_of_le hfuel
  have := hrun k
  rw [List.nil_append] at this
  rw [this, addEditorOnlyLoop_nil]

/-- Instance of C26: the entity with id 10 of the example hierarchy, whose descendants have the
ids 11, 12 and 13; after five rounds the set has the five ids 10 .. 14. -/
theorem addEditorOnlyEntity_descendants_witness :
    (AddEditorOnlyEntity exampleEntities 5 0 {14}).map
        (fun result => (result.card, [10, 11, 12, 13, 14].all (fun x => decide (x ∈ result)))) =
      some (5, true) ∧
    ∃ (rounds : Nat) (result : Finset EntityId),
      (∀ fuel, rounds ≤ fuel → AddEditorOnlyEntity exampleEntities fuel 0 {14} = some result) ∧
      (∀ x, x ∈ result ↔
        x ∈ ({14} : Finset EntityId) ∨ IsIdOfSelfOrDescendant exampleEntities 0 x) ∧
      ({14} : Finset EntityId) ⊆ result :=
  ⟨by decide!,
    addEditorOnlyEntity_descendants exampleEntities
      (childrenValid_of_comeLater exampleEntities (by decide))
      (acyclic_of_comeLater exampleEntities (by decide)) 0 (by decide) {14}⟩

/-- C27 (`HandleEditorOnlyEntities`): for export entities with pairwise different ids the
function returns, having called `RemoveChild` on each export entity for exactly those of its
child ids that are in the editor-only set, in order; afterwards every export entity is the entity
it was without its editor-only children: no editor-only id is among its children, the children
whose id is not in the set are left in place and in order, and an entity without a
`UiElementComponent` is untouched. -/
theorem handleEditorOnlyEntities_removes (exportSliceEntities : List Entity)
    (editorOnlyEntityIds : Finset EntityId)
    (hids : (exportSliceEntities.map Entity.m_id).Nodup) :
    HandleEditorOnlyEntities exportSliceEntities editorOnlyEntityIds =
      some (exportSliceEntities.map
          (fun entity => entity.withoutEditorOnly editorOnlyEntityIds),
        expectedRemoveChildCalls editorOnlyEntityIds 0 exportSliceEntities) ∧
    (∀ entity : Entity,
      (entity.withoutEditorOnly editorOnlyEntityIds).m_id = entity.m_id ∧
      (entity.withoutEditorOnly editorOnlyEntityIds).childIds =
        entity.childIds.filter (fun child => decide (child ∉ editorOnlyEntityIds)) ∧
      (∀ child ∈ (entity.withoutEditorOnly editorOnlyEntityIds).childIds,
        child ∉ editorOnlyEntityIds) ∧
      (HasUiElementComponent (entity.withoutEditorOnly editorOnlyEntityIds) =
        HasUiElementComponent entity) ∧
      (entity.uiElement = none → entity.withoutEditorOnly editorOnlyEntityIds = entity)) := by
  refine ⟨HandleEditorOnlyEntities_eq exportSliceEntities editorOnlyEntityIds hids, ?_⟩
  intro entity
  obtain ⟨entityId, uiElement⟩ := entity
  cases uiElement with
  | none =>
    simp [Entity.withoutEditorOnly, Entity.childIds, HasUiElementComponent]
  | some c =>
    have hfilter : (Entity.withoutEditorOnly ⟨entityId, some c⟩ editorOnlyEntityIds).childIds =
        (Entity.childIds ⟨entityId, some c⟩).filter
          (fun child => decide (child ∉ editorOnlyEntityIds)) := by
      simp only [Entity.withoutEditorOnly, Entity.childIds, Option.map_some', List.filter_map]
      rfl
    refine ⟨rfl, hfilter, ?_, rfl, fun h => by cases h⟩
    intro child hchild
    rw [hfilter, List.mem_filter] at hchild
    simpa using hchild.2

/-- Instance of C27: of the children 11, 20 and 12 of the first export entity and the child 21
of the second, those with the editor-only ids 20, 21 and 12 are removed. -/
theorem handleEditorOnlyEntities_removes_witness :
    (exampleExportEntities.map Entity.m_id).Nodup ∧
    HandleEditorOnlyEntities exampleExportEntities {20, 21, 12} =
      some (exampleExportEntities.map (fun entity => entity.withoutEditorOnly {20, 21, 12}),
        expectedRemoveChildCalls {20, 21, 12} 0 exampleExportEntities) ∧
    exampleExportEntities.map (fun entity => entity.withoutEditorOnly {20, 21, 12}) =
      [⟨10, some ⟨[⟨11, 1⟩]⟩⟩, ⟨11, some ⟨[]⟩⟩, ⟨12, none⟩] ∧
    expectedRemoveChildCalls {20, 21, 12} 0 exampleExportEntities =
      [⟨0, 20⟩, ⟨0, 12⟩, ⟨1, 21⟩] :=
  ⟨by decide,
    (handleEditorOnlyEntities_removes exampleExportEntities {20, 21, 12} (by decide)).1,
    by decide, by decide⟩

end LyShine

namespace ProjectManager

/-! ## Properties of the project builder controller -/

/-- `HandleResults` case by case. -/
theorem HandleResults_spec (c : ProjectBuilderController) (tr : String → String)
    (logFilePath : String) (openLog : StandardButton) (result : String) :
    (((c.HandleResults tr logFilePath openLog result).2.filter Effect.isDone =
      [Effect.Done (decide (result = ""))]) ∧
    ((c.HandleResults tr logFilePath openLog result).2.getLast? =
      some (Effect.Done (decide (result = "")))) ∧
    (result = "" →
      c.HandleResults tr logFilePath openLog result = (c, [Effect.Done true])) ∧
    (result ≠ "" →
      (c.HandleResults tr logFilePath openLog result).1.m_projectInfo.m_buildFailed = true ∧
      (c.HandleResults tr logFilePath openLog result).2.filter Effect.isNotifyBuildProject =
        [Effect.NotifyBuildProject
          (c.HandleResults tr logFilePath openLog result).1.m_projectInfo] ∧
      (∃ before, (c.HandleResults tr logFilePath openLog result).2 =
        before ++ [Effect.NotifyBuildProject
          (c.HandleResults tr logFilePath openLog result).1.m_projectInfo,
          Effect.Done false] ∧
        ∀ e ∈ before, e.isDone = false ∧ e.isNotifyBuildProject = false) ∧
      (c.HandleResults tr logFilePath openLog result).1.m_projectInfo.m_logUrl =
        (if contains result (tr "log") then QUrl.mk ("file:///" ++ logFilePath)
          else QUrl.empty) ∧
      (c.HandleResults tr logFilePath openLog result).1.m_projectInfo.m_projectName =
        c.m_projectInfo.m_projectName ∧
      (c.HandleResults tr logFilePath openLog result).1.m_projectInfo.m_path =
        c.m_projectInfo.m_path ∧
      (c.HandleResults tr logFilePath openLog result).1.m_lastProgress = c.m_lastProgress)) := by
  by_cases hres : result = ""
  · subst hres
    simp [ProjectBuilderController.HandleResults, Effect.isDone]
  · by_cases hlog : contains result (tr "log") = true
    · by_cases hopen : openLog = StandardButton.Yes
      · simp [ProjectBuilderController.HandleResults, hres, hlog, hopen, Effect.isDone,
          Effect.isNotifyBuildProject, List.filter_cons]
        exact ⟨[_, _], rfl, by simp⟩
      · simp [ProjectBuilderController.HandleResults, hres, hlog, hopen, Effect.isDone,
          Effect.isNotifyBuildProject, List.filter_cons]
        exact ⟨[_], rfl, by simp⟩
    · simp [ProjectBuilderController.HandleResults, hres, hlog, Effect.isDone,
        Effect.isNotifyBuildProject, List.filter_cons]
      exact ⟨[_], rfl, by simp⟩

/-- C28 (`HandleResults`): for every result string `Done` is emitted exactly once, as the last
effect, with `true` exactly when the result is empty; for an empty result the controller is
unchanged and nothing else happens, so `NotifyBuildProject` is not emitted; for a non-empty
result the build-failed flag is set, `NotifyBuildProject` is emitted exactly once, with the
project info of the controller as it is afterwards, directly before `Done(false)`, and the log
url is the log file of the worker when the result contains the word `log` (as `tr` gives it)
and the empty url otherwise, which is the word `log` itself when `tr` leaves it as it is; the
other members of the project info are unchanged. -/
theorem handleResults_done (c : ProjectBuilderController) (tr : String → String)
    (logFilePath : String) (openLog : StandardButton) (result : String) :
    ((c.HandleResults tr logFilePath openLog result).2.filter Effect.isDone =
      [Effect.Done (decide (result = ""))]) ∧
    ((c.HandleResults tr logFilePath openLog result).2.getLast? =
      some (Effect.Done (decide (result = "")))) ∧
    (result = "" →
      c.HandleResults tr logFilePath openLog result = (c, [Effect.Done true])) ∧
    (result ≠ "" →
      (c.HandleResults tr logFilePath openLog result).1.m_projectInfo.m_buildFailed = true ∧
      (c.HandleResults tr logFilePath openLog result).2.filter Effect.isNotifyBuildProject =
        [Effect.NotifyBuildProject
          (c.HandleResults tr logFilePath openLog result).1.m_projectInfo] ∧
      (∃ before, (c.HandleResults tr logFilePath openLog result).2 =
        before ++ [Effect.NotifyBuildProject
          (c.HandleResults tr logFilePath openLog result).1.m_projectInfo,
          Effect.Done false] ∧
        ∀ e ∈ before, e.isDone = false ∧ e.isNotifyBuildProject = false) ∧
      (c.HandleResults tr logFilePath openLog result).1.m_projectInfo.m_logUrl =
        (if contains result (tr "log") then QUrl.mk ("file:///" ++ logFilePath)
          else QUrl.empty) ∧
      (c.HandleResults tr logFilePath openLog result).1.m_projectInfo.m_projectName =
        c.m_projectInfo.m_projectName ∧
      (c.HandleResults tr logFilePath openLog result).1.m_projectInfo.m_path =
        c.m_projectInfo.m_path ∧
      (c.HandleResults tr logFilePath openLog result).1.m_lastProgress = c.m_lastProgress) ∧
    (result ≠ "" → tr "log" = "log" →
      (c.HandleResults tr logFilePath openLog result).1.m_projectInfo.m_logUrl =
        (if contains result "log" then QUrl.mk ("file:///" ++ logFilePath) else QUrl.empty)) := by
  obtain ⟨h1, h2, h3, h4⟩ := HandleResults_spec c tr logFilePath openLog result
  refine ⟨h1, h2, h3, h4, ?_⟩
  intro hres htr
  rw [← htr]
  exact (h4 hres).2.2.2.1

end ProjectManager

namespace ProjectSettingsTool

/-! ## Properties of the project settings tool window -/

theorem mem_platformIds (plat : PlatformId) : plat ∈ platformIds := by
  cases plat <;> simp [platformIds]

theorem needToSavePlat_iff (w : ProjectSettingsToolWindow) (env : Environment)
    (plat : PlatformId) :
    w.needToSavePlat env plat = true ↔
      w.PlatformEnabled env plat = true ∧ env.uiEqualToSettings plat = false := by
  unfold ProjectSettingsToolWindow.needToSavePlat
    ProjectSettingsToolWindow.UiEqualToPlatformSettings
  cases w.PlatformEnabled env plat <;> cases env.uiEqualToSettings plat <;> simp

theorem foldl_savePlatform (w : ProjectSettingsToolWindow) (env : Environment)
    (plats : List PlatformId) (st : List Call × Bool) :
    plats.foldl (w.savePlatform env) st =
      (st.1 ++ w.saveCalls env plats, st.2 || w.projectJsonNeeded env plats) := by
  induction plats generalizing st with
  | nil => simp [ProjectSettingsToolWindow.saveCalls, ProjectSettingsToolWindow.projectJsonNeeded]
  | cons plat plats ih =>
    rw [List.foldl_cons, ih]
    have hs : w.saveCalls env (plat :: plats) =
        (if w.needToSavePlat env plat then
          Call.SaveToSettings plat ::
            (if env.isPlistPlatform plat then [Call.SavePlistData plat] else [])
        else []) ++ w.saveCalls env plats := by
      simp only [ProjectSettingsToolWindow.saveCalls, List.flatMap_cons]
    have hp : w.projectJsonNeeded env (plat :: plats) =
        ((w.needToSavePlat env plat && !env.isPlistPlatform plat) ||
          w.projectJsonNeeded env plats) := by
      simp only [ProjectSettingsToolWindow.projectJsonNeeded, List.any_cons]
    rw [hs, hp]
    unfold ProjectSettingsToolWindow.savePlatform
    by_cases hneed : w.needToSavePlat env plat = true <;>
      by_cases hplist : env.isPlistPlatform plat = true <;>
      simp [hneed, hplist]

theorem mem_saveCalls (w : ProjectSettingsToolWindow) (env : Environment)
    (plats : List PlatformId) (c : Call) :
    c ∈ w.saveCalls env plats ↔
      ∃ plat ∈ plats, w.needToSavePlat env plat = true ∧
        (c = Call.SaveToSettings plat ∨
          (env.isPlistPlatform plat = true ∧ c = Call.SavePlistData plat)) := by
  unfold ProjectSettingsToolWindow.saveCalls
  rw [List.mem_flatMap]
  constructor
  · rintro ⟨plat, hplat, hc⟩
    refine ⟨plat, hplat, ?_⟩
    by_cases hneed : w.needToSavePlat env plat = true
    · rw [if_pos hneed] at hc
      by_cases hplist : env.isPlistPlatform plat = true
      · rw [if_pos hplist] at hc
        simp only [List.mem_cons, List.mem_singleton, List.not_mem_nil, or_false] at hc
        rcases hc with h | h
        · exact ⟨hneed, Or.inl h⟩
        · exact ⟨hneed, Or.inr ⟨hplist, h⟩⟩
      · rw [if_neg hplist] at hc
        simp only [List.mem_singleton] at hc
        exact ⟨hneed, Or.inl hc⟩
    · rw [if_neg hneed] at hc
      cases hc
  · rintro ⟨plat, hplat, hneed, hc⟩
    refine ⟨plat, hplat, ?_⟩
    rw [if_pos hneed]
    rcases hc with h | ⟨hplist, h⟩
    · rw [h]; exact List.mem_cons_self _ _
    · rw [h, if_pos hplist]; simp

theorem saveCalls_not_projectJson (w : ProjectSettingsToolWindow) (env : Environment)
    (plats : List PlatformId) : Call.SaveProjectJsonData ∉ w.saveCalls env plats := by
  intro h
  obtain ⟨plat, _, _, hc⟩ := (mem_saveCalls w env plats _).mp h
  rcases hc with h1 | ⟨_, h1⟩ <;> cases h1

theorem projectJsonNeeded_iff (w : ProjectSettingsToolWindow) (env : Environment) :
    w.projectJsonNeeded env platformIds = true ↔
      ∃ plat, w.PlatformEnabled env plat = true ∧ env.uiEqualToSettings plat = false ∧
        env.isPlistPlatform plat = false := by
  unfold ProjectSettingsToolWindow.projectJsonNeeded
  rw [List.any_eq_true]
  constructor
  · rintro ⟨plat, _, h⟩
    simp only [Bool.and_eq_true, Bool.not_eq_true'] at h
    exact ⟨plat, ((needToSavePlat_iff w env plat).mp h.1).1,
      ((needToSavePlat_iff w env plat).mp h.1).2, h.2⟩
  · rintro ⟨plat, h1, h2, h3⟩
    refine ⟨plat, mem_platformIds plat, ?_⟩
    simp only [Bool.and_eq_true, Bool.not_eq_true']
    exact ⟨(needToSavePlat_iff w env plat).mpr ⟨h1, h2⟩, h3⟩

theorem anySaves_iff (w : ProjectSettingsToolWindow) (env : Environment) :
    platformIds.any (fun plat => w.needToSavePlat env plat) = true ↔
      ∃ plat, w.PlatformEnabled env plat = true ∧ env.uiEqualToSettings plat = false := by
  rw [List.any_eq_true]
  constructor
  · rintro ⟨plat, _, h⟩
    exact ⟨plat, (needToSavePlat_iff w env plat).mp h⟩
  · rintro ⟨plat, h⟩
    exact ⟨plat, mem_platformIds plat, (needToSavePlat_iff w env plat).mpr h⟩

/-- The result of `SaveSettingsFromUi` when it saves: the calls and the window. -/
theorem SaveSettingsFromUi_saving (w : ProjectSettingsToolWindow) (env : Environment)
    (saveButton reloadButton : QPushButton) (hsave : w.saveButton = some saveButton)
    (hreload : w.reloadButton = some reloadButton)
    (hany : platformIds.any (fun plat => w.needToSavePlat env plat) = true)
    (henabled : saveButton.enabled = true) (hvalid : env.allValid = true) :
    w.SaveSettingsFromUi env =
      some ({ ProjectSettingsToolWindow.ShowAllErrorsThenExitIfInvalid
                { w with saveButton := some ⟨false⟩, reloadButton := some ⟨false⟩ }
                env.errorAnswers with
              reloadButton := some ⟨true⟩, saveButton := some ⟨true⟩ },
        w.savingCalls env) := by
  unfold ProjectSettingsToolWindow.SaveSettingsFromUi ProjectSettingsToolWindow.savingCalls
  simp only [hany, if_true, hsave, henabled, hreload,
    ProjectSettingsToolWindow.ValidateAllProperties, hvalid]
  have hfold : ∀ (w3 : ProjectSettingsToolWindow) (st : List Call × Bool),
      w3.needToSavePlat env = w.needToSavePlat env →
      platformIds.foldl (w3.savePlatform env) st =
        (st.1 ++ w.saveCalls env platformIds, st.2 || w.projectJsonNeeded env platformIds) := by
    intro w3 st h3
    rw [foldl_savePlatform]
    unfold ProjectSettingsToolWindow.saveCalls ProjectSettingsToolWindow.projectJsonNeeded
    rw [h3]
  rw [hfold { w with saveButton := some ⟨false⟩, reloadButton := some ⟨false⟩ } _ rfl]
  simp only [Bool.false_or, List.append_assoc]
  cases w.projectJsonNeeded env platformIds <;> simp

theorem saveCalls_kind (w : ProjectSettingsToolWindow) (env : Environment)
    (plats : List PlatformId) (c : Call) (h : c ∈ w.saveCalls env plats) :
    (∃ plat, c = Call.SaveToSettings plat) ∨ (∃ plat, c = Call.SavePlistData plat) := by
  obtain ⟨plat, _, _, hc⟩ := (mem_saveCalls w env plats c).mp h
  rcases hc with hc | ⟨_, hc⟩
  · exact Or.inl ⟨plat, hc⟩
  · exact Or.inr ⟨plat, hc⟩

theorem mem_savingCalls_SaveToSettings (w : ProjectSettingsToolWindow) (env : Environment)
    (plat : PlatformId) :
    Call.SaveToSettings plat ∈ w.savingCalls env ↔
      w.PlatformEnabled env plat = true ∧ env.uiEqualToSettings plat = false := by
  unfold ProjectSettingsToolWindow.savingCalls
  rw [← needToSavePlat_iff]
  have hj : Call.SaveToSettings plat ∉
      (if w.projectJsonNeeded env platformIds then [Call.SaveProjectJsonData] else []) := by
    split <;> simp
  simp only [List.mem_append, hj, or_false]
  rw [mem_saveCalls]
  constructor
  · rintro ((h | h) | h)
    · simp at h
    · obtain ⟨p, _, hneed, hc⟩ := h
      rcases hc with hc | ⟨_, hc⟩
      · rw [Call.SaveToSettings.injEq] at hc
        rw [hc]
        exact hneed
      · simp at hc
    · simp at h
  · intro h
    exact Or.inl (Or.inr ⟨plat, mem_platformIds plat, h, Or.inl rfl⟩)

theorem mem_savingCalls_SavePlistData (w : ProjectSettingsToolWindow) (env : Environment)
    (plat : PlatformId) :
    Call.SavePlistData plat ∈ w.savingCalls env ↔
      (w.PlatformEnabled env plat = true ∧ env.uiEqualToSettings plat = false) ∧
        env.isPlistPlatform plat = true := by
  unfold ProjectSettingsToolWindow.savingCalls
  rw [← needToSavePlat_iff]
  have hj : Call.SavePlistData plat ∉
      (if w.projectJsonNeeded env platformIds then [Call.SaveProjectJsonData] else []) := by
    split <;> simp
  simp only [List.mem_append, hj, or_false]
  rw [mem_saveCalls]
  constructor
  · rintro ((h | h) | h)
    · simp at h
    · obtain ⟨p, _, hneed, hc⟩ := h
      rcases hc with hc | ⟨hplist, hc⟩
      · simp at hc
      · rw [Call.SavePlistData.injEq] at hc
        rw [hc]
        exact ⟨hneed, hplist⟩
    · simp at h
  · intro h
    exact Or.inl (Or.inr ⟨plat, mem_platformIds plat, h.1, Or.inr ⟨h.2, rfl⟩⟩)

theorem mem_savingCalls_ValidateAllProperties (w : ProjectSettingsToolWindow)
    (env : Environment) (result : Bool) :
    Call.ValidateAllProperties result ∈ w.savingCalls env ↔ result = true := by
  unfold ProjectSettingsToolWindow.savingCalls
  have hj : Call.ValidateAllProperties result ∉
      (if w.projectJsonNeeded env platformIds then [Call.SaveProjectJsonData] else []) := by
    split <;> simp
  have hs : Call.ValidateAllProperties result ∉ w.saveCalls env platformIds := by
    intro h
    rcases saveCalls_kind w env _ _ h with ⟨p, hp⟩ | ⟨p, hp⟩ <;> cases hp
  simp [List.mem_append, hj, hs]

theorem count_savingCalls_projectJson (w : ProjectSettingsToolWindow) (env : Environment) :
    (w.savingCalls env).count Call.SaveProjectJsonData =
      if w.projectJsonNeeded env platformIds then 1 else 0 := by
  unfold ProjectSettingsToolWindow.savingCalls
  have hcount : (w.saveCalls env platformIds).count Call.SaveProjectJsonData = 0 :=
    List.count_eq_zero.mpr (saveCalls_not_projectJson w env platformIds)
  simp only [List.count_append, hcount]
  cases w.projectJsonNeeded env platformIds <;> simp [List.count_cons]

theorem savingCalls_buttons (w : ProjectSettingsToolWindow) (env : Environment) :
    Call.saveButtonSetEnabled false ∈ w.savingCalls env ∧
    ∃ before, w.savingCalls env =
      before ++ [Call.reloadButtonSetEnabled true, Call.saveButtonSetEnabled true] := by
  unfold ProjectSettingsToolWindow.savingCalls
  refine ⟨by simp, [Call.saveButtonSetEnabled false, Call.reloadButtonSetEnabled false,
      Call.ValidateAllProperties true] ++ w.saveCalls env platformIds ++
    (if w.projectJsonNeeded env platformIds then [Call.SaveProjectJsonData] else []) ++
    [Call.ShowAllErrorsThenExitIfInvalid, Call.reconfigureLogSetText "",
      Call.information "Project Settings Saved"
        "The project may need to be manually reconfigured for the new settings to be applied."],
    ?_⟩
  simp

theorem SaveSettingsFromUi_idle (w : ProjectSettingsToolWindow) (env : Environment)
    (saveButton : QPushButton) (hsave : w.saveButton = some saveButton)
    (h : platformIds.any (fun plat => w.needToSavePlat env plat) = false ∨
      saveButton.enabled = false) :
    w.SaveSettingsFromUi env = some (w, []) := by
  unfold ProjectSettingsToolWindow.SaveSettingsFromUi
  rcases h with h | h
  · simp [h]
  · cases hany : platformIds.any (fun plat => w.needToSavePlat env plat) <;>
      simp [hsave, h]

theorem SaveSettingsFromUi_invalid (w : ProjectSettingsToolWindow) (env : Environment)
    (saveButton reloadButton : QPushButton) (hsave : w.saveButton = some saveButton)
    (hreload : w.reloadButton = some reloadButton)
    (hany : platformIds.any (fun plat => w.needToSavePlat env plat) = true)
    (henabled : saveButton.enabled = true) (hvalid : env.allValid = false) :
    w.SaveSettingsFromUi env =
      some ({ w with reloadButton := some ⟨true⟩, saveButton := some ⟨true⟩ },
        [Call.saveButtonSetEnabled false, Call.reloadButtonSetEnabled false,
          Call.ValidateAllProperties false,
          Call.critical "Failed To Save" "Failed to save due to invalid settings.",
          Call.reloadButtonSetEnabled true, Call.saveButtonSetEnabled true]) := by
  unfold ProjectSettingsToolWindow.SaveSettingsFromUi
  simp [hany, hsave, henabled, hreload, ProjectSettingsToolWindow.ValidateAllProperties, hvalid]

/-! ### Claims on the project settings tool window -/

/-- C29, as stated, fails: in the invalid state the close is accepted without a question also
while the save button is disabled, and also when the save button is enabled, the UI differs from
the settings and the user would answer No. -/
theorem closeEvent_invalid_state_accepts :
    (exampleInvalidWindow false).saveButton = some ⟨false⟩ ∧
    (exampleInvalidWindow false).closeEvent exampleEnvironment ⟨false⟩ = (⟨true⟩, []) ∧
    (exampleInvalidWindow true).saveButton = some ⟨true⟩ ∧
    (exampleInvalidWindow true).UiEqualToSettings exampleEnvironment = false ∧
    exampleEnvironment.answer = StandardButton.No ∧
    (exampleInvalidWindow true).closeEvent exampleEnvironment ⟨false⟩ = (⟨true⟩, []) := by
  decide

/-- C29, amended: `closeEvent` accepts the close without asking when the window is in the
invalid state, when the save button does not exist, or when the save button is enabled and the UI
equals the stored settings; when the window is not in the invalid state, it rejects the close
while the save button is disabled, and when the save button is enabled and the UI differs from
the settings it asks the unsaved-changes question and accepts the close exactly when the user
answers Yes. -/
theorem closeEvent_decision (w : ProjectSettingsToolWindow) (env : Environment)
    (event : QCloseEvent) :
    (w.m_invalidState = true → w.closeEvent env event = (⟨true⟩, [])) ∧
    (w.saveButton = none → w.closeEvent env event = (⟨true⟩, [])) ∧
    (∀ saveButton, w.saveButton = some saveButton → saveButton.enabled = true →
      w.UiEqualToSettings env = true → w.closeEvent env event = (⟨true⟩, [])) ∧
    (w.m_invalidState = false → ∀ saveButton, w.saveButton = some saveButton →
      saveButton.enabled = false →
      (w.closeEvent env event).1.m_accept = false ∧
      (w.closeEvent env event).2 =
        [Dialog.information "Info" "Cannot close until settings have been reconfigured."]) ∧
    (w.m_invalidState = false → ∀ saveButton, w.saveButton = some saveButton →
      saveButton.enabled = true → w.UiEqualToSettings env = false →
      ((w.closeEvent env event).1.m_accept = true ↔ env.answer = StandardButton.Yes) ∧
      (w.closeEvent env event).2 = [Dialog.question "Warning"
        "There are currently unsaved changes. Are you sure you want to cancel?"]) := by
  refine ⟨?_, ?_, ?_, ?_, ?_⟩
  · intro h
    simp [ProjectSettingsToolWindow.closeEvent, h, QWidget.closeEvent, QCloseEvent.setAccepted]
  · intro h
    cases hinv : w.m_invalidState <;>
      simp [ProjectSettingsToolWindow.closeEvent, h, hinv, QWidget.closeEvent,
        QCloseEvent.setAccepted]
  · intro saveButton hs he hu
    cases hinv : w.m_invalidState <;>
      simp [ProjectSettingsToolWindow.closeEvent, hs, he, hu, hinv, QWidget.closeEvent,
        QCloseEvent.setAccepted]
  · intro hinv saveButton hs he
    simp [ProjectSettingsToolWindow.closeEvent, hs, he, hinv, QCloseEvent.setAccepted]
  · intro hinv saveButton hs he hu
    by_cases hans : StandardButton.Yes = env.answer
    · simp [ProjectSettingsToolWindow.closeEvent, hs, he, hu, hinv, hans.symm,
        QWidget.closeEvent, QCloseEvent.setAccepted]
    · have hans2 : ¬ env.answer = StandardButton.Yes := fun h => hans h.symm
      simp [ProjectSettingsToolWindow.closeEvent, hs, he, hu, hinv, hans, hans2,
        QCloseEvent.setAccepted]

/-- Instance of the amended C29: the valid window with the enabled save button, whose UI
differs from the settings, and a user who answers No: the close is rejected. -/
theorem closeEvent_decision_witness :
    (exampleWindow.closeEvent exampleEnvironment ⟨true⟩).1.m_accept = false ∧
    (exampleWindow.closeEvent exampleEnvironment ⟨true⟩).2 = [Dialog.question "Warning"
      "There are currently unsaved changes. Are you sure you want to cancel?"] := by
  have h := (closeEvent_decision exampleWindow exampleEnvironment ⟨true⟩).2.2.2.2 rfl ⟨true⟩ rfl
    rfl (by decide)
  refine ⟨?_, h.2⟩
  cases hacc : (exampleWindow.closeEvent exampleEnvironment ⟨true⟩).1.m_accept with
  | false => rfl
  | true => exact absurd (h.1.mp hacc) (by decide)

/-- C30 (`SaveSettingsFromUi`): with the save and reload buttons in place the function returns.
A serializer `SaveToSettings` (and a plist save) is called only for an enabled platform whose UI
differs from the stored settings, and a save is called only in a run whose validation passed;
when validation fails, or no enabled platform differs, no `SaveToSettings` and no plist or
project.json save is called; in a run whose validation passed every enabled platform that
differs is saved and project.json is saved exactly once if and only if at least one differing
platform is not a plist platform (never more than once); validation is reached exactly when some
enabled platform differs and the save button is enabled; and in every run that disabled the save
and reload buttons, both are enabled again on return, re-enabling being the last two calls;
otherwise the window is untouched. -/
theorem saveSettingsFromUi_saves (w : ProjectSettingsToolWindow) (env : Environment)
    (saveButton reloadButton : QPushButton) (hsave : w.saveButton = some saveButton)
    (hreload : w.reloadButton = some reloadButton) :
    ∃ (w2 : ProjectSettingsToolWindow) (calls : List Call),
      w.SaveSettingsFromUi env = some (w2, calls) ∧
      (∀ plat, Call.SaveToSettings plat ∈ calls ∨ Call.SavePlistData plat ∈ calls →
        w.PlatformEnabled env plat = true ∧ env.uiEqualToSettings plat = false) ∧
      (∀ plat, Call.SavePlistData plat ∈ calls → env.isPlistPlatform plat = true) ∧
      (∀ c ∈ calls, c.isSave = true →
        Call.ValidateAllProperties true ∈ calls ∧ env.allValid = true) ∧
      (Call.ValidateAllProperties false ∈ calls ∨ env.allValid = false ∨
          (∀ plat, w.PlatformEnabled env plat = true → env.uiEqualToSettings plat = true) →
        ∀ c ∈ calls, c.isSave = false) ∧
      (Call.ValidateAllProperties true ∈ calls →
        (∀ plat, w.PlatformEnabled env plat = true → env.uiEqualToSettings plat = false →
          Call.SaveToSettings plat ∈ calls) ∧
        (calls.count Call.SaveProjectJsonData = 1 ↔
          ∃ plat, w.PlatformEnabled env plat = true ∧ env.uiEqualToSettings plat = false ∧
            env.isPlistPlatform plat = false)) ∧
      calls.count Call.SaveProjectJsonData ≤ 1 ∧
      ((∃ result, Call.ValidateAllProperties result ∈ calls) ↔
        (∃ plat, w.PlatformEnabled env plat = true ∧ env.uiEqualToSettings plat = false) ∧
          saveButton.enabled = true) ∧
      (∀ result, Call.ValidateAllProperties result ∈ calls → result = env.allValid) ∧
      (Call.saveButtonSetEnabled false ∈ calls ∨ Call.reloadButtonSetEnabled false ∈ calls →
        w2.saveButton = some ⟨true⟩ ∧ w2.reloadButton = some ⟨true⟩ ∧
        ∃ before, calls =
          before ++ [Call.reloadButtonSetEnabled true, Call.saveButtonSetEnabled true]) ∧
      (Call.saveButtonSetEnabled false ∉ calls → w2 = w ∧ calls = []) := by
  by_cases hany : platformIds.any (fun plat => w.needToSavePlat env plat) = true
  swap
  · refine ⟨w, [], SaveSettingsFromUi_idle w env saveButton hsave
      (Or.inl (by simpa using hany)), ?_⟩
    have hnone : ¬ ∃ plat, w.PlatformEnabled env plat = true ∧
        env.uiEqualToSettings plat = false := fun h => hany ((anySaves_iff w env).mpr h)
    simp [hnone]
  by_cases henabled : saveButton.enabled = true
  swap
  · refine ⟨w, [], SaveSettingsFromUi_idle w env saveButton hsave
      (Or.inr (by simpa using henabled)), ?_⟩
    simp [henabled]
  have hdiff := (anySaves_iff w env).mp hany
  by_cases hvalid : env.allValid = true
  swap
  · have hvalid2 : env.allValid = false := by simpa using hvalid
    refine ⟨_, _, SaveSettingsFromUi_invalid w env saveButton reloadButton hsave hreload hany
      henabled hvalid2, ?_⟩
    simp [hvalid2, hdiff, henabled, Call.isSave]
    exact ⟨[_, _, _, _], rfl⟩
  · refine ⟨_, _, SaveSettingsFromUi_saving w env saveButton reloadButton hsave hreload hany
      henabled hvalid, ?_⟩
    refine ⟨?_, ?_, ?_, ?_, ?_, ?_, ?_, ?_, ?_, ?_⟩
    · intro plat h
      rcases h with h | h
      · exact (mem_savingCalls_SaveToSettings w env plat).mp h
      · exact ((mem_savingCalls_SavePlistData w env plat).mp h).1
    · intro plat h
      exact ((mem_savingCalls_SavePlistData w env plat).mp h).2
    · intro c _ _
      exact ⟨(mem_savingCalls_ValidateAllProperties w env true).mpr rfl, hvalid⟩
    · intro h
      rcases h with h | h | h
      · have := (mem_savingCalls_ValidateAllProperties w env false).mp h
        cases this
      · rw [hvalid] at h
        cases h
      · obtain ⟨plat, h1, h2⟩ := hdiff
        rw [h plat h1] at h2
        cases h2
    · intro _
      constructor
      · intro plat h1 h2
        exact (mem_savingCalls_SaveToSettings w env plat).mpr ⟨h1, h2⟩
      · rw [← projectJsonNeeded_iff, count_savingCalls_projectJson]
        cases w.projectJsonNeeded env platformIds <;> simp
    · rw [count_savingCalls_projectJson]
      split <;> simp
    · constructor
      · intro _
        exact ⟨hdiff, henabled⟩
      · intro _
        exact ⟨true, (mem_savingCalls_ValidateAllProperties w env true).mpr rfl⟩
    · intro result h
      rw [(mem_savingCalls_ValidateAllProperties w env result).mp h, hvalid]
    · intro _
      exact ⟨rfl, rfl, (savingCalls_buttons w env).2⟩
    · intro h
      exact absurd (savingCalls_buttons w env).1 h

/-- Instance of C30: the window with both buttons enabled in the environment in which the UI of
the base platform differs and all properties are valid: the base platform is saved, then
project.json, and the buttons are enabled again. -/
theorem saveSettingsFromUi_saves_witness :
    ∃ (w2 : ProjectSettingsToolWindow) (calls : List Call),
      exampleWindow.SaveSettingsFromUi exampleEnvironment = some (w2, calls) ∧
      calls.filter Call.isSave =
        [Call.SaveToSettings PlatformId.Base, Call.SaveProjectJsonData] ∧
      calls.count Call.SaveProjectJsonData = 1 ∧
      w2.saveButton = some ⟨true⟩ ∧ w2.reloadButton = some ⟨true⟩ := by
  obtain ⟨w2, calls, hrun, _, _, _, _, _, _, _, _, hbuttons, _⟩ :=
    saveSettingsFromUi_saves exampleWindow exampleEnvironment ⟨true⟩ ⟨true⟩ rfl rfl
  have hcalls : exampleWindow.SaveSettingsFromUi exampleEnvironment =
      some ({ exampleWindow with reloadButton := some ⟨true⟩, saveButton := some ⟨true⟩ },
        [Call.saveButtonSetEnabled false, Call.reloadButtonSetEnabled false,
          Call.ValidateAllProperties true, Call.SaveToSettings PlatformId.Base,
          Call.SaveProjectJsonData, Call.ShowAllErrorsThenExitIfInvalid,
          Call.reconfigureLogSetText "",
          Call.information "Project Settings Saved"
            "The project may need to be manually reconfigured for the new settings to be applied.",
          Call.reloadButtonSetEnabled true, Call.saveButtonSetEnabled true]) := by
    decide
  rw [hcalls] at hrun
  simp only [Option.some.injEq, Prod.mk.injEq] at hrun
  obtain ⟨hw, hc⟩ := hrun
  subst hc
  refine ⟨w2, _, by rw [hcalls, hw], by decide, by decide, ?_⟩
  exact ⟨(hbuttons (Or.inl (by decide))).1, (hbuttons (Or.inl (by decide))).2.1⟩

end ProjectSettingsTool
